import Mathlib

/-! # IPscan request dispatcher (`ipscan.c`)

A shallow embedding of `main` of `ipscan.c`: the splitting of the query string,
the parsing of the recognised parameters, the building of the port list and of
the reconstituted query, the selection of the mode, the test-state update of
the completion-report path, the parallel scan loops, the wait for the client and
the lookup in the results table.  External calls (the result store, the probes, the
clock) are recorded as events of a trace; what they return is supplied by an
environment of oracles.
-/

namespace IPscan

/-! ## Constants of the missing headers -/

/-- One entry of a port list (`struct portlist_struc`); the description text is
presentation only and is not carried. -/
structure portlist_struc where
  port_num : Nat
  special : Nat
  deriving DecidableEq, Repr

/-- Modelled from the spec: the headers `ipscan.h` and `ipscan_portlist.h` are not among
the sources, so every macro, enumerator and table of theirs that `main` uses is a field
of this record.  `defportlist` holds the `DEFNUMPORTS` entries the initialisation loop
copies and `udpportlist` the `NUMUDPPORTS` entries of the UDP list. -/
structure Config where
  TEXTMODE : Nat
  IPSCAN_INCLUDE_PING : Nat
  IPSCAN_INCLUDE_UDP : Nat
  MAXREQMETHODLEN : Nat
  MAXQUERYSTRLEN : Nat
  MAXQUERYNAMELEN : Nat
  MAXQUERYVALLEN : Nat
  MAXQUERIES : Nat
  INET6_ADDRSTRLEN : Nat
  NUMUSERDEFPORTS : Nat
  MINVALIDPORT : Int
  MAXVALIDPORT : Int
  VALIDPORTMASK : Int
  MAGICBEGIN : Int
  defportlist : List portlist_struc
  udpportlist : List portlist_struc
  MAXCHILDREN : Int
  MAXUDPCHILDREN : Int
  MAXPORTSPERCHILD : Int
  MAXUDPPORTSPERCHILD : Int
  IPSCAN_DELETE_TIMEOUT : Int
  IPSCAN_TESTSTATE_COMPLETE_SLEEP : Int
  IPSCAN_DELETE_WAIT_PERIOD : Int
  IPSCAN_INDIRECT_RESPONSE : Int
  IPSCAN_SPECIAL_MASK : Nat
  IPSCAN_SPECIAL_SHIFT : Nat
  IPSCAN_PROTO_SHIFT : Nat
  IPSCAN_PROTO_TCP : Nat
  IPSCAN_PROTO_UDP : Nat
  IPSCAN_PROTO_ICMPV6 : Nat
  IPSCAN_PROTO_TESTSTATE : Nat
  PORTUNKNOWN : Int
  IPSCAN_SUCCESSFUL_COMPLETION : Int
  IPSCAN_HTTPTIMEOUT_COMPLETION : Int
  IPSCAN_EVAL_ERROR : Int
  IPSCAN_OTHER_ERROR : Int
  IPSCAN_UNSUCCESSFUL_COMPLETION : Int
  IPSCAN_NAVIGATE_AWAY : Int
  IPSCAN_BAD_JSON_ERROR : Int
  IPSCAN_UNEXPECTED_CHANGE : Int
  IPSCAN_TESTSTATE_RUNNING_BIT : Int
  IPSCAN_TESTSTATE_COMPLETE_BIT : Int
  IPSCAN_TESTSTATE_HTTPTIMEOUT_BIT : Int
  IPSCAN_TESTSTATE_EVALERROR_BIT : Int
  IPSCAN_TESTSTATE_OTHERERROR_BIT : Int
  IPSCAN_TESTSTATE_NAVAWAY_BIT : Int
  IPSCAN_TESTSTATE_UNEXPCHANGE_BIT : Int
  IPSCAN_TESTSTATE_BADCOMPLETE_BIT : Int
  IPSCAN_TESTSTATE_DATABASE_ERROR_BIT : Int
  IPSCAN_LOGVERBOSITY : Nat
  NUMRESULTTYPES : Nat
  PORTOPEN : Int
  PORTABORT : Int
  PORTREFUSED : Int
  PORTCRESET : Int
  PORTNRESET : Int
  PORTINPROGRESS : Int
  PORTPROHIBITED : Int
  PORTUNREACHABLE : Int
  PORTNOROUTE : Int
  PORTPKTTOOBIG : Int
  PORTPARAMPROB : Int
  ECHONOREPLY : Int
  ECHOREPLY : Int
  UDPOPEN : Int
  UDPSTEALTH : Int
  PORTUNEXPECTED : Int
  PORTINTERROR : Int
  PORTEOL : Int

/-- The number of default TCP ports, `DEFNUMPORTS`. -/
def Config.DEFNUMPORTS (c : Config) : Nat := c.defportlist.length

/-- The number of UDP ports, `NUMUDPPORTS`. -/
def Config.NUMUDPPORTS (c : Config) : Nat := c.udpportlist.length

/-- Modelled from the spec: `ipscan.h` and `ipscan_portlist.h` are missing; this is one
assignment of their constants that agrees with the spec (test-state flags are distinct
single bits, the completion codes are distinct and lie below 4096, the port key has the
port in bits 0..15, the special index in bits 16..19 and the protocol tag from bit 20,
valid ports are 1..65535, the result codes are numbered from 0 in the order of the results
table and `NUMRESULTTYPES` is the number of the `PORTEOL` row), built for javascript mode
with ping and UDP compiled in.  It serves as the concrete point at which general statements
are instantiated. -/
def refConfig : Config where
  TEXTMODE := 0
  IPSCAN_INCLUDE_PING := 1
  IPSCAN_INCLUDE_UDP := 1
  MAXREQMETHODLEN := 8
  MAXQUERYSTRLEN := 255
  MAXQUERYNAMELEN := 32
  MAXQUERYVALLEN := 64
  MAXQUERIES := 16
  INET6_ADDRSTRLEN := 46
  NUMUSERDEFPORTS := 4
  MINVALIDPORT := 1
  MAXVALIDPORT := 65535
  VALIDPORTMASK := 65535
  MAGICBEGIN := 123456
  defportlist := [⟨21, 0⟩, ⟨22, 0⟩, ⟨80, 0⟩, ⟨443, 0⟩]
  udpportlist := [⟨53, 0⟩, ⟨123, 0⟩, ⟨161, 0⟩]
  MAXCHILDREN := 7
  MAXUDPCHILDREN := 3
  MAXPORTSPERCHILD := 9
  MAXUDPPORTSPERCHILD := 5
  IPSCAN_DELETE_TIMEOUT := 120
  IPSCAN_TESTSTATE_COMPLETE_SLEEP := 3
  IPSCAN_DELETE_WAIT_PERIOD := 2
  IPSCAN_INDIRECT_RESPONSE := 256
  IPSCAN_SPECIAL_MASK := 15
  IPSCAN_SPECIAL_SHIFT := 16
  IPSCAN_PROTO_SHIFT := 20
  IPSCAN_PROTO_TCP := 0
  IPSCAN_PROTO_UDP := 1
  IPSCAN_PROTO_ICMPV6 := 2
  IPSCAN_PROTO_TESTSTATE := 3
  PORTUNKNOWN := 16
  IPSCAN_SUCCESSFUL_COMPLETION := 990
  IPSCAN_HTTPTIMEOUT_COMPLETION := 991
  IPSCAN_EVAL_ERROR := 992
  IPSCAN_OTHER_ERROR := 993
  IPSCAN_UNSUCCESSFUL_COMPLETION := 994
  IPSCAN_NAVIGATE_AWAY := 995
  IPSCAN_BAD_JSON_ERROR := 996
  IPSCAN_UNEXPECTED_CHANGE := 998
  IPSCAN_TESTSTATE_RUNNING_BIT := 1
  IPSCAN_TESTSTATE_COMPLETE_BIT := 2
  IPSCAN_TESTSTATE_HTTPTIMEOUT_BIT := 4
  IPSCAN_TESTSTATE_EVALERROR_BIT := 8
  IPSCAN_TESTSTATE_OTHERERROR_BIT := 16
  IPSCAN_TESTSTATE_NAVAWAY_BIT := 32
  IPSCAN_TESTSTATE_UNEXPCHANGE_BIT := 64
  IPSCAN_TESTSTATE_BADCOMPLETE_BIT := 128
  IPSCAN_TESTSTATE_DATABASE_ERROR_BIT := 256
  IPSCAN_LOGVERBOSITY := 1
  NUMRESULTTYPES := 18
  PORTOPEN := 0
  PORTABORT := 1
  PORTREFUSED := 2
  PORTCRESET := 3
  PORTNRESET := 4
  PORTINPROGRESS := 5
  PORTPROHIBITED := 6
  PORTUNREACHABLE := 7
  PORTNOROUTE := 8
  PORTPKTTOOBIG := 9
  PORTPARAMPROB := 10
  ECHONOREPLY := 11
  ECHOREPLY := 12
  UDPOPEN := 13
  UDPSTEALTH := 14
  PORTUNEXPECTED := 15
  PORTINTERROR := 17
  PORTEOL := 18

/-- The text-mode build of `refConfig` (`TEXTMODE == 1`). -/
def refConfigText : Config := { refConfig with TEXTMODE := 1 }

/-! ## C arithmetic and strings -/

/-- Conversion to `unsigned int` (32 bits). -/
def to_uint (x : Int) : Int := x % 4294967296

/-- Conversion to `int` (32 bits, two's complement). -/
def to_int (x : Int) : Int := (x + 2147483648) % 4294967296 - 2147483648

/-- Conversion to `uint64_t`. -/
def to_uint64 (x : Int) : Nat := (x % 18446744073709551616).toNat

/-- The libc `abs` on an `int`; at `INT_MIN` the result wraps back to `INT_MIN`. -/
def c_abs (x : Int) : Int := to_int (if x < 0 then -x else x)

/-- A C string without its terminating NUL: the `char` values in order. -/
abbrev CStr := List Int

/-- The `char` values of a string whose characters stand for bytes. `char` is signed in the
build examined, so a byte from 0x80 on is read as the negative value 256 below it. -/
def lit (s : String) : CStr :=
  s.toList.map (fun ch => if ch.toNat < 128 then (ch.toNat : Int) else (ch.toNat : Int) - 256)

/-- The `char` at an index of a NUL-terminated buffer holding `s`: the terminator is read
at the end of the string. -/
def char_at (s : CStr) (i : Nat) : Int := s.getD i 0

/-- The test `0 == strncmp(a, b, n)` for strings without embedded NUL: the first `n`
characters agree, a string ending earlier only matching one that ends at the same place. -/
def strncmp_eq (a b : CStr) (n : Nat) : Bool := a.take n == b.take n

/-- The libc `isspace` in the C locale. -/
def isspace (ch : Int) : Bool := ch == 32 || (9 ≤ ch && ch ≤ 13)

/-- The libc `toupper` in the C locale followed by the source's `& 0xFF` and cast to `char`. -/
def c_toupper (ch : Int) : Int := if 97 ≤ ch ∧ ch ≤ 122 then ch - 32 else ch

/-- The libc `tolower` in the C locale followed by the source's `& 0xFF` and cast to `char`. -/
def c_tolower (ch : Int) : Int := if 65 ≤ ch ∧ ch ≤ 90 then ch + 32 else ch

/-- The conversion `sscanf(s, "%<width>s", buf)`: leading white space is skipped, then up to
`width` characters that are not white space are stored; `none` when the conversion fails
(the call does not return 1). -/
def sscanf_s (width : Nat) (s : CStr) : Option CStr :=
  let body := s.dropWhile isspace
  let word := (body.takeWhile (fun ch => !isspace ch)).take width
  if word.isEmpty then none else some word

/-- The decimal digits at the front of a string, as a number, with how many were read. -/
def scan_digits : CStr → Nat → Nat → Nat × Nat
  | [], acc, n => (acc, n)
  | ch :: rest, acc, n =>
    if 48 ≤ ch ∧ ch ≤ 57 then scan_digits rest (acc * 10 + (ch - 48).toNat) (n + 1) else (acc, n)

/-- The bound to the range of `int64_t` that the libc conversion applies on overflow. -/
def clamp_int64 (x : Int) : Int :=
  if x < -9223372036854775808 then -9223372036854775808
  else if 9223372036854775807 < x then 9223372036854775807 else x

/-- The conversion `sscanf(s, "%" SCNd64, &v)`: white space, an optional sign, then at least
one decimal digit; `none` when the call does not return 1. -/
def sscanf_d64 (s : CStr) : Option Int :=
  let body := s.dropWhile isspace
  let (neg, digits) :=
    match body with
    | 45 :: rest => (true, rest)
    | 43 :: rest => (false, rest)
    | _ => (false, body)
  let (v, n) := scan_digits digits 0 0
  if n = 0 then none
  else some (clamp_int64 (if neg then -(v : Int) else (v : Int)))

/-- The decimal digits of a natural number, most significant first (`fuel` bounds their count). -/
def nat_digits : Nat → Nat → CStr
  | 0, _ => []
  | fuel + 1, n => if n < 10 then [48 + (n : Int)] else nat_digits fuel (n / 10) ++ [48 + ((n % 10 : Nat) : Int)]

/-- The text `printf` produces for `%d`. -/
def fmt_d (x : Int) : CStr :=
  if x < 0 then 45 :: nat_digits 20 x.natAbs else nat_digits 20 x.natAbs

/-! ## Splitting the query string -/

/-- One parsed `name=value` pair (the `queries` structure). -/
structure queries where
  varname : CStr
  varval : Int
  valid : Int
  deriving DecidableEq, Repr

/-- The loop that copies a parameter name: `n` is `MAXQUERYNAMELEN - varnameindex`, the
number of characters the name may still take. Returns the new `queryindex` and the name. -/
def scan_name (c : Config) (querystring : CStr) (finished : Int) :
    Nat → Nat → CStr → Nat × CStr
  | 0, queryindex, varname => (queryindex, varname)
  | n + 1, queryindex, varname =>
    let ch := char_at querystring queryindex
    if 32 ≤ ch ∧ 127 > ch ∧ 61 ≠ ch ∧ 38 ≠ ch ∧ c.MAXQUERYSTRLEN > queryindex ∧ 0 = finished then
      scan_name c querystring finished n (queryindex + 1) (varname ++ [ch])
    else (queryindex, varname)

/-- The loops `while (ch == querystring[queryindex] && MAXQUERYSTRLEN > queryindex) queryindex++`
that jump over `=` and `&`; the first argument bounds the steps and is never exhausted when
it starts at `MAXQUERYSTRLEN`. -/
def skip_char (c : Config) (querystring : CStr) (ch : Int) : Nat → Nat → Nat
  | 0, queryindex => queryindex
  | k + 1, queryindex =>
    if ch = char_at querystring queryindex ∧ c.MAXQUERYSTRLEN > queryindex then
      skip_char c querystring ch k (queryindex + 1)
    else queryindex

/-- The loop that copies a parameter value: `n` is `MAXQUERYVALLEN - valueindex`. -/
def scan_value (c : Config) (querystring : CStr) : Nat → Nat → CStr → Nat × CStr
  | 0, queryindex, valstring => (queryindex, valstring)
  | n + 1, queryindex, valstring =>
    let ch := char_at querystring queryindex
    if 32 ≤ ch ∧ 127 > ch ∧ 61 ≠ ch ∧ 38 ≠ ch ∧ c.MAXQUERYSTRLEN > queryindex then
      scan_value c querystring n (queryindex + 1) (valstring ++ [ch])
    else (queryindex, valstring)

/-- The variables the splitting loop carries from one iteration to the next. -/
structure split_state where
  queryindex : Nat
  finished : Int
  query : List queries
  deriving DecidableEq, Repr

/-- The number of entries recorded, `numqueries`. -/
def split_state.numqueries (s : split_state) : Nat := s.query.length

/-- One pass through the body of the outer `while` of the splitting loop. -/
def split_body (c : Config) (querystring : CStr) (s : split_state) : split_state :=
  let (qi1, varname) := scan_name c querystring s.finished c.MAXQUERYNAMELEN s.queryindex []
  let ch1 := char_at querystring qi1
  let finished1 : Int := if 32 > ch1 ∨ 126 < ch1 ∨ c.MAXQUERYSTRLEN ≤ qi1 then 1 else 0
  let (qi2, query2) :=
    if 0 = finished1 ∧ 61 = ch1 then
      let qi := skip_char c querystring 61 c.MAXQUERYSTRLEN qi1
      let (qi, valstring) := scan_value c querystring c.MAXQUERYVALLEN qi []
      match sscanf_d64 valstring with
      | some varval => (qi, s.query ++ [⟨varname, varval, 1⟩])
      | none => (qi, s.query ++ [⟨varname, 0, 0⟩])
    else (qi1, s.query)
  let qi3 := if 0 = finished1 then skip_char c querystring 38 c.MAXQUERYSTRLEN qi2 else qi2
  let finished3 : Int := if char_at querystring qi3 < 32 ∨ qi3 ≥ c.MAXQUERYSTRLEN then 1 else 0
  ⟨qi3, finished3, query2⟩

/-- The outer `while` of the splitting loop; `none` when `fuel` passes did not end it. -/
def split_loop (c : Config) (querystring : CStr) : Nat → split_state → Option split_state
  | 0, _ => none
  | fuel + 1, s =>
    if c.MAXQUERYSTRLEN > s.queryindex ∧ 32 ≤ char_at querystring s.queryindex ∧ 0 = s.finished
        ∧ c.MAXQUERIES > s.numqueries then
      split_loop c querystring fuel (split_body c querystring s)
    else some s

/-- The entries `query[0..numqueries)` the splitting loop leaves for a lower-cased query string. -/
def split_query (c : Config) (fuel : Nat) (querystring : CStr) : Option (List queries) :=
  (split_loop c querystring fuel ⟨0, 0, []⟩).map (fun s => s.query)

/-! ## The recognised parameters -/

/-- The search `i = 0; while (i < numqueries && 0 != strncmp(name, query[i].varname, n)) i++`:
the first entry whose name matches, if any. -/
def find_query (name : CStr) (n : Nat) (query : List queries) : Option queries :=
  query.find? (fun q => strncmp_eq name q.varname n)

/-- The value given to `includeexisting`. -/
def parse_includeexisting (query : List queries) : Int :=
  match find_query (lit "includeexisting") 15 query with
  | some q =>
    if q.valid = 1 then
      if 1 = c_abs (to_int q.varval) then to_int q.varval else 0
    else 0
  | none => 0

/-- The value given to `termsaccepted`. -/
def parse_termsaccepted (query : List queries) : Int :=
  match find_query (lit "termsaccepted") 13 query with
  | some q =>
    if q.valid = 1 then
      if 1 = c_abs (to_int q.varval) then 1 else 0
    else 0
  | none => 0

/-- The value given to `querystarttime`. -/
def parse_querystarttime (query : List queries) : Int :=
  match find_query (lit "starttime") 9 query with
  | some q => if q.valid = 1 ∧ q.varval ≥ 0 then q.varval else -1
  | none => -1

/-- The value given to `querysession`. -/
def parse_querysession (query : List queries) : Int :=
  match find_query (lit "session") 7 query with
  | some q => if q.valid = 1 ∧ q.varval ≥ 0 then q.varval else -1
  | none => -1

/-- The value given to `beginscan`. -/
def parse_beginscan (c : Config) (query : List queries) : Int :=
  match find_query (lit "beginscan") 9 query with
  | some q => if q.valid = 1 then (if q.varval = c.MAGICBEGIN then 1 else 0) else 0
  | none => 0

/-- The value given to `fetch`. -/
def parse_fetch (query : List queries) : Int :=
  match find_query (lit "fetch") 5 query with
  | some q => if q.valid = 1 then (if q.varval > 0 then 1 else 0) else 0
  | none => 0

/-- The value given to `fetchnum` (javascript mode only): it keeps its initial 0 unless the
`fetch` entry is valid, positive and below 4096. -/
def parse_fetchnum (query : List queries) : Int :=
  match find_query (lit "fetch") 5 query with
  | some q =>
    if q.valid = 1 then
      if (if q.varval > 0 then (1 : Int) else 0) = 1 ∧ q.varval < 4096 then to_int q.varval else 0
    else 0
  | none => 0

/-! ## Events, environment and world -/

/-- The documents `main` can send to the client; one constructor per block of `printf`
calls (or per page-building routine) of the source. -/
inductive Page where
  | request_method_too_long
  | query_string_too_long
  | head_only
  | unsupported_request_method
  | remote_addr_too_long
  | unparseable_address
  | form
  | recon_no_room
  | recon_no_room_continue
  | recon_unexpected_length
  | end_of_test_dummy
  | initiate_scan_dummy
  | body_end
  | start_page
  | terms_not_accepted
  | nothing_useful
  | text_results_heading
  | text_ping_table
  | text_udp_table
  | text_tcp_table
  | text_results_end
  deriving DecidableEq, Repr

/-- The externally visible actions of `main`, in the order they happen. The four numbers
that open the store events are `host_msb`, `host_lsb`, `timestamp` and `session`. -/
inductive Event where
  | html (p : Page)
  | create_json_header
  | write_db (host_msb host_lsb timestamp session port : Nat) (result : Int)
  | update_db (host_msb host_lsb timestamp session port : Nat) (result : Int)
  | read_db_result (host_msb host_lsb timestamp session port : Nat)
  | dump_db (host_msb host_lsb timestamp session : Nat)
  | delete_from_db (host_msb host_lsb timestamp session : Nat)
  | tidy_up_db (time_now : Nat)
  | check_icmpv6_echoresponse (starttime session : Nat)
  | check_udp_ports_parll (portindex todo : Int) (host_msb host_lsb timestamp session : Nat)
  | check_tcp_ports_parll (portindex todo : Int) (host_msb host_lsb timestamp session : Nat)
      (portlist : List portlist_struc)
  | wait
  | sleep (seconds : Int)
  deriving DecidableEq, Repr

/-- What the process environment and the external routines answer. Routines that `main`
may call several times answer by the number of earlier calls. -/
structure Env where
  REQUEST_METHOD : Option CStr
  QUERY_STRING : Option CStr
  REMOTE_ADDR : Option CStr
  inet_pton : CStr → Option (List Nat)
  time : Nat → Int
  get_session : Nat
  read_db_result : Nat → Int
  write_db : Nat → Int
  update_db : Int
  dump_db : Int
  delete_from_db : Int
  tidy_up_db : Int
  check_icmpv6_echoresponse : Int
  check_ports_parll : Nat → Int
  wait : Nat → Int

/-- The trace so far and the number of calls made to each repeated routine. -/
structure World where
  trace : List Event
  ntime : Nat
  nread : Nat
  nwrite : Nat
  nspawn : Nat
  nwait : Nat
  deriving DecidableEq, Repr

/-- The world before `main` starts. -/
def World.init : World := ⟨[], 0, 0, 0, 0, 0⟩

/-- Append an event to the trace. -/
def World.emit (w : World) (e : Event) : World := { w with trace := w.trace ++ [e] }

/-- A call of `time()`. -/
def World.call_time (w : World) (env : Env) : Int × World :=
  (env.time w.ntime, { w with ntime := w.ntime + 1 })

/-- A call of `read_db_result`. -/
def World.call_read (w : World) (env : Env) (a b t s port : Nat) : Int × World :=
  (env.read_db_result w.nread,
    { w with trace := w.trace ++ [Event.read_db_result a b t s port], nread := w.nread + 1 })

/-- A call of `write_db`. -/
def World.call_write (w : World) (env : Env) (a b t s port : Nat) (result : Int) : Int × World :=
  (env.write_db w.nwrite,
    { w with trace := w.trace ++ [Event.write_db a b t s port result], nwrite := w.nwrite + 1 })

/-- A call of `wait`, giving the child status. -/
def World.call_wait (w : World) (env : Env) : Int × World :=
  (env.wait w.nwait, { w with trace := w.trace ++ [Event.wait], nwait := w.nwait + 1 })

/-- A call of `check_udp_ports_parll` or `check_tcp_ports_parll`, recorded as `e`. -/
def World.call_spawn (w : World) (env : Env) (e : Event) : Int × World :=
  (env.check_ports_parll w.nspawn, { w with trace := w.trace ++ [e], nspawn := w.nspawn + 1 })

/-- How a run of `main` ends: the trace of its actions and the exit status. -/
structure Outcome where
  trace : List Event
  status : Int
  deriving DecidableEq, Repr

/-- The exit status `EXIT_SUCCESS`. -/
def EXIT_SUCCESS : Int := 0

/-- The key of the test-state row, `0 + (IPSCAN_PROTO_TESTSTATE << IPSCAN_PROTO_SHIFT)`. -/
def teststate_key (c : Config) : Nat := 0 + (c.IPSCAN_PROTO_TESTSTATE <<< c.IPSCAN_PROTO_SHIFT)

/-- The key of the ICMPv6 row, `0 + (IPSCAN_PROTO_ICMPV6 << IPSCAN_PROTO_SHIFT)`. -/
def icmpv6_key (c : Config) : Nat := 0 + (c.IPSCAN_PROTO_ICMPV6 <<< c.IPSCAN_PROTO_SHIFT)

/-- The key of a port row,
`port + ((special & IPSCAN_SPECIAL_MASK) << IPSCAN_SPECIAL_SHIFT) + (proto << IPSCAN_PROTO_SHIFT)`
converted to `uint32_t`. -/
def port_key (c : Config) (port special proto : Nat) : Nat :=
  (port + ((special &&& c.IPSCAN_SPECIAL_MASK) <<< c.IPSCAN_SPECIAL_SHIFT)
    + (proto <<< c.IPSCAN_PROTO_SHIFT)) % 4294967296

/-! ## The request method, the query string and the client address -/

/-- What the first part of `main` (request method and query string) yields: an early
`return` after a page, or the entries of `query` with which `main` goes on. -/
inductive Stage (α : Type) where
  | done (p : Page)
  | go (a : α)
  deriving DecidableEq, Repr

/-- The request-method and query-string part of `main`; `none` when the splitting loop
did not end within `fuel` passes. -/
def request_stage (c : Config) (fuel : Nat) (env : Env) : Option (Stage (List queries)) :=
  match env.REQUEST_METHOD with
  | none => some (.go [])
  | some reqmethodvar =>
    if reqmethodvar.length > c.MAXREQMETHODLEN then some (.done .request_method_too_long)
    else
      match sscanf_s c.MAXREQMETHODLEN reqmethodvar with
      | none => some (.go [])
      | some word =>
        let requestmethod := word.map c_toupper
        if strncmp_eq (lit "GET") requestmethod 3 then
          match env.QUERY_STRING with
          | none => some (.go [])
          | some querystringvar =>
            if querystringvar.length > c.MAXQUERYSTRLEN then some (.done .query_string_too_long)
            else
              match sscanf_s c.MAXQUERYSTRLEN querystringvar with
              | none => some (.go [])
              | some qs => (split_query c fuel (qs.map c_tolower)).map Stage.go
        else if strncmp_eq (lit "HEAD") requestmethod 4 then some (.done .head_only)
        else some (.done .unsupported_request_method)

/-- The inner `while (shift > 0)` of the address split: `steps` shifts by 8 bits of a
`uint64_t`. -/
def shift_up : Nat → Nat → Nat
  | 0, value => value
  | steps + 1, value => shift_up steps ((value * 256) % 18446744073709551616)

/-- The `for` loop that splits the 16 address bytes into `remotehost_msb` and
`remotehost_lsb`; `n` counts the passes left and `i` is the loop index. -/
def split_address (remotehost : List Nat) : Nat → Nat → Nat × Nat → Nat × Nat
  | 0, _, acc => acc
  | n + 1, i, (msb, lsb) =>
    split_address remotehost n (i + 1)
      (msb ||| shift_up (7 - i) (remotehost.getD i 0),
       lsb ||| shift_up (7 - i) (remotehost.getD (8 + i) 0))

/-- The `REMOTE_ADDR` part of `main`: an early `return` after a page, or the pair
`(remotehost_msb, remotehost_lsb)`, which stays `(0, 0)` when the variable is missing or
its `sscanf` fails. -/
def remote_stage (c : Config) (env : Env) : Stage (Nat × Nat) :=
  match env.REMOTE_ADDR with
  | none => .go (0, 0)
  | some remoteaddrvar =>
    if remoteaddrvar.length > c.INET6_ADDRSTRLEN then .done .remote_addr_too_long
    else
      match sscanf_s c.INET6_ADDRSTRLEN remoteaddrvar with
      | none => .go (0, 0)
      | some remoteaddrstring =>
        match env.inet_pton remoteaddrstring with
        | none => .done .unparseable_address
        | some remotehost => .go (split_address remotehost 8 0 (0, 0))

/-! ## The reconstituted query and the port list -/

/-- Subtraction of `size_t` values (64 bits, wrapping). -/
def size_sub (a b : Nat) : Nat := (a + 18446744073709551616 - b % 18446744073709551616) % 18446744073709551616

/-- The characters `snprintf(ptr, size, ...)` stores for the full text `text`. -/
def snprintf_stored (size : Nat) (text : CStr) : CStr := text.take (size - 1)

/-- The port list, the reconstituted query and the customport counter while they are built. -/
structure build_state where
  portlist : List portlist_struc
  numcustomports : Nat
  reconquery : CStr
  reconquerysize : Nat
  deriving DecidableEq, Repr

/-- The number of ports, `numports`. -/
def build_state.numports (b : build_state) : Nat := b.portlist.length

/-- The first two `snprintf` calls of the reconstitution, for `includeexisting` and
`termsaccepted`, with their length checks. -/
def recon_begin (c : Config) (includeexisting termsaccepted : Int) : Stage (CStr × Nat) :=
  let text1 := lit "includeexisting=" ++ fmt_d includeexisting
  let rc1 : Int := text1.length
  if 16 < rc1 ∧ 19 > rc1 then
    let recon1 := snprintf_stored c.MAXQUERYSTRLEN text1
    let size1 := size_sub c.MAXQUERYSTRLEN text1.length
    if size1 = 0 then .done .recon_no_room
    else
      let text2 := lit "&termsaccepted=" ++ fmt_d termsaccepted
      let rc2 : Int := text2.length
      if 16 = rc2 then
        let recon2 := recon1 ++ snprintf_stored size1 text2
        let size2 := size_sub size1 text2.length
        if size2 = 0 then .done .recon_no_room_continue
        else .go (recon2, size2)
      else .done .recon_unexpected_length
  else .done .recon_unexpected_length

/-- One pass of the `while (NUMUSERDEFPORTS > customport)` loop. -/
def customport_body (query : List queries) (c : Config) (customport : Nat) (b : build_state) :
    Stage build_state :=
  let cpnum := snprintf_stored 16 (lit "customport" ++ fmt_d customport)
  let cplen := (lit "customport" ++ fmt_d customport).length
  match find_query cpnum cplen query with
  | none => .go b
  | some q =>
    let b1 := { b with numcustomports := b.numcustomports + 1 }
    if q.valid = 1 ∧ q.varval ≥ c.MINVALIDPORT ∧ q.varval ≤ c.MAXVALIDPORT then
      if b1.portlist.all (fun e => (e.port_num : Int) ≠ q.varval) then
        let entry : portlist_struc := ⟨((Int.land q.varval c.VALIDPORTMASK) % 65536).toNat, 0⟩
        let text := lit "&customport" ++ fmt_d customport ++ lit "=" ++ fmt_d (to_int q.varval)
        let rc : Int := text.length
        if rc ≥ 14 ∧ rc ≤ 22 then
          let size := size_sub b1.reconquerysize text.length
          if size = 0 then .done .recon_no_room
          else .go { b1 with portlist := b1.portlist ++ [entry],
                             reconquery := b1.reconquery ++ snprintf_stored b1.reconquerysize text,
                             reconquerysize := size }
        else .done .recon_no_room
      else .go b1
    else .go b1

/-- The `while (NUMUSERDEFPORTS > customport)` loop; `n` is `NUMUSERDEFPORTS - customport`. -/
def customport_loop (query : List queries) (c : Config) : Nat → Nat → build_state → Stage build_state
  | 0, _, b => .go b
  | n + 1, customport, b =>
    match customport_body query c customport b with
    | .done p => .done p
    | .go b1 => customport_loop query c n (customport + 1) b1

/-- The reconstitution of the query and the building of the port list, lines 678 to 846. -/
def build_ports (c : Config) (query : List queries) (includeexisting termsaccepted : Int) :
    Stage build_state :=
  match recon_begin c includeexisting termsaccepted with
  | .done p => .done p
  | .go (recon, size) =>
    let portlist := if 1 = includeexisting then c.defportlist else []
    customport_loop query c c.NUMUSERDEFPORTS 0 ⟨portlist, 0, recon, size⟩

/-! ## The test-state update of the completion-report path -/

/-- The `if`/`else if` chain of lines 1386 to 1427: the new value of `result` for the
value it holds before the chain and the reported `fetchnum`. -/
def apply_fetchnum (c : Config) (result fetchnum : Int) : Int :=
  if c.IPSCAN_SUCCESSFUL_COMPLETION = fetchnum then c.IPSCAN_TESTSTATE_COMPLETE_BIT
  else if c.IPSCAN_HTTPTIMEOUT_COMPLETION = fetchnum then
    Int.lor result c.IPSCAN_TESTSTATE_HTTPTIMEOUT_BIT
  else if c.IPSCAN_EVAL_ERROR = fetchnum then Int.lor result c.IPSCAN_TESTSTATE_EVALERROR_BIT
  else if c.IPSCAN_OTHER_ERROR = fetchnum then Int.lor result c.IPSCAN_TESTSTATE_OTHERERROR_BIT
  else if c.IPSCAN_UNSUCCESSFUL_COMPLETION = fetchnum then
    Int.lor result c.IPSCAN_TESTSTATE_BADCOMPLETE_BIT
  else if c.IPSCAN_NAVIGATE_AWAY = fetchnum then Int.lor result c.IPSCAN_TESTSTATE_NAVAWAY_BIT
  else if c.IPSCAN_BAD_JSON_ERROR = fetchnum then Int.lor result c.IPSCAN_TESTSTATE_EVALERROR_BIT
  else if c.IPSCAN_UNEXPECTED_CHANGE = fetchnum then
    Int.lor result c.IPSCAN_TESTSTATE_UNEXPCHANGE_BIT
  else Int.lor result c.IPSCAN_TESTSTATE_OTHERERROR_BIT

/-- The flag that the chain of lines 1391 to 1427 ORs into `result` for a `fetchnum` other
than `IPSCAN_SUCCESSFUL_COMPLETION`: the right-hand side of the `|=` of the branch taken. -/
def fetchnum_bit (c : Config) (fetchnum : Int) : Int :=
  if c.IPSCAN_HTTPTIMEOUT_COMPLETION = fetchnum then c.IPSCAN_TESTSTATE_HTTPTIMEOUT_BIT
  else if c.IPSCAN_EVAL_ERROR = fetchnum then c.IPSCAN_TESTSTATE_EVALERROR_BIT
  else if c.IPSCAN_OTHER_ERROR = fetchnum then c.IPSCAN_TESTSTATE_OTHERERROR_BIT
  else if c.IPSCAN_UNSUCCESSFUL_COMPLETION = fetchnum then c.IPSCAN_TESTSTATE_BADCOMPLETE_BIT
  else if c.IPSCAN_NAVIGATE_AWAY = fetchnum then c.IPSCAN_TESTSTATE_NAVAWAY_BIT
  else if c.IPSCAN_BAD_JSON_ERROR = fetchnum then c.IPSCAN_TESTSTATE_EVALERROR_BIT
  else if c.IPSCAN_UNEXPECTED_CHANGE = fetchnum then c.IPSCAN_TESTSTATE_UNEXPCHANGE_BIT
  else c.IPSCAN_TESTSTATE_OTHERERROR_BIT

/-- The completion codes the chain of lines 1386 to 1427 tests, in the order it tests them. -/
def Config.completion_codes (c : Config) : List Int :=
  [c.IPSCAN_SUCCESSFUL_COMPLETION, c.IPSCAN_HTTPTIMEOUT_COMPLETION, c.IPSCAN_EVAL_ERROR,
   c.IPSCAN_OTHER_ERROR, c.IPSCAN_UNSUCCESSFUL_COMPLETION, c.IPSCAN_NAVIGATE_AWAY,
   c.IPSCAN_BAD_JSON_ERROR, c.IPSCAN_UNEXPECTED_CHANGE]

/-- The value of `result` after lines 1366 to 1384: what `read_db_result` returned, or
`RUNNING | DATABASE_ERROR` when that was `PORTUNKNOWN`. -/
def state_after_read (c : Config) (readresult : Int) : Int :=
  if c.PORTUNKNOWN = readresult then
    Int.lor c.IPSCAN_TESTSTATE_RUNNING_BIT c.IPSCAN_TESTSTATE_DATABASE_ERROR_BIT
  else readresult

/-- The body of the completion-report branch, lines 1357 to 1433, for the session tuple
`(a, b, t, s)`. -/
def completion_report (c : Config) (env : Env) (a b t s : Nat) (fetchnum : Int) (w : World) :
    World :=
  let w1 := w.emit (.html .end_of_test_dummy)
  let (readresult, w2) := w1.call_read env a b t s (teststate_key c)
  let w3 :=
    if c.PORTUNKNOWN = readresult then
      (w2.call_write env a b t s (teststate_key c) (state_after_read c readresult)).2
    else w2
  w3.emit (.update_db a b t s (teststate_key c)
    (apply_fetchnum c (state_after_read c readresult) fetchnum))

/-! ## The parallel scan loops -/

/-- What distinguishes the four copies of the parallel scan loop: the caps, the number of
ports, whether the return code is OR-ed (text mode) or assigned (javascript mode), and
the call made for a chunk. -/
structure scan_params where
  maxchildren : Int
  maxportsperchild : Int
  numports : Int
  accumulate : Bool
  call : Int → Int → Event

/-- The variables of the parallel scan loop. -/
structure scan_state where
  remaining : Int
  porti : Int
  numchildren : Int
  rc : Int
  deriving DecidableEq, Repr

/-- One pass of the body of the inner `while (remaining > 0)`. -/
def scan_step (p : scan_params) (env : Env) (s : scan_state) (w : World) : scan_state × World :=
  let (s1, w1) :=
    if s.numchildren < p.maxchildren ∧ s.remaining > 0 then
      let todo := to_uint (if s.remaining > p.maxportsperchild then p.maxportsperchild else s.remaining)
      let (r, w1) := w.call_spawn env (p.call s.porti todo)
      let porti := to_uint (s.porti + todo)
      ({ remaining := to_int (to_uint (p.numports - porti)), porti := porti,
         numchildren := s.numchildren + 1,
         rc := if p.accumulate then Int.lor s.rc r else r }, w1)
    else (s, w)
  if s1.numchildren = p.maxchildren ∧ s1.remaining > 0 then
    ({ s1 with numchildren := s1.numchildren - 1 }, (w1.call_wait env).2)
  else (s1, w1)

/-- The inner `while (remaining > 0)`; `none` when `fuel` passes did not end it. -/
def scan_dispatch (p : scan_params) (env : Env) : Nat → scan_state → World → Option (scan_state × World)
  | 0, _, _ => none
  | fuel + 1, s, w =>
    if s.remaining > 0 then
      let (s1, w1) := scan_step p env s w
      scan_dispatch p env fuel s1 w1
    else some (s, w)

/-- The inner `while (numchildren > 0)` that harvests the remaining children. -/
def scan_drain (env : Env) : Nat → scan_state → World → Option (scan_state × World)
  | 0, _, _ => none
  | fuel + 1, s, w =>
    if s.numchildren > 0 then
      scan_drain env fuel { s with numchildren := s.numchildren - 1 } (w.call_wait env).2
    else some (s, w)

/-- The outer `while (remaining > 0 || numchildren > 0)`. -/
def scan_outer (p : scan_params) (env : Env) : Nat → scan_state → World → Option (scan_state × World)
  | 0, _, _ => none
  | fuel + 1, s, w =>
    if s.remaining > 0 ∨ s.numchildren > 0 then
      match scan_dispatch p env (fuel + 1) s w with
      | none => none
      | some (s1, w1) =>
        match scan_drain env (fuel + 1) s1 w1 with
        | none => none
        | some (s2, w2) => scan_outer p env fuel s2 w2
    else some (s, w)

/-- The parallel scan of a port list from its initialisation (`remaining = numports`,
`porti = 0`, `numchildren = 0`) on; `rc` enters with the value it holds at that point. -/
def parallel_scan (p : scan_params) (env : Env) (fuel : Nat) (rc : Int) (w : World) :
    Option (scan_state × World) :=
  scan_outer p env fuel ⟨to_int p.numports, 0, 0, rc⟩ w

/-- The `for` loops that read back the result of every port of a list. -/
def read_results (c : Config) (env : Env) (a b t s proto : Nat) : List portlist_struc → World → World
  | [], w => w
  | e :: rest, w =>
    read_results c env a b t s proto rest
      (w.call_read env a b t s (port_key c e.port_num e.special proto)).2

/-- The loop that waits for the client to signal the end of the test or for the timeout. -/
def wait_for_client (c : Config) (env : Env) (a b t s : Nat) (timeouttime : Int) :
    Nat → Int → Int → World → Option World
  | 0, _, _, _ => none
  | fuel + 1, deletenowtime, client_finished, w =>
    if deletenowtime < timeouttime ∧ client_finished = 0 then
      let (r, w1) := w.call_read env a b t s (teststate_key c)
      let result := if c.PORTUNKNOWN = r then c.IPSCAN_TESTSTATE_DATABASE_ERROR_BIT else r
      let (finished1, w2) :=
        if c.IPSCAN_TESTSTATE_COMPLETE_BIT = Int.land result c.IPSCAN_TESTSTATE_COMPLETE_BIT
            ∨ c.IPSCAN_TESTSTATE_BADCOMPLETE_BIT = Int.land result c.IPSCAN_TESTSTATE_BADCOMPLETE_BIT then
          ((1 : Int), w1)
        else (client_finished, w1.emit (.sleep c.IPSCAN_TESTSTATE_COMPLETE_SLEEP))
      let (now, w3) := w2.call_time env
      wait_for_client c env a b t s timeouttime fuel (if now < 0 then timeouttime else now) finished1 w3
    else some w

/-- The parameters of the UDP scan loop for the session tuple `(a, b, t, s)`. -/
def udp_params (c : Config) (a b t s : Nat) (accumulate : Bool) : scan_params :=
  ⟨c.MAXUDPCHILDREN, c.MAXUDPPORTSPERCHILD, c.NUMUDPPORTS, accumulate,
    fun porti todo => .check_udp_ports_parll porti todo a b t s⟩

/-- The parameters of the TCP scan loop for the session tuple `(a, b, t, s)`. -/
def tcp_params (c : Config) (a b t s : Nat) (accumulate : Bool) (portlist : List portlist_struc) :
    scan_params :=
  ⟨c.MAXCHILDREN, c.MAXPORTSPERCHILD, portlist.length, accumulate,
    fun porti todo => .check_tcp_ports_parll porti todo a b t s portlist⟩

/-- The scan-initiation branch of javascript mode, lines 1477 to 1858. The flag of the
result tells whether the branch left `main` by an early `return`. The `time(0)` of line 1716
is compiled in for the log when `IPSCAN_LOGVERBOSITY` is at least 1. -/
def javascript_scan (c : Config) (env : Env) (fuel : Nat) (a b t s : Nat)
    (portlist : List portlist_struc) (w : World) : Option (Bool × World) :=
  let w := (w.call_write env a b t s (teststate_key c) c.IPSCAN_TESTSTATE_RUNNING_BIT).2
  let (scanstart, w) := w.call_time env
  let w := w.emit (.html .initiate_scan_dummy)
  let (pingfailed, w) :=
    if c.IPSCAN_INCLUDE_PING = 1 then
      let w := w.emit (.check_icmpv6_echoresponse t s)
      let (rc, w) := w.call_write env a b t s (icmpv6_key c) env.check_icmpv6_echoresponse
      (decide (rc ≠ 0), w)
    else (false, w)
  if pingfailed then some (true, w.emit (.html .body_end))
  else
    let udp : Option World :=
      if c.IPSCAN_INCLUDE_UDP = 1 then
        (parallel_scan (udp_params c a b t s false) env fuel 0 w).map (fun r => r.2)
      else some w
    match udp with
    | none => none
    | some w =>
      match parallel_scan (tcp_params c a b t s false portlist) env fuel 0 w with
      | none => none
      | some (_, w) =>
        let w := if c.IPSCAN_INCLUDE_UDP = 1 then
            read_results c env a b t s c.IPSCAN_PROTO_UDP c.udpportlist w else w
        let w := read_results c env a b t s c.IPSCAN_PROTO_TCP portlist w
        let w := if 1 ≤ c.IPSCAN_LOGVERBOSITY then (w.call_time env).2 else w
        let timeouttime := scanstart + c.IPSCAN_DELETE_TIMEOUT
        let (now, w) := w.call_time env
        match wait_for_client c env a b t s timeouttime fuel
            (if now < 0 then timeouttime else now) 0 w with
        | none => none
        | some w =>
          let w := w.emit (.sleep c.IPSCAN_DELETE_WAIT_PERIOD)
          some (false, w.emit (.delete_from_db a b t s))

/-- The scan branch of text mode, lines 943 to 1323. The flag of the result tells whether
the branch left `main` by an early `return`. The `time(0)` of line 1274 is compiled in for
the log when `IPSCAN_LOGVERBOSITY` is at least 1. -/
def text_scan (c : Config) (env : Env) (fuel : Nat) (a b t s : Nat)
    (portlist : List portlist_struc) (w : World) : Option (Bool × World) :=
  let w := w.emit (.html .text_results_heading)
  let w :=
    if c.IPSCAN_INCLUDE_PING = 1 then
      let w := w.emit (.check_icmpv6_echoresponse t s)
      let w := (w.call_write env a b t s (icmpv6_key c) env.check_icmpv6_echoresponse).2
      w.emit (.html .text_ping_table)
    else w
  let udp : Option World :=
    if c.IPSCAN_INCLUDE_UDP = 1 then
      (parallel_scan (udp_params c a b t s true) env fuel 0 w).map
        (fun r => (read_results c env a b t s c.IPSCAN_PROTO_UDP c.udpportlist r.2).emit
          (.html .text_udp_table))
    else some w
  match udp with
  | none => none
  | some w =>
    match parallel_scan (tcp_params c a b t s true portlist) env fuel 0 w with
    | none => none
    | some (_, w) =>
      let w := (read_results c env a b t s c.IPSCAN_PROTO_TCP portlist w).emit (.html .text_tcp_table)
      let w := (w.call_time env).2
      let w := w.emit (.html .text_results_end)
      let w := if 1 ≤ c.IPSCAN_LOGVERBOSITY then (w.call_time env).2 else w
      let w := w.emit (.delete_from_db a b t s)
      some (decide (0 ≠ env.delete_from_db), w)

/-! ## The selection of the mode and `main` -/

/-- The branches of the `if`/`else if` chain that follows the parsing of the parameters. -/
inductive Mode where
  | completion_report
  | fetch_results
  | initiate_scan
  | start_page
  | text_scan
  | terms_not_accepted
  | nothing_useful
  deriving DecidableEq, Repr

/-- The values the chain of conditions tests. -/
structure Params where
  numqueries : Nat
  numcustomports : Nat
  includeexisting : Int
  termsaccepted : Int
  querystarttime : Int
  querysession : Int
  beginscan : Int
  fetch : Int
  fetchnum : Int
  deriving DecidableEq, Repr

/-- The branch the chain of conditions of lines 931 to 1978 takes. -/
def select_mode (c : Config) (p : Params) : Mode :=
  if c.TEXTMODE = 1 then
    if p.numqueries ≥ c.NUMUSERDEFPORTS + 2 ∧ p.numcustomports = c.NUMUSERDEFPORTS
        ∧ 0 ≠ p.includeexisting ∧ 1 = p.termsaccepted then Mode.text_scan
    else if p.termsaccepted = 0 then Mode.terms_not_accepted
    else Mode.nothing_useful
  else
    if p.numqueries ≥ 5 ∧ p.querysession ≥ 0 ∧ p.querystarttime ≥ 0 ∧ p.beginscan = 0 ∧ p.fetch = 1
        ∧ p.termsaccepted = 1 ∧ p.includeexisting ≠ 0
        ∧ c.IPSCAN_SUCCESSFUL_COMPLETION ≤ p.fetchnum then Mode.completion_report
    else if p.numqueries ≥ 5 ∧ p.querysession ≥ 0 ∧ p.querystarttime ≥ 0 ∧ p.beginscan = 0
        ∧ p.fetch = 1 ∧ p.termsaccepted = 1 ∧ p.includeexisting ≠ 0
        ∧ c.IPSCAN_SUCCESSFUL_COMPLETION > p.fetchnum then Mode.fetch_results
    else if p.numqueries ≥ 5 ∧ p.querysession ≥ 0 ∧ p.querystarttime ≥ 0 ∧ p.beginscan = 1
        ∧ p.termsaccepted = 1 ∧ p.includeexisting ≠ 0 ∧ p.fetch = 0 then Mode.initiate_scan
    else if p.numqueries ≥ c.NUMUSERDEFPORTS + 2 ∧ p.numcustomports = c.NUMUSERDEFPORTS
        ∧ p.includeexisting ≠ 0 ∧ p.beginscan = 0 ∧ p.termsaccepted = 1 ∧ p.fetch = 0 then
      Mode.start_page
    else if p.termsaccepted = 0 then Mode.terms_not_accepted
    else Mode.nothing_useful

/-- The parameters `main` derives from the entries of `query` once the port list is built;
`fetchnum` exists in javascript mode only and is 0 otherwise. -/
def parse_params (c : Config) (query : List queries) (b : build_state) : Params where
  numqueries := query.length
  numcustomports := b.numcustomports
  includeexisting := parse_includeexisting query
  termsaccepted := parse_termsaccepted query
  querystarttime := parse_querystarttime query
  querysession := parse_querysession query
  beginscan := parse_beginscan c query
  fetch := parse_fetch query
  fetchnum := if c.TEXTMODE = 1 then 0 else parse_fetchnum query

/-- What `main` does in the branch it selected. The flag of the result tells whether the
branch left `main` by an early `return`; `starttime` and `session` are the values `main`
obtained from `time` and `get_session` at its start. -/
def run_mode (c : Config) (env : Env) (fuel : Nat) (a b : Nat) (starttime : Int) (p : Params)
    (bs : build_state) (w : World) : Mode → Option (Bool × World)
  | .completion_report =>
    some (false, completion_report c env a b (to_uint64 p.querystarttime)
      (to_uint64 p.querysession) p.fetchnum w)
  | .fetch_results =>
    let w := w.emit .create_json_header
    let w := w.emit (.dump_db a b (to_uint64 p.querystarttime) (to_uint64 p.querysession))
    some (decide (env.dump_db ≠ 0), w)
  | .initiate_scan =>
    javascript_scan c env fuel a b (to_uint64 p.querystarttime) (to_uint64 p.querysession)
      bs.portlist w
  | .start_page => some (false, w.emit (.html .start_page))
  | .text_scan => text_scan c env fuel a b (to_uint64 starttime) env.get_session bs.portlist w
  | .terms_not_accepted => some (false, w.emit (.html .terms_not_accepted))
  | .nothing_useful => some (false, w.emit (.html .nothing_useful))

/-- The part of `main` from line 599 up to the call of `tidy_up_db`: the form for an empty
query, otherwise parameters, port list, mode and the work of the mode. -/
def dispatch (c : Config) (env : Env) (fuel : Nat) (query : List queries) (a b : Nat)
    (starttime : Int) (w : World) : Option (Bool × World) :=
  if query.length = 0 then some (false, w.emit (.html .form))
  else
    match build_ports c query (parse_includeexisting query) (parse_termsaccepted query) with
    | .done page => some (true, w.emit (.html page))
    | .go bs =>
      let p := parse_params c query bs
      run_mode c env fuel a b starttime p bs w (select_mode c p)

/-- The function `main`: `none` when one of its loops did not end within `fuel` passes. -/
def main (c : Config) (fuel : Nat) (env : Env) : Option Outcome :=
  let (starttime, w) := World.init.call_time env
  match request_stage c fuel env with
  | none => none
  | some (.done page) => some ⟨(w.emit (.html page)).trace, EXIT_SUCCESS⟩
  | some (.go query) =>
    match remote_stage c env with
    | .done page => some ⟨(w.emit (.html page)).trace, EXIT_SUCCESS⟩
    | .go (a, b) =>
      match dispatch c env fuel query a b starttime w with
      | none => none
      | some (true, w) => some ⟨w.trace, EXIT_SUCCESS⟩
      | some (false, w) =>
        let w := if starttime > 0 then w.emit (.tidy_up_db (to_uint64 starttime)) else w
        some ⟨w.trace, EXIT_SUCCESS⟩

/-- The constants leave room for the reconstituted query: at most 100000 custom port slots
and valid ports within 0..99999 (so that a slot number and a port take one to five digits),
and a buffer longer than the 34 characters of the first two items plus 22 for every slot. -/
def Config.recon_fits (c : Config) : Prop :=
  c.NUMUSERDEFPORTS ≤ 100000 ∧ 0 ≤ c.MINVALIDPORT ∧ c.MAXVALIDPORT ≤ 99999
    ∧ 34 + 22 * c.NUMUSERDEFPORTS < c.MAXQUERYSTRLEN ∧ c.MAXQUERYSTRLEN < 18446744073709551616

instance (c : Config) : Decidable c.recon_fits := by
  unfold Config.recon_fits; infer_instance

/-- The call of `tidy_up_db` that ends `main`, made when the `time()` call at its start
returned a positive value. -/
def tidy_events (env : Env) : List Event :=
  if env.time 0 > 0 then [Event.tidy_up_db (to_uint64 (env.time 0))] else []

/-! ## Classifying the events of a trace -/

/-- An event that launches a probe: the ICMPv6 echo or a UDP or TCP worker. -/
def Event.is_probe : Event → Bool
  | .check_icmpv6_echoresponse _ _ => true
  | .check_udp_ports_parll _ _ _ _ _ _ => true
  | .check_tcp_ports_parll _ _ _ _ _ _ _ => true
  | _ => false

/-- A store operation keyed by a session tuple: read, write, update, dump or delete. -/
def Event.is_keyed_store_op : Event → Bool
  | .write_db _ _ _ _ _ _ => true
  | .update_db _ _ _ _ _ _ => true
  | .read_db_result _ _ _ _ _ => true
  | .dump_db _ _ _ _ => true
  | .delete_from_db _ _ _ _ => true
  | _ => false

/-- A store operation that changes or dumps rows: write, update, dump or delete. -/
def Event.is_store_change : Event → Bool
  | .write_db _ _ _ _ _ _ => true
  | .update_db _ _ _ _ _ _ => true
  | .dump_db _ _ _ _ => true
  | .delete_from_db _ _ _ _ => true
  | _ => false

/-- The JSON answer of the fetch branch: its header or the dump of the rows. -/
def Event.is_json_dump : Event → Bool
  | .create_json_header => true
  | .dump_db _ _ _ _ => true
  | _ => false

/-- An HTML document sent to the client. -/
def Event.is_html : Event → Bool
  | .html _ => true
  | _ => false

/-- The `includeexisting` entry `main` looks at is missing, is not a number, or holds a
value of the range of `int` other than +1 and -1. -/
def includeexisting_unusable (query : List queries) : Prop :=
  match find_query (lit "includeexisting") 15 query with
  | none => True
  | some q =>
    q.valid ≠ 1 ∨ (-2147483648 ≤ q.varval ∧ q.varval < 2147483648 ∧ q.varval ≠ 1 ∧ q.varval ≠ -1)

instance (query : List queries) : Decidable (includeexisting_unusable query) := by
  unfold includeexisting_unusable; split <;> infer_instance

/-- The entry `main` looks at for a session key (`starttime` or `session`, matched on its
first `n` characters) is missing, is not a number, or holds a negative value. -/
def key_rejected (name : CStr) (n : Nat) (query : List queries) : Prop :=
  match find_query name n query with
  | none => True
  | some q => q.valid ≠ 1 ∨ q.varval < 0

instance (name : CStr) (n : Nat) (query : List queries) : Decidable (key_rejected name n query) := by
  unfold key_rejected; split <;> infer_instance

/-- The values handed to `update_db`, in order. -/
def updated_values : List Event → List Int
  | [] => []
  | .update_db _ _ _ _ _ result :: rest => result :: updated_values rest
  | _ :: rest => updated_values rest

/-- The values handed to `write_db`, in order. -/
def written_values : List Event → List Int
  | [] => []
  | .write_db _ _ _ _ _ result :: rest => result :: written_values rest
  | _ :: rest => written_values rest

/-! ## A sample environment -/

/-- A sample environment: the three CGI variables as given, `inet_pton` accepting the
loopback address `::1` only, a clock that advances by one second per call, a store whose
`read_db_result` always returns `readresult` and whose other operations succeed. -/
def sample_env (method query addr : String) (readresult : Int) : Env where
  REQUEST_METHOD := some (lit method)
  QUERY_STRING := some (lit query)
  REMOTE_ADDR := some (lit addr)
  inet_pton := fun s => if s = lit "::1" then some [0, 0, 0, 0, 0, 0, 0, 0, 0, 0, 0, 0, 0, 0, 0, 1] else none
  time := fun n => 1700000000 + n
  get_session := 77
  read_db_result := fun _ => readresult
  write_db := fun _ => 0
  update_db := 0
  dump_db := 0
  delete_from_db := 0
  tidy_up_db := 0
  check_icmpv6_echoresponse := 12
  check_ports_parll := fun _ => 0
  wait := fun _ => 0

/-! ## The custom port slots -/

/-- The entry `main` picks for slot `customport`: the first entry of `query` that
`strncmp(cpnum, query[i].varname, cplen)` matches, `cpnum` being `customport<N>`. -/
def slot_entry (query : List queries) (customport : Nat) : Option queries :=
  find_query (snprintf_stored 16 (lit "customport" ++ fmt_d customport))
    (lit "customport" ++ fmt_d customport).length query

/-- In the words of the spec (§4.2, §4.7): the custom ports accepted from the slots `slots`,
taken in that order, when the ports `present` are already in the list. A slot is accepted
when its value is a number within `[MINVALIDPORT, MAXVALIDPORT]` that is not the number of a
port already in the list; an accepted port joins the list with `special = 0`. -/
def accepted_custom_ports (c : Config) (query : List queries) :
    List Nat → List portlist_struc → List portlist_struc
  | [], _ => []
  | k :: slots, present =>
    match slot_entry query k with
    | some q =>
      if q.valid = 1 ∧ c.MINVALIDPORT ≤ q.varval ∧ q.varval ≤ c.MAXVALIDPORT
          ∧ present.all (fun e => decide ((e.port_num : Int) ≠ q.varval)) = true then
        ⟨q.varval.toNat, 0⟩
          :: accepted_custom_ports c query slots (present ++ [⟨q.varval.toNat, 0⟩])
      else accepted_custom_ports c query slots present
    | none => accepted_custom_ports c query slots present

/-- The constants describe 16-bit ports: valid ports lie within 0..65535 and the mask keeps
all 16 bits. -/
def Config.ports_16bit (c : Config) : Prop :=
  0 ≤ c.MINVALIDPORT ∧ c.MAXVALIDPORT ≤ 65535 ∧ c.VALIDPORTMASK = 65535

instance (c : Config) : Decidable c.ports_16bit := by
  unfold Config.ports_16bit; infer_instance

/-! ## The names `main` looks for -/

/-- The parameter names that `main` searches the parsed entries for: the six literals of
lines 639 to 891 and `customport<N>` for every slot `N` below `NUMUSERDEFPORTS`. -/
def recognised_names (c : Config) : List CStr :=
  [lit "includeexisting", lit "termsaccepted", lit "starttime", lit "session", lit "beginscan",
    lit "fetch"]
    ++ (List.range c.NUMUSERDEFPORTS).map (fun customport : Nat => lit "customport" ++ fmt_d customport)

/-- The state of the splitting loop stays within the declared sizes: `queryindex` is at most
the length of the query string (so `querystring[queryindex]` is a character of the string or
its terminator), at most `MAXQUERIES` entries are recorded and every recorded name has at most
`MAXQUERYNAMELEN` characters. -/
def split_inv (c : Config) (querystring : CStr) (s : split_state) : Prop :=
  s.queryindex ≤ querystring.length ∧ s.numqueries ≤ c.MAXQUERIES
    ∧ ∀ e ∈ s.query, e.varname.length ≤ c.MAXQUERYNAMELEN

/-- The entry that lines 468 to 487 record for a name and the value string copied for it:
valid with the converted number when `sscanf` converts one, invalid with 0 otherwise. -/
def entry_for (varname valstring : CStr) : queries :=
  match sscanf_d64 valstring with
  | some varval => ⟨varname, varval, 1⟩
  | none => ⟨varname, 0, 0⟩

/-- The value of `finished` that line 494 computes at the end of a pass. -/
def finished_at (c : Config) (querystring : CStr) (queryindex : Nat) : Int :=
  if char_at querystring queryindex < 32 ∨ queryindex ≥ c.MAXQUERYSTRLEN then 1 else 0

/-- The characters that the name loop and the value loop copy (lines 430 and 454): printable,
below 127, and neither `=` nor `&`. -/
def pair_char (ch : Int) : Prop := 32 ≤ ch ∧ 127 > ch ∧ 61 ≠ ch ∧ 38 ≠ ch

instance (ch : Int) : Decidable (pair_char ch) := by
  unfold pair_char; infer_instance

/-! ## The text of the reconstituted query -/

/-- The text of the pairs `&name=value` that follow the first pair of a query string. -/
def tail_text : List (CStr × CStr) → CStr
  | [] => []
  | p :: ps => 38 :: (p.1 ++ 61 :: (p.2 ++ tail_text ps))

/-- A name and a value string as the splitting loop copies them whole: made of the characters
it copies, not empty, and within `MAXQUERYNAMELEN` and `MAXQUERYVALLEN`. -/
def pair_fits (c : Config) (p : CStr × CStr) : Prop :=
  (∀ ch ∈ p.1, pair_char ch) ∧ p.1 ≠ [] ∧ p.1.length ≤ c.MAXQUERYNAMELEN
    ∧ (∀ ch ∈ p.2, pair_char ch) ∧ p.2 ≠ [] ∧ p.2.length ≤ c.MAXQUERYVALLEN

/-- In the words of the spec (§4.2, §4.7): the slots accepted among `slots`, taken in that
order, each with its value, when the ports `present` are in the list already; the ports of
`accepted_custom_ports` with the number of their slot. -/
def accepted_slots (c : Config) (query : List queries) :
    List Nat → List portlist_struc → List (Nat × Int)
  | [], _ => []
  | k :: slots, present =>
    match slot_entry query k with
    | some q =>
      if q.valid = 1 ∧ c.MINVALIDPORT ≤ q.varval ∧ q.varval ≤ c.MAXVALIDPORT
          ∧ present.all (fun e => decide ((e.port_num : Int) ≠ q.varval)) = true then
        (k, q.varval) :: accepted_slots c query slots (present ++ [⟨q.varval.toNat, 0⟩])
      else accepted_slots c query slots present
    | none => accepted_slots c query slots present

/-- The name and the value string of the pair `customport<N>=<port>` (line 804). -/
def slot_pair (p : Nat × Int) : CStr × CStr := (lit "customport" ++ fmt_d p.1, fmt_d p.2)

/-! ## The results table -/

/-- Modelled from the spec: `<errno.h>` is a system header; the error numbers that the
results table names are fields of this record. -/
structure Errno where
  ECONNABORTED : Int
  ECONNREFUSED : Int
  ECONNRESET : Int
  ENETRESET : Int
  EINPROGRESS : Int
  EACCES : Int
  ENETUNREACH : Int
  EHOSTUNREACH : Int
  EMSGSIZE : Int
  EPROTO : Int
  EAGAIN : Int
  ETIMEDOUT : Int

/-- Modelled from the spec: the error numbers of Linux, as one assignment at which general
statements are instantiated. -/
def linux_errno : Errno where
  ECONNABORTED := 103
  ECONNREFUSED := 111
  ECONNRESET := 104
  ENETRESET := 102
  EINPROGRESS := 115
  EACCES := 13
  ENETUNREACH := 101
  EHOSTUNREACH := 113
  EMSGSIZE := 90
  EPROTO := 71
  EAGAIN := 11
  ETIMEDOUT := 110

/-- A row of the results table (`struct rslt_struc`); the colour and the description, which
no lookup reads, are left out. -/
structure rslt_struc where
  returnval : Int
  connrc : Int
  conn_errno : Int
  label : String
  deriving DecidableEq, Repr

/-- The results table of lines 168 to 193, row by row. -/
def resultsstruct (c : Config) (e : Errno) : List rslt_struc :=
  [⟨c.PORTOPEN, 0, 0, "OPEN"⟩,
   ⟨c.PORTABORT, -1, e.ECONNABORTED, "ABRT"⟩,
   ⟨c.PORTREFUSED, -1, e.ECONNREFUSED, "RFSD"⟩,
   ⟨c.PORTCRESET, -1, e.ECONNRESET, "CRST"⟩,
   ⟨c.PORTNRESET, -1, e.ENETRESET, "NRST"⟩,
   ⟨c.PORTINPROGRESS, -1, e.EINPROGRESS, "STLTH"⟩,
   ⟨c.PORTPROHIBITED, -1, e.EACCES, "PHBTD"⟩,
   ⟨c.PORTUNREACHABLE, -1, e.ENETUNREACH, "NUNRCH"⟩,
   ⟨c.PORTNOROUTE, -1, e.EHOSTUNREACH, "HUNRCH"⟩,
   ⟨c.PORTPKTTOOBIG, -1, e.EMSGSIZE, "TOOBIG"⟩,
   ⟨c.PORTPARAMPROB, -1, e.EPROTO, "PRMPRB"⟩,
   ⟨c.ECHONOREPLY, -96, -96, "ECHO NO REPLY"⟩,
   ⟨c.ECHOREPLY, -97, -97, "ECHO REPLY"⟩,
   ⟨c.UDPOPEN, -95, -95, "UDPOPEN"⟩,
   ⟨c.UDPSTEALTH, -1, e.EAGAIN, "UDPSTEALTH"⟩,
   ⟨c.PORTUNEXPECTED, -98, -98, "UNXPCT"⟩,
   ⟨c.PORTUNKNOWN, -99, -99, "UNKWN"⟩,
   ⟨c.PORTINTERROR, -100, -100, "INTERR"⟩,
   ⟨c.PORTEOL, -101, -101, "EOL"⟩]

/-- The loop `while (i < NUMRESULTTYPES && resultsstruct[i].returnval != result) i++` of
lines 1650 and 1686 (and 1089, 1211 in text mode): `n` is `NUMRESULTTYPES - i`; the value is
the final `i`, or `none` when the loop reads a row that the table does not have. -/
def find_returnval (table : List rslt_struc) (result : Int) : Nat → Nat → Option Nat
  | 0, i => some i
  | n + 1, i =>
    match table.get? i with
    | none => none
    | some row => if row.returnval ≠ result then find_returnval table result n (i + 1) else some i

/-- The statement `portsstats[index]++` on the array `unsigned int portsstats[NUMRESULTTYPES]`
of line 260, given as the list of its counters: the array after the increment, or `none`
when `index` is outside the array. -/
def portsstats_incr (portsstats : List Nat) (index : Int) : Option (List Nat) :=
  if 0 ≤ index ∧ index < portsstats.length then
    some (portsstats.set index.toNat ((portsstats.getD index.toNat 0 + 1) % 4294967296))
  else none

/-- What lines 1684 to 1702 do with a result read for a port: the array `portsstats` after
the counter of the result, or that of `PORTUNKNOWN`, is incremented, and whether the warning
is logged; `none` when a row is read that the table does not have or a counter is
incremented that the array does not have. -/
def count_result (c : Config) (e : Errno) (portsstats : List Nat) (result : Int) :
    Option (List Nat × Bool) :=
  match find_returnval (resultsstruct c e) result c.NUMRESULTTYPES 0 with
  | none => none
  | some i =>
    match (resultsstruct c e).get? i with
    | none => none
    | some row =>
      if result = row.returnval then
        (portsstats_incr portsstats result).map (fun stats => (stats, false))
      else (portsstats_incr portsstats c.PORTUNKNOWN).map (fun stats => (stats, true))

/-- The sample environment of `sample_env` without a `REMOTE_ADDR` variable. -/
def sample_env_no_addr (method query : String) (readresult : Int) : Env :=
  { sample_env method query "" readresult with REMOTE_ADDR := none }

/-! ## Observations on the trace of a parallel scan -/

/-- The chunk `(start index, count)` that a call of `check_udp_ports_parll` or
`check_tcp_ports_parll` hands to a worker. -/
def Event.chunk : Event → Option (Int × Int)
  | .check_udp_ports_parll portindex todo _ _ _ _ => some (portindex, todo)
  | .check_tcp_ports_parll portindex todo _ _ _ _ _ => some (portindex, todo)
  | _ => none

/-- A call of `wait`. -/
def Event.is_wait : Event → Bool
  | .wait => true
  | _ => false

/-- The chunks handed to workers in a trace, in the order of the calls. -/
def chunks_of (tr : List Event) : List (Int × Int) := tr.filterMap Event.chunk

/-- The number of calls of `wait` in a trace. -/
def waits_of (tr : List Event) : Nat := (tr.filter Event.is_wait).length

/-- The workers spawned in a trace and not yet waited for. -/
def outstanding (tr : List Event) : Int := ((chunks_of tr).length : Int) - (waits_of tr : Int)

/-- In the words of the spec (§4.6): the chunks are contiguous and in order, the first one
starting at `start`. -/
def contiguous_from : Int → List (Int × Int) → Prop
  | _, [] => True
  | start, ch :: rest => ch.1 = start ∧ contiguous_from (start + ch.2) rest

/-- The number of ports dispatched: the sum of the counts of the chunks. -/
def ports_dispatched (chunks : List (Int × Int)) : Int := (chunks.map (fun ch => ch.2)).sum

/-- The number of chunks that hold the port index `k`. -/
def holders (chunks : List (Int × Int)) (k : Int) : Nat :=
  (chunks.filter (fun ch => ch.1 ≤ k ∧ k < ch.1 + ch.2)).length

/-- The values that the `m` calls of `check_udp_ports_parll` or `check_tcp_ports_parll` made
from call number `k0` on return. -/
def spawn_returns (env : Env) (k0 m : Nat) : List Int :=
  (List.range m).map (fun j : Nat => env.check_ports_parll (k0 + j))

/-- The invariant of the parallel scan loop at the head of each of its `while` loops, for a
scan entered in world `w0` with `rc` at `rc0`: the events added since are calls handing chunks
to workers and calls of `wait`; the chunks are contiguous from 0, hold between 1 and
`maxportsperchild` ports and add up to `porti`; the workers outstanding are `numchildren`,
never below 0 nor above `maxchildren`; and `rc` is the OR of the values the calls returned
when it is accumulated, the value of the last call when it is assigned. -/
def scan_inv (p : scan_params) (env : Env) (rc0 : Int) (w0 : World) (s : scan_state)
    (w : World) : Prop :=
  ∃ ev : List Event,
    w.trace = w0.trace ++ ev
      ∧ w.nspawn = w0.nspawn + (chunks_of ev).length
      ∧ (∀ e ∈ ev, e.is_wait = true ∨ ∃ i t, e = p.call i t)
      ∧ contiguous_from 0 (chunks_of ev)
      ∧ ports_dispatched (chunks_of ev) = s.porti
      ∧ (∀ ch ∈ chunks_of ev, 1 ≤ ch.2 ∧ ch.2 ≤ p.maxportsperchild)
      ∧ outstanding ev = s.numchildren
      ∧ (∀ pre, pre <+: ev → 0 ≤ outstanding pre ∧ outstanding pre ≤ p.maxchildren)
      ∧ 0 ≤ s.porti ∧ s.porti ≤ p.numports ∧ s.remaining = p.numports - s.porti
      ∧ s.numchildren ≤ s.porti
      ∧ (p.accumulate = true →
          s.rc = (spawn_returns env w0.nspawn (chunks_of ev).length).foldl Int.lor rc0)
      ∧ (p.accumulate = false →
          s.rc = ((spawn_returns env w0.nspawn (chunks_of ev).length).getLast?).getD rc0)

/-- The sample environment in which the calls that hand chunks to workers return `spawnrc`
(by call number) and every harvested worker has exit status `status`. -/
def sample_env_workers (spawnrc : Nat → Int) (status : Int) : Env :=
  { sample_env "GET" "" "::1" 0 with check_ports_parll := spawnrc, wait := fun _ => status }

/-- A call of `tidy_up_db`. -/
def Event.is_tidy : Event → Bool
  | .tidy_up_db _ => true
  | _ => false

/-- The world `w'` continues `w`: its trace is the trace of `w` followed by further events,
none of them a call of `tidy_up_db`. -/
def World.grows (w w' : World) : Prop :=
  ∃ ev : List Event, w'.trace = w.trace ++ ev ∧ ∀ e ∈ ev, e.is_tidy = false

/-- The sample environment in which `dump_db` fails with return code 1. -/
def sample_env_dump_fails (method query addr : String) : Env :=
  { sample_env method query addr 0 with dump_db := 1 }

/-- The sample environment in which the second call of `write_db`, the write of the ping
result in the scan-initiation branch, fails with return code 1. -/
def sample_env_ping_write_fails (method query addr : String) : Env :=
  { sample_env method query addr 0 with write_db := fun k => if k = 1 then 1 else 0 }

/-! ## The completion-report path -/

/-- The chain of lines 1386 to 1427 overwrites on success and ORs the flag of the branch
taken otherwise. -/
theorem apply_fetchnum_eq (c : Config) (result fetchnum : Int) :
    apply_fetchnum c result fetchnum =
      if c.IPSCAN_SUCCESSFUL_COMPLETION = fetchnum then c.IPSCAN_TESTSTATE_COMPLETE_BIT
      else Int.lor result (fetchnum_bit c fetchnum) := by
  unfold apply_fetchnum fetchnum_bit
  split_ifs <;> rfl

/-- The trace the completion-report branch adds to the world it starts from. -/
theorem completion_report_trace (c : Config) (env : Env) (a b t s : Nat) (fetchnum : Int) (w : World) :
    (completion_report c env a b t s fetchnum w).trace =
      w.trace ++ [Event.html Page.end_of_test_dummy, Event.read_db_result a b t s (teststate_key c)]
        ++ (if c.PORTUNKNOWN = env.read_db_result w.nread then
              [Event.write_db a b t s (teststate_key c)
                (Int.lor c.IPSCAN_TESTSTATE_RUNNING_BIT c.IPSCAN_TESTSTATE_DATABASE_ERROR_BIT)]
            else [])
        ++ [Event.update_db a b t s (teststate_key c)
              (apply_fetchnum c (state_after_read c (env.read_db_result w.nread)) fetchnum)] := by
  unfold completion_report
  by_cases h : c.PORTUNKNOWN = env.read_db_result w.nread
  · simp [World.emit, World.call_read, World.call_write, state_after_read, h]
  · simp [World.emit, World.call_read, World.call_write, state_after_read, h]

/-- The values handed to `update_db` over a concatenated trace. -/
theorem updated_values_append (xs ys : List Event) :
    updated_values (xs ++ ys) = updated_values xs ++ updated_values ys := by
  induction xs with
  | nil => rfl
  | cons x xs ih => cases x <;> simp [updated_values, ih]

/-- The completion-report branch hands exactly one value to `update_db`. -/
theorem completion_report_updated (c : Config) (env : Env) (a b t s : Nat) (fetchnum : Int)
    (w : World) :
    updated_values (completion_report c env a b t s fetchnum w).trace =
      updated_values w.trace
        ++ [apply_fetchnum c (state_after_read c (env.read_db_result w.nread)) fetchnum] := by
  rw [completion_report_trace]
  by_cases h : c.PORTUNKNOWN = env.read_db_result w.nread <;>
    simp [updated_values_append, updated_values, h]

/-- C1, as stated, fails: with the constants of `refConfig` a request reporting
`fetch=991` (`IPSCAN_HTTPTIMEOUT_COMPLETION`) whose test-state row reads exactly `COMPLETE`
(2) makes `main` hand `COMPLETE | HTTPTIMEOUT` (6) to `update_db`, not `COMPLETE`. -/
theorem c1_complete_state_gets_error_bit :
    (sample_env "GET" "includeexisting=1&termsaccepted=1&starttime=5&session=6&fetch=991" "::1" 2).read_db_result 0
        = refConfig.IPSCAN_TESTSTATE_COMPLETE_BIT
      ∧ main refConfig 10
          (sample_env "GET" "includeexisting=1&termsaccepted=1&starttime=5&session=6&fetch=991" "::1" 2)
        = some ⟨[Event.html Page.end_of_test_dummy, Event.read_db_result 0 1 5 6 3145728,
                 Event.update_db 0 1 5 6 3145728 6, Event.tidy_up_db 1700000000], 0⟩
      ∧ (6 : Int) ≠ refConfig.IPSCAN_TESTSTATE_COMPLETE_BIT := by
  refine ⟨rfl, ?_, by decide⟩
  decide

/-- C1, amended: when the test-state row read in the completion-report path is exactly
`COMPLETE` (a value other than `PORTUNKNOWN`), the value handed to `update_db` is exactly
`COMPLETE` for `IPSCAN_SUCCESSFUL_COMPLETION` and is `COMPLETE` OR-ed with the flag of the
event for every other `fetchnum`: every bit of `COMPLETE` is kept and the flag is added. -/
theorem c1_complete_state_update (c : Config) (env : Env) (a b t s : Nat) (fetchnum : Int)
    (w : World) (hne : c.PORTUNKNOWN ≠ c.IPSCAN_TESTSTATE_COMPLETE_BIT)
    (hread : env.read_db_result w.nread = c.IPSCAN_TESTSTATE_COMPLETE_BIT) :
    updated_values (completion_report c env a b t s fetchnum w).trace =
        updated_values w.trace ++
          [if c.IPSCAN_SUCCESSFUL_COMPLETION = fetchnum then c.IPSCAN_TESTSTATE_COMPLETE_BIT
           else Int.lor c.IPSCAN_TESTSTATE_COMPLETE_BIT (fetchnum_bit c fetchnum)]
      ∧ ∀ k, Int.testBit c.IPSCAN_TESTSTATE_COMPLETE_BIT k = true →
          Int.testBit (apply_fetchnum c c.IPSCAN_TESTSTATE_COMPLETE_BIT fetchnum) k = true := by
  constructor
  · rw [completion_report_updated, hread, apply_fetchnum_eq]
    simp [state_after_read, hne]
  · intro k hk
    rw [apply_fetchnum_eq]
    split_ifs
    · exact hk
    · rw [Int.testBit_lor, hk]; rfl

/-- C1, amended, at a concrete point: the constants of `refConfig`, a store that returns
`COMPLETE` and the event `IPSCAN_NAVIGATE_AWAY` (995). -/
theorem c1_complete_state_update_witness :
    updated_values (completion_report refConfig (sample_env "GET" "" "::1" 2) 0 1 5 6 995
        World.init).trace =
        updated_values World.init.trace ++
          [if refConfig.IPSCAN_SUCCESSFUL_COMPLETION = (995 : Int) then
             refConfig.IPSCAN_TESTSTATE_COMPLETE_BIT
           else Int.lor refConfig.IPSCAN_TESTSTATE_COMPLETE_BIT (fetchnum_bit refConfig 995)]
      ∧ ∀ k, Int.testBit refConfig.IPSCAN_TESTSTATE_COMPLETE_BIT k = true →
          Int.testBit (apply_fetchnum refConfig refConfig.IPSCAN_TESTSTATE_COMPLETE_BIT 995) k = true :=
  c1_complete_state_update refConfig (sample_env "GET" "" "::1" 2) 0 1 5 6 995 World.init
    (by decide) rfl

/-- C2: whatever `read_db_result` returned for the test-state row (`PORTUNKNOWN` for a
missing row included), a completion report with `fetchnum = IPSCAN_SUCCESSFUL_COMPLETION`
hands exactly `IPSCAN_TESTSTATE_COMPLETE_BIT` to `update_db`, in its only `update_db` call,
made for the test-state row of the session tuple as the last action of the branch. -/
theorem c2_success_stores_complete_only (c : Config) (env : Env) (a b t s : Nat) (w : World) :
    updated_values (completion_report c env a b t s c.IPSCAN_SUCCESSFUL_COMPLETION w).trace =
        updated_values w.trace ++ [c.IPSCAN_TESTSTATE_COMPLETE_BIT]
      ∧ (completion_report c env a b t s c.IPSCAN_SUCCESSFUL_COMPLETION w).trace.getLast? =
          some (Event.update_db a b t s (teststate_key c) c.IPSCAN_TESTSTATE_COMPLETE_BIT)
      ∧ ∀ prior, apply_fetchnum c prior c.IPSCAN_SUCCESSFUL_COMPLETION
          = c.IPSCAN_TESTSTATE_COMPLETE_BIT := by
  refine ⟨?_, ?_, ?_⟩
  · rw [completion_report_updated, apply_fetchnum_eq]; simp
  · rw [completion_report_trace, List.getLast?_concat, apply_fetchnum_eq]; simp
  · intro prior; rw [apply_fetchnum_eq]; simp

/-- C3: with pairwise distinct completion codes, for every value `prior` that `result` holds
when the chain of lines 1386 to 1427 is entered, the chain ORs into it the flag HTTPTIMEOUT
for `IPSCAN_HTTPTIMEOUT_COMPLETION`, EVALERROR for `IPSCAN_EVAL_ERROR` and for
`IPSCAN_BAD_JSON_ERROR`, OTHERERROR for `IPSCAN_OTHER_ERROR`, BADCOMPLETE for
`IPSCAN_UNSUCCESSFUL_COMPLETION`, NAVAWAY for `IPSCAN_NAVIGATE_AWAY`, UNEXPCHANGE for
`IPSCAN_UNEXPECTED_CHANGE` and OTHERERROR for every `fetchnum` that is none of the codes;
for a `fetchnum` other than `IPSCAN_SUCCESSFUL_COMPLETION` no bit of `prior` is cleared; and
the value so obtained is the one value the branch hands to `update_db`. -/
theorem c3_event_ors_its_flag (c : Config) (hd : c.completion_codes.Nodup) (prior : Int) :
    apply_fetchnum c prior c.IPSCAN_HTTPTIMEOUT_COMPLETION
        = Int.lor prior c.IPSCAN_TESTSTATE_HTTPTIMEOUT_BIT
      ∧ apply_fetchnum c prior c.IPSCAN_EVAL_ERROR = Int.lor prior c.IPSCAN_TESTSTATE_EVALERROR_BIT
      ∧ apply_fetchnum c prior c.IPSCAN_BAD_JSON_ERROR
          = Int.lor prior c.IPSCAN_TESTSTATE_EVALERROR_BIT
      ∧ apply_fetchnum c prior c.IPSCAN_OTHER_ERROR = Int.lor prior c.IPSCAN_TESTSTATE_OTHERERROR_BIT
      ∧ apply_fetchnum c prior c.IPSCAN_UNSUCCESSFUL_COMPLETION
          = Int.lor prior c.IPSCAN_TESTSTATE_BADCOMPLETE_BIT
      ∧ apply_fetchnum c prior c.IPSCAN_NAVIGATE_AWAY = Int.lor prior c.IPSCAN_TESTSTATE_NAVAWAY_BIT
      ∧ apply_fetchnum c prior c.IPSCAN_UNEXPECTED_CHANGE
          = Int.lor prior c.IPSCAN_TESTSTATE_UNEXPCHANGE_BIT
      ∧ (∀ fetchnum, fetchnum ∉ c.completion_codes →
          apply_fetchnum c prior fetchnum = Int.lor prior c.IPSCAN_TESTSTATE_OTHERERROR_BIT)
      ∧ (∀ fetchnum, fetchnum ≠ c.IPSCAN_SUCCESSFUL_COMPLETION → ∀ k,
          Int.testBit prior k = true → Int.testBit (apply_fetchnum c prior fetchnum) k = true)
      ∧ (∀ (env : Env) (a b t s : Nat) (fetchnum : Int) (w : World),
          state_after_read c (env.read_db_result w.nread) = prior →
          updated_values (completion_report c env a b t s fetchnum w).trace
            = updated_values w.trace ++ [apply_fetchnum c prior fetchnum]) := by
  simp only [Config.completion_codes, List.nodup_cons, List.mem_cons, List.mem_singleton,
    not_or, List.not_mem_nil, not_false_eq_true, List.nodup_nil, and_true] at hd
  obtain ⟨⟨h01, h02, h03, h04, h05, h06, h07⟩, ⟨h12, h13, h14, h15, h16, h17⟩,
    ⟨h23, h24, h25, h26, h27⟩, ⟨h34, h35, h36, h37⟩, ⟨h45, h46, h47⟩, ⟨h56, h57⟩, h67⟩ := hd
  refine ⟨?_, ?_, ?_, ?_, ?_, ?_, ?_, ?_, ?_, ?_⟩
  · simp [apply_fetchnum, h01]
  · simp [apply_fetchnum, h02, h12]
  · simp [apply_fetchnum, h06, h16, h26, h36, h46, h56]
  · simp [apply_fetchnum, h03, h13, h23]
  · simp [apply_fetchnum, h04, h14, h24, h34]
  · simp [apply_fetchnum, h05, h15, h25, h35, h45]
  · simp [apply_fetchnum, h07, h17, h27, h37, h47, h57, h67]
  · intro fetchnum hf
    simp only [Config.completion_codes, List.mem_cons, List.mem_singleton, not_or,
      List.not_mem_nil, not_false_eq_true, and_true] at hf
    obtain ⟨g0, g1, g2, g3, g4, g5, g6, g7⟩ := hf
    simp [apply_fetchnum, Ne.symm g0, Ne.symm g1, Ne.symm g2, Ne.symm g3, Ne.symm g4,
      Ne.symm g5, Ne.symm g6, Ne.symm g7]
  · intro fetchnum hf k hk
    rw [apply_fetchnum_eq, if_neg (Ne.symm hf), Int.testBit_lor, hk]
    rfl
  · intro env a b t s fetchnum w hprior
    rw [completion_report_updated, hprior]

/-- C3 at a concrete point: the constants of `refConfig` and the prior state `RUNNING` (1). -/
theorem c3_event_ors_its_flag_witness :
    apply_fetchnum refConfig 1 refConfig.IPSCAN_HTTPTIMEOUT_COMPLETION
        = Int.lor 1 refConfig.IPSCAN_TESTSTATE_HTTPTIMEOUT_BIT
      ∧ apply_fetchnum refConfig 1 refConfig.IPSCAN_EVAL_ERROR
          = Int.lor 1 refConfig.IPSCAN_TESTSTATE_EVALERROR_BIT
      ∧ apply_fetchnum refConfig 1 refConfig.IPSCAN_BAD_JSON_ERROR
          = Int.lor 1 refConfig.IPSCAN_TESTSTATE_EVALERROR_BIT
      ∧ apply_fetchnum refConfig 1 refConfig.IPSCAN_OTHER_ERROR
          = Int.lor 1 refConfig.IPSCAN_TESTSTATE_OTHERERROR_BIT
      ∧ apply_fetchnum refConfig 1 refConfig.IPSCAN_UNSUCCESSFUL_COMPLETION
          = Int.lor 1 refConfig.IPSCAN_TESTSTATE_BADCOMPLETE_BIT
      ∧ apply_fetchnum refConfig 1 refConfig.IPSCAN_NAVIGATE_AWAY
          = Int.lor 1 refConfig.IPSCAN_TESTSTATE_NAVAWAY_BIT
      ∧ apply_fetchnum refConfig 1 refConfig.IPSCAN_UNEXPECTED_CHANGE
          = Int.lor 1 refConfig.IPSCAN_TESTSTATE_UNEXPCHANGE_BIT
      ∧ (∀ fetchnum, fetchnum ∉ refConfig.completion_codes →
          apply_fetchnum refConfig 1 fetchnum = Int.lor 1 refConfig.IPSCAN_TESTSTATE_OTHERERROR_BIT)
      ∧ (∀ fetchnum, fetchnum ≠ refConfig.IPSCAN_SUCCESSFUL_COMPLETION → ∀ k,
          Int.testBit 1 k = true → Int.testBit (apply_fetchnum refConfig 1 fetchnum) k = true)
      ∧ (∀ (env : Env) (a b t s : Nat) (fetchnum : Int) (w : World),
          state_after_read refConfig (env.read_db_result w.nread) = 1 →
          updated_values (completion_report refConfig env a b t s fetchnum w).trace
            = updated_values w.trace ++ [apply_fetchnum refConfig 1 fetchnum]) :=
  c3_event_ors_its_flag refConfig (by decide) 1

/-- C4: when the read of the test-state row in the completion-report path returns
`PORTUNKNOWN`, the branch first writes `RUNNING | DATABASE_ERROR` for the session tuple with
`write_db` and then hands to `update_db` the event applied to that value; for every event
other than `IPSCAN_SUCCESSFUL_COMPLETION` the value handed over is
`RUNNING | DATABASE_ERROR` OR-ed with the flag of the event, so it contains every bit of
RUNNING, of DATABASE_ERROR and of that flag. -/
theorem c4_missing_row_flagged (c : Config) (env : Env) (a b t s : Nat) (fetchnum : Int)
    (w : World) (hread : env.read_db_result w.nread = c.PORTUNKNOWN) :
    (completion_report c env a b t s fetchnum w).trace =
        w.trace ++
          [Event.html Page.end_of_test_dummy,
           Event.read_db_result a b t s (teststate_key c),
           Event.write_db a b t s (teststate_key c)
             (Int.lor c.IPSCAN_TESTSTATE_RUNNING_BIT c.IPSCAN_TESTSTATE_DATABASE_ERROR_BIT),
           Event.update_db a b t s (teststate_key c)
             (apply_fetchnum c
               (Int.lor c.IPSCAN_TESTSTATE_RUNNING_BIT c.IPSCAN_TESTSTATE_DATABASE_ERROR_BIT)
               fetchnum)]
      ∧ (fetchnum ≠ c.IPSCAN_SUCCESSFUL_COMPLETION →
          apply_fetchnum c
              (Int.lor c.IPSCAN_TESTSTATE_RUNNING_BIT c.IPSCAN_TESTSTATE_DATABASE_ERROR_BIT) fetchnum
            = Int.lor
                (Int.lor c.IPSCAN_TESTSTATE_RUNNING_BIT c.IPSCAN_TESTSTATE_DATABASE_ERROR_BIT)
                (fetchnum_bit c fetchnum)
          ∧ ∀ k, (Int.testBit c.IPSCAN_TESTSTATE_RUNNING_BIT k = true
                ∨ Int.testBit c.IPSCAN_TESTSTATE_DATABASE_ERROR_BIT k = true
                ∨ Int.testBit (fetchnum_bit c fetchnum) k = true) →
              Int.testBit (apply_fetchnum c
                (Int.lor c.IPSCAN_TESTSTATE_RUNNING_BIT c.IPSCAN_TESTSTATE_DATABASE_ERROR_BIT)
                fetchnum) k = true) := by
  constructor
  · rw [completion_report_trace, hread]
    simp [state_after_read]
  · intro hf
    have happly := apply_fetchnum_eq c
      (Int.lor c.IPSCAN_TESTSTATE_RUNNING_BIT c.IPSCAN_TESTSTATE_DATABASE_ERROR_BIT) fetchnum
    rw [if_neg (Ne.symm hf)] at happly
    refine ⟨happly, ?_⟩
    intro k hk
    rw [happly, Int.testBit_lor, Int.testBit_lor]
    rcases hk with hk | hk | hk <;> simp [hk]

/-- C4 at a concrete point: the constants of `refConfig`, a store that returns `PORTUNKNOWN`
(16) and the event `IPSCAN_OTHER_ERROR` (993). -/
theorem c4_missing_row_flagged_witness :
    (completion_report refConfig (sample_env "GET" "" "::1" 16) 0 1 5 6 993 World.init).trace =
        World.init.trace ++
          [Event.html Page.end_of_test_dummy,
           Event.read_db_result 0 1 5 6 (teststate_key refConfig),
           Event.write_db 0 1 5 6 (teststate_key refConfig)
             (Int.lor refConfig.IPSCAN_TESTSTATE_RUNNING_BIT
               refConfig.IPSCAN_TESTSTATE_DATABASE_ERROR_BIT),
           Event.update_db 0 1 5 6 (teststate_key refConfig)
             (apply_fetchnum refConfig
               (Int.lor refConfig.IPSCAN_TESTSTATE_RUNNING_BIT
                 refConfig.IPSCAN_TESTSTATE_DATABASE_ERROR_BIT) 993)]
      ∧ ((993 : Int) ≠ refConfig.IPSCAN_SUCCESSFUL_COMPLETION →
          apply_fetchnum refConfig
              (Int.lor refConfig.IPSCAN_TESTSTATE_RUNNING_BIT
                refConfig.IPSCAN_TESTSTATE_DATABASE_ERROR_BIT) 993
            = Int.lor
                (Int.lor refConfig.IPSCAN_TESTSTATE_RUNNING_BIT
                  refConfig.IPSCAN_TESTSTATE_DATABASE_ERROR_BIT)
                (fetchnum_bit refConfig 993)
          ∧ ∀ k, (Int.testBit refConfig.IPSCAN_TESTSTATE_RUNNING_BIT k = true
                ∨ Int.testBit refConfig.IPSCAN_TESTSTATE_DATABASE_ERROR_BIT k = true
                ∨ Int.testBit (fetchnum_bit refConfig 993) k = true) →
              Int.testBit (apply_fetchnum refConfig
                (Int.lor refConfig.IPSCAN_TESTSTATE_RUNNING_BIT
                  refConfig.IPSCAN_TESTSTATE_DATABASE_ERROR_BIT) 993) k = true) :=
  c4_missing_row_flagged refConfig (sample_env "GET" "" "::1" 16) 0 1 5 6 993 World.init rfl

/-! ## The reconstitution never runs out of room -/

theorem size_sub_of_le (a b : Nat) (hb : b ≤ a) (ha : a < 18446744073709551616) :
    size_sub a b = a - b := by
  unfold size_sub
  have hb' : b % 18446744073709551616 = b := Nat.mod_eq_of_lt (by omega)
  rw [hb']
  omega

theorem nat_digits_length (fuel : Nat) : ∀ (k n : Nat), 1 ≤ k → k ≤ fuel → n < 10 ^ k →
    1 ≤ (nat_digits fuel n).length ∧ (nat_digits fuel n).length ≤ k := by
  induction fuel with
  | zero => intro k n h1 h2; omega
  | succ fuel ih =>
    intro k n h1 h2 h3
    unfold nat_digits
    by_cases hn : n < 10
    · simp [hn]; omega
    · simp only [hn, if_false, List.length_append, List.length_singleton]
      have hk : 2 ≤ k := by
        by_contra hk
        have : k = 1 := by omega
        subst this
        simp at h3
        omega
      have hdiv : n / 10 < 10 ^ (k - 1) := by
        have : 10 ^ k = 10 ^ (k - 1) * 10 := by
          rw [← pow_succ]; congr 1; omega
        rw [this] at h3
        exact Nat.div_lt_of_lt_mul (by rw [Nat.mul_comm]; exact h3)
      have := ih (k - 1) (n / 10) (by omega) (by omega) hdiv
      omega

theorem fmt_d_length_nonneg (x : Int) (h0 : 0 ≤ x) (h1 : x ≤ 99999) :
    1 ≤ (fmt_d x).length ∧ (fmt_d x).length ≤ 5 := by
  unfold fmt_d
  rw [if_neg (by omega)]
  exact nat_digits_length 20 5 x.natAbs (by omega) (by omega) (by omega)

theorem c_abs_to_int_eq_one (v : Int) (h : 1 = c_abs (to_int v)) : to_int v = 1 ∨ to_int v = -1 := by
  unfold c_abs at h
  have hr : -2147483648 ≤ to_int v ∧ to_int v < 2147483648 := by unfold to_int; omega
  by_cases hneg : to_int v < 0
  · rw [if_pos hneg] at h
    right
    generalize to_int v = x at *
    unfold to_int at h
    omega
  · rw [if_neg hneg] at h
    left
    generalize to_int v = x at *
    unfold to_int at h
    omega

theorem parse_includeexisting_range (query : List queries) :
    parse_includeexisting query = 1 ∨ parse_includeexisting query = -1
      ∨ parse_includeexisting query = 0 := by
  unfold parse_includeexisting
  split
  · split_ifs with h1 h2
    · rcases c_abs_to_int_eq_one _ h2 with h | h <;> simp [h]
    · simp
    · simp
  · simp

theorem parse_termsaccepted_range (query : List queries) :
    parse_termsaccepted query = 1 ∨ parse_termsaccepted query = 0 := by
  unfold parse_termsaccepted
  split
  · split_ifs <;> simp
  · simp

theorem recon_begin_go (c : Config) (ie ta : Int) (hie : ie = 1 ∨ ie = -1 ∨ ie = 0)
    (hta : ta = 1 ∨ ta = 0) (h1 : 34 < c.MAXQUERYSTRLEN)
    (h2 : c.MAXQUERYSTRLEN < 18446744073709551616) :
    ∃ recon size, recon_begin c ie ta = Stage.go (recon, size)
      ∧ c.MAXQUERYSTRLEN - 34 ≤ size ∧ size < 18446744073709551616 := by
  have e1 : (lit "includeexisting=" ++ fmt_d 1).length = 17 := by decide
  have e2 : (lit "includeexisting=" ++ fmt_d (-1)).length = 18 := by decide
  have e3 : (lit "includeexisting=" ++ fmt_d 0).length = 17 := by decide
  have t1 : (lit "&termsaccepted=" ++ fmt_d 1).length = 16 := by decide
  have t0 : (lit "&termsaccepted=" ++ fmt_d 0).length = 16 := by decide
  have s17 : size_sub c.MAXQUERYSTRLEN 17 = c.MAXQUERYSTRLEN - 17 :=
    size_sub_of_le _ _ (by omega) h2
  have s18 : size_sub c.MAXQUERYSTRLEN 18 = c.MAXQUERYSTRLEN - 18 :=
    size_sub_of_le _ _ (by omega) h2
  have s33 : size_sub (c.MAXQUERYSTRLEN - 17) 16 = c.MAXQUERYSTRLEN - 17 - 16 :=
    size_sub_of_le _ _ (by omega) (by omega)
  have s34 : size_sub (c.MAXQUERYSTRLEN - 18) 16 = c.MAXQUERYSTRLEN - 18 - 16 :=
    size_sub_of_le _ _ (by omega) (by omega)
  have n17 : ¬ c.MAXQUERYSTRLEN - 17 = 0 := by omega
  have n18 : ¬ c.MAXQUERYSTRLEN - 18 = 0 := by omega
  have n33 : ¬ c.MAXQUERYSTRLEN - 17 - 16 = 0 := by omega
  have n34 : ¬ c.MAXQUERYSTRLEN - 18 - 16 = 0 := by omega
  rcases hie with rfl | rfl | rfl <;> rcases hta with rfl | rfl <;>
    simp only [recon_begin, e1, e2, e3, t1, t0] <;>
    simp only [Nat.cast_ofNat, Nat.reduceLT, Nat.reduceEqDiff, and_self, if_true, s17, s18, s33, s34,
      n17, n18, n33, n34, if_false] <;>
    exact ⟨_, _, rfl, by omega, by omega⟩

theorem to_int_of_small (x : Int) (h0 : 0 ≤ x) (h1 : x ≤ 99999) : to_int x = x := by
  unfold to_int; omega

theorem customport_body_go (c : Config) (query : List queries) (customport : Nat)
    (b : build_state) (hfit : c.recon_fits) (hcp : customport < c.NUMUSERDEFPORTS)
    (hsize : 22 < b.reconquerysize) (hlt : b.reconquerysize < 18446744073709551616) :
    ∃ b1, customport_body query c customport b = Stage.go b1
      ∧ b.reconquerysize - 22 ≤ b1.reconquerysize ∧ b1.reconquerysize ≤ b.reconquerysize := by
  obtain ⟨hN, hmin, hmax, -, -⟩ := hfit
  simp only [customport_body]
  generalize find_query _ _ query = r
  cases r with
  | none => exact ⟨b, rfl, by omega, le_refl _⟩
  | some q =>
    simp only []
    by_cases hv : q.valid = 1 ∧ q.varval ≥ c.MINVALIDPORT ∧ q.varval ≤ c.MAXVALIDPORT
    · simp only [hv, and_self, if_true]
      by_cases hall : (b.portlist.all fun e => decide ((e.port_num : Int) ≠ q.varval)) = true
      · simp only [hall, if_true]
        have hl1 : (lit "&customport").length = 11 := by decide
        have hl2 : (lit "=").length = 1 := by decide
        have hc := fmt_d_length_nonneg (customport : Int) (by omega) (by omega)
        have hp := fmt_d_length_nonneg (to_int q.varval)
          (by rw [to_int_of_small _ (by omega) (by omega)]; omega)
          (by rw [to_int_of_small _ (by omega) (by omega)]; omega)
        have hlen : (lit "&customport" ++ fmt_d (customport : Int) ++ lit "=" ++ fmt_d (to_int q.varval)).length
            = 12 + (fmt_d (customport : Int)).length + (fmt_d (to_int q.varval)).length := by
          simp only [List.length_append, hl1, hl2]; omega
        rw [hlen]
        have hrange : ((12 + (fmt_d (customport : Int)).length + (fmt_d (to_int q.varval)).length : Nat) : Int) ≥ 14
            ∧ ((12 + (fmt_d (customport : Int)).length + (fmt_d (to_int q.varval)).length : Nat) : Int) ≤ 22 := by
          omega
        rw [if_pos hrange]
        have hsub := size_sub_of_le b.reconquerysize
          (12 + (fmt_d (customport : Int)).length + (fmt_d (to_int q.varval)).length) (by omega) hlt
        rw [hsub, if_neg (by omega)]
        exact ⟨_, rfl, by simp only; omega, by simp only; omega⟩
      · simp only [hall]
        exact ⟨_, rfl, by simp, by simp⟩
    · simp only [hv, if_false]
      exact ⟨_, rfl, by simp, by simp⟩

theorem customport_loop_go (c : Config) (query : List queries) (hfit : c.recon_fits) :
    ∀ (n customport : Nat) (b : build_state), customport + n ≤ c.NUMUSERDEFPORTS →
      22 * n < b.reconquerysize → b.reconquerysize < 18446744073709551616 →
      ∃ b1, customport_loop query c n customport b = Stage.go b1 := by
  intro n
  induction n with
  | zero => intro customport b _ _ _; exact ⟨b, rfl⟩
  | succ n ih =>
    intro customport b hcp hsize hlt
    obtain ⟨b1, hb1, hlo, hhi⟩ := customport_body_go c query customport b hfit (by omega)
      (by omega) hlt
    unfold customport_loop
    rw [hb1]
    exact ih (customport + 1) b1 (by omega) (by omega) (by omega)

theorem build_ports_go (c : Config) (hfit : c.recon_fits) (query : List queries) :
    ∃ bs, build_ports c query (parse_includeexisting query) (parse_termsaccepted query)
      = Stage.go bs := by
  obtain ⟨recon, size, hrb, hlo, hhi⟩ := recon_begin_go c (parse_includeexisting query)
    (parse_termsaccepted query) (parse_includeexisting_range query)
    (parse_termsaccepted_range query) (by have := hfit.2.2.2.1; omega) hfit.2.2.2.2
  unfold build_ports
  rw [hrb]
  exact customport_loop_go c query hfit c.NUMUSERDEFPORTS 0 _ (by omega)
    (by have := hfit.2.2.2.1; simp only; omega) (by simp only; omega)

/-! ## How `main` composes its parts -/

theorem main_of_request_done (c : Config) (fuel : Nat) (env : Env) (page : Page)
    (h : request_stage c fuel env = some (Stage.done page)) :
    main c fuel env = some ⟨[Event.html page], EXIT_SUCCESS⟩ := by
  simp [main, h, World.call_time, World.init, World.emit]

theorem main_of_remote_done (c : Config) (fuel : Nat) (env : Env) (query : List queries)
    (page : Page) (h1 : request_stage c fuel env = some (Stage.go query))
    (h2 : remote_stage c env = Stage.done page) :
    main c fuel env = some ⟨[Event.html page], EXIT_SUCCESS⟩ := by
  simp [main, h1, h2, World.call_time, World.init, World.emit]

theorem main_of_dispatch (c : Config) (fuel : Nat) (env : Env) (query : List queries)
    (a b : Nat) (early : Bool) (w : World)
    (h1 : request_stage c fuel env = some (Stage.go query))
    (h2 : remote_stage c env = Stage.go (a, b))
    (h3 : dispatch c env fuel query a b (env.time 0) ⟨[], 1, 0, 0, 0, 0⟩ = some (early, w)) :
    main c fuel env =
      some ⟨if early then w.trace else w.trace ++ tidy_events env, EXIT_SUCCESS⟩ := by
  cases early
  · by_cases ht : env.time 0 > 0 <;>
      simp [main, h1, h2, World.call_time, World.init, h3, tidy_events, ht, World.emit]
  · simp [main, h1, h2, World.call_time, World.init, h3]

theorem dispatch_of_mode (c : Config) (env : Env) (fuel : Nat) (query : List queries)
    (a b : Nat) (starttime : Int) (w : World) (bs : build_state) (hq : query ≠ [])
    (hb : build_ports c query (parse_includeexisting query) (parse_termsaccepted query)
      = Stage.go bs) :
    dispatch c env fuel query a b starttime w =
      run_mode c env fuel a b starttime (parse_params c query bs) bs w
        (select_mode c (parse_params c query bs)) := by
  unfold dispatch
  rw [if_neg (by simpa using hq), hb]

theorem dispatch_of_build_done (c : Config) (env : Env) (fuel : Nat) (query : List queries)
    (a b : Nat) (starttime : Int) (w : World) (page : Page) (hq : query ≠ [])
    (hb : build_ports c query (parse_includeexisting query) (parse_termsaccepted query)
      = Stage.done page) :
    dispatch c env fuel query a b starttime w = some (true, w.emit (Event.html page)) := by
  unfold dispatch
  rw [if_neg (by simpa using hq), hb]

theorem main_of_empty_query (c : Config) (fuel : Nat) (env : Env) (a b : Nat)
    (hreq : request_stage c fuel env = some (Stage.go []))
    (hrem : remote_stage c env = Stage.go (a, b)) :
    main c fuel env = some ⟨Event.html Page.form :: tidy_events env, EXIT_SUCCESS⟩ := by
  have hd : dispatch c env fuel [] a b (env.time 0) ⟨[], 1, 0, 0, 0, 0⟩
      = some (false, World.emit ⟨[], 1, 0, 0, 0, 0⟩ (Event.html Page.form)) := by
    unfold dispatch
    rw [if_pos List.length_nil]
  rw [main_of_dispatch c fuel env [] a b false _ hreq hrem hd]
  simp [World.emit]

/-! ## Facts about the parsed parameters -/

theorem find_query_some (name : CStr) (n : Nat) (query : List queries) (q : queries)
    (h : find_query name n query = some q) :
    q ∈ query ∧ name.take n = q.varname.take n := by
  unfold find_query at h
  refine ⟨List.mem_of_find?_eq_some h, ?_⟩
  have := List.find?_some h
  simpa [strncmp_eq] using this

theorem find_query_head2 (name : CStr) (n : Nat) (query : List queries) (q : queries)
    (hn : 2 ≤ n) (h : find_query name n query = some q) :
    q.varname.take 2 = name.take 2 := by
  have h2 := (find_query_some name n query q h).2
  have e1 : (q.varname.take n).take 2 = q.varname.take 2 := by
    rw [List.take_take, Nat.min_eq_left hn]
  have e2 : (name.take n).take 2 = name.take 2 := by
    rw [List.take_take, Nat.min_eq_left hn]
  rw [← e1, ← h2, e2]

theorem parse_termsaccepted_found (query : List queries) (h : parse_termsaccepted query = 1) :
    ∃ q, find_query (lit "termsaccepted") 13 query = some q := by
  unfold parse_termsaccepted at h
  split at h
  · exact ⟨_, by assumption⟩
  · simp at h

theorem parse_includeexisting_found (query : List queries) (h : parse_includeexisting query ≠ 0) :
    ∃ q, find_query (lit "includeexisting") 15 query = some q := by
  unfold parse_includeexisting at h
  split at h
  · exact ⟨_, by assumption⟩
  · simp at h

theorem parse_querystarttime_found (query : List queries) (h : 0 ≤ parse_querystarttime query) :
    ∃ q, find_query (lit "starttime") 9 query = some q := by
  unfold parse_querystarttime at h
  split at h
  · exact ⟨_, by assumption⟩
  · simp at h

theorem parse_querysession_found (query : List queries) (h : 0 ≤ parse_querysession query) :
    ∃ q, find_query (lit "session") 7 query = some q := by
  unfold parse_querysession at h
  split at h
  · exact ⟨_, by assumption⟩
  · simp at h

theorem five_entries (query : List queries) (qf : queries)
    (hterms : parse_termsaccepted query = 1) (hie : parse_includeexisting query ≠ 0)
    (hst : 0 ≤ parse_querystarttime query) (hse : 0 ≤ parse_querysession query)
    (hf : find_query (lit "fetch") 5 query = some qf) : 5 ≤ query.length := by
  obtain ⟨q1, h1⟩ := parse_termsaccepted_found query hterms
  obtain ⟨q2, h2⟩ := parse_includeexisting_found query hie
  obtain ⟨q3, h3⟩ := parse_querystarttime_found query hst
  obtain ⟨q4, h4⟩ := parse_querysession_found query hse
  have k1 := find_query_head2 _ _ _ _ (by decide) h1
  have k2 := find_query_head2 _ _ _ _ (by decide) h2
  have k3 := find_query_head2 _ _ _ _ (by decide) h3
  have k4 := find_query_head2 _ _ _ _ (by decide) h4
  have k5 := find_query_head2 _ _ _ _ (by decide) hf
  have hnd : [q1, q2, q3, q4, qf].Nodup := by
    apply List.Nodup.of_map (fun q : queries => q.varname.take 2)
    simp only [List.map, k1, k2, k3, k4, k5]
    decide
  have hsub : [q1, q2, q3, q4, qf] ⊆ query := by
    intro x hx
    simp only [List.mem_cons, List.mem_singleton, List.not_mem_nil, or_false] at hx
    rcases hx with rfl | rfl | rfl | rfl | rfl
    · exact (find_query_some _ _ _ _ h1).1
    · exact (find_query_some _ _ _ _ h2).1
    · exact (find_query_some _ _ _ _ h3).1
    · exact (find_query_some _ _ _ _ h4).1
    · exact (find_query_some _ _ _ _ hf).1
  exact (List.subperm_of_subset hnd hsub).length_le

theorem tidy_events_harmless (env : Env) : ∀ e ∈ tidy_events env,
    e.is_probe = false ∧ e.is_keyed_store_op = false ∧ e.is_store_change = false
      ∧ e.is_json_dump = false ∧ e.is_html = false := by
  intro e he
  unfold tidy_events at he
  split_ifs at he
  · simp only [List.mem_singleton] at he
    subst he
    exact ⟨rfl, rfl, rfl, rfl, rfl⟩
  · simp at he

theorem main_of_page_mode (c : Config) (fuel : Nat) (env : Env) (query : List queries)
    (a b : Nat) (bs : build_state) (page : Page)
    (hreq : request_stage c fuel env = some (Stage.go query))
    (hrem : remote_stage c env = Stage.go (a, b)) (hq : query ≠ [])
    (hb : build_ports c query (parse_includeexisting query) (parse_termsaccepted query)
      = Stage.go bs)
    (hmode : run_mode c env fuel a b (env.time 0) (parse_params c query bs) bs
        ⟨[], 1, 0, 0, 0, 0⟩ (select_mode c (parse_params c query bs))
      = some (false, World.emit ⟨[], 1, 0, 0, 0, 0⟩ (Event.html page))) :
    main c fuel env = some ⟨Event.html page :: tidy_events env, EXIT_SUCCESS⟩ := by
  have hd := dispatch_of_mode c env fuel query a b (env.time 0) ⟨[], 1, 0, 0, 0, 0⟩ bs hq hb
  rw [hmode] at hd
  rw [main_of_dispatch c fuel env query a b false _ hreq hrem hd]
  simp [World.emit]

theorem select_mode_terms (c : Config) (p : Params) (h : p.termsaccepted = 0) :
    select_mode c p = Mode.terms_not_accepted := by
  unfold select_mode
  simp [h]

theorem remote_stage_done_page (c : Config) (env : Env) (page : Page)
    (h : remote_stage c env = Stage.done page) :
    page = Page.remote_addr_too_long ∨ page = Page.unparseable_address := by
  unfold remote_stage at h
  split at h
  · simp at h
  · split_ifs at h
    · left; simpa using h.symm
    · split at h
      · simp at h
      · split at h
        · right; simpa using h.symm
        · simp at h

/-- C6, as stated, fails: a GET request from an IPv4 client (`REMOTE_ADDR` 192.0.2.1, which
`inet_pton(AF_INET6, ...)` rejects) with the query `termsaccepted=0` has one parsed entry and
a `termsaccepted` flag of 0, yet `main` answers with the unparseable-address page and not
with the terms-not-accepted page. -/
theorem c6_ipv4_client_gets_address_page :
    request_stage refConfig 10 (sample_env "GET" "termsaccepted=0" "192.0.2.1" 0)
        = some (Stage.go [⟨lit "termsaccepted", 0, 1⟩])
      ∧ parse_termsaccepted [⟨lit "termsaccepted", 0, 1⟩] = 0
      ∧ main refConfig 10 (sample_env "GET" "termsaccepted=0" "192.0.2.1" 0)
          = some ⟨[Event.html Page.unparseable_address], EXIT_SUCCESS⟩ := by
  decide

/-- C6, amended: for every GET request that the splitting loop turned into at least one
entry and whose parsed `termsaccepted` flag is not 1, `main` returns, launches no ICMPv6,
UDP or TCP probe and performs no write, update, dump or delete; when `REMOTE_ADDR` passes
the address checks the page sent is the terms-not-accepted page, otherwise it is the
`REMOTE_ADDR` error page. -/
theorem c6_terms_not_accepted (c : Config) (fuel : Nat) (env : Env) (query : List queries)
    (hfit : c.recon_fits) (hreq : request_stage c fuel env = some (Stage.go query))
    (hq : query ≠ []) (hterms : parse_termsaccepted query ≠ 1) :
    ∃ out, main c fuel env = some out ∧ out.status = EXIT_SUCCESS
      ∧ (∀ e ∈ out.trace, e.is_probe = false ∧ e.is_store_change = false)
      ∧ (∀ a b, remote_stage c env = Stage.go (a, b) →
          out.trace = Event.html Page.terms_not_accepted :: tidy_events env)
      ∧ (∀ page, remote_stage c env = Stage.done page →
          out.trace = [Event.html page]
            ∧ (page = Page.remote_addr_too_long ∨ page = Page.unparseable_address)) := by
  have hzero : parse_termsaccepted query = 0 := by
    rcases parse_termsaccepted_range query with h | h
    · exact absurd h hterms
    · exact h
  cases hrem : remote_stage c env with
  | done page =>
    refine ⟨_, main_of_remote_done c fuel env query page hreq hrem, rfl, ?_, ?_, ?_⟩
    · intro e he
      simp only [List.mem_singleton] at he
      subst he
      exact ⟨rfl, rfl⟩
    · intro a b h; simp at h
    · intro page' h
      have : page' = page := by simpa using h.symm
      subst this
      exact ⟨rfl, remote_stage_done_page c env _ hrem⟩
  | go ab =>
    obtain ⟨a, b⟩ := ab
    obtain ⟨bs, hb⟩ := build_ports_go c hfit query
    have hmode : select_mode c (parse_params c query bs) = Mode.terms_not_accepted :=
      select_mode_terms c _ hzero
    have hmain := main_of_page_mode c fuel env query a b bs Page.terms_not_accepted hreq hrem hq hb
      (by rw [hmode]; rfl)
    refine ⟨_, hmain, rfl, ?_, ?_, ?_⟩
    · intro e he
      simp only [List.mem_cons] at he
      rcases he with rfl | he
      · exact ⟨rfl, rfl⟩
      · have := tidy_events_harmless env e he
        exact ⟨this.1, this.2.2.1⟩
    · intro a' b' _; rfl
    · intro page h; simp at h

/-- C6, amended, at a concrete point: the constants of `refConfig` and the request
`termsaccepted=0&includeexisting=1` from the client `::1`. -/
theorem c6_terms_not_accepted_witness :
    ∃ out, main refConfig 10 (sample_env "GET" "termsaccepted=0&includeexisting=1" "::1" 0) = some out
      ∧ out.status = EXIT_SUCCESS
      ∧ (∀ e ∈ out.trace, e.is_probe = false ∧ e.is_store_change = false)
      ∧ (∀ a b, remote_stage refConfig (sample_env "GET" "termsaccepted=0&includeexisting=1" "::1" 0)
            = Stage.go (a, b) →
          out.trace = Event.html Page.terms_not_accepted
            :: tidy_events (sample_env "GET" "termsaccepted=0&includeexisting=1" "::1" 0))
      ∧ (∀ page, remote_stage refConfig (sample_env "GET" "termsaccepted=0&includeexisting=1" "::1" 0)
            = Stage.done page →
          out.trace = [Event.html page]
            ∧ (page = Page.remote_addr_too_long ∨ page = Page.unparseable_address)) :=
  c6_terms_not_accepted refConfig 10 (sample_env "GET" "termsaccepted=0&includeexisting=1" "::1" 0)
    [⟨lit "termsaccepted", 0, 1⟩, ⟨lit "includeexisting", 1, 1⟩] (by decide) (by decide)
    (by decide) (by decide)

theorem parse_includeexisting_unusable (query : List queries)
    (h : includeexisting_unusable query) : parse_includeexisting query = 0 := by
  unfold includeexisting_unusable at h
  unfold parse_includeexisting
  split
  · rename_i q hq
    rw [hq] at h
    simp only at h
    rcases h with h | ⟨hlo, hhi, h1, h2⟩
    · rw [if_neg h]
    · split_ifs with hv habs
      · exfalso
        have hto : to_int q.varval = q.varval := by unfold to_int; omega
        rcases c_abs_to_int_eq_one _ habs with h | h
        · rw [hto] at h; exact h1 h
        · rw [hto] at h; exact h2 h
      · rfl
      · rfl
  · rfl

theorem select_mode_no_includeexisting (c : Config) (p : Params) (h : p.includeexisting = 0) :
    select_mode c p =
      if p.termsaccepted = 0 then Mode.terms_not_accepted else Mode.nothing_useful := by
  unfold select_mode
  simp [h]

/-- C10, as stated, fails: with the constants of `refConfig` the non-empty queries
`includeexisting=0` and `includeexisting=2&termsaccepted=1` are answered with the
terms-not-accepted page and with the nothing-useful page, not with the introductory form. -/
theorem c10_no_form_for_bad_includeexisting :
    main refConfig 10 (sample_env "GET" "includeexisting=0" "::1" 0)
        = some ⟨[Event.html Page.terms_not_accepted, Event.tidy_up_db 1700000000], EXIT_SUCCESS⟩
      ∧ main refConfig 10 (sample_env "GET" "includeexisting=2&termsaccepted=1" "::1" 0)
        = some ⟨[Event.html Page.nothing_useful, Event.tidy_up_db 1700000000], EXIT_SUCCESS⟩ := by
  decide

/-- C10, amended: for every request that the splitting loop turned into the entries
`query` and whose `includeexisting` parameter is absent, not a number, or a value of the
range of `int` other than +1 and -1, `main` returns without a probe, a store operation
keyed by a session tuple or a JSON answer; when `REMOTE_ADDR` passes the address checks the
one page sent is the introductory form if there is no entry at all, and with at least one
entry the terms-not-accepted page if the `termsaccepted` flag is 0 and the nothing-useful
page otherwise; when `REMOTE_ADDR` fails them the one page sent is its error page. -/
theorem c10_bad_includeexisting (c : Config) (fuel : Nat) (env : Env) (query : List queries)
    (hfit : c.recon_fits) (hreq : request_stage c fuel env = some (Stage.go query))
    (hie : includeexisting_unusable query) :
    ∃ out, main c fuel env = some out ∧ out.status = EXIT_SUCCESS
      ∧ (∀ e ∈ out.trace, e.is_probe = false ∧ e.is_keyed_store_op = false
          ∧ e.is_json_dump = false)
      ∧ (∀ a b, remote_stage c env = Stage.go (a, b) →
          out.trace = Event.html (if query = [] then Page.form
            else if parse_termsaccepted query = 0 then Page.terms_not_accepted
            else Page.nothing_useful) :: tidy_events env)
      ∧ (∀ page, remote_stage c env = Stage.done page →
          out.trace = [Event.html page]
            ∧ (page = Page.remote_addr_too_long ∨ page = Page.unparseable_address)) := by
  have hzero := parse_includeexisting_unusable query hie
  have hev : ∀ (page : Page), ∀ e ∈ Event.html page :: tidy_events env,
      e.is_probe = false ∧ e.is_keyed_store_op = false ∧ e.is_json_dump = false := by
    intro page e he
    simp only [List.mem_cons] at he
    rcases he with rfl | he
    · exact ⟨rfl, rfl, rfl⟩
    · have := tidy_events_harmless env e he
      exact ⟨this.1, this.2.1, this.2.2.2.1⟩
  cases hrem : remote_stage c env with
  | done page =>
    refine ⟨_, main_of_remote_done c fuel env query page hreq hrem, rfl, ?_, ?_, ?_⟩
    · intro e he
      simp only [List.mem_singleton] at he
      subst he
      exact ⟨rfl, rfl, rfl⟩
    · intro a b h; simp at h
    · intro page' h
      have : page' = page := by simpa using h.symm
      subst this
      exact ⟨rfl, remote_stage_done_page c env _ hrem⟩
  | go ab =>
    obtain ⟨a, b⟩ := ab
    by_cases hq : query = []
    · subst hq
      refine ⟨_, main_of_empty_query c fuel env a b hreq hrem, rfl, hev _, ?_, ?_⟩
      · intro a' b' _; rw [if_pos rfl]
      · intro page h; simp at h
    · obtain ⟨bs, hb⟩ := build_ports_go c hfit query
      have hmode := select_mode_no_includeexisting c (parse_params c query bs) hzero
      have hmain := main_of_page_mode c fuel env query a b bs
        (if parse_termsaccepted query = 0 then Page.terms_not_accepted else Page.nothing_useful)
        hreq hrem hq hb
        (by rw [hmode]
            show run_mode c env fuel a b (env.time 0) (parse_params c query bs) bs _
              (if parse_termsaccepted query = 0 then Mode.terms_not_accepted
                else Mode.nothing_useful) = _
            split_ifs <;> rfl)
      refine ⟨_, hmain, rfl, hev _, ?_, ?_⟩
      · intro a' b' _; rw [if_neg hq]
      · intro page h; simp at h

/-- C10, amended, at a concrete point: the constants of `refConfig` and the request
`includeexisting=-2&termsaccepted=1` from the client `::1`. -/
theorem c10_bad_includeexisting_witness :
    ∃ out, main refConfig 10 (sample_env "GET" "includeexisting=-2&termsaccepted=1" "::1" 0) = some out
      ∧ out.status = EXIT_SUCCESS
      ∧ (∀ e ∈ out.trace, e.is_probe = false ∧ e.is_keyed_store_op = false
          ∧ e.is_json_dump = false)
      ∧ (∀ a b, remote_stage refConfig (sample_env "GET" "includeexisting=-2&termsaccepted=1" "::1" 0)
            = Stage.go (a, b) →
          out.trace = Event.html
            (if [queries.mk (lit "includeexisting") (-2) 1, ⟨lit "termsaccepted", 1, 1⟩] = [] then
              Page.form
            else if parse_termsaccepted [⟨lit "includeexisting", -2, 1⟩, ⟨lit "termsaccepted", 1, 1⟩] = 0
              then Page.terms_not_accepted else Page.nothing_useful)
            :: tidy_events (sample_env "GET" "includeexisting=-2&termsaccepted=1" "::1" 0))
      ∧ (∀ page, remote_stage refConfig (sample_env "GET" "includeexisting=-2&termsaccepted=1" "::1" 0)
            = Stage.done page →
          out.trace = [Event.html page]
            ∧ (page = Page.remote_addr_too_long ∨ page = Page.unparseable_address)) :=
  c10_bad_includeexisting refConfig 10
    (sample_env "GET" "includeexisting=-2&termsaccepted=1" "::1" 0)
    [⟨lit "includeexisting", -2, 1⟩, ⟨lit "termsaccepted", 1, 1⟩] (by decide) (by decide)
    (by decide)

theorem main_when_terms_zero (c : Config) (fuel : Nat) (env : Env) (query : List queries)
    (hfit : c.recon_fits) (hreq : request_stage c fuel env = some (Stage.go query))
    (hzero : parse_termsaccepted query = 0) :
    main c fuel env = some ⟨Event.html (if query = [] then Page.form
        else Page.terms_not_accepted) :: tidy_events env, EXIT_SUCCESS⟩
      ∨ ∃ page, main c fuel env = some ⟨[Event.html page], EXIT_SUCCESS⟩
          ∧ (page = Page.remote_addr_too_long ∨ page = Page.unparseable_address) := by
  cases hrem : remote_stage c env with
  | done page =>
    exact Or.inr ⟨page, main_of_remote_done c fuel env query page hreq hrem,
      remote_stage_done_page c env _ hrem⟩
  | go ab =>
    obtain ⟨a, b⟩ := ab
    by_cases hq : query = []
    · subst hq
      rw [if_pos rfl]
      exact Or.inl (main_of_empty_query c fuel env a b hreq hrem)
    · rw [if_neg hq]
      obtain ⟨bs, hb⟩ := build_ports_go c hfit query
      have hmode : select_mode c (parse_params c query bs) = Mode.terms_not_accepted :=
        select_mode_terms c _ hzero
      exact Or.inl (main_of_page_mode c fuel env query a b bs Page.terms_not_accepted hreq hrem
        hq hb (by rw [hmode]; rfl))

/-- C9, as stated, fails: the value -1 sets the flag. The query `termsaccepted=-1` is split
into one valid entry of value -1, `termsaccepted` is parsed as 1, and with the constants of
`refConfig` a request carrying it together with `includeexisting=1` and the four custom
ports is answered with the start page. -/
theorem c9_minus_one_sets_flag :
    split_query refConfig 10 (lit "termsaccepted=-1") = some [⟨lit "termsaccepted", -1, 1⟩]
      ∧ parse_termsaccepted [⟨lit "termsaccepted", -1, 1⟩] = 1
      ∧ main refConfig 10 (sample_env "GET"
          "includeexisting=1&termsaccepted=-1&customport0=1&customport1=2&customport2=3&customport3=4"
          "::1" 0)
        = some ⟨[Event.html Page.start_page, Event.tidy_up_db 1700000000], EXIT_SUCCESS⟩ := by
  decide

/-- C9, amended: the parsed `termsaccepted` flag is 0 or 1; it is 0 when the parameter is
absent or not a number; for a value of the range of `int` it is 1 if and only if the value
is +1 or -1; and when the flag is 0 the request is answered by one page only (the form for
a query without entries, else the terms-not-accepted page, or a `REMOTE_ADDR` error page),
without a probe, a store operation keyed by a session tuple, a JSON answer or the start
page. -/
theorem c9_termsaccepted_flag (c : Config) (fuel : Nat) (env : Env) (query : List queries)
    (hfit : c.recon_fits) (hreq : request_stage c fuel env = some (Stage.go query)) :
    (parse_termsaccepted query = 1 ∨ parse_termsaccepted query = 0)
      ∧ (find_query (lit "termsaccepted") 13 query = none → parse_termsaccepted query = 0)
      ∧ (∀ q, find_query (lit "termsaccepted") 13 query = some q → q.valid ≠ 1 →
          parse_termsaccepted query = 0)
      ∧ (∀ q, find_query (lit "termsaccepted") 13 query = some q → q.valid = 1 →
          -2147483648 ≤ q.varval → q.varval < 2147483648 →
          (parse_termsaccepted query = 1 ↔ (q.varval = 1 ∨ q.varval = -1)))
      ∧ (parse_termsaccepted query = 0 →
          ∃ out, main c fuel env = some out ∧ out.status = EXIT_SUCCESS
            ∧ ∀ e ∈ out.trace, e.is_probe = false ∧ e.is_keyed_store_op = false
                ∧ e.is_json_dump = false ∧ e ≠ Event.html Page.start_page) := by
  refine ⟨parse_termsaccepted_range query, ?_, ?_, ?_, ?_⟩
  · intro h
    simp [parse_termsaccepted, h]
  · intro q h hv
    simp [parse_termsaccepted, h, hv]
  · intro q h hv hlo hhi
    have hto : to_int q.varval = q.varval := by unfold to_int; omega
    simp only [parse_termsaccepted, h, hv, if_true, hto]
    constructor
    · intro h1
      split_ifs at h1 with habs
      · have := c_abs_to_int_eq_one q.varval (by rw [hto]; exact habs)
        rw [hto] at this
        exact this
      · simp at h1
    · intro h1
      rcases h1 with h1 | h1 <;> rw [h1] <;> decide
  · intro hzero
    rcases main_when_terms_zero c fuel env query hfit hreq hzero with h | ⟨page, h, hp⟩
    · refine ⟨_, h, rfl, ?_⟩
      intro e he
      simp only [List.mem_cons] at he
      rcases he with rfl | he
      · refine ⟨rfl, rfl, rfl, ?_⟩
        split_ifs <;> simp
      · have := tidy_events_harmless env e he
        refine ⟨this.1, this.2.1, this.2.2.2.1, ?_⟩
        intro heq
        rw [heq] at this
        simp [Event.is_html] at this
    · refine ⟨_, h, rfl, ?_⟩
      intro e he
      simp only [List.mem_singleton] at he
      subst he
      refine ⟨rfl, rfl, rfl, ?_⟩
      rcases hp with rfl | rfl <;> simp

/-- C9, amended, at a concrete point: the constants of `refConfig` and the request
`termsaccepted=2&includeexisting=1` from the client `::1`. -/
theorem c9_termsaccepted_flag_witness :
    (parse_termsaccepted [⟨lit "termsaccepted", 2, 1⟩, ⟨lit "includeexisting", 1, 1⟩] = 1
        ∨ parse_termsaccepted [⟨lit "termsaccepted", 2, 1⟩, ⟨lit "includeexisting", 1, 1⟩] = 0)
      ∧ (find_query (lit "termsaccepted") 13
            [⟨lit "termsaccepted", 2, 1⟩, ⟨lit "includeexisting", 1, 1⟩] = none →
          parse_termsaccepted [⟨lit "termsaccepted", 2, 1⟩, ⟨lit "includeexisting", 1, 1⟩] = 0)
      ∧ (∀ q, find_query (lit "termsaccepted") 13
            [⟨lit "termsaccepted", 2, 1⟩, ⟨lit "includeexisting", 1, 1⟩] = some q → q.valid ≠ 1 →
          parse_termsaccepted [⟨lit "termsaccepted", 2, 1⟩, ⟨lit "includeexisting", 1, 1⟩] = 0)
      ∧ (∀ q, find_query (lit "termsaccepted") 13
            [⟨lit "termsaccepted", 2, 1⟩, ⟨lit "includeexisting", 1, 1⟩] = some q → q.valid = 1 →
          -2147483648 ≤ q.varval → q.varval < 2147483648 →
          (parse_termsaccepted [⟨lit "termsaccepted", 2, 1⟩, ⟨lit "includeexisting", 1, 1⟩] = 1
            ↔ (q.varval = 1 ∨ q.varval = -1)))
      ∧ (parse_termsaccepted [⟨lit "termsaccepted", 2, 1⟩, ⟨lit "includeexisting", 1, 1⟩] = 0 →
          ∃ out, main refConfig 10 (sample_env "GET" "termsaccepted=2&includeexisting=1" "::1" 0)
              = some out ∧ out.status = EXIT_SUCCESS
            ∧ ∀ e ∈ out.trace, e.is_probe = false ∧ e.is_keyed_store_op = false
                ∧ e.is_json_dump = false ∧ e ≠ Event.html Page.start_page) :=
  c9_termsaccepted_flag refConfig 10 (sample_env "GET" "termsaccepted=2&includeexisting=1" "::1" 0)
    [⟨lit "termsaccepted", 2, 1⟩, ⟨lit "includeexisting", 1, 1⟩] (by decide) (by decide)

theorem updated_values_tidy (env : Env) : updated_values (tidy_events env) = [] := by
  unfold tidy_events
  split_ifs <;> rfl

theorem completion_report_no_json (c : Config) (env : Env) (a b t s : Nat) (fetchnum : Int) :
    ∀ e ∈ (completion_report c env a b t s fetchnum ⟨[], 1, 0, 0, 0, 0⟩).trace,
      e.is_json_dump = false ∧ e.is_probe = false := by
  intro e he
  rw [completion_report_trace] at he
  simp only [List.nil_append, List.mem_append, List.mem_cons, List.mem_singleton,
    List.not_mem_nil, or_false] at he
  rcases he with ((rfl | rfl) | he) | rfl
  · exact ⟨rfl, rfl⟩
  · exact ⟨rfl, rfl⟩
  · split_ifs at he
    · simp only [List.mem_singleton] at he
      subst he
      exact ⟨rfl, rfl⟩
    · simp at he
  · exact ⟨rfl, rfl⟩

/-- C5, as stated, fails: with the constants of `refConfig` (where
`IPSCAN_SUCCESSFUL_COMPLETION` is 990) a javascript-mode request with `termsaccepted=1`,
`includeexisting=1`, `starttime=5`, `session=6`, no `beginscan` and `fetch=4096` is answered
with the JSON dump of the rows and updates no test-state row: `fetchnum` only takes values
below 4096. -/
theorem c5_large_fetch_gets_json_dump :
    refConfig.IPSCAN_SUCCESSFUL_COMPLETION ≤ 4096
      ∧ main refConfig 10 (sample_env "GET"
          "includeexisting=1&termsaccepted=1&starttime=5&session=6&fetch=4096" "::1" 1)
        = some ⟨[Event.create_json_header, Event.dump_db 0 1 5 6, Event.tidy_up_db 1700000000],
            EXIT_SUCCESS⟩ := by
  decide

/-- C5, amended: in javascript mode, for every request that the splitting loop turned into
the entries `query`, whose `REMOTE_ADDR` passes the address checks, with `termsaccepted`
parsed as 1, `includeexisting` as +1 or -1, non-negative `starttime` and `session`, no
`beginscan`, and a `fetch` value `v` with `IPSCAN_SUCCESSFUL_COMPLETION ≤ v < 4096`, `main`
runs the completion-report branch with `fetchnum = v`: it hands the updated test-state of
the session tuple to `update_db` and sends no JSON header and no dump. -/
theorem c5_completion_event (c : Config) (fuel : Nat) (env : Env) (query : List queries)
    (a b : Nat) (q : queries) (hjs : c.TEXTMODE ≠ 1) (hfit : c.recon_fits)
    (hpos : 0 < c.IPSCAN_SUCCESSFUL_COMPLETION)
    (hreq : request_stage c fuel env = some (Stage.go query))
    (hrem : remote_stage c env = Stage.go (a, b))
    (hterms : parse_termsaccepted query = 1)
    (hie : parse_includeexisting query = 1 ∨ parse_includeexisting query = -1)
    (hst : 0 ≤ parse_querystarttime query) (hse : 0 ≤ parse_querysession query)
    (hbs : parse_beginscan c query = 0)
    (hf : find_query (lit "fetch") 5 query = some q) (hv : q.valid = 1)
    (hlo : c.IPSCAN_SUCCESSFUL_COMPLETION ≤ q.varval) (hhi : q.varval < 4096) :
    ∃ out, main c fuel env = some out ∧ out.status = EXIT_SUCCESS
      ∧ out.trace = (completion_report c env a b (to_uint64 (parse_querystarttime query))
            (to_uint64 (parse_querysession query)) q.varval ⟨[], 1, 0, 0, 0, 0⟩).trace
          ++ tidy_events env
      ∧ updated_values out.trace
          = [apply_fetchnum c (state_after_read c (env.read_db_result 0)) q.varval]
      ∧ Event.update_db a b (to_uint64 (parse_querystarttime query))
            (to_uint64 (parse_querysession query)) (teststate_key c)
            (apply_fetchnum c (state_after_read c (env.read_db_result 0)) q.varval) ∈ out.trace
      ∧ ∀ e ∈ out.trace, e.is_json_dump = false ∧ e.is_probe = false := by
  have hie0 : parse_includeexisting query ≠ 0 := by rcases hie with h | h <;> rw [h] <;> decide
  have hlen := five_entries query q hterms hie0 hst hse hf
  have hq : query ≠ [] := by
    intro h; rw [h] at hlen; simp at hlen
  obtain ⟨bs, hb⟩ := build_ports_go c hfit query
  have hfetch : parse_fetch query = 1 := by
    simp only [parse_fetch, hf, hv, if_true]
    rw [if_pos (by omega)]
  have hfn : parse_fetchnum query = q.varval := by
    have hto : to_int q.varval = q.varval := by unfold to_int; omega
    have hgt : q.varval > 0 := by omega
    simp [parse_fetchnum, hf, hv, hgt, hhi, hto]
  have hmode : select_mode c (parse_params c query bs) = Mode.completion_report := by
    unfold select_mode
    rw [if_neg hjs, if_pos]
    simp only [parse_params, if_neg hjs, hfetch, hfn, hterms, hbs]
    exact ⟨hlen, hse, hst, trivial, trivial, trivial, hie0, hlo⟩
  have hd := dispatch_of_mode c env fuel query a b (env.time 0) ⟨[], 1, 0, 0, 0, 0⟩ bs hq hb
  rw [hmode] at hd
  have hmain := main_of_dispatch c fuel env query a b false _ hreq hrem hd
  have hp : (parse_params c query bs).fetchnum = q.varval := by
    simp only [parse_params, if_neg hjs, hfn]
  have hp1 : (parse_params c query bs).querystarttime = parse_querystarttime query := rfl
  have hp2 : (parse_params c query bs).querysession = parse_querysession query := rfl
  rw [hp, hp1, hp2] at hmain
  refine ⟨_, hmain, rfl, by simp, ?_, ?_, ?_⟩
  · simp only [Bool.false_eq_true, if_false]
    rw [updated_values_append, completion_report_updated, updated_values_tidy]
    simp [updated_values]
  · simp only [Bool.false_eq_true, if_false]
    rw [completion_report_trace]
    simp
  · intro e he
    simp only [Bool.false_eq_true, if_false, List.mem_append] at he
    rcases he with he | he
    · exact completion_report_no_json c env a b _ _ _ e he
    · have := tidy_events_harmless env e he
      exact ⟨this.2.2.2.1, this.1⟩

/-- C5, amended, at a concrete point: the constants of `refConfig` and the request
`includeexisting=1&termsaccepted=1&starttime=5&session=6&fetch=995` from the client `::1`,
whose test-state row reads `RUNNING`. -/
theorem c5_completion_event_witness :
    ∃ out, main refConfig 10 (sample_env "GET"
          "includeexisting=1&termsaccepted=1&starttime=5&session=6&fetch=995" "::1" 1) = some out
      ∧ out.status = EXIT_SUCCESS
      ∧ out.trace = (completion_report refConfig (sample_env "GET"
              "includeexisting=1&termsaccepted=1&starttime=5&session=6&fetch=995" "::1" 1) 0 1
            (to_uint64 (parse_querystarttime
              [⟨lit "includeexisting", 1, 1⟩, ⟨lit "termsaccepted", 1, 1⟩, ⟨lit "starttime", 5, 1⟩,
               ⟨lit "session", 6, 1⟩, ⟨lit "fetch", 995, 1⟩]))
            (to_uint64 (parse_querysession
              [⟨lit "includeexisting", 1, 1⟩, ⟨lit "termsaccepted", 1, 1⟩, ⟨lit "starttime", 5, 1⟩,
               ⟨lit "session", 6, 1⟩, ⟨lit "fetch", 995, 1⟩]))
            (queries.mk (lit "fetch") 995 1).varval ⟨[], 1, 0, 0, 0, 0⟩).trace
          ++ tidy_events (sample_env "GET"
              "includeexisting=1&termsaccepted=1&starttime=5&session=6&fetch=995" "::1" 1)
      ∧ updated_values out.trace
          = [apply_fetchnum refConfig (state_after_read refConfig
              ((sample_env "GET"
                "includeexisting=1&termsaccepted=1&starttime=5&session=6&fetch=995" "::1"
                1).read_db_result 0)) (queries.mk (lit "fetch") 995 1).varval]
      ∧ Event.update_db 0 1
            (to_uint64 (parse_querystarttime
              [⟨lit "includeexisting", 1, 1⟩, ⟨lit "termsaccepted", 1, 1⟩, ⟨lit "starttime", 5, 1⟩,
               ⟨lit "session", 6, 1⟩, ⟨lit "fetch", 995, 1⟩]))
            (to_uint64 (parse_querysession
              [⟨lit "includeexisting", 1, 1⟩, ⟨lit "termsaccepted", 1, 1⟩, ⟨lit "starttime", 5, 1⟩,
               ⟨lit "session", 6, 1⟩, ⟨lit "fetch", 995, 1⟩]))
            (teststate_key refConfig)
            (apply_fetchnum refConfig (state_after_read refConfig
              ((sample_env "GET"
                "includeexisting=1&termsaccepted=1&starttime=5&session=6&fetch=995" "::1"
                1).read_db_result 0)) (queries.mk (lit "fetch") 995 1).varval) ∈ out.trace
      ∧ ∀ e ∈ out.trace, e.is_json_dump = false ∧ e.is_probe = false :=
  c5_completion_event refConfig 10
    (sample_env "GET" "includeexisting=1&termsaccepted=1&starttime=5&session=6&fetch=995" "::1" 1)
    [⟨lit "includeexisting", 1, 1⟩, ⟨lit "termsaccepted", 1, 1⟩, ⟨lit "starttime", 5, 1⟩,
     ⟨lit "session", 6, 1⟩, ⟨lit "fetch", 995, 1⟩]
    0 1 ⟨lit "fetch", 995, 1⟩ (by decide) (by decide) (by decide) (by decide) (by decide)
    (by decide) (by decide) (by decide) (by decide) (by decide) (by decide) (by decide)
    (by decide) (by decide)

/-! ## The byte 0x7F in a query string -/

theorem split_loop_del_spins :
    ∀ fuel, split_loop refConfig [127] fuel ⟨0, 0, []⟩ = none := by
  intro fuel
  induction fuel with
  | zero => rfl
  | succ fuel ih =>
    have hbody : split_body refConfig [127] ⟨0, 0, []⟩ = ⟨0, 0, []⟩ := by decide
    have hcond : refConfig.MAXQUERYSTRLEN > (⟨0, 0, []⟩ : split_state).queryindex
        ∧ 32 ≤ char_at [127] (⟨0, 0, []⟩ : split_state).queryindex
        ∧ (0 : Int) = (⟨0, 0, []⟩ : split_state).finished
        ∧ refConfig.MAXQUERIES > (⟨0, 0, []⟩ : split_state).numqueries := by decide
    unfold split_loop
    rw [if_pos hcond, hbody]
    exact ih

theorem request_stage_del (fuel : Nat) :
    request_stage refConfig fuel (sample_env "GET" "\x7f" "::1" 0) = none := by
  have h : request_stage refConfig fuel (sample_env "GET" "\x7f" "::1" 0)
      = (split_query refConfig fuel [127]).map Stage.go := rfl
  rw [h]
  unfold split_query
  rw [split_loop_del_spins]
  rfl

/-- C7, evaluated at the failing input: with the constants of `refConfig` (javascript mode)
a GET request whose query string is the single byte 0x7F, which has neither a `starttime`
nor a `session` parameter, never makes `main` return, whatever the number of passes allowed:
the splitting loop stays at that byte. -/
theorem c7_del_byte_never_answered :
    ∀ fuel, main refConfig fuel (sample_env "GET" "\x7f" "::1" 0) = none := by
  intro fuel
  unfold main
  simp only [request_stage_del]

/-- C8, evaluated at the failing input: the query `includeexisting=4294967297` is split into
one valid entry of value 2^32 + 1, which is neither +1 nor -1, yet `includeexisting` is
parsed as 1 (the value is cut to `int` before it is tested), and with the constants of
`refConfig` a request carrying it together with `termsaccepted=1` and the four custom ports
is answered with the start page. -/
theorem c8_wrapped_value_accepted :
    split_query refConfig 10 (lit "includeexisting=4294967297")
        = some [⟨lit "includeexisting", 4294967297, 1⟩]
      ∧ parse_includeexisting [⟨lit "includeexisting", 4294967297, 1⟩] = 1
      ∧ main refConfig 10 (sample_env "GET"
          "includeexisting=4294967297&termsaccepted=1&customport0=1&customport1=2&customport2=3&customport3=4"
          "::1" 0)
        = some ⟨[Event.html Page.start_page, Event.tidy_up_db 1700000000], EXIT_SUCCESS⟩ := by
  decide

/-! ## What holds of C7 and C8 away from their failing inputs -/

theorem parse_of_key_rejected (query : List queries) :
    (key_rejected (lit "starttime") 9 query → parse_querystarttime query = -1)
      ∧ (key_rejected (lit "session") 7 query → parse_querysession query = -1) := by
  constructor
  · intro h
    unfold key_rejected at h
    unfold parse_querystarttime
    split
    · rename_i q hq
      rw [hq] at h
      simp only at h
      rw [if_neg (by omega)]
    · rfl
  · intro h
    unfold key_rejected at h
    unfold parse_querysession
    split
    · rename_i q hq
      rw [hq] at h
      simp only at h
      rw [if_neg (by omega)]
    · rfl

theorem select_mode_rejected_key (c : Config) (p : Params) (hjs : c.TEXTMODE ≠ 1)
    (h : p.querystarttime = -1 ∨ p.querysession = -1) :
    select_mode c p = Mode.start_page ∨ select_mode c p = Mode.terms_not_accepted
      ∨ select_mode c p = Mode.nothing_useful := by
  have hneg : ¬ (p.querysession ≥ 0 ∧ p.querystarttime ≥ 0) := by
    rcases h with h | h <;> omega
  unfold select_mode
  rw [if_neg hjs, if_neg (fun hc => hneg ⟨hc.2.1, hc.2.2.1⟩),
    if_neg (fun hc => hneg ⟨hc.2.1, hc.2.2.1⟩), if_neg (fun hc => hneg ⟨hc.2.1, hc.2.2.1⟩)]
  split_ifs <;> simp

/-- Away from the failing input of C7: in javascript mode, whenever the request-method and
query-string part of `main` ends (the splitting loop included) and the `starttime` or the
`session` parameter is absent, not a number or negative, `main` returns `EXIT_SUCCESS`
having sent exactly one HTML page, followed at most by the call of `tidy_up_db`. -/
theorem rejected_key_answer (c : Config) (fuel : Nat) (env : Env) (st : Stage (List queries))
    (hjs : c.TEXTMODE ≠ 1) (hreq : request_stage c fuel env = some st)
    (hrej : ∀ query, st = Stage.go query →
      key_rejected (lit "starttime") 9 query ∨ key_rejected (lit "session") 7 query) :
    ∃ out page, main c fuel env = some out ∧ out.status = EXIT_SUCCESS
      ∧ (out.trace = [Event.html page] ∨ out.trace = Event.html page :: tidy_events env)
      ∧ ∀ e ∈ out.trace, e.is_probe = false ∧ e.is_keyed_store_op = false
          ∧ e.is_json_dump = false := by
  have hev : ∀ (page : Page) (tr : List Event),
      (tr = [Event.html page] ∨ tr = Event.html page :: tidy_events env) →
      ∀ e ∈ tr, e.is_probe = false ∧ e.is_keyed_store_op = false ∧ e.is_json_dump = false := by
    intro page tr htr e he
    rcases htr with rfl | rfl
    · simp only [List.mem_singleton] at he
      subst he
      exact ⟨rfl, rfl, rfl⟩
    · simp only [List.mem_cons] at he
      rcases he with rfl | he
      · exact ⟨rfl, rfl, rfl⟩
      · have := tidy_events_harmless env e he
        exact ⟨this.1, this.2.1, this.2.2.2.1⟩
  cases st with
  | done page =>
    exact ⟨_, page, main_of_request_done c fuel env page hreq, rfl, Or.inl rfl,
      hev page _ (Or.inl rfl)⟩
  | go query =>
    cases hrem : remote_stage c env with
    | done page =>
      exact ⟨_, page, main_of_remote_done c fuel env query page hreq hrem, rfl, Or.inl rfl,
        hev page _ (Or.inl rfl)⟩
    | go ab =>
      obtain ⟨a, b⟩ := ab
      by_cases hq : query = []
      · have hd : dispatch c env fuel query a b (env.time 0) ⟨[], 1, 0, 0, 0, 0⟩
            = some (false, World.emit ⟨[], 1, 0, 0, 0, 0⟩ (Event.html Page.form)) := by
          unfold dispatch
          rw [if_pos (by simp [hq])]
        have hmain := main_of_dispatch c fuel env query a b false _ hreq hrem hd
        exact ⟨_, Page.form, hmain, rfl, Or.inr (by simp [World.emit]),
          hev Page.form _ (Or.inr (by simp [World.emit]))⟩
      · cases hb : build_ports c query (parse_includeexisting query) (parse_termsaccepted query) with
        | done page =>
          have hd := dispatch_of_build_done c env fuel query a b (env.time 0)
            ⟨[], 1, 0, 0, 0, 0⟩ page hq hb
          have hmain := main_of_dispatch c fuel env query a b true _ hreq hrem hd
          exact ⟨_, page, hmain, rfl, Or.inl (by simp [World.emit]),
            hev page _ (Or.inl (by simp [World.emit]))⟩
        | go bs =>
          have hkey : (parse_params c query bs).querystarttime = -1
              ∨ (parse_params c query bs).querysession = -1 := by
            rcases hrej query rfl with h | h
            · exact Or.inl ((parse_of_key_rejected query).1 h)
            · exact Or.inr ((parse_of_key_rejected query).2 h)
          rcases select_mode_rejected_key c _ hjs hkey with hm | hm | hm
          · have hmain := main_of_page_mode c fuel env query a b bs Page.start_page hreq hrem hq hb
              (by rw [hm]; rfl)
            exact ⟨_, _, hmain, rfl, Or.inr rfl, hev _ _ (Or.inr rfl)⟩
          · have hmain := main_of_page_mode c fuel env query a b bs Page.terms_not_accepted
              hreq hrem hq hb (by rw [hm]; rfl)
            exact ⟨_, _, hmain, rfl, Or.inr rfl, hev _ _ (Or.inr rfl)⟩
          · have hmain := main_of_page_mode c fuel env query a b bs Page.nothing_useful
              hreq hrem hq hb (by rw [hm]; rfl)
            exact ⟨_, _, hmain, rfl, Or.inr rfl, hev _ _ (Or.inr rfl)⟩

/-- Away from the failing input of C8: `includeexisting` is parsed as 0 when the parameter
is absent or not a number, and for a value of the range of `int` it is the value itself
when that is +1 or -1 and 0 otherwise. -/
theorem parse_includeexisting_int_range (query : List queries) :
    (find_query (lit "includeexisting") 15 query = none → parse_includeexisting query = 0)
      ∧ (∀ q, find_query (lit "includeexisting") 15 query = some q → q.valid ≠ 1 →
          parse_includeexisting query = 0)
      ∧ (∀ q, find_query (lit "includeexisting") 15 query = some q → q.valid = 1 →
          -2147483648 ≤ q.varval → q.varval < 2147483648 →
          parse_includeexisting query = if q.varval = 1 ∨ q.varval = -1 then q.varval else 0) := by
  refine ⟨?_, ?_, ?_⟩
  · intro h
    simp [parse_includeexisting, h]
  · intro q h hv
    simp [parse_includeexisting, h, hv]
  · intro q h hv hlo hhi
    have hto : to_int q.varval = q.varval := by unfold to_int; omega
    simp only [parse_includeexisting, h, hv, if_true, hto]
    by_cases h1 : q.varval = 1 ∨ q.varval = -1
    · rw [if_pos h1]
      rcases h1 with h1 | h1 <;> rw [h1] <;> decide
    · rw [if_neg h1]
      split_ifs with habs
      · exfalso
        have := c_abs_to_int_eq_one q.varval (by rw [hto]; exact habs)
        rw [hto] at this
        exact h1 this
      · rfl

/-! ## The port key -/

theorem and_15_of_lt (s : Nat) (h : s < 16) : s &&& 15 = s := by
  have := Nat.and_pow_two_sub_one_eq_mod s 4
  simp at this
  rw [this]; omega

theorem port_key_eq (c : Config) (port special proto : Nat)
    (hmask : c.IPSCAN_SPECIAL_MASK = 15) (hss : c.IPSCAN_SPECIAL_SHIFT = 16)
    (hps : c.IPSCAN_PROTO_SHIFT = 20) (hp : port < 65536) (hs : special < 16) (hpr : proto < 16) :
    port_key c port special proto = port + special * 65536 + proto * 1048576 := by
  unfold port_key
  rw [hmask, hss, hps, and_15_of_lt special hs, Nat.shiftLeft_eq, Nat.shiftLeft_eq]
  norm_num
  omega

/-- C14: with the bit layout of the spec (special mask 15, special shift 16, protocol shift
20, protocol tags below 16), for ports in 0..65535, specials in 0..15 and the protocol tags
TCP, UDP, ICMPV6 and TESTSTATE, the port key is injective, and the port, the special index
and the protocol tag are bits 0..15, bits 16..19 and bits 20..23 of the key. -/
theorem c14_port_key_injective (c : Config)
    (hmask : c.IPSCAN_SPECIAL_MASK = 15) (hss : c.IPSCAN_SPECIAL_SHIFT = 16)
    (hps : c.IPSCAN_PROTO_SHIFT = 20)
    (htags : ∀ proto ∈ [c.IPSCAN_PROTO_TCP, c.IPSCAN_PROTO_UDP, c.IPSCAN_PROTO_ICMPV6,
      c.IPSCAN_PROTO_TESTSTATE], proto < 16)
    (p1 s1 t1 p2 s2 t2 : Nat) (hp1 : p1 < 65536) (hp2 : p2 < 65536) (hs1 : s1 < 16)
    (hs2 : s2 < 16)
    (ht1 : t1 ∈ [c.IPSCAN_PROTO_TCP, c.IPSCAN_PROTO_UDP, c.IPSCAN_PROTO_ICMPV6,
      c.IPSCAN_PROTO_TESTSTATE])
    (ht2 : t2 ∈ [c.IPSCAN_PROTO_TCP, c.IPSCAN_PROTO_UDP, c.IPSCAN_PROTO_ICMPV6,
      c.IPSCAN_PROTO_TESTSTATE]) :
    (port_key c p1 s1 t1 = port_key c p2 s2 t2 → p1 = p2 ∧ s1 = s2 ∧ t1 = t2)
      ∧ port_key c p1 s1 t1 % 65536 = p1
      ∧ port_key c p1 s1 t1 / 65536 % 16 = s1
      ∧ port_key c p1 s1 t1 / 1048576 % 16 = t1
      ∧ port_key c p1 s1 t1 < 16777216 := by
  have e1 := port_key_eq c p1 s1 t1 hmask hss hps hp1 hs1 (htags t1 ht1)
  have e2 := port_key_eq c p2 s2 t2 hmask hss hps hp2 hs2 (htags t2 ht2)
  have b1 := htags t1 ht1
  have b2 := htags t2 ht2
  rw [e1, e2]
  refine ⟨?_, ?_, ?_, ?_, ?_⟩
  · intro h; omega
  · omega
  · omega
  · omega
  · omega

/-- C14 at a concrete point: the constants of `refConfig`, TCP port 443 with special 0 and
UDP port 53 with special 1. -/
theorem c14_port_key_injective_witness :
    (port_key refConfig 443 0 refConfig.IPSCAN_PROTO_TCP
        = port_key refConfig 53 1 refConfig.IPSCAN_PROTO_UDP →
        443 = 53 ∧ 0 = 1 ∧ refConfig.IPSCAN_PROTO_TCP = refConfig.IPSCAN_PROTO_UDP)
      ∧ port_key refConfig 443 0 refConfig.IPSCAN_PROTO_TCP % 65536 = 443
      ∧ port_key refConfig 443 0 refConfig.IPSCAN_PROTO_TCP / 65536 % 16 = 0
      ∧ port_key refConfig 443 0 refConfig.IPSCAN_PROTO_TCP / 1048576 % 16
          = refConfig.IPSCAN_PROTO_TCP
      ∧ port_key refConfig 443 0 refConfig.IPSCAN_PROTO_TCP < 16777216 :=
  c14_port_key_injective refConfig rfl rfl rfl (by decide) 443 0 refConfig.IPSCAN_PROTO_TCP
    53 1 refConfig.IPSCAN_PROTO_UDP (by decide) (by decide) (by decide) (by decide)
    (by decide) (by decide)

/-! ## The split of the client address -/

theorem or_eq_add_of_lt (m v j : Nat) (hv : v < 2 ^ j) : (m * 2 ^ j) ||| v = m * 2 ^ j + v := by
  rw [Nat.mul_comm m (2 ^ j)]
  exact (Nat.mul_add_lt_is_or hv m).symm

theorem shift_up_byte (v : Nat) (hv : v < 256) :
    shift_up 0 v = v ∧ shift_up 1 v = v * 2 ^ 8 ∧ shift_up 2 v = v * 2 ^ 16
      ∧ shift_up 3 v = v * 2 ^ 24 ∧ shift_up 4 v = v * 2 ^ 32 ∧ shift_up 5 v = v * 2 ^ 40
      ∧ shift_up 6 v = v * 2 ^ 48 ∧ shift_up 7 v = v * 2 ^ 56 := by
  simp only [shift_up]
  norm_num
  omega

theorem or_bytes (a0 a1 a2 a3 a4 a5 a6 a7 : Nat) (h0 : a0 < 256) (h1 : a1 < 256) (h2 : a2 < 256)
    (h3 : a3 < 256) (h4 : a4 < 256) (h5 : a5 < 256) (h6 : a6 < 256) (h7 : a7 < 256) :
    ((((((((0 ||| shift_up 7 a0) ||| shift_up 6 a1) ||| shift_up 5 a2) ||| shift_up 4 a3)
      ||| shift_up 3 a4) ||| shift_up 2 a5) ||| shift_up 1 a6) ||| shift_up 0 a7)
      = a0 * 256 ^ 7 + a1 * 256 ^ 6 + a2 * 256 ^ 5 + a3 * 256 ^ 4 + a4 * 256 ^ 3 + a5 * 256 ^ 2
          + a6 * 256 ^ 1 + a7 * 256 ^ 0 := by
  rw [(shift_up_byte a0 h0).2.2.2.2.2.2.2, (shift_up_byte a1 h1).2.2.2.2.2.2.1,
    (shift_up_byte a2 h2).2.2.2.2.2.1, (shift_up_byte a3 h3).2.2.2.2.1,
    (shift_up_byte a4 h4).2.2.2.1, (shift_up_byte a5 h5).2.2.1, (shift_up_byte a6 h6).2.1,
    (shift_up_byte a7 h7).1, Nat.zero_or]
  have s1 : a0 * 2 ^ 56 ||| a1 * 2 ^ 48 = a0 * 2 ^ 56 + a1 * 2 ^ 48 :=
    or_eq_add_of_lt a0 (a1 * 2 ^ 48) 56 (by norm_num; omega)
  rw [s1]
  have s2 : (a0 * 2 ^ 56 + a1 * 2 ^ 48) ||| a2 * 2 ^ 40 = a0 * 2 ^ 56 + a1 * 2 ^ 48 + a2 * 2 ^ 40 := by
    have e : a0 * 2 ^ 56 + a1 * 2 ^ 48 = (a0 * 2 ^ 8 + a1) * 2 ^ 48 := by norm_num; omega
    rw [e]
    exact or_eq_add_of_lt _ (a2 * 2 ^ 40) 48 (by norm_num; omega)
  rw [s2]
  have s3 : (a0 * 2 ^ 56 + a1 * 2 ^ 48 + a2 * 2 ^ 40) ||| a3 * 2 ^ 32
      = a0 * 2 ^ 56 + a1 * 2 ^ 48 + a2 * 2 ^ 40 + a3 * 2 ^ 32 := by
    have e : a0 * 2 ^ 56 + a1 * 2 ^ 48 + a2 * 2 ^ 40 = (a0 * 2 ^ 16 + a1 * 2 ^ 8 + a2) * 2 ^ 40 := by
      norm_num; omega
    rw [e]
    exact or_eq_add_of_lt _ (a3 * 2 ^ 32) 40 (by norm_num; omega)
  rw [s3]
  have s4 : (a0 * 2 ^ 56 + a1 * 2 ^ 48 + a2 * 2 ^ 40 + a3 * 2 ^ 32) ||| a4 * 2 ^ 24
      = a0 * 2 ^ 56 + a1 * 2 ^ 48 + a2 * 2 ^ 40 + a3 * 2 ^ 32 + a4 * 2 ^ 24 := by
    have e : a0 * 2 ^ 56 + a1 * 2 ^ 48 + a2 * 2 ^ 40 + a3 * 2 ^ 32
        = (a0 * 2 ^ 24 + a1 * 2 ^ 16 + a2 * 2 ^ 8 + a3) * 2 ^ 32 := by norm_num; omega
    rw [e]
    exact or_eq_add_of_lt _ (a4 * 2 ^ 24) 32 (by norm_num; omega)
  rw [s4]
  have s5 : (a0 * 2 ^ 56 + a1 * 2 ^ 48 + a2 * 2 ^ 40 + a3 * 2 ^ 32 + a4 * 2 ^ 24) ||| a5 * 2 ^ 16
      = a0 * 2 ^ 56 + a1 * 2 ^ 48 + a2 * 2 ^ 40 + a3 * 2 ^ 32 + a4 * 2 ^ 24 + a5 * 2 ^ 16 := by
    have e : a0 * 2 ^ 56 + a1 * 2 ^ 48 + a2 * 2 ^ 40 + a3 * 2 ^ 32 + a4 * 2 ^ 24
        = (a0 * 2 ^ 32 + a1 * 2 ^ 24 + a2 * 2 ^ 16 + a3 * 2 ^ 8 + a4) * 2 ^ 24 := by
      norm_num; omega
    rw [e]
    exact or_eq_add_of_lt _ (a5 * 2 ^ 16) 24 (by norm_num; omega)
  rw [s5]
  have s6 : (a0 * 2 ^ 56 + a1 * 2 ^ 48 + a2 * 2 ^ 40 + a3 * 2 ^ 32 + a4 * 2 ^ 24 + a5 * 2 ^ 16)
        ||| a6 * 2 ^ 8
      = a0 * 2 ^ 56 + a1 * 2 ^ 48 + a2 * 2 ^ 40 + a3 * 2 ^ 32 + a4 * 2 ^ 24 + a5 * 2 ^ 16
          + a6 * 2 ^ 8 := by
    have e : a0 * 2 ^ 56 + a1 * 2 ^ 48 + a2 * 2 ^ 40 + a3 * 2 ^ 32 + a4 * 2 ^ 24 + a5 * 2 ^ 16
        = (a0 * 2 ^ 40 + a1 * 2 ^ 32 + a2 * 2 ^ 24 + a3 * 2 ^ 16 + a4 * 2 ^ 8 + a5) * 2 ^ 16 := by
      norm_num; omega
    rw [e]
    exact or_eq_add_of_lt _ (a6 * 2 ^ 8) 16 (by norm_num; omega)
  rw [s6]
  have s7 : (a0 * 2 ^ 56 + a1 * 2 ^ 48 + a2 * 2 ^ 40 + a3 * 2 ^ 32 + a4 * 2 ^ 24 + a5 * 2 ^ 16
        + a6 * 2 ^ 8) ||| a7
      = a0 * 2 ^ 56 + a1 * 2 ^ 48 + a2 * 2 ^ 40 + a3 * 2 ^ 32 + a4 * 2 ^ 24 + a5 * 2 ^ 16
          + a6 * 2 ^ 8 + a7 := by
    have e : a0 * 2 ^ 56 + a1 * 2 ^ 48 + a2 * 2 ^ 40 + a3 * 2 ^ 32 + a4 * 2 ^ 24 + a5 * 2 ^ 16
          + a6 * 2 ^ 8
        = (a0 * 2 ^ 48 + a1 * 2 ^ 40 + a2 * 2 ^ 32 + a3 * 2 ^ 24 + a4 * 2 ^ 16 + a5 * 2 ^ 8 + a6)
            * 2 ^ 8 := by
      norm_num; omega
    rw [e]
    exact or_eq_add_of_lt _ a7 8 (by norm_num; omega)
  rw [s7]
  norm_num
theorem split_address_16 (a0 a1 a2 a3 a4 a5 a6 a7 b0 b1 b2 b3 b4 b5 b6 b7 : Nat)
    (h0 : a0 < 256) (h1 : a1 < 256) (h2 : a2 < 256)
    (h3 : a3 < 256) (h4 : a4 < 256) (h5 : a5 < 256) (h6 : a6 < 256) (h7 : a7 < 256)
    (g0 : b0 < 256) (g1 : b1 < 256) (g2 : b2 < 256)
    (g3 : b3 < 256) (g4 : b4 < 256) (g5 : b5 < 256) (g6 : b6 < 256) (g7 : b7 < 256) :
    split_address [a0, a1, a2, a3, a4, a5, a6, a7, b0, b1, b2, b3, b4, b5, b6, b7] 8 0 (0, 0)
      = (a0 * 256 ^ 7 + a1 * 256 ^ 6 + a2 * 256 ^ 5 + a3 * 256 ^ 4 + a4 * 256 ^ 3 + a5 * 256 ^ 2
          + a6 * 256 ^ 1 + a7 * 256 ^ 0,
         b0 * 256 ^ 7 + b1 * 256 ^ 6 + b2 * 256 ^ 5 + b3 * 256 ^ 4 + b4 * 256 ^ 3 + b5 * 256 ^ 2
          + b6 * 256 ^ 1 + b7 * 256 ^ 0) := by
  rw [← or_bytes a0 a1 a2 a3 a4 a5 a6 a7 h0 h1 h2 h3 h4 h5 h6 h7,
    ← or_bytes b0 b1 b2 b3 b4 b5 b6 b7 g0 g1 g2 g3 g4 g5 g6 g7]
  rfl

/-- C15: for every address of 16 bytes, the loop of lines 576 to 594 leaves in
`remotehost_msb` the big-endian value of bytes 0..7 and in `remotehost_lsb` that of bytes
8..15, and two addresses with the same pair of values are the same address. -/
theorem c15_address_split (a : List Nat) (hlen : a.length = 16) (hbytes : ∀ x ∈ a, x < 256) :
    split_address a 8 0 (0, 0)
        = (∑ i ∈ Finset.range 8, a.getD i 0 * 256 ^ (7 - i),
           ∑ i ∈ Finset.range 8, a.getD (8 + i) 0 * 256 ^ (7 - i))
      ∧ ∀ b : List Nat, b.length = 16 → (∀ x ∈ b, x < 256) →
          split_address b 8 0 (0, 0) = split_address a 8 0 (0, 0) → b = a := by
  match a, hlen with
  | [a0, a1, a2, a3, a4, a5, a6, a7, a8, a9, a10, a11, a12, a13, a14, a15], _ =>
    simp only [List.mem_cons, List.mem_singleton, List.not_mem_nil, or_false, forall_eq_or_imp,
      forall_eq] at hbytes
    obtain ⟨h0, h1, h2, h3, h4, h5, h6, h7, h8, h9, h10, h11, h12, h13, h14, h15⟩ := hbytes
    have ha := split_address_16 a0 a1 a2 a3 a4 a5 a6 a7 a8 a9 a10 a11 a12 a13 a14 a15
      h0 h1 h2 h3 h4 h5 h6 h7 h8 h9 h10 h11 h12 h13 h14 h15
    refine ⟨?_, ?_⟩
    · rw [ha]
      simp [Finset.sum_range_succ, List.getD]
    · intro b hb hbb heq
      match b, hb with
      | [b0, b1, b2, b3, b4, b5, b6, b7, b8, b9, b10, b11, b12, b13, b14, b15], _ =>
        simp only [List.mem_cons, List.mem_singleton, List.not_mem_nil, or_false,
          forall_eq_or_imp, forall_eq] at hbb
        obtain ⟨g0, g1, g2, g3, g4, g5, g6, g7, g8, g9, g10, g11, g12, g13, g14, g15⟩ := hbb
        rw [ha, split_address_16 b0 b1 b2 b3 b4 b5 b6 b7 b8 b9 b10 b11 b12 b13 b14 b15
          g0 g1 g2 g3 g4 g5 g6 g7 g8 g9 g10 g11 g12 g13 g14 g15] at heq
        have hm := congrArg Prod.fst heq
        have hl := congrArg Prod.snd heq
        simp only at hm hl
        norm_num at hm hl
        have e0 : b0 = a0 := by omega
        have e1 : b1 = a1 := by omega
        have e2 : b2 = a2 := by omega
        have e3 : b3 = a3 := by omega
        have e4 : b4 = a4 := by omega
        have e5 : b5 = a5 := by omega
        have e6 : b6 = a6 := by omega
        have e7 : b7 = a7 := by omega
        have e8 : b8 = a8 := by omega
        have e9 : b9 = a9 := by omega
        have e10 : b10 = a10 := by omega
        have e11 : b11 = a11 := by omega
        have e12 : b12 = a12 := by omega
        have e13 : b13 = a13 := by omega
        have e14 : b14 = a14 := by omega
        have e15 : b15 = a15 := by omega
        subst e0 e1 e2 e3 e4 e5 e6 e7 e8 e9 e10 e11 e12 e13 e14 e15
        rfl

/-- C15 at a concrete point: the address 2001:db8::1. -/
theorem c15_address_split_witness :
    split_address [32, 1, 13, 184, 0, 0, 0, 0, 0, 0, 0, 0, 0, 0, 0, 1] 8 0 (0, 0)
        = (∑ i ∈ Finset.range 8,
             [32, 1, 13, 184, 0, 0, 0, 0, 0, 0, 0, 0, 0, 0, 0, 1].getD i 0 * 256 ^ (7 - i),
           ∑ i ∈ Finset.range 8,
             [32, 1, 13, 184, 0, 0, 0, 0, 0, 0, 0, 0, 0, 0, 0, 1].getD (8 + i) 0 * 256 ^ (7 - i))
      ∧ ∀ b : List Nat, b.length = 16 → (∀ x ∈ b, x < 256) →
          split_address b 8 0 (0, 0)
            = split_address [32, 1, 13, 184, 0, 0, 0, 0, 0, 0, 0, 0, 0, 0, 0, 1] 8 0 (0, 0) →
          b = [32, 1, 13, 184, 0, 0, 0, 0, 0, 0, 0, 0, 0, 0, 0, 1] :=
  c15_address_split [32, 1, 13, 184, 0, 0, 0, 0, 0, 0, 0, 0, 0, 0, 0, 1] rfl (by decide)

/-! ## The list of ports to test -/

theorem stored_port_eq (c : Config) (h16 : c.ports_16bit) (v : Int) (hlo : c.MINVALIDPORT ≤ v)
    (hhi : v ≤ c.MAXVALIDPORT) :
    ((Int.land v c.VALIDPORTMASK) % 65536).toNat = v.toNat ∧ ((v.toNat : Nat) : Int) = v := by
  obtain ⟨h0, h1, hm⟩ := h16
  have hv0 : 0 ≤ v := by omega
  obtain ⟨n, rfl⟩ := Int.eq_ofNat_of_zero_le hv0
  have hn : n < 65536 := by omega
  rw [hm]
  have hland : Int.land (n : Int) 65535 = ((n &&& 65535 : Nat) : Int) := rfl
  have hand : n &&& 65535 = n := by
    have := Nat.and_pow_two_sub_one_eq_mod n 16
    simp at this
    rw [this]; omega
  rw [hland, hand]
  constructor
  · simp; omega
  · simp

theorem customport_body_cases (c : Config) (query : List queries) (customport : Nat)
    (b : build_state) :
    (slot_entry query customport = none ∧ customport_body query c customport b = Stage.go b)
      ∨ (∃ q, slot_entry query customport = some q
          ∧ ¬ (q.valid = 1 ∧ q.varval ≥ c.MINVALIDPORT ∧ q.varval ≤ c.MAXVALIDPORT
              ∧ b.portlist.all (fun e => decide ((e.port_num : Int) ≠ q.varval)) = true)
          ∧ customport_body query c customport b
              = Stage.go { b with numcustomports := b.numcustomports + 1 })
      ∨ (∃ q, slot_entry query customport = some q
          ∧ q.valid = 1 ∧ q.varval ≥ c.MINVALIDPORT ∧ q.varval ≤ c.MAXVALIDPORT
          ∧ b.portlist.all (fun e => decide ((e.port_num : Int) ≠ q.varval)) = true
          ∧ ((∃ page, customport_body query c customport b = Stage.done page)
            ∨ ∃ recon size, customport_body query c customport b
                = Stage.go ⟨b.portlist
                    ++ [⟨((Int.land q.varval c.VALIDPORTMASK) % 65536).toNat, 0⟩],
                  b.numcustomports + 1, recon, size⟩)) := by
  cases hq : slot_entry query customport with
  | none =>
    left
    refine ⟨rfl, ?_⟩
    unfold slot_entry at hq
    simp only [customport_body, hq]
  | some q =>
    right
    unfold slot_entry at hq
    by_cases hv : q.valid = 1 ∧ q.varval ≥ c.MINVALIDPORT ∧ q.varval ≤ c.MAXVALIDPORT
    · by_cases hall : b.portlist.all (fun e => decide ((e.port_num : Int) ≠ q.varval)) = true
      · right
        refine ⟨q, rfl, hv.1, hv.2.1, hv.2.2, hall, ?_⟩
        simp only [customport_body, hq, hv, and_self, if_true, hall]
        split_ifs
        · exact Or.inl ⟨_, rfl⟩
        · exact Or.inr ⟨_, _, rfl⟩
        · exact Or.inl ⟨_, rfl⟩
      · left
        refine ⟨q, rfl, fun h => hall h.2.2.2, ?_⟩
        simp only [customport_body, hq, hv, and_self, if_true, hall]
        rfl
    · left
      refine ⟨q, rfl, fun h => hv ⟨h.1, h.2.1, h.2.2.1⟩, ?_⟩
      simp only [customport_body, hq, hv, if_false]
theorem customport_loop_ports (c : Config) (query : List queries) (h16 : c.ports_16bit) :
    ∀ (n k : Nat) (b b' : build_state), customport_loop query c n k b = Stage.go b' →
      b'.portlist = b.portlist ++ accepted_custom_ports c query (List.range' k n) b.portlist := by
  intro n
  induction n with
  | zero =>
    intro k b b' h
    simp only [customport_loop] at h
    have : b' = b := by simpa using h.symm
    subst this
    simp [accepted_custom_ports]
  | succ n ih =>
    intro k b b' h
    unfold customport_loop at h
    rw [List.range'_succ]
    rcases customport_body_cases c query k b with ⟨hs, hb⟩ | ⟨q, hs, hno, hb⟩ |
        ⟨q, hs, hv, hlo, hhi, hall, hb⟩
    · rw [hb] at h
      dsimp only at h
      simp only [accepted_custom_ports, hs]
      exact ih (k + 1) b b' h
    · rw [hb] at h
      dsimp only at h
      simp only [accepted_custom_ports, hs]
      rw [if_neg hno]
      have := ih (k + 1) _ b' h
      exact this
    · rcases hb with ⟨page, hb⟩ | ⟨recon, size, hb⟩
      · rw [hb] at h
        simp at h
      · rw [hb] at h
        dsimp only at h
        simp only [accepted_custom_ports, hs]
        rw [if_pos ⟨hv, hlo, hhi, hall⟩]
        have := ih (k + 1) _ b' h
        rw [this, (stored_port_eq c h16 q.varval hlo hhi).1]
        simp

theorem customport_loop_origin (c : Config) (query : List queries) :
    ∀ (n k : Nat) (b b' : build_state), customport_loop query c n k b = Stage.go b' →
      ∀ e ∈ b'.portlist, e ∈ b.portlist ∨ ∃ slot q, k ≤ slot ∧ slot < k + n
        ∧ slot_entry query slot = some q ∧ q.valid = 1 ∧ c.MINVALIDPORT ≤ q.varval
        ∧ q.varval ≤ c.MAXVALIDPORT
        ∧ e = ⟨((Int.land q.varval c.VALIDPORTMASK) % 65536).toNat, 0⟩ := by
  intro n
  induction n with
  | zero =>
    intro k b b' h e he
    simp only [customport_loop] at h
    have : b' = b := by simpa using h.symm
    subst this
    exact Or.inl he
  | succ n ih =>
    intro k b b' h e he
    unfold customport_loop at h
    rcases customport_body_cases c query k b with ⟨hs, hb⟩ | ⟨q, hs, hno, hb⟩ |
        ⟨q, hs, hv, hlo, hhi, hall, hb⟩
    · rw [hb] at h
      dsimp only at h
      rcases ih (k + 1) b b' h e he with h1 | ⟨slot, q, h1, h2, h3⟩
      · exact Or.inl h1
      · exact Or.inr ⟨slot, q, by omega, by omega, h3⟩
    · rw [hb] at h
      dsimp only at h
      rcases ih (k + 1) _ b' h e he with h1 | ⟨slot, q, h1, h2, h3⟩
      · exact Or.inl h1
      · exact Or.inr ⟨slot, q, by omega, by omega, h3⟩
    · rcases hb with ⟨page, hb⟩ | ⟨recon, size, hb⟩
      · rw [hb] at h
        simp at h
      · rw [hb] at h
        dsimp only at h
        rcases ih (k + 1) _ b' h e he with h1 | ⟨slot, q', h1, h2, h3⟩
        · simp only [List.mem_append, List.mem_singleton] at h1
          rcases h1 with h1 | h1
          · exact Or.inl h1
          · exact Or.inr ⟨k, q, le_refl _, by omega, hs, hv, hlo, hhi, h1⟩
        · exact Or.inr ⟨slot, q', by omega, by omega, h3⟩

theorem accepted_custom_ports_nodup (c : Config) (query : List queries) (h16 : c.ports_16bit) :
    ∀ (slots : List Nat) (present : List portlist_struc), present.Nodup →
      (present ++ accepted_custom_ports c query slots present).Nodup := by
  intro slots
  induction slots with
  | nil => intro present h; simpa [accepted_custom_ports] using h
  | cons k slots ih =>
    intro present h
    simp only [accepted_custom_ports]
    cases hs : slot_entry query k with
    | none => exact ih present h
    | some q =>
      simp only
      split_ifs with hc
      · obtain ⟨hv, hlo, hhi, hall⟩ := hc
        have hnot : (⟨q.varval.toNat, 0⟩ : portlist_struc) ∉ present := by
          intro hmem
          rw [List.all_eq_true] at hall
          have := hall _ hmem
          simp only [decide_eq_true_eq] at this
          exact this (stored_port_eq c h16 q.varval hlo hhi).2
        have hnd : (present ++ [(⟨q.varval.toNat, 0⟩ : portlist_struc)]).Nodup := by
          rw [List.nodup_append]
          refine ⟨h, List.nodup_singleton _, ?_⟩
          intro x hx hx'
          simp only [List.mem_singleton] at hx'
          subst hx'
          exact hnot hx
        have := ih _ hnd
        simpa using this
      · exact ih present h

theorem accepted_custom_ports_special (c : Config) (query : List queries) :
    ∀ (slots : List Nat) (present : List portlist_struc),
      ∀ e ∈ accepted_custom_ports c query slots present, e.special = 0 := by
  intro slots
  induction slots with
  | nil => intro present e he; simp [accepted_custom_ports] at he
  | cons k slots ih =>
    intro present e he
    simp only [accepted_custom_ports] at he
    cases hs : slot_entry query k with
    | none => rw [hs] at he; exact ih present e he
    | some q =>
      rw [hs] at he
      simp only at he
      split_ifs at he
      · simp only [List.mem_cons] at he
        rcases he with rfl | he
        · rfl
        · exact ih _ e he
      · exact ih present e he

theorem build_ports_list (c : Config) (h16 : c.ports_16bit) (query : List queries)
    (includeexisting termsaccepted : Int) (bs : build_state)
    (hbuild : build_ports c query includeexisting termsaccepted = Stage.go bs) :
    bs.portlist = (if 1 = includeexisting then c.defportlist else [])
      ++ accepted_custom_ports c query (List.range c.NUMUSERDEFPORTS)
          (if 1 = includeexisting then c.defportlist else []) := by
  unfold build_ports at hbuild
  cases hrb : recon_begin c includeexisting termsaccepted with
  | done p => rw [hrb] at hbuild; simp at hbuild
  | go rs =>
    obtain ⟨recon, size⟩ := rs
    rw [hrb] at hbuild
    dsimp only at hbuild
    have := customport_loop_ports c query h16 _ _ _ _ hbuild
    rw [this, List.range_eq_range']


/-- C11: with a least valid port above 0 and a greatest valid port below 65536, for every
query and every slot `customport<N>`: a slot that is absent, whose value is not a number,
whose number lies outside `[MINVALIDPORT, MAXVALIDPORT]` or is the number of a port already
in the list leaves the port list, the reconstituted query and the room left for it unchanged; a slot holding 0 or 65536 is such a
slot; and every entry of the port list that the dispatcher builds is either an entry of the
default list (taken only when `includeexisting` is 1) or the port of a slot whose value is a
number within `[MINVALIDPORT, MAXVALIDPORT]`, with `special = 0`. -/
theorem c11_custom_port_range (c : Config) (hmin : 0 < c.MINVALIDPORT)
    (hmax : c.MAXVALIDPORT < 65536) (query : List queries) :
    (∀ (customport : Nat) (b : build_state),
        (∀ q, slot_entry query customport = some q →
          ¬ (q.valid = 1 ∧ c.MINVALIDPORT ≤ q.varval ∧ q.varval ≤ c.MAXVALIDPORT
              ∧ b.portlist.all (fun e => decide ((e.port_num : Int) ≠ q.varval)) = true)) →
        ∃ b1, customport_body query c customport b = Stage.go b1 ∧ b1.portlist = b.portlist
          ∧ b1.reconquery = b.reconquery ∧ b1.reconquerysize = b.reconquerysize)
      ∧ (∀ (customport : Nat) (b : build_state) (q : queries),
          slot_entry query customport = some q → (q.varval = 0 ∨ q.varval = 65536) →
          ∃ b1, customport_body query c customport b = Stage.go b1 ∧ b1.portlist = b.portlist
            ∧ b1.reconquery = b.reconquery ∧ b1.reconquerysize = b.reconquerysize)
      ∧ (∀ (includeexisting termsaccepted : Int) (bs : build_state),
          build_ports c query includeexisting termsaccepted = Stage.go bs →
          ∀ e ∈ bs.portlist, (1 = includeexisting ∧ e ∈ c.defportlist)
            ∨ ∃ slot q, slot < c.NUMUSERDEFPORTS ∧ slot_entry query slot = some q ∧ q.valid = 1
                ∧ c.MINVALIDPORT ≤ q.varval ∧ q.varval ≤ c.MAXVALIDPORT
                ∧ e = ⟨((Int.land q.varval c.VALIDPORTMASK) % 65536).toNat, 0⟩) := by
  have hrej : ∀ (customport : Nat) (b : build_state),
      (∀ q, slot_entry query customport = some q →
        ¬ (q.valid = 1 ∧ c.MINVALIDPORT ≤ q.varval ∧ q.varval ≤ c.MAXVALIDPORT
            ∧ b.portlist.all (fun e => decide ((e.port_num : Int) ≠ q.varval)) = true)) →
      ∃ b1, customport_body query c customport b = Stage.go b1 ∧ b1.portlist = b.portlist
        ∧ b1.reconquery = b.reconquery ∧ b1.reconquerysize = b.reconquerysize := by
    intro customport b hq
    rcases customport_body_cases c query customport b with ⟨_, hb⟩ | ⟨q, _, _, hb⟩ |
        ⟨q, hs, hv, hlo, hhi, hall, _⟩
    · exact ⟨_, hb, rfl, rfl, rfl⟩
    · exact ⟨_, hb, rfl, rfl, rfl⟩
    · exact absurd ⟨hv, hlo, hhi, hall⟩ (hq q hs)
  refine ⟨hrej, ?_, ?_⟩
  · intro customport b q hs hval
    apply hrej customport b
    intro q' hs'
    rw [hs] at hs'
    have : q' = q := by simpa using hs'.symm
    subst this
    rintro ⟨_, hlo, hhi, _⟩
    rcases hval with h | h <;> omega
  · intro includeexisting termsaccepted bs hbuild e he
    unfold build_ports at hbuild
    cases hrb : recon_begin c includeexisting termsaccepted with
    | done p => rw [hrb] at hbuild; simp at hbuild
    | go rs =>
      obtain ⟨recon, size⟩ := rs
      rw [hrb] at hbuild
      dsimp only at hbuild
      rcases customport_loop_origin c query _ _ _ _ hbuild e he with h | ⟨slot, q, _, h2, h3⟩
      · left
        dsimp only at h
        split_ifs at h with hie
        · exact ⟨hie, h⟩
        · simp at h
      · exact Or.inr ⟨slot, q, by omega, h3⟩

/-- C11 at a concrete point: the constants of `refConfig` and a query whose slots hold 8080,
0, 65536 and a value that is not a number. -/
theorem c11_custom_port_range_witness :
    (∀ (customport : Nat) (b : build_state),
        (∀ q, slot_entry [⟨lit "customport0", 8080, 1⟩, ⟨lit "customport1", 0, 1⟩,
            ⟨lit "customport2", 65536, 1⟩, ⟨lit "customport3", 0, 0⟩] customport = some q →
          ¬ (q.valid = 1 ∧ refConfig.MINVALIDPORT ≤ q.varval
              ∧ q.varval ≤ refConfig.MAXVALIDPORT
              ∧ b.portlist.all (fun e => decide ((e.port_num : Int) ≠ q.varval)) = true)) →
        ∃ b1, customport_body [⟨lit "customport0", 8080, 1⟩, ⟨lit "customport1", 0, 1⟩,
            ⟨lit "customport2", 65536, 1⟩, ⟨lit "customport3", 0, 0⟩] refConfig customport b
              = Stage.go b1 ∧ b1.portlist = b.portlist
          ∧ b1.reconquery = b.reconquery ∧ b1.reconquerysize = b.reconquerysize)
      ∧ (∀ (customport : Nat) (b : build_state) (q : queries),
          slot_entry [⟨lit "customport0", 8080, 1⟩, ⟨lit "customport1", 0, 1⟩,
            ⟨lit "customport2", 65536, 1⟩, ⟨lit "customport3", 0, 0⟩] customport = some q →
          (q.varval = 0 ∨ q.varval = 65536) →
          ∃ b1, customport_body [⟨lit "customport0", 8080, 1⟩, ⟨lit "customport1", 0, 1⟩,
            ⟨lit "customport2", 65536, 1⟩, ⟨lit "customport3", 0, 0⟩] refConfig customport b
              = Stage.go b1 ∧ b1.portlist = b.portlist
            ∧ b1.reconquery = b.reconquery ∧ b1.reconquerysize = b.reconquerysize)
      ∧ (∀ (includeexisting termsaccepted : Int) (bs : build_state),
          build_ports refConfig [⟨lit "customport0", 8080, 1⟩, ⟨lit "customport1", 0, 1⟩,
            ⟨lit "customport2", 65536, 1⟩, ⟨lit "customport3", 0, 0⟩] includeexisting
              termsaccepted = Stage.go bs →
          ∀ e ∈ bs.portlist, (1 = includeexisting ∧ e ∈ refConfig.defportlist)
            ∨ ∃ slot q, slot < refConfig.NUMUSERDEFPORTS
                ∧ slot_entry [⟨lit "customport0", 8080, 1⟩, ⟨lit "customport1", 0, 1⟩,
                    ⟨lit "customport2", 65536, 1⟩, ⟨lit "customport3", 0, 0⟩] slot = some q
                ∧ q.valid = 1 ∧ refConfig.MINVALIDPORT ≤ q.varval
                ∧ q.varval ≤ refConfig.MAXVALIDPORT
                ∧ e = ⟨((Int.land q.varval refConfig.VALIDPORTMASK) % 65536).toNat, 0⟩) :=
  c11_custom_port_range refConfig (by decide) (by decide)
    [⟨lit "customport0", 8080, 1⟩, ⟨lit "customport1", 0, 1⟩, ⟨lit "customport2", 65536, 1⟩,
      ⟨lit "customport3", 0, 0⟩]

/-- C12: with constants that describe 16-bit ports and a default list that holds no repeated
(port, special) pair, for every query and every `includeexisting` and `termsaccepted` value
the port list built from the defaults and the `customport<N>` parameters holds no two
entries with the same (port, special) pair. -/
theorem c12_merged_list_nodup (c : Config) (h16 : c.ports_16bit)
    (hdef : (c.defportlist.map (fun e => (e.port_num, e.special))).Nodup)
    (query : List queries) (includeexisting termsaccepted : Int) (bs : build_state)
    (hbuild : build_ports c query includeexisting termsaccepted = Stage.go bs) :
    (bs.portlist.map (fun e => (e.port_num, e.special))).Nodup := by
  have hinj : Function.Injective (fun e : portlist_struc => (e.port_num, e.special)) := by
    intro a b h
    cases a; cases b
    simp only [Prod.mk.injEq] at h
    rw [h.1, h.2]
  have hnd : bs.portlist.Nodup := by
    rw [build_ports_list c h16 query includeexisting termsaccepted bs hbuild]
    apply accepted_custom_ports_nodup c query h16
    split_ifs
    · exact List.Nodup.of_map _ hdef
    · exact List.nodup_nil
  exact List.Nodup.map hinj hnd

/-- C12 at a concrete point: the constants of `refConfig`, `includeexisting = 1` and a query
that repeats the default port 80 and gives 8080 twice. -/
theorem c12_merged_list_nodup_witness :
    ((build_state.mk [⟨21, 0⟩, ⟨22, 0⟩, ⟨80, 0⟩, ⟨443, 0⟩, ⟨8080, 0⟩] 3
        (lit "includeexisting=1&termsaccepted=1&customport1=8080") 205).portlist.map
          (fun e => (e.port_num, e.special))).Nodup :=
  c12_merged_list_nodup refConfig (by decide) (by decide)
    [⟨lit "customport0", 80, 1⟩, ⟨lit "customport1", 8080, 1⟩, ⟨lit "customport2", 8080, 1⟩]
    1 1 _ (by decide)

/-- C13: with constants that describe 16-bit ports and leave room for the reconstituted
query, for every query the dispatcher builds a port list; when `includeexisting` is +1 it is
the whole default list, unchanged and in order, followed by the accepted custom ports in
slot order (customport0 first); when `includeexisting` is -1 it consists of the accepted
custom ports only, in slot order, each with `special = 0`. -/
theorem c13_merged_list_order (c : Config) (hfit : c.recon_fits) (h16 : c.ports_16bit)
    (query : List queries) :
    ∃ bs, build_ports c query (parse_includeexisting query) (parse_termsaccepted query)
        = Stage.go bs
      ∧ (parse_includeexisting query = 1 →
          bs.portlist = c.defportlist
            ++ accepted_custom_ports c query (List.range c.NUMUSERDEFPORTS) c.defportlist)
      ∧ (parse_includeexisting query = -1 →
          bs.portlist = accepted_custom_ports c query (List.range c.NUMUSERDEFPORTS) []
            ∧ ∀ e ∈ bs.portlist, e.special = 0) := by
  obtain ⟨bs, hbs⟩ := build_ports_go c hfit query
  have hlist := build_ports_list c h16 query _ _ bs hbs
  refine ⟨bs, hbs, ?_, ?_⟩
  · intro hie
    rw [hlist, hie]
    simp
  · intro hie
    have : bs.portlist = accepted_custom_ports c query (List.range c.NUMUSERDEFPORTS) [] := by
      rw [hlist, hie]
      simp
    refine ⟨this, ?_⟩
    rw [this]
    exact accepted_custom_ports_special c query _ _

/-- C13 at a concrete point: the constants of `refConfig` and a query that replaces the
defaults and names slot 2 before slot 0. -/
theorem c13_merged_list_order_witness :
    ∃ bs, build_ports refConfig
          [⟨lit "includeexisting", -1, 1⟩, ⟨lit "customport2", 8080, 1⟩,
            ⟨lit "customport0", 9000, 1⟩]
          (parse_includeexisting [⟨lit "includeexisting", -1, 1⟩, ⟨lit "customport2", 8080, 1⟩,
            ⟨lit "customport0", 9000, 1⟩])
          (parse_termsaccepted [⟨lit "includeexisting", -1, 1⟩, ⟨lit "customport2", 8080, 1⟩,
            ⟨lit "customport0", 9000, 1⟩])
        = Stage.go bs
      ∧ (parse_includeexisting [⟨lit "includeexisting", -1, 1⟩, ⟨lit "customport2", 8080, 1⟩,
            ⟨lit "customport0", 9000, 1⟩] = 1 →
          bs.portlist = refConfig.defportlist
            ++ accepted_custom_ports refConfig
                [⟨lit "includeexisting", -1, 1⟩, ⟨lit "customport2", 8080, 1⟩,
                  ⟨lit "customport0", 9000, 1⟩]
                (List.range refConfig.NUMUSERDEFPORTS) refConfig.defportlist)
      ∧ (parse_includeexisting [⟨lit "includeexisting", -1, 1⟩, ⟨lit "customport2", 8080, 1⟩,
            ⟨lit "customport0", 9000, 1⟩] = -1 →
          bs.portlist = accepted_custom_ports refConfig
                [⟨lit "includeexisting", -1, 1⟩, ⟨lit "customport2", 8080, 1⟩,
                  ⟨lit "customport0", 9000, 1⟩]
                (List.range refConfig.NUMUSERDEFPORTS) []
            ∧ ∀ e ∈ bs.portlist, e.special = 0) :=
  c13_merged_list_order refConfig (by decide) (by decide)
    [⟨lit "includeexisting", -1, 1⟩, ⟨lit "customport2", 8080, 1⟩, ⟨lit "customport0", 9000, 1⟩]

/-! ## The request method -/

theorem request_stage_of_word (c : Config) (fuel : Nat) (env : Env) (reqmethodvar word : CStr)
    (hm : env.REQUEST_METHOD = some reqmethodvar)
    (hlen : reqmethodvar.length ≤ c.MAXREQMETHODLEN)
    (hw : sscanf_s c.MAXREQMETHODLEN reqmethodvar = some word) :
    request_stage c fuel env =
      if strncmp_eq (lit "GET") (word.map c_toupper) 3 then
        match env.QUERY_STRING with
        | none => some (.go [])
        | some querystringvar =>
          if querystringvar.length > c.MAXQUERYSTRLEN then some (.done .query_string_too_long)
          else
            match sscanf_s c.MAXQUERYSTRLEN querystringvar with
            | none => some (.go [])
            | some qs => (split_query c fuel (qs.map c_tolower)).map Stage.go
      else if strncmp_eq (lit "HEAD") (word.map c_toupper) 4 then some (.done .head_only)
      else some (.done .unsupported_request_method) := by
  unfold request_stage
  rw [hm]
  simp only
  rw [if_neg (by omega)]
  simp only [hw]

/-- C20, as the code has it: a request with method `GETX` is not answered with the
unsupported-request-method page; its query string is parsed and the request is answered as
the same request with method `GET` is. -/
theorem c20_getx_is_parsed :
    request_stage refConfig 10 (sample_env "GETX" "termsaccepted=0&session=5" "::1" 0)
        = some (Stage.go [⟨lit "termsaccepted", 0, 1⟩, ⟨lit "session", 5, 1⟩])
      ∧ main refConfig 10 (sample_env "GETX" "termsaccepted=0&session=5" "::1" 0)
        = some ⟨[Event.html Page.terms_not_accepted, Event.tidy_up_db 1700000000],
            EXIT_SUCCESS⟩
      ∧ main refConfig 10 (sample_env "GETX" "termsaccepted=0&session=5" "::1" 0)
        = main refConfig 10 (sample_env "GET" "termsaccepted=0&session=5" "::1" 0) := by
  decide

/-- C20, amended: for every `REQUEST_METHOD` value of at most `MAXREQMETHODLEN` characters
that holds a word, the word is upper-cased and judged by its leading characters. When it
begins with `GET` the request is handled as a `GET` request is: the query string is parsed
and the entries handed on are those the splitting loop makes of it. When it begins with
`HEAD` (in any letter case) the program emits only the HTML header block and exits, without
parsing the query, whatever the fuel of the splitting loop. Every other such value yields
the unsupported-request-method page alone, with no query parsing, no probe and no store
operation. -/
theorem c20_request_method (c : Config) (fuel : Nat) (env : Env) (reqmethodvar word : CStr)
    (hm : env.REQUEST_METHOD = some reqmethodvar)
    (hlen : reqmethodvar.length ≤ c.MAXREQMETHODLEN)
    (hw : sscanf_s c.MAXREQMETHODLEN reqmethodvar = some word) :
    ((word.map c_toupper).take 3 = lit "GET" →
        (3 ≤ c.MAXREQMETHODLEN →
          request_stage c fuel env
            = request_stage c fuel { env with REQUEST_METHOD := some (lit "GET") })
        ∧ ∀ querystringvar qs, env.QUERY_STRING = some querystringvar →
            querystringvar.length ≤ c.MAXQUERYSTRLEN →
            sscanf_s c.MAXQUERYSTRLEN querystringvar = some qs →
            request_stage c fuel env = (split_query c fuel (qs.map c_tolower)).map Stage.go)
      ∧ ((word.map c_toupper).take 4 = lit "HEAD" →
          request_stage c 0 env = some (Stage.done Page.head_only)
            ∧ main c fuel env = some ⟨[Event.html Page.head_only], EXIT_SUCCESS⟩)
      ∧ ((word.map c_toupper).take 3 ≠ lit "GET" → (word.map c_toupper).take 4 ≠ lit "HEAD" →
          request_stage c 0 env = some (Stage.done Page.unsupported_request_method)
            ∧ main c fuel env
              = some ⟨[Event.html Page.unsupported_request_method], EXIT_SUCCESS⟩
            ∧ ∀ out, main c fuel env = some out → ∀ e ∈ out.trace,
                e.is_probe = false ∧ e.is_keyed_store_op = false
                  ∧ e.is_store_change = false) := by
  have hget : ∀ w : CStr, strncmp_eq (lit "GET") w 3 = true ↔ w.take 3 = lit "GET" := by
    intro w
    simp only [strncmp_eq, beq_iff_eq]
    constructor
    · intro h; rw [← h]; rfl
    · intro h; rw [h]; rfl
  have hhead : ∀ w : CStr, strncmp_eq (lit "HEAD") w 4 = true ↔ w.take 4 = lit "HEAD" := by
    intro w
    simp only [strncmp_eq, beq_iff_eq]
    constructor
    · intro h; rw [← h]; rfl
    · intro h; rw [h]; rfl
  have hstage := fun f => request_stage_of_word c f env reqmethodvar word hm hlen hw
  refine ⟨?_, ?_, ?_⟩
  · intro hg
    have hg' := (hget _).2 hg
    refine ⟨?_, ?_⟩
    · intro h3
      have hplain := request_stage_of_word c fuel
        { env with REQUEST_METHOD := some (lit "GET") } (lit "GET") (lit "GET") rfl
        (by simpa [lit] using h3)
        (by
          have : sscanf_s c.MAXREQMETHODLEN (lit "GET")
              = some ((lit "GET").take c.MAXREQMETHODLEN) := by
            have h1 : (lit "GET").take c.MAXREQMETHODLEN = lit "GET" := by
              apply List.take_of_length_le
              simpa [lit] using h3
            rw [h1]
            simp only [sscanf_s]
            have h2 : List.dropWhile isspace (lit "GET") = lit "GET" := by decide
            have h4 : List.takeWhile (fun ch => !isspace ch) (lit "GET") = lit "GET" := by
              decide
            rw [h2, h4, h1]
            rfl
          rw [this, List.take_of_length_le (by simpa [lit] using h3)])
      rw [hstage fuel, hplain, if_pos hg', if_pos (by decide)]
    · intro querystringvar qs hq hqlen hqs
      rw [hstage fuel, if_pos hg', hq]
      simp only
      rw [if_neg (by omega), hqs]
  · intro hh
    have hh' := (hhead _).2 hh
    have hng : ¬ strncmp_eq (lit "GET") (word.map c_toupper) 3 = true := by
      rw [hget]
      intro hg
      have h1 : ((word.map c_toupper).take 4).take 3 = (lit "HEAD").take 3 := by rw [hh]
      rw [List.take_take, show min 3 4 = 3 from rfl, hg] at h1
      revert h1
      decide
    have h0 : ∀ f, request_stage c f env = some (Stage.done Page.head_only) := by
      intro f
      rw [hstage f, if_neg hng, if_pos hh']
    exact ⟨h0 0, main_of_request_done c fuel env _ (h0 fuel)⟩
  · intro hg hh
    have hng : ¬ strncmp_eq (lit "GET") (word.map c_toupper) 3 = true := by
      rw [hget]; exact hg
    have hnh : ¬ strncmp_eq (lit "HEAD") (word.map c_toupper) 4 = true := by
      rw [hhead]; exact hh
    have h0 : ∀ f, request_stage c f env
        = some (Stage.done Page.unsupported_request_method) := by
      intro f
      rw [hstage f, if_neg hng, if_neg hnh]
    have hmain := main_of_request_done c fuel env _ (h0 fuel)
    refine ⟨h0 0, hmain, ?_⟩
    intro out hout e he
    rw [hmain] at hout
    have : out = ⟨[Event.html Page.unsupported_request_method], EXIT_SUCCESS⟩ := by
      simpa using hout.symm
    subst this
    simp only [List.mem_singleton] at he
    subst he
    exact ⟨rfl, rfl, rfl⟩

/-- C20, amended, at a concrete point: the constants of `refConfig` and a request whose
method is `head` in lower case. -/
theorem c20_request_method_witness :
    (((lit "head").map c_toupper).take 3 = lit "GET" →
        (3 ≤ refConfig.MAXREQMETHODLEN →
          request_stage refConfig 10 (sample_env "head" "termsaccepted=0&session=5" "::1" 0)
            = request_stage refConfig 10
                { sample_env "head" "termsaccepted=0&session=5" "::1" 0 with
                  REQUEST_METHOD := some (lit "GET") })
        ∧ ∀ querystringvar qs,
            (sample_env "head" "termsaccepted=0&session=5" "::1" 0).QUERY_STRING
              = some querystringvar →
            querystringvar.length ≤ refConfig.MAXQUERYSTRLEN →
            sscanf_s refConfig.MAXQUERYSTRLEN querystringvar = some qs →
            request_stage refConfig 10 (sample_env "head" "termsaccepted=0&session=5" "::1" 0)
              = (split_query refConfig 10 (qs.map c_tolower)).map Stage.go)
      ∧ (((lit "head").map c_toupper).take 4 = lit "HEAD" →
          request_stage refConfig 0 (sample_env "head" "termsaccepted=0&session=5" "::1" 0)
              = some (Stage.done Page.head_only)
            ∧ main refConfig 10 (sample_env "head" "termsaccepted=0&session=5" "::1" 0)
              = some ⟨[Event.html Page.head_only], EXIT_SUCCESS⟩)
      ∧ (((lit "head").map c_toupper).take 3 ≠ lit "GET" →
          ((lit "head").map c_toupper).take 4 ≠ lit "HEAD" →
          request_stage refConfig 0 (sample_env "head" "termsaccepted=0&session=5" "::1" 0)
              = some (Stage.done Page.unsupported_request_method)
            ∧ main refConfig 10 (sample_env "head" "termsaccepted=0&session=5" "::1" 0)
              = some ⟨[Event.html Page.unsupported_request_method], EXIT_SUCCESS⟩
            ∧ ∀ out, main refConfig 10 (sample_env "head" "termsaccepted=0&session=5" "::1" 0)
                = some out → ∀ e ∈ out.trace,
                e.is_probe = false ∧ e.is_keyed_store_op = false
                  ∧ e.is_store_change = false) :=
  c20_request_method refConfig 10 (sample_env "head" "termsaccepted=0&session=5" "::1" 0)
    (lit "head") (lit "head") rfl (by decide) (by decide)

/-! ## Entries with other names -/

theorem strncmp_eq_of_not_prefix (name varname : CStr) (h : ¬ name <+: varname) :
    strncmp_eq name varname name.length = false := by
  unfold strncmp_eq
  rw [List.take_length]
  rw [List.prefix_iff_eq_take] at h
  simpa using h

theorem find_query_insert (name : CStr) (n : Nat) (pre post : List queries) (e : queries)
    (h : strncmp_eq name e.varname n = false) :
    find_query name n (pre ++ e :: post) = find_query name n (pre ++ post) := by
  simp [find_query, List.find?_append, List.find?_cons, h]

theorem slot_name_stored (customport : Nat) (h : customport < 100000) :
    snprintf_stored 16 (lit "customport" ++ fmt_d customport)
      = lit "customport" ++ fmt_d customport := by
  unfold snprintf_stored
  apply List.take_of_length_le
  have := (fmt_d_length_nonneg (customport : Int) (by omega) (by omega)).2
  have h10 : (lit "customport").length = 10 := by decide
  rw [List.length_append, h10]
  omega

theorem customport_body_insert (c : Config) (pre post : List queries) (e : queries)
    (customport : Nat)
    (h : strncmp_eq (snprintf_stored 16 (lit "customport" ++ fmt_d customport)) e.varname
      (lit "customport" ++ fmt_d customport).length = false) (b : build_state) :
    customport_body (pre ++ e :: post) c customport b
      = customport_body (pre ++ post) c customport b := by
  simp only [customport_body]
  rw [find_query_insert _ _ pre post e h]

theorem customport_loop_insert (c : Config) (pre post : List queries) (e : queries) :
    ∀ (n customport : Nat) (b : build_state),
      (∀ k, customport ≤ k → k < customport + n →
        strncmp_eq (snprintf_stored 16 (lit "customport" ++ fmt_d k)) e.varname
          (lit "customport" ++ fmt_d k).length = false) →
      customport_loop (pre ++ e :: post) c n customport b
        = customport_loop (pre ++ post) c n customport b := by
  intro n
  induction n with
  | zero => intro customport b _; rfl
  | succ n ih =>
    intro customport b h
    unfold customport_loop
    rw [customport_body_insert c pre post e customport (h customport (le_refl _) (by omega))]
    cases customport_body (pre ++ post) c customport b with
    | done p => rfl
    | go b1 => exact ih (customport + 1) b1 (fun k h1 h2 => h k (by omega) (by omega))

/-- C18, as the code has it: the name `sessionx` is none of the recognised names, yet adding
the pair `sessionx=5` in front of the query `session=6` changes the parsed session from 6
to 5. -/
theorem c18_sessionx_taken_as_session :
    lit "sessionx" ∉ recognised_names refConfig
      ∧ split_query refConfig 10 (lit "session=6") = some [⟨lit "session", 6, 1⟩]
      ∧ split_query refConfig 10 (lit "sessionx=5&session=6")
          = some [⟨lit "sessionx", 5, 1⟩, ⟨lit "session", 6, 1⟩]
      ∧ parse_querysession [⟨lit "session", 6, 1⟩] = 6
      ∧ parse_querysession [⟨lit "sessionx", 5, 1⟩, ⟨lit "session", 6, 1⟩] = 5 := by
  decide

/-- C18, amended: for every list of parsed entries and every extra entry whose name does
not begin with any of `includeexisting`, `termsaccepted`, `starttime`, `session`,
`beginscan`, `fetch`, `customport0` .. `customport(NUMUSERDEFPORTS-1)`, adding the entry
anywhere in the list changes none of the parsed includeexisting, termsaccepted, starttime,
session, beginscan, fetch and fetchnum values, nor the port list and the reconstituted query
that are built. -/
theorem c18_unrecognised_entry_ignored (c : Config) (hslots : c.NUMUSERDEFPORTS ≤ 100000)
    (pre post : List queries) (e : queries)
    (he : ∀ name ∈ recognised_names c, ¬ name <+: e.varname) :
    parse_includeexisting (pre ++ e :: post) = parse_includeexisting (pre ++ post)
      ∧ parse_termsaccepted (pre ++ e :: post) = parse_termsaccepted (pre ++ post)
      ∧ parse_querystarttime (pre ++ e :: post) = parse_querystarttime (pre ++ post)
      ∧ parse_querysession (pre ++ e :: post) = parse_querysession (pre ++ post)
      ∧ parse_beginscan c (pre ++ e :: post) = parse_beginscan c (pre ++ post)
      ∧ parse_fetch (pre ++ e :: post) = parse_fetch (pre ++ post)
      ∧ parse_fetchnum (pre ++ e :: post) = parse_fetchnum (pre ++ post)
      ∧ ∀ includeexisting termsaccepted,
          build_ports c (pre ++ e :: post) includeexisting termsaccepted
            = build_ports c (pre ++ post) includeexisting termsaccepted := by
  have hlit : ∀ name ∈ [lit "includeexisting", lit "termsaccepted", lit "starttime",
      lit "session", lit "beginscan", lit "fetch"],
      find_query name name.length (pre ++ e :: post) = find_query name name.length (pre ++ post) := by
    intro name hname
    apply find_query_insert
    apply strncmp_eq_of_not_prefix
    apply he
    unfold recognised_names
    exact List.mem_append_left _ hname
  have h1 := hlit (lit "includeexisting") (by simp)
  have h2 := hlit (lit "termsaccepted") (by simp)
  have h3 := hlit (lit "starttime") (by simp)
  have h4 := hlit (lit "session") (by simp)
  have h5 := hlit (lit "beginscan") (by simp)
  have h6 := hlit (lit "fetch") (by simp)
  have l1 : (lit "includeexisting").length = 15 := by decide
  have l2 : (lit "termsaccepted").length = 13 := by decide
  have l3 : (lit "starttime").length = 9 := by decide
  have l4 : (lit "session").length = 7 := by decide
  have l5 : (lit "beginscan").length = 9 := by decide
  have l6 : (lit "fetch").length = 5 := by decide
  rw [l1] at h1
  rw [l2] at h2
  rw [l3] at h3
  rw [l4] at h4
  rw [l5] at h5
  rw [l6] at h6
  refine ⟨?_, ?_, ?_, ?_, ?_, ?_, ?_, ?_⟩
  · simp only [parse_includeexisting, h1]
  · simp only [parse_termsaccepted, h2]
  · simp only [parse_querystarttime, h3]
  · simp only [parse_querysession, h4]
  · simp only [parse_beginscan, h5]
  · simp only [parse_fetch, h6]
  · simp only [parse_fetchnum, h6]
  · intro includeexisting termsaccepted
    unfold build_ports
    cases recon_begin c includeexisting termsaccepted with
    | done p => rfl
    | go rs =>
      obtain ⟨recon, size⟩ := rs
      simp only
      apply customport_loop_insert
      intro k _ hk
      have hk' : k < c.NUMUSERDEFPORTS := by omega
      rw [slot_name_stored k (by omega)]
      apply strncmp_eq_of_not_prefix
      apply he
      unfold recognised_names
      apply List.mem_append_right
      exact List.mem_map_of_mem (fun customport : Nat => lit "customport" ++ fmt_d customport)
        (List.mem_range.2 hk')

/-- C18, amended, at a concrete point: the constants of `refConfig` and the entry of the
pair `colour=7` added between the entries of `session=6` and `customport0=8080`. -/
theorem c18_unrecognised_entry_ignored_witness :
    parse_includeexisting ([⟨lit "session", 6, 1⟩] ++ ⟨lit "colour", 7, 1⟩
          :: [⟨lit "customport0", 8080, 1⟩])
        = parse_includeexisting ([⟨lit "session", 6, 1⟩] ++ [⟨lit "customport0", 8080, 1⟩])
      ∧ parse_termsaccepted ([⟨lit "session", 6, 1⟩] ++ ⟨lit "colour", 7, 1⟩
          :: [⟨lit "customport0", 8080, 1⟩])
        = parse_termsaccepted ([⟨lit "session", 6, 1⟩] ++ [⟨lit "customport0", 8080, 1⟩])
      ∧ parse_querystarttime ([⟨lit "session", 6, 1⟩] ++ ⟨lit "colour", 7, 1⟩
          :: [⟨lit "customport0", 8080, 1⟩])
        = parse_querystarttime ([⟨lit "session", 6, 1⟩] ++ [⟨lit "customport0", 8080, 1⟩])
      ∧ parse_querysession ([⟨lit "session", 6, 1⟩] ++ ⟨lit "colour", 7, 1⟩
          :: [⟨lit "customport0", 8080, 1⟩])
        = parse_querysession ([⟨lit "session", 6, 1⟩] ++ [⟨lit "customport0", 8080, 1⟩])
      ∧ parse_beginscan refConfig ([⟨lit "session", 6, 1⟩] ++ ⟨lit "colour", 7, 1⟩
          :: [⟨lit "customport0", 8080, 1⟩])
        = parse_beginscan refConfig
            ([⟨lit "session", 6, 1⟩] ++ [⟨lit "customport0", 8080, 1⟩])
      ∧ parse_fetch ([⟨lit "session", 6, 1⟩] ++ ⟨lit "colour", 7, 1⟩
          :: [⟨lit "customport0", 8080, 1⟩])
        = parse_fetch ([⟨lit "session", 6, 1⟩] ++ [⟨lit "customport0", 8080, 1⟩])
      ∧ parse_fetchnum ([⟨lit "session", 6, 1⟩] ++ ⟨lit "colour", 7, 1⟩
          :: [⟨lit "customport0", 8080, 1⟩])
        = parse_fetchnum ([⟨lit "session", 6, 1⟩] ++ [⟨lit "customport0", 8080, 1⟩])
      ∧ ∀ includeexisting termsaccepted,
          build_ports refConfig ([⟨lit "session", 6, 1⟩] ++ ⟨lit "colour", 7, 1⟩
              :: [⟨lit "customport0", 8080, 1⟩]) includeexisting termsaccepted
            = build_ports refConfig
                ([⟨lit "session", 6, 1⟩] ++ [⟨lit "customport0", 8080, 1⟩])
                includeexisting termsaccepted :=
  c18_unrecognised_entry_ignored refConfig (by decide) [⟨lit "session", 6, 1⟩]
    [⟨lit "customport0", 8080, 1⟩] ⟨lit "colour", 7, 1⟩ (by decide)

/-! ## The bounds of the splitting loop -/

theorem char_at_lt (s : CStr) (i : Nat) (h : char_at s i ≠ 0) : i < s.length := by
  by_contra hn
  apply h
  unfold char_at
  rw [List.getD_eq_default _ _ (by omega)]

theorem scan_name_bounds (c : Config) (querystring : CStr) (finished : Int) :
    ∀ (n queryindex : Nat) (varname : CStr), queryindex ≤ querystring.length →
      queryindex ≤ (scan_name c querystring finished n queryindex varname).1
        ∧ (scan_name c querystring finished n queryindex varname).1 ≤ querystring.length
        ∧ (scan_name c querystring finished n queryindex varname).2.length ≤ varname.length + n := by
  intro n
  induction n with
  | zero => intro queryindex varname h; simp [scan_name, h]
  | succ n ih =>
    intro queryindex varname h
    unfold scan_name
    simp only
    split_ifs with hc
    · have hlt : queryindex < querystring.length := char_at_lt _ _ (by omega)
      have := ih (queryindex + 1) (varname ++ [char_at querystring queryindex]) hlt
      simp only [List.length_append, List.length_singleton] at this
      refine ⟨by omega, this.2.1, by omega⟩
    · exact ⟨le_refl _, h, Nat.le_add_right _ _⟩

theorem scan_value_bounds (c : Config) (querystring : CStr) :
    ∀ (n queryindex : Nat) (valstring : CStr), queryindex ≤ querystring.length →
      queryindex ≤ (scan_value c querystring n queryindex valstring).1
        ∧ (scan_value c querystring n queryindex valstring).1 ≤ querystring.length
        ∧ (scan_value c querystring n queryindex valstring).2.length ≤ valstring.length + n := by
  intro n
  induction n with
  | zero => intro queryindex valstring h; simp [scan_value, h]
  | succ n ih =>
    intro queryindex valstring h
    unfold scan_value
    simp only
    split_ifs with hc
    · have hlt : queryindex < querystring.length := char_at_lt _ _ (by omega)
      have := ih (queryindex + 1) (valstring ++ [char_at querystring queryindex]) hlt
      simp only [List.length_append, List.length_singleton] at this
      refine ⟨by omega, this.2.1, by omega⟩
    · exact ⟨le_refl _, h, Nat.le_add_right _ _⟩

theorem skip_char_bounds (c : Config) (querystring : CStr) (ch : Int) (hch : ch ≠ 0) :
    ∀ (k queryindex : Nat), queryindex ≤ querystring.length →
      queryindex ≤ skip_char c querystring ch k queryindex
        ∧ skip_char c querystring ch k queryindex ≤ querystring.length := by
  intro k
  induction k with
  | zero => intro queryindex h; simp [skip_char, h]
  | succ k ih =>
    intro queryindex h
    unfold skip_char
    split_ifs with hc
    · have hlt : queryindex < querystring.length := char_at_lt _ _ (by rw [← hc.1]; exact hch)
      have := ih (queryindex + 1) hlt
      exact ⟨by omega, this.2⟩
    · exact ⟨le_refl _, h⟩

theorem split_body_stop (c : Config) (querystring : CStr) (s : split_state)
    (hf : 32 > char_at querystring
        (scan_name c querystring s.finished c.MAXQUERYNAMELEN s.queryindex []).1
      ∨ 126 < char_at querystring
        (scan_name c querystring s.finished c.MAXQUERYNAMELEN s.queryindex []).1
      ∨ c.MAXQUERYSTRLEN
        ≤ (scan_name c querystring s.finished c.MAXQUERYNAMELEN s.queryindex []).1) :
    split_body c querystring s
      = ⟨(scan_name c querystring s.finished c.MAXQUERYNAMELEN s.queryindex []).1,
          finished_at c querystring
            (scan_name c querystring s.finished c.MAXQUERYNAMELEN s.queryindex []).1,
          s.query⟩ := by
  simp only [split_body, finished_at, if_pos hf]
  simp

theorem split_body_no_value (c : Config) (querystring : CStr) (s : split_state)
    (hf : ¬ (32 > char_at querystring
        (scan_name c querystring s.finished c.MAXQUERYNAMELEN s.queryindex []).1
      ∨ 126 < char_at querystring
        (scan_name c querystring s.finished c.MAXQUERYNAMELEN s.queryindex []).1
      ∨ c.MAXQUERYSTRLEN
        ≤ (scan_name c querystring s.finished c.MAXQUERYNAMELEN s.queryindex []).1))
    (he : 61 ≠ char_at querystring
        (scan_name c querystring s.finished c.MAXQUERYNAMELEN s.queryindex []).1) :
    split_body c querystring s
      = ⟨skip_char c querystring 38 c.MAXQUERYSTRLEN
          (scan_name c querystring s.finished c.MAXQUERYNAMELEN s.queryindex []).1,
          finished_at c querystring (skip_char c querystring 38 c.MAXQUERYSTRLEN
            (scan_name c querystring s.finished c.MAXQUERYNAMELEN s.queryindex []).1),
          s.query⟩ := by
  simp only [split_body, finished_at, if_neg hf]
  simp [he]

theorem split_body_value (c : Config) (querystring : CStr) (s : split_state)
    (hf : ¬ (32 > char_at querystring
        (scan_name c querystring s.finished c.MAXQUERYNAMELEN s.queryindex []).1
      ∨ 126 < char_at querystring
        (scan_name c querystring s.finished c.MAXQUERYNAMELEN s.queryindex []).1
      ∨ c.MAXQUERYSTRLEN
        ≤ (scan_name c querystring s.finished c.MAXQUERYNAMELEN s.queryindex []).1))
    (he : 61 = char_at querystring
        (scan_name c querystring s.finished c.MAXQUERYNAMELEN s.queryindex []).1) :
    split_body c querystring s
      = ⟨skip_char c querystring 38 c.MAXQUERYSTRLEN
          (scan_value c querystring c.MAXQUERYVALLEN
            (skip_char c querystring 61 c.MAXQUERYSTRLEN
              (scan_name c querystring s.finished c.MAXQUERYNAMELEN s.queryindex []).1) []).1,
          finished_at c querystring (skip_char c querystring 38 c.MAXQUERYSTRLEN
            (scan_value c querystring c.MAXQUERYVALLEN
              (skip_char c querystring 61 c.MAXQUERYSTRLEN
                (scan_name c querystring s.finished c.MAXQUERYNAMELEN s.queryindex []).1) []).1),
          s.query ++ [entry_for
            (scan_name c querystring s.finished c.MAXQUERYNAMELEN s.queryindex []).2
            (scan_value c querystring c.MAXQUERYVALLEN
              (skip_char c querystring 61 c.MAXQUERYSTRLEN
                (scan_name c querystring s.finished c.MAXQUERYNAMELEN s.queryindex []).1) []).2]⟩ := by
  simp only [split_body, finished_at, entry_for, if_neg hf]
  simp only [← he, and_self, if_true]
  cases sscanf_d64 (scan_value c querystring c.MAXQUERYVALLEN
      (skip_char c querystring 61 c.MAXQUERYSTRLEN
        (scan_name c querystring s.finished c.MAXQUERYNAMELEN s.queryindex []).1) []).2 <;> rfl

theorem split_body_inv (c : Config) (querystring : CStr) (s : split_state)
    (hinv : split_inv c querystring s) (hroom : s.numqueries < c.MAXQUERIES) :
    split_inv c querystring (split_body c querystring s)
      ∧ s.queryindex ≤ (split_body c querystring s).queryindex
      ∧ s.numqueries ≤ (split_body c querystring s).numqueries
      ∧ (split_body c querystring s).numqueries ≤ s.numqueries + 1 := by
  obtain ⟨hqi, hnum, hnames⟩ := hinv
  have hn := scan_name_bounds c querystring s.finished c.MAXQUERYNAMELEN s.queryindex [] hqi
  have hs1 := skip_char_bounds c querystring 61 (by decide) c.MAXQUERYSTRLEN _ hn.2.1
  have hv := scan_value_bounds c querystring c.MAXQUERYVALLEN _ [] hs1.2
  have hs2 := skip_char_bounds c querystring 38 (by decide) c.MAXQUERYSTRLEN _ hv.2.1
  have hs3 := skip_char_bounds c querystring 38 (by decide) c.MAXQUERYSTRLEN _ hn.2.1
  simp only [List.length_nil, Nat.zero_add] at hn hv
  unfold split_state.numqueries at hroom hnum ⊢
  unfold split_inv split_state.numqueries
  by_cases hf : (32 > char_at querystring
        (scan_name c querystring s.finished c.MAXQUERYNAMELEN s.queryindex []).1
      ∨ 126 < char_at querystring
        (scan_name c querystring s.finished c.MAXQUERYNAMELEN s.queryindex []).1
      ∨ c.MAXQUERYSTRLEN
        ≤ (scan_name c querystring s.finished c.MAXQUERYNAMELEN s.queryindex []).1)
  · rw [split_body_stop c querystring s hf]
    exact ⟨⟨hn.2.1, hnum, hnames⟩, hn.1, le_refl _, Nat.le_succ _⟩
  · by_cases he : 61 = char_at querystring
        (scan_name c querystring s.finished c.MAXQUERYNAMELEN s.queryindex []).1
    · rw [split_body_value c querystring s hf he]
      simp only [List.length_append, List.length_singleton, List.mem_append,
        List.mem_singleton]
      refine ⟨⟨hs2.2, by omega, ?_⟩, by omega, by omega, le_refl _⟩
      rintro e (h | rfl)
      · exact hnames e h
      · unfold entry_for
        split <;> exact hn.2.2
    · rw [split_body_no_value c querystring s hf he]
      exact ⟨⟨hs3.2, hnum, hnames⟩, by simp only; omega, le_refl _, Nat.le_succ _⟩

theorem split_loop_inv (c : Config) (querystring : CStr) :
    ∀ (fuel : Nat) (s s' : split_state), split_inv c querystring s →
      split_loop c querystring fuel s = some s' → split_inv c querystring s' := by
  intro fuel
  induction fuel with
  | zero => intro s s' _ h; simp [split_loop] at h
  | succ fuel ih =>
    intro s s' hinv h
    unfold split_loop at h
    split_ifs at h with hc
    · exact ih _ s' (split_body_inv c querystring s hinv hc.2.2.2).1 h
    · have : s' = s := by simpa using h.symm
      rw [this]
      exact hinv

/-- C16: for every query string of at most `MAXQUERYSTRLEN` characters, the splitting loop
starts within the declared sizes and every pass keeps it there: `queryindex` never passes the
terminator of the query string (so it stays at most `MAXQUERYSTRLEN`), a pass is entered with
fewer than `MAXQUERIES` entries and adds at most one, the name copied has at most
`MAXQUERYNAMELEN` characters and the value string converted has at most `MAXQUERYVALLEN`
characters; hence the entries left by the loop are at most `MAXQUERIES` and each name has at
most `MAXQUERYNAMELEN` characters. -/
theorem c16_split_within_bounds (c : Config) (querystring : CStr)
    (hlen : querystring.length ≤ c.MAXQUERYSTRLEN) :
    split_inv c querystring ⟨0, 0, []⟩
      ∧ (∀ s, split_inv c querystring s →
          c.MAXQUERYSTRLEN > s.queryindex ∧ 32 ≤ char_at querystring s.queryindex
            ∧ 0 = s.finished ∧ c.MAXQUERIES > s.numqueries →
          s.numqueries < c.MAXQUERIES
            ∧ split_inv c querystring (split_body c querystring s)
            ∧ (split_body c querystring s).queryindex ≤ c.MAXQUERYSTRLEN
            ∧ (split_body c querystring s).numqueries ≤ s.numqueries + 1
            ∧ (scan_name c querystring s.finished c.MAXQUERYNAMELEN s.queryindex []).2.length
                ≤ c.MAXQUERYNAMELEN
            ∧ (scan_name c querystring s.finished c.MAXQUERYNAMELEN s.queryindex []).1
                ≤ querystring.length)
      ∧ (∀ queryindex, queryindex ≤ querystring.length →
          skip_char c querystring 61 c.MAXQUERYSTRLEN queryindex ≤ querystring.length
            ∧ skip_char c querystring 38 c.MAXQUERYSTRLEN queryindex ≤ querystring.length
            ∧ (scan_value c querystring c.MAXQUERYVALLEN queryindex []).1 ≤ querystring.length
            ∧ (scan_value c querystring c.MAXQUERYVALLEN queryindex []).2.length
                ≤ c.MAXQUERYVALLEN)
      ∧ (∀ fuel s, split_loop c querystring fuel ⟨0, 0, []⟩ = some s →
          split_inv c querystring s ∧ s.queryindex ≤ c.MAXQUERYSTRLEN)
      ∧ ∀ fuel query, split_query c fuel querystring = some query →
          query.length ≤ c.MAXQUERIES ∧ ∀ e ∈ query, e.varname.length ≤ c.MAXQUERYNAMELEN := by
  have h0 : split_inv c querystring ⟨0, 0, []⟩ := by
    refine ⟨Nat.zero_le _, Nat.zero_le _, ?_⟩
    intro e he
    simp at he
  refine ⟨h0, ?_, ?_, ?_, ?_⟩
  · intro s hinv hc
    have hb := split_body_inv c querystring s hinv hc.2.2.2
    have hn := scan_name_bounds c querystring s.finished c.MAXQUERYNAMELEN s.queryindex []
      hinv.1
    simp only [List.length_nil, Nat.zero_add] at hn
    exact ⟨hc.2.2.2, hb.1, le_trans hb.1.1 hlen, hb.2.2.2, hn.2.2, hn.2.1⟩
  · intro queryindex hq
    have hv := scan_value_bounds c querystring c.MAXQUERYVALLEN queryindex [] hq
    simp only [List.length_nil, Nat.zero_add] at hv
    exact ⟨(skip_char_bounds c querystring 61 (by decide) _ _ hq).2,
      (skip_char_bounds c querystring 38 (by decide) _ _ hq).2, hv.2.1, hv.2.2⟩
  · intro fuel s hs
    have := split_loop_inv c querystring fuel _ s h0 hs
    exact ⟨this, le_trans this.1 hlen⟩
  · intro fuel query hq
    unfold split_query at hq
    cases hs : split_loop c querystring fuel ⟨0, 0, []⟩ with
    | none => rw [hs] at hq; simp at hq
    | some s =>
      rw [hs] at hq
      have hqs : s.query = query := by simpa using hq
      have := split_loop_inv c querystring fuel _ s h0 hs
      rw [← hqs]
      exact ⟨this.2.1, this.2.2⟩

/-- C16 at a concrete point: the constants of `refConfig` and the query string
`session=6&customport0=80`. -/
theorem c16_split_within_bounds_witness :
    split_inv refConfig (lit "session=6&customport0=80") ⟨0, 0, []⟩
      ∧ (∀ s, split_inv refConfig (lit "session=6&customport0=80") s →
          refConfig.MAXQUERYSTRLEN > s.queryindex ∧ 32 ≤ char_at (lit "session=6&customport0=80") s.queryindex
            ∧ 0 = s.finished ∧ refConfig.MAXQUERIES > s.numqueries →
          s.numqueries < refConfig.MAXQUERIES
            ∧ split_inv refConfig (lit "session=6&customport0=80") (split_body refConfig (lit "session=6&customport0=80") s)
            ∧ (split_body refConfig (lit "session=6&customport0=80") s).queryindex ≤ refConfig.MAXQUERYSTRLEN
            ∧ (split_body refConfig (lit "session=6&customport0=80") s).numqueries ≤ s.numqueries + 1
            ∧ (scan_name refConfig (lit "session=6&customport0=80") s.finished refConfig.MAXQUERYNAMELEN s.queryindex []).2.length
                ≤ refConfig.MAXQUERYNAMELEN
            ∧ (scan_name refConfig (lit "session=6&customport0=80") s.finished refConfig.MAXQUERYNAMELEN s.queryindex []).1
                ≤ (lit "session=6&customport0=80").length)
      ∧ (∀ queryindex, queryindex ≤ (lit "session=6&customport0=80").length →
          skip_char refConfig (lit "session=6&customport0=80") 61 refConfig.MAXQUERYSTRLEN queryindex ≤ (lit "session=6&customport0=80").length
            ∧ skip_char refConfig (lit "session=6&customport0=80") 38 refConfig.MAXQUERYSTRLEN queryindex ≤ (lit "session=6&customport0=80").length
            ∧ (scan_value refConfig (lit "session=6&customport0=80") refConfig.MAXQUERYVALLEN queryindex []).1 ≤ (lit "session=6&customport0=80").length
            ∧ (scan_value refConfig (lit "session=6&customport0=80") refConfig.MAXQUERYVALLEN queryindex []).2.length
                ≤ refConfig.MAXQUERYVALLEN)
      ∧ (∀ fuel s, split_loop refConfig (lit "session=6&customport0=80") fuel ⟨0, 0, []⟩ = some s →
          split_inv refConfig (lit "session=6&customport0=80") s ∧ s.queryindex ≤ refConfig.MAXQUERYSTRLEN)
      ∧ ∀ fuel query, split_query refConfig fuel (lit "session=6&customport0=80") = some query →
          query.length ≤ refConfig.MAXQUERIES ∧ ∀ e ∈ query, e.varname.length ≤ refConfig.MAXQUERYNAMELEN :=
  c16_split_within_bounds refConfig (lit "session=6&customport0=80") (by decide)

/-! ## What the splitting loop copies -/

theorem char_at_append (pre rest : CStr) :
    char_at (pre ++ rest) pre.length = rest.headD 0 := by
  unfold char_at
  rw [List.getD_append_right _ _ _ _ (le_refl _)]
  cases rest <;> simp

theorem scan_name_exact (c : Config) :
    ∀ (w pre rest acc : CStr) (n : Nat), (∀ ch ∈ w, pair_char ch) → w.length ≤ n →
      (w.length = n ∨ ¬ pair_char (rest.headD 0)) →
      (pre ++ (w ++ rest)).length ≤ c.MAXQUERYSTRLEN →
      scan_name c (pre ++ (w ++ rest)) 0 n pre.length acc = (pre.length + w.length, acc ++ w) := by
  intro w
  induction w with
  | nil =>
    intro pre rest acc n _ _ hstop _
    cases n with
    | zero => simp [scan_name]
    | succ n =>
      have hs : ¬ pair_char (rest.headD 0) := by
        rcases hstop with h | h
        · simp at h
        · exact h
      unfold scan_name
      simp only [List.nil_append, char_at_append]
      rw [if_neg (fun h => hs ⟨h.1, h.2.1, h.2.2.1, h.2.2.2.1⟩)]
      simp
  | cons ch w ih =>
    intro pre rest acc n hw hn hstop hlen
    cases n with
    | zero => simp at hn
    | succ n =>
      have hch : pair_char ch := hw ch (List.mem_cons_self _ _)
      unfold scan_name
      have hca : char_at (pre ++ (ch :: w ++ rest)) pre.length = ch := by
        rw [char_at_append]; rfl
      simp only [hca]
      have hlt : c.MAXQUERYSTRLEN > pre.length := by
        simp only [List.length_append, List.length_cons] at hlen
        omega
      rw [if_pos ⟨hch.1, hch.2.1, hch.2.2.1, hch.2.2.2, hlt, trivial⟩]
      have e : pre ++ (ch :: w ++ rest) = (pre ++ [ch]) ++ (w ++ rest) := by simp
      have hl : pre.length + 1 = (pre ++ [ch]).length := by simp
      rw [e, hl, ih (pre ++ [ch]) rest (acc ++ [ch]) n
        (fun x hx => hw x (List.mem_cons_of_mem _ hx))
        (by simp only [List.length_cons] at hn; omega)
        (by
          rcases hstop with h | h
          · left; simp only [List.length_cons] at h; omega
          · right; exact h)
        (by rw [← e]; exact hlen)]
      simp only [List.length_append, List.length_singleton, List.length_cons, List.length_nil,
        List.append_assoc, List.singleton_append]
      congr 1
      omega

theorem scan_value_exact (c : Config) :
    ∀ (w pre rest acc : CStr) (n : Nat), (∀ ch ∈ w, pair_char ch) → w.length ≤ n →
      (w.length = n ∨ ¬ pair_char (rest.headD 0)) →
      (pre ++ (w ++ rest)).length ≤ c.MAXQUERYSTRLEN →
      scan_value c (pre ++ (w ++ rest)) n pre.length acc = (pre.length + w.length, acc ++ w) := by
  intro w
  induction w with
  | nil =>
    intro pre rest acc n _ _ hstop _
    cases n with
    | zero => simp [scan_value]
    | succ n =>
      have hs : ¬ pair_char (rest.headD 0) := by
        rcases hstop with h | h
        · simp at h
        · exact h
      unfold scan_value
      simp only [List.nil_append, char_at_append]
      rw [if_neg (fun h => hs ⟨h.1, h.2.1, h.2.2.1, h.2.2.2.1⟩)]
      simp
  | cons ch w ih =>
    intro pre rest acc n hw hn hstop hlen
    cases n with
    | zero => simp at hn
    | succ n =>
      have hch : pair_char ch := hw ch (List.mem_cons_self _ _)
      unfold scan_value
      have hca : char_at (pre ++ (ch :: w ++ rest)) pre.length = ch := by
        rw [char_at_append]; rfl
      simp only [hca]
      have hlt : c.MAXQUERYSTRLEN > pre.length := by
        simp only [List.length_append, List.length_cons] at hlen
        omega
      rw [if_pos ⟨hch.1, hch.2.1, hch.2.2.1, hch.2.2.2, hlt⟩]
      have e : pre ++ (ch :: w ++ rest) = (pre ++ [ch]) ++ (w ++ rest) := by simp
      have hl : pre.length + 1 = (pre ++ [ch]).length := by simp
      rw [e, hl, ih (pre ++ [ch]) rest (acc ++ [ch]) n
        (fun x hx => hw x (List.mem_cons_of_mem _ hx))
        (by simp only [List.length_cons] at hn; omega)
        (by
          rcases hstop with h | h
          · left; simp only [List.length_cons] at h; omega
          · right; exact h)
        (by rw [← e]; exact hlen)]
      simp only [List.length_append, List.length_singleton, List.length_cons, List.length_nil,
        List.append_assoc, List.singleton_append]
      congr 1
      omega

theorem skip_char_one (c : Config) (pre rest : CStr) (ch : Int) (k : Nat)
    (hrest : rest.headD 0 ≠ ch) (hlen : (pre ++ ch :: rest).length ≤ c.MAXQUERYSTRLEN) :
    skip_char c (pre ++ ch :: rest) ch (k + 1) pre.length = pre.length + 1 := by
  unfold skip_char
  have hca : char_at (pre ++ ch :: rest) pre.length = ch := by
    rw [char_at_append]; rfl
  have hlt : c.MAXQUERYSTRLEN > pre.length := by
    simp only [List.length_append, List.length_cons] at hlen
    omega
  rw [if_pos ⟨hca.symm, hlt⟩]
  cases k with
  | zero => rfl
  | succ k =>
    unfold skip_char
    have e : pre ++ ch :: rest = (pre ++ [ch]) ++ rest := by simp
    have hl : pre.length + 1 = (pre ++ [ch]).length := by simp
    rw [e, hl, char_at_append, if_neg (fun h => hrest h.1.symm)]

theorem skip_char_none (c : Config) (querystring : CStr) (ch : Int) (k queryindex : Nat)
    (h : char_at querystring queryindex ≠ ch) :
    skip_char c querystring ch k queryindex = queryindex := by
  cases k with
  | zero => rfl
  | succ k =>
    unfold skip_char
    rw [if_neg (fun hc => h hc.1.symm)]

theorem split_body_pair (c : Config) (pre name value rest : CStr) (query : List queries)
    (hname : ∀ ch ∈ name, pair_char ch) (hnl : name.length ≤ c.MAXQUERYNAMELEN)
    (hvalue : ∀ ch ∈ value, pair_char ch) (hvl : value.length ≤ c.MAXQUERYVALLEN)
    (hstop : value.length = c.MAXQUERYVALLEN ∨ ¬ pair_char (rest.headD 0))
    (hhead : (value ++ rest).headD 0 ≠ 61)
    (hlen : (pre ++ (name ++ 61 :: (value ++ rest))).length ≤ c.MAXQUERYSTRLEN) :
    split_body c (pre ++ (name ++ 61 :: (value ++ rest))) ⟨pre.length, 0, query⟩
      = ⟨skip_char c (pre ++ (name ++ 61 :: (value ++ rest))) 38 c.MAXQUERYSTRLEN
            (pre.length + name.length + 1 + value.length),
          finished_at c (pre ++ (name ++ 61 :: (value ++ rest)))
            (skip_char c (pre ++ (name ++ 61 :: (value ++ rest))) 38 c.MAXQUERYSTRLEN
              (pre.length + name.length + 1 + value.length)),
          query ++ [entry_for name value]⟩ := by
  have hsn : scan_name c (pre ++ (name ++ 61 :: (value ++ rest))) 0 c.MAXQUERYNAMELEN
      pre.length [] = (pre.length + name.length, name) := by
    have := scan_name_exact c name pre (61 :: (value ++ rest)) [] c.MAXQUERYNAMELEN hname hnl
      (Or.inr (by show ¬ pair_char 61; decide)) hlen
    simpa using this
  have e1 : pre ++ (name ++ 61 :: (value ++ rest)) = (pre ++ name) ++ 61 :: (value ++ rest) := by
    simp
  have l1 : pre.length + name.length = (pre ++ name).length := by simp
  have hch : char_at (pre ++ (name ++ 61 :: (value ++ rest))) (pre.length + name.length)
      = 61 := by
    rw [e1, l1, char_at_append]; rfl
  have hmax : pre.length + name.length + 1 + value.length ≤ c.MAXQUERYSTRLEN := by
    simp only [List.length_append, List.length_cons] at hlen
    omega
  obtain ⟨k, hk⟩ : ∃ k, c.MAXQUERYSTRLEN = k + 1 := ⟨c.MAXQUERYSTRLEN - 1, by omega⟩
  have hsk : skip_char c (pre ++ (name ++ 61 :: (value ++ rest))) 61 c.MAXQUERYSTRLEN
      (pre.length + name.length) = pre.length + name.length + 1 := by
    rw [hk, e1, l1]
    apply skip_char_one
    · exact hhead
    · rw [← e1]; exact hlen
  have e2 : pre ++ (name ++ 61 :: (value ++ rest)) = (pre ++ name ++ [61]) ++ (value ++ rest) := by
    simp
  have l2 : pre.length + name.length + 1 = (pre ++ name ++ [61]).length := by
    simp only [List.length_append, List.length_singleton]
  have hsv : scan_value c (pre ++ (name ++ 61 :: (value ++ rest))) c.MAXQUERYVALLEN
      (pre.length + name.length + 1) [] = (pre.length + name.length + 1 + value.length, value) := by
    rw [e2, l2]
    have := scan_value_exact c value (pre ++ name ++ [61]) rest [] c.MAXQUERYVALLEN hvalue hvl
      hstop (by rw [← e2]; exact hlen)
    simpa using this
  have hf : ¬ (32 > char_at (pre ++ (name ++ 61 :: (value ++ rest)))
        (scan_name c (pre ++ (name ++ 61 :: (value ++ rest))) (split_state.mk pre.length 0
          query).finished c.MAXQUERYNAMELEN (split_state.mk pre.length 0 query).queryindex []).1
      ∨ 126 < char_at (pre ++ (name ++ 61 :: (value ++ rest)))
        (scan_name c (pre ++ (name ++ 61 :: (value ++ rest))) (split_state.mk pre.length 0
          query).finished c.MAXQUERYNAMELEN (split_state.mk pre.length 0 query).queryindex []).1
      ∨ c.MAXQUERYSTRLEN
        ≤ (scan_name c (pre ++ (name ++ 61 :: (value ++ rest))) (split_state.mk pre.length 0
          query).finished c.MAXQUERYNAMELEN
            (split_state.mk pre.length 0 query).queryindex []).1) := by
    simp only [hsn, hch]
    omega
  have he : 61 = char_at (pre ++ (name ++ 61 :: (value ++ rest)))
        (scan_name c (pre ++ (name ++ 61 :: (value ++ rest))) (split_state.mk pre.length 0
          query).finished c.MAXQUERYNAMELEN
            (split_state.mk pre.length 0 query).queryindex []).1 := by
    simp only [hsn, hch]
  rw [split_body_value c _ _ hf he]
  simp only [hsn, hsk, hsv]

theorem split_body_long_name (c : Config) (pre name rest : CStr) (query : List queries)
    (hname : ∀ ch ∈ name, pair_char ch) (hnl : name.length = c.MAXQUERYNAMELEN)
    (hrest : pair_char (rest.headD 0))
    (hlen : (pre ++ (name ++ rest)).length ≤ c.MAXQUERYSTRLEN) :
    split_body c (pre ++ (name ++ rest)) ⟨pre.length, 0, query⟩
      = ⟨pre.length + name.length, 0, query⟩ := by
  have hsn : scan_name c (pre ++ (name ++ rest)) 0 c.MAXQUERYNAMELEN pre.length []
      = (pre.length + name.length, name) := by
    have := scan_name_exact c name pre rest [] c.MAXQUERYNAMELEN hname (le_of_eq hnl)
      (Or.inl hnl) hlen
    simpa using this
  have e1 : pre ++ (name ++ rest) = (pre ++ name) ++ rest := by simp
  have l1 : pre.length + name.length = (pre ++ name).length := by simp
  have hch : char_at (pre ++ (name ++ rest)) (pre.length + name.length) = rest.headD 0 := by
    rw [e1, l1, char_at_append]
  have hne : rest ≠ [] := by
    intro h
    rw [h] at hrest
    revert hrest
    decide
  have hmax : pre.length + name.length < c.MAXQUERYSTRLEN := by
    have : 0 < rest.length := List.length_pos.2 hne
    simp only [List.length_append] at hlen
    omega
  obtain ⟨h32, h127, h61, h38⟩ := hrest
  have hf : ¬ (32 > char_at (pre ++ (name ++ rest))
        (scan_name c (pre ++ (name ++ rest)) (split_state.mk pre.length 0
          query).finished c.MAXQUERYNAMELEN (split_state.mk pre.length 0 query).queryindex []).1
      ∨ 126 < char_at (pre ++ (name ++ rest))
        (scan_name c (pre ++ (name ++ rest)) (split_state.mk pre.length 0
          query).finished c.MAXQUERYNAMELEN (split_state.mk pre.length 0 query).queryindex []).1
      ∨ c.MAXQUERYSTRLEN
        ≤ (scan_name c (pre ++ (name ++ rest)) (split_state.mk pre.length 0
          query).finished c.MAXQUERYNAMELEN
            (split_state.mk pre.length 0 query).queryindex []).1) := by
    simp only [hsn, hch]
    omega
  have he : 61 ≠ char_at (pre ++ (name ++ rest))
        (scan_name c (pre ++ (name ++ rest)) (split_state.mk pre.length 0
          query).finished c.MAXQUERYNAMELEN
            (split_state.mk pre.length 0 query).queryindex []).1 := by
    simp only [hsn, hch]
    exact h61
  rw [split_body_no_value c _ _ hf he]
  simp only [hsn]
  have hsk : skip_char c (pre ++ (name ++ rest)) 38 c.MAXQUERYSTRLEN
      (pre.length + name.length) = pre.length + name.length := by
    apply skip_char_none
    rw [hch]
    exact fun h => h38 h.symm
  rw [hsk]
  have hfin : finished_at c (pre ++ (name ++ rest)) (pre.length + name.length) = 0 := by
    unfold finished_at
    rw [hch, if_neg (by omega)]
  rw [hfin]

/-- C17, as the code has it: the value of `session=<63 zeros>42` has 65 characters, one more
than `MAXQUERYVALLEN` allows, yet the pair is not ignored: its first 64 characters are
converted, the entry is valid and the session is taken to be 4. -/
theorem c17_long_value_recorded :
    (List.replicate 63 48 ++ lit "42" : CStr).length = 65
      ∧ refConfig.MAXQUERYVALLEN = 64
      ∧ split_query refConfig 10 (lit "session=" ++ List.replicate 63 48 ++ lit "42")
          = some [⟨lit "session", 4, 1⟩]
      ∧ parse_querysession [⟨lit "session", 4, 1⟩] = 4 := by
  decide

/-- C17, amended: for every query string that the splitting loop meets a pair `name=value`
in, with a name and a value made of the characters the loop copies: when the value is longer
than `MAXQUERYVALLEN` characters (and the name is not longer than `MAXQUERYNAMELEN`) the
pair is not ignored, the pass records one entry under the pair's name whose value is
converted from the first `MAXQUERYVALLEN` characters of the value; when the name is longer
than `MAXQUERYNAMELEN` characters the pass that meets it copies its first `MAXQUERYNAMELEN`
characters, records no entry and leaves the loop at the character that follows them. -/
theorem c17_overlong_pair_cut (c : Config) (pre name value rest : CStr)
    (query : List queries) (hname : ∀ ch ∈ name, pair_char ch)
    (hvalue : ∀ ch ∈ value, pair_char ch)
    (hlen : (pre ++ (name ++ 61 :: (value ++ rest))).length ≤ c.MAXQUERYSTRLEN) :
    (name.length ≤ c.MAXQUERYNAMELEN → c.MAXQUERYVALLEN < value.length →
        (split_body c (pre ++ (name ++ 61 :: (value ++ rest))) ⟨pre.length, 0, query⟩).query
            = query ++ [entry_for name (value.take c.MAXQUERYVALLEN)]
          ∧ (value.take c.MAXQUERYVALLEN).length = c.MAXQUERYVALLEN)
      ∧ (c.MAXQUERYNAMELEN < name.length →
          split_body c (pre ++ (name ++ 61 :: (value ++ rest))) ⟨pre.length, 0, query⟩
            = ⟨pre.length + c.MAXQUERYNAMELEN, 0, query⟩) := by
  constructor
  · intro hnl hvl
    have hsplit : value = value.take c.MAXQUERYVALLEN ++ value.drop c.MAXQUERYVALLEN :=
      (List.take_append_drop _ _).symm
    have htl : (value.take c.MAXQUERYVALLEN).length = c.MAXQUERYVALLEN := by
      rw [List.length_take]; omega
    have hq : pre ++ (name ++ 61 :: (value ++ rest))
        = pre ++ (name ++ 61 :: (value.take c.MAXQUERYVALLEN
            ++ (value.drop c.MAXQUERYVALLEN ++ rest))) := by
      rw [← List.append_assoc (value.take c.MAXQUERYVALLEN), List.take_append_drop]
    have hhead : (value.take c.MAXQUERYVALLEN
        ++ (value.drop c.MAXQUERYVALLEN ++ rest)).headD 0 ≠ 61 := by
      rw [← List.append_assoc, List.take_append_drop]
      cases value with
      | nil => simp at hvl
      | cons ch w =>
        have := (hvalue ch (List.mem_cons_self _ _)).2.2.1
        simpa using fun h => this h.symm
    rw [hq] at hlen ⊢
    rw [split_body_pair c pre name (value.take c.MAXQUERYVALLEN)
      (value.drop c.MAXQUERYVALLEN ++ rest) query hname hnl
      (fun ch hch => hvalue ch (List.mem_of_mem_take hch)) (le_of_eq htl) (Or.inl htl) hhead hlen]
    exact ⟨rfl, htl⟩
  · intro hnl
    have htl : (name.take c.MAXQUERYNAMELEN).length = c.MAXQUERYNAMELEN := by
      rw [List.length_take]; omega
    have hq : pre ++ (name ++ 61 :: (value ++ rest))
        = pre ++ (name.take c.MAXQUERYNAMELEN
            ++ (name.drop c.MAXQUERYNAMELEN ++ 61 :: (value ++ rest))) := by
      rw [← List.append_assoc (name.take c.MAXQUERYNAMELEN), List.take_append_drop]
    have hrest : pair_char ((name.drop c.MAXQUERYNAMELEN ++ 61 :: (value ++ rest)).headD 0) := by
      cases hd : name.drop c.MAXQUERYNAMELEN with
      | nil =>
        have : (name.drop c.MAXQUERYNAMELEN).length = 0 := by rw [hd]; rfl
        rw [List.length_drop] at this
        omega
      | cons ch w =>
        have hmem : ch ∈ name.drop c.MAXQUERYNAMELEN := by rw [hd]; exact List.mem_cons_self _ _
        exact hname ch (List.mem_of_mem_drop hmem)
    rw [hq] at hlen ⊢
    rw [split_body_long_name c pre (name.take c.MAXQUERYNAMELEN) _ query
      (fun ch hch => hname ch (List.mem_of_mem_take hch)) htl hrest hlen, htl]

/-- C17, amended, at a concrete point: the constants of `refConfig` and the query string
`session=<63 zeros>42`, whose value has 65 characters. -/
theorem c17_overlong_pair_cut_witness :
    ((lit "session").length ≤ refConfig.MAXQUERYNAMELEN → refConfig.MAXQUERYVALLEN < (List.replicate 63 48 ++ lit "42").length →
        (split_body refConfig (([] : CStr) ++ ((lit "session") ++ 61 :: ((List.replicate 63 48 ++ lit "42") ++ ([] : CStr)))) ⟨([] : CStr).length, 0, []⟩).query
            = [] ++ [entry_for (lit "session") ((List.replicate 63 48 ++ lit "42").take refConfig.MAXQUERYVALLEN)]
          ∧ ((List.replicate 63 48 ++ lit "42").take refConfig.MAXQUERYVALLEN).length = refConfig.MAXQUERYVALLEN)
      ∧ (refConfig.MAXQUERYNAMELEN < (lit "session").length →
          split_body refConfig (([] : CStr) ++ ((lit "session") ++ 61 :: ((List.replicate 63 48 ++ lit "42") ++ ([] : CStr)))) ⟨([] : CStr).length, 0, []⟩
            = ⟨([] : CStr).length + refConfig.MAXQUERYNAMELEN, 0, []⟩) :=
  c17_overlong_pair_cut refConfig [] (lit "session") (List.replicate 63 48 ++ lit "42") [] [] (by decide)
    (by decide) (by decide)

/-! ## Parsing the reconstituted query -/

theorem head_pair_char (w rest : CStr) (hw : ∀ ch ∈ w, pair_char ch) (hne : w ≠ []) :
    pair_char ((w ++ rest).headD 0) := by
  cases w with
  | nil => exact absurd rfl hne
  | cons ch w => exact hw ch (List.mem_cons_self _ _)

theorem tail_text_head (ps : List (CStr × CStr)) : ¬ pair_char ((tail_text ps).headD 0) := by
  cases ps with
  | nil => simp only [tail_text]; decide
  | cons p ps => simp only [tail_text, List.headD_cons]; decide

theorem split_loop_pairs (c : Config) :
    ∀ (ps : List (CStr × CStr)) (pre : CStr) (p0 : CStr × CStr) (query : List queries)
      (fuel : Nat), (∀ p ∈ p0 :: ps, pair_fits c p) →
      query.length + ps.length + 1 ≤ c.MAXQUERIES →
      (pre ++ (p0.1 ++ 61 :: (p0.2 ++ tail_text ps))).length ≤ c.MAXQUERYSTRLEN →
      ps.length + 2 ≤ fuel →
      split_loop c (pre ++ (p0.1 ++ 61 :: (p0.2 ++ tail_text ps))) fuel ⟨pre.length, 0, query⟩
        = some ⟨(pre ++ (p0.1 ++ 61 :: (p0.2 ++ tail_text ps))).length, 1,
            query ++ entry_for p0.1 p0.2 :: ps.map (fun p => entry_for p.1 p.2)⟩ := by
  intro ps
  induction ps with
  | nil =>
    intro pre p0 query fuel hfit hroom hlen hfuel
    obtain ⟨hn, hnne, hnl, hv, hvne, hvl⟩ := hfit p0 (List.mem_cons_self _ _)
    obtain ⟨f, rfl⟩ : ∃ f, fuel = f + 1 := ⟨fuel - 1, by simp at hfuel; omega⟩
    obtain ⟨f, rfl⟩ : ∃ f', f = f' + 1 := ⟨f - 1, by simp at hfuel; omega⟩
    have hhd := head_pair_char p0.1 (61 :: (p0.2 ++ tail_text [])) hn hnne
    have hlt : pre.length < c.MAXQUERYSTRLEN := by
      simp only [List.length_append, List.length_cons] at hlen; omega
    unfold split_loop
    rw [if_pos ⟨hlt, by rw [char_at_append]; exact hhd.1, rfl, by
      simp only [split_state.numqueries]; simp at hroom; omega⟩]
    rw [split_body_pair c pre p0.1 p0.2 (tail_text []) query hn hnl hv hvl
      (Or.inr (tail_text_head [])) (by
        have := (head_pair_char p0.2 (tail_text []) hv hvne).2.2.1
        exact fun h => this h.symm) hlen]
    have hidx : pre.length + p0.1.length + 1 + p0.2.length
        = (pre ++ (p0.1 ++ 61 :: (p0.2 ++ tail_text []))).length := by
      simp only [tail_text, List.length_append, List.length_cons, List.length_nil]
      omega
    have hend : char_at (pre ++ (p0.1 ++ 61 :: (p0.2 ++ tail_text [])))
        (pre ++ (p0.1 ++ 61 :: (p0.2 ++ tail_text []))).length = 0 := by
      unfold char_at
      exact List.getD_eq_default _ _ (le_refl _)
    rw [hidx, skip_char_none c _ 38 _ _ (by rw [hend]; decide)]
    have hfin : finished_at c (pre ++ (p0.1 ++ 61 :: (p0.2 ++ tail_text [])))
        (pre ++ (p0.1 ++ 61 :: (p0.2 ++ tail_text []))).length = 1 := by
      unfold finished_at
      rw [hend, if_pos (Or.inl (by decide))]
    rw [hfin]
    unfold split_loop
    rw [if_neg (fun h => by simp at h)]
    simp
  | cons p1 ps ih =>
    intro pre p0 query fuel hfit hroom hlen hfuel
    obtain ⟨hn, hnne, hnl, hv, hvne, hvl⟩ := hfit p0 (List.mem_cons_self _ _)
    obtain ⟨hn1, hnne1, -, -, -, -⟩ := hfit p1 (List.mem_cons_of_mem _ (List.mem_cons_self _ _))
    obtain ⟨f, rfl⟩ : ∃ f, fuel = f + 1 := ⟨fuel - 1, by omega⟩
    have hhd := head_pair_char p0.1 (61 :: (p0.2 ++ tail_text (p1 :: ps))) hn hnne
    have hlt : pre.length < c.MAXQUERYSTRLEN := by
      simp only [List.length_append, List.length_cons] at hlen; omega
    unfold split_loop
    rw [if_pos ⟨hlt, by rw [char_at_append]; exact hhd.1, rfl, by
      simp only [split_state.numqueries]; simp at hroom; omega⟩]
    rw [split_body_pair c pre p0.1 p0.2 (tail_text (p1 :: ps)) query hn hnl hv hvl
      (Or.inr (tail_text_head _)) (by
        have := (head_pair_char p0.2 (tail_text (p1 :: ps)) hv hvne).2.2.1
        exact fun h => this h.symm) hlen]
    have hq : pre ++ (p0.1 ++ 61 :: (p0.2 ++ tail_text (p1 :: ps)))
        = (pre ++ (p0.1 ++ 61 :: p0.2)) ++ 38 :: (p1.1 ++ 61 :: (p1.2 ++ tail_text ps)) := by
      simp [tail_text]
    have hq2 : pre ++ (p0.1 ++ 61 :: (p0.2 ++ tail_text (p1 :: ps)))
        = (pre ++ (p0.1 ++ 61 :: p0.2) ++ [38]) ++ (p1.1 ++ 61 :: (p1.2 ++ tail_text ps)) := by
      simp [tail_text]
    have hidx : pre.length + p0.1.length + 1 + p0.2.length
        = (pre ++ (p0.1 ++ 61 :: p0.2)).length := by
      simp only [List.length_append, List.length_cons]
      omega
    have hidx2 : (pre ++ (p0.1 ++ 61 :: p0.2)).length + 1
        = (pre ++ (p0.1 ++ 61 :: p0.2) ++ [38]).length := by
      simp only [List.length_append, List.length_singleton]
    have hhd1 := head_pair_char p1.1 (61 :: (p1.2 ++ tail_text ps)) hn1 hnne1
    obtain ⟨k, hk⟩ : ∃ k, c.MAXQUERYSTRLEN = k + 1 := ⟨c.MAXQUERYSTRLEN - 1, by omega⟩
    have hskip : skip_char c (pre ++ (p0.1 ++ 61 :: (p0.2 ++ tail_text (p1 :: ps)))) 38
        c.MAXQUERYSTRLEN (pre.length + p0.1.length + 1 + p0.2.length)
        = (pre ++ (p0.1 ++ 61 :: p0.2) ++ [38]).length := by
      rw [hidx, ← hidx2]
      have := skip_char_one c (pre ++ (p0.1 ++ 61 :: p0.2)) (p1.1 ++ 61 :: (p1.2 ++ tail_text ps))
        38 k (fun h => hhd1.2.2.2 h.symm) (by rw [← hq]; exact hlen)
      rw [← hq, ← hk] at this
      exact this
    rw [hskip]
    have hfin : finished_at c (pre ++ (p0.1 ++ 61 :: (p0.2 ++ tail_text (p1 :: ps))))
        (pre ++ (p0.1 ++ 61 :: p0.2) ++ [38]).length = 0 := by
      unfold finished_at
      have hc : char_at (pre ++ (p0.1 ++ 61 :: (p0.2 ++ tail_text (p1 :: ps))))
          (pre ++ (p0.1 ++ 61 :: p0.2) ++ [38]).length
          = (p1.1 ++ 61 :: (p1.2 ++ tail_text ps)).headD 0 := by
        rw [hq2, char_at_append]
      rw [hc]
      have h32 := hhd1.1
      have hl : (pre ++ (p0.1 ++ 61 :: p0.2) ++ [38]).length < c.MAXQUERYSTRLEN := by
        have : 0 < p1.1.length := List.length_pos.2 hnne1
        rw [hq2] at hlen
        simp only [List.length_append, List.length_cons, List.length_singleton] at hlen ⊢
        omega
      rw [if_neg (by omega)]
    rw [hfin, hq2]
    rw [ih (pre ++ (p0.1 ++ 61 :: p0.2) ++ [38]) p1 (query ++ [entry_for p0.1 p0.2]) f
      (fun p hp => hfit p (List.mem_cons_of_mem _ hp))
      (by simp only [List.length_append, List.length_singleton, List.length_cons,
            List.length_nil] at hroom ⊢
          omega)
      (by rw [← hq2]; exact hlen)
      (by simp only [List.length_cons] at hfuel; omega)]
    simp

theorem nat_digits_chars (fuel : Nat) :
    ∀ (n : Nat), ∀ ch ∈ nat_digits fuel n, 48 ≤ ch ∧ ch ≤ 57 := by
  induction fuel with
  | zero => intro n ch h; simp [nat_digits] at h
  | succ fuel ih =>
    intro n ch h
    unfold nat_digits at h
    split_ifs at h with hn
    · simp only [List.mem_singleton] at h
      omega
    · simp only [List.mem_append, List.mem_singleton] at h
      rcases h with h | h
      · exact ih _ ch h
      · omega

theorem scan_digits_digit (d : Nat) (hd : d < 10) (rest : CStr) (acc cnt : Nat) :
    scan_digits ((48 + (d : Int)) :: rest) acc cnt = scan_digits rest (acc * 10 + d) (cnt + 1) := by
  have h1 : (48 : Int) ≤ 48 + (d : Int) ∧ 48 + (d : Int) ≤ 57 := by omega
  have h2 : (48 + (d : Int) - 48).toNat = d := by omega
  simp only [scan_digits, h1, and_self, if_true, h2]

theorem scan_digits_nat_digits (fuel : Nat) :
    ∀ (n : Nat) (rest : CStr) (acc cnt : Nat), n < 10 ^ fuel →
      scan_digits (nat_digits fuel n ++ rest) acc cnt
        = scan_digits rest (acc * 10 ^ (nat_digits fuel n).length + n)
            (cnt + (nat_digits fuel n).length) := by
  induction fuel with
  | zero => intro n rest acc cnt h; simp at h; subst h; simp [nat_digits]
  | succ fuel ih =>
    intro n rest acc cnt h
    unfold nat_digits
    split_ifs with hn
    · simp only [List.singleton_append, List.length_singleton, pow_one]
      exact scan_digits_digit n hn rest acc cnt
    · have h10 : n / 10 < 10 ^ fuel := by
        rw [pow_succ] at h
        omega
      rw [List.append_assoc, ih (n / 10) _ acc cnt h10]
      simp only [List.singleton_append, List.length_append, List.length_singleton]
      rw [scan_digits_digit (n % 10) (Nat.mod_lt _ (by decide))]
      congr 1
      · rw [pow_succ]
        have hdiv : n = 10 * (n / 10) + n % 10 := (Nat.div_add_mod n 10).symm
        generalize (nat_digits fuel (n / 10)).length = l at *
        generalize 10 ^ l = P at *
        generalize n / 10 = q at *
        generalize n % 10 = r at *
        rw [hdiv]
        ring

theorem nat_digits_ne_nil (fuel n : Nat) : nat_digits (fuel + 1) n ≠ [] := by
  unfold nat_digits
  split_ifs <;> simp

theorem sscanf_d64_fmt_d (v : Int) (h0 : 0 ≤ v) (h1 : v ≤ 99999) :
    sscanf_d64 (fmt_d v) = some v := by
  obtain ⟨n, rfl⟩ := Int.eq_ofNat_of_zero_le h0
  have hfmt : fmt_d (n : Int) = nat_digits 20 n := by
    unfold fmt_d
    rw [if_neg (by omega)]
    rfl
  have hne := nat_digits_ne_nil 19 n
  have hchars := nat_digits_chars 20 n
  have hscan := scan_digits_nat_digits 20 n [] 0 0 (by omega)
  rw [List.append_nil] at hscan
  rw [hfmt]
  cases hd : nat_digits 20 n with
  | nil => exact absurd hd hne
  | cons ch w =>
    have hch := hchars ch (by rw [hd]; exact List.mem_cons_self _ _)
    have hsp : isspace ch = false := by
      unfold isspace
      simp only [Bool.or_eq_false_iff, Bool.and_eq_false_iff, beq_eq_false_iff_ne,
        decide_eq_false_iff_not]
      omega
    rw [hd] at hscan
    unfold sscanf_d64
    simp only [List.dropWhile_cons, hsp]
    have h45 : ch ≠ 45 := by omega
    have h43 : ch ≠ 43 := by omega
    have hlen : 0 + (ch :: w).length ≠ 0 := by simp
    obtain ⟨hlo, hhi⟩ := hch
    clear hsp h45 h43 hchars hd hne hfmt
    interval_cases ch <;>
      (simp only [Bool.false_eq_true, if_false, hscan]
       simp only [scan_digits, hlen, if_false, Nat.zero_mul, Nat.zero_add, clamp_int64]
       split_ifs <;> first | rfl | (exfalso; omega))

theorem customport_body_accept (c : Config) (query : List queries) (customport : Nat)
    (b : build_state) (hfit : c.recon_fits) (hcp : customport < c.NUMUSERDEFPORTS)
    (hsize : 22 < b.reconquerysize) (hlt : b.reconquerysize < 18446744073709551616)
    (q : queries) (hs : slot_entry query customport = some q)
    (hv : q.valid = 1 ∧ q.varval ≥ c.MINVALIDPORT ∧ q.varval ≤ c.MAXVALIDPORT)
    (hall : b.portlist.all (fun e => decide ((e.port_num : Int) ≠ q.varval)) = true) :
    ∃ size, customport_body query c customport b
        = Stage.go ⟨b.portlist ++ [⟨((Int.land q.varval c.VALIDPORTMASK) % 65536).toNat, 0⟩],
            b.numcustomports + 1,
            b.reconquery ++ tail_text [slot_pair (customport, q.varval)], size⟩
      ∧ b.reconquerysize - 22 ≤ size ∧ size ≤ b.reconquerysize := by
  obtain ⟨hN, hmin, hmax, -, -⟩ := hfit
  unfold slot_entry at hs
  simp only [customport_body, hs, hv, and_self, if_true, hall]
  have hl1 : (lit "&customport").length = 11 := by decide
  have hl2 : (lit "=").length = 1 := by decide
  have hto : to_int q.varval = q.varval := to_int_of_small _ (by omega) (by omega)
  rw [hto]
  have hc := fmt_d_length_nonneg (customport : Int) (by omega) (by omega)
  have hp := fmt_d_length_nonneg q.varval (by omega) (by omega)
  have hlen : (lit "&customport" ++ fmt_d (customport : Int) ++ lit "=" ++ fmt_d q.varval).length
      = 12 + (fmt_d (customport : Int)).length + (fmt_d q.varval).length := by
    simp only [List.length_append, hl1, hl2]; omega
  have hstored : snprintf_stored b.reconquerysize
      (lit "&customport" ++ fmt_d (customport : Int) ++ lit "=" ++ fmt_d q.varval)
      = lit "&customport" ++ fmt_d (customport : Int) ++ lit "=" ++ fmt_d q.varval := by
    unfold snprintf_stored
    apply List.take_of_length_le
    rw [hlen]
    omega
  rw [hstored, hlen]
  have hrange : ((12 + (fmt_d (customport : Int)).length + (fmt_d q.varval).length : Nat) : Int) ≥ 14
      ∧ ((12 + (fmt_d (customport : Int)).length + (fmt_d q.varval).length : Nat) : Int) ≤ 22 := by
    omega
  rw [if_pos hrange]
  have hsub := size_sub_of_le b.reconquerysize
    (12 + (fmt_d (customport : Int)).length + (fmt_d q.varval).length) (by omega) hlt
  rw [hsub, if_neg (by omega)]
  refine ⟨b.reconquerysize
    - (12 + (fmt_d (customport : Int)).length + (fmt_d q.varval).length), ?_, by omega, by omega⟩
  have htext : lit "&customport" ++ fmt_d (customport : Int) ++ lit "=" ++ fmt_d q.varval
      = tail_text [slot_pair (customport, q.varval)] := by
    simp only [tail_text, slot_pair, List.append_nil]
    have e1 : lit "&customport" = 38 :: lit "customport" := by decide
    have e2 : lit "=" = [61] := by decide
    rw [e1, e2]
    simp
  rw [htext]

theorem tail_text_append (ps qs : List (CStr × CStr)) :
    tail_text (ps ++ qs) = tail_text ps ++ tail_text qs := by
  induction ps with
  | nil => rfl
  | cons p ps ih => simp [tail_text, ih]

theorem customport_loop_exact (c : Config) (query : List queries) (hfit : c.recon_fits)
    (h16 : c.ports_16bit) :
    ∀ (n customport : Nat) (b : build_state), customport + n ≤ c.NUMUSERDEFPORTS →
      22 * n < b.reconquerysize → b.reconquerysize < 18446744073709551616 →
      ∃ b1, customport_loop query c n customport b = Stage.go b1
        ∧ b1.portlist = b.portlist
            ++ (accepted_slots c query (List.range' customport n) b.portlist).map
                (fun p => (⟨p.2.toNat, 0⟩ : portlist_struc))
        ∧ b1.reconquery = b.reconquery
            ++ tail_text ((accepted_slots c query (List.range' customport n) b.portlist).map
                slot_pair) := by
  intro n
  induction n with
  | zero =>
    intro customport b _ _ _
    exact ⟨b, rfl, by simp [accepted_slots], by simp [accepted_slots, tail_text]⟩
  | succ n ih =>
    intro customport b hcp hsize hlt
    unfold customport_loop
    rw [List.range'_succ]
    rcases customport_body_cases c query customport b with ⟨hs, hb⟩ | ⟨q, hs, hno, hb⟩ |
        ⟨q, hs, hv, hlo, hhi, hall, -⟩
    · rw [hb]
      simp only [accepted_slots, hs]
      exact ih (customport + 1) b (by omega) (by omega) hlt
    · rw [hb]
      simp only [accepted_slots, hs]
      rw [if_neg hno]
      obtain ⟨b1, h1, h2, h3⟩ := ih (customport + 1)
        { b with numcustomports := b.numcustomports + 1 } (by omega) (by simp only; omega)
        (by simp only; exact hlt)
      exact ⟨b1, h1, h2, h3⟩
    · obtain ⟨size, hb, hs1, hs2⟩ := customport_body_accept c query customport b hfit
        (by omega) (by omega) hlt q hs ⟨hv, hlo, hhi⟩ hall
      rw [hb]
      simp only [accepted_slots, hs]
      rw [if_pos ⟨hv, hlo, hhi, hall⟩]
      obtain ⟨b1, h1, h2, h3⟩ := ih (customport + 1)
        ⟨b.portlist ++ [⟨((Int.land q.varval c.VALIDPORTMASK) % 65536).toNat, 0⟩],
          b.numcustomports + 1,
          b.reconquery ++ tail_text [slot_pair (customport, q.varval)], size⟩
        (by omega) (by simp only; omega) (by simp only; omega)
      refine ⟨b1, h1, ?_, ?_⟩
      · rw [h2, (stored_port_eq c h16 q.varval hlo hhi).1]
        simp
      · rw [h3, (stored_port_eq c h16 q.varval hlo hhi).1]
        simp only [List.map_cons, List.append_assoc]
        rw [← tail_text_append]
        rfl

theorem snprintf_stored_fits (size : Nat) (text : CStr) (h : text.length < size) :
    snprintf_stored size text = text := by
  unfold snprintf_stored
  exact List.take_of_length_le (by omega)

theorem recon_begin_exact (c : Config) (ie ta : Int) (hie : ie = 1 ∨ ie = -1 ∨ ie = 0)
    (hta : ta = 1 ∨ ta = 0) (h1 : 34 < c.MAXQUERYSTRLEN)
    (h2 : c.MAXQUERYSTRLEN < 18446744073709551616) :
    ∃ size, recon_begin c ie ta
        = Stage.go (lit "includeexisting=" ++ fmt_d ie ++ (lit "&termsaccepted=" ++ fmt_d ta),
            size)
      ∧ c.MAXQUERYSTRLEN - 34 ≤ size ∧ size < 18446744073709551616 := by
  have e1 : (lit "includeexisting=" ++ fmt_d 1).length = 17 := by decide
  have e2 : (lit "includeexisting=" ++ fmt_d (-1)).length = 18 := by decide
  have e3 : (lit "includeexisting=" ++ fmt_d 0).length = 17 := by decide
  have t1 : (lit "&termsaccepted=" ++ fmt_d 1).length = 16 := by decide
  have t0 : (lit "&termsaccepted=" ++ fmt_d 0).length = 16 := by decide
  have s17 : size_sub c.MAXQUERYSTRLEN 17 = c.MAXQUERYSTRLEN - 17 :=
    size_sub_of_le _ _ (by omega) h2
  have s18 : size_sub c.MAXQUERYSTRLEN 18 = c.MAXQUERYSTRLEN - 18 :=
    size_sub_of_le _ _ (by omega) h2
  have s33 : size_sub (c.MAXQUERYSTRLEN - 17) 16 = c.MAXQUERYSTRLEN - 17 - 16 :=
    size_sub_of_le _ _ (by omega) (by omega)
  have s34 : size_sub (c.MAXQUERYSTRLEN - 18) 16 = c.MAXQUERYSTRLEN - 18 - 16 :=
    size_sub_of_le _ _ (by omega) (by omega)
  have n17 : ¬ c.MAXQUERYSTRLEN - 17 = 0 := by omega
  have n18 : ¬ c.MAXQUERYSTRLEN - 18 = 0 := by omega
  have n33 : ¬ c.MAXQUERYSTRLEN - 17 - 16 = 0 := by omega
  have n34 : ¬ c.MAXQUERYSTRLEN - 18 - 16 = 0 := by omega
  have a1 := snprintf_stored_fits c.MAXQUERYSTRLEN (lit "includeexisting=" ++ fmt_d 1)
    (by rw [e1]; omega)
  have a2 := snprintf_stored_fits c.MAXQUERYSTRLEN (lit "includeexisting=" ++ fmt_d (-1))
    (by rw [e2]; omega)
  have a3 := snprintf_stored_fits c.MAXQUERYSTRLEN (lit "includeexisting=" ++ fmt_d 0)
    (by rw [e3]; omega)
  have b1 := snprintf_stored_fits (c.MAXQUERYSTRLEN - 17) (lit "&termsaccepted=" ++ fmt_d 1)
    (by rw [t1]; omega)
  have b2 := snprintf_stored_fits (c.MAXQUERYSTRLEN - 17) (lit "&termsaccepted=" ++ fmt_d 0)
    (by rw [t0]; omega)
  have b3 := snprintf_stored_fits (c.MAXQUERYSTRLEN - 18) (lit "&termsaccepted=" ++ fmt_d 1)
    (by rw [t1]; omega)
  have b4 := snprintf_stored_fits (c.MAXQUERYSTRLEN - 18) (lit "&termsaccepted=" ++ fmt_d 0)
    (by rw [t0]; omega)
  rcases hie with rfl | rfl | rfl <;> rcases hta with rfl | rfl <;>
    simp only [recon_begin, e1, e2, e3, t1, t0] <;>
    simp only [Nat.cast_ofNat, Nat.reduceLT, Nat.reduceEqDiff, and_self, if_true, s17, s18, s33, s34,
      n17, n18, n33, n34, if_false, a1, a2, a3, b1, b2, b3, b4] <;>
    exact ⟨_, rfl, by omega, by omega⟩

theorem accepted_custom_ports_eq (c : Config) (query : List queries) :
    ∀ (slots : List Nat) (present : List portlist_struc),
      accepted_custom_ports c query slots present
        = (accepted_slots c query slots present).map
            (fun p => (⟨p.2.toNat, 0⟩ : portlist_struc)) := by
  intro slots
  induction slots with
  | nil => intro present; rfl
  | cons k slots ih =>
    intro present
    simp only [accepted_custom_ports, accepted_slots]
    cases slot_entry query k with
    | none => exact ih present
    | some q =>
      simp only
      split_ifs
      · simp [ih]
      · exact ih present

theorem build_ports_exact (c : Config) (hfit : c.recon_fits) (h16 : c.ports_16bit)
    (query : List queries) (ie ta : Int) (hie : ie = 1 ∨ ie = -1 ∨ ie = 0)
    (hta : ta = 1 ∨ ta = 0) :
    ∃ bs, build_ports c query ie ta = Stage.go bs
      ∧ bs.portlist = (if 1 = ie then c.defportlist else [])
          ++ accepted_custom_ports c query (List.range c.NUMUSERDEFPORTS)
              (if 1 = ie then c.defportlist else [])
      ∧ bs.reconquery = lit "includeexisting" ++ 61 :: (fmt_d ie
          ++ tail_text ((lit "termsaccepted", fmt_d ta)
              :: (accepted_slots c query (List.range c.NUMUSERDEFPORTS)
                    (if 1 = ie then c.defportlist else [])).map slot_pair)) := by
  obtain ⟨size, hrb, hlo, hhi⟩ := recon_begin_exact c ie ta hie hta
    (by have := hfit.2.2.2.1; omega) hfit.2.2.2.2
  unfold build_ports
  rw [hrb]
  obtain ⟨b1, h1, h2, h3⟩ := customport_loop_exact c query hfit h16 c.NUMUSERDEFPORTS 0
    ⟨if 1 = ie then c.defportlist else [], 0,
      lit "includeexisting=" ++ fmt_d ie ++ (lit "&termsaccepted=" ++ fmt_d ta), size⟩
    (by omega) (by have := hfit.2.2.2.1; simp only; omega) (by simp only; omega)
  refine ⟨b1, h1, ?_, ?_⟩
  · rw [h2, accepted_custom_ports_eq, List.range_eq_range']
  · rw [h3, List.range_eq_range']
    simp only [tail_text]
    have e1 : lit "includeexisting=" = lit "includeexisting" ++ [61] := by decide
    have e2 : lit "&termsaccepted=" = 38 :: (lit "termsaccepted" ++ [61]) := by decide
    rw [e1, e2]
    simp

theorem accepted_slots_mem (c : Config) (query : List queries) :
    ∀ (slots : List Nat) (present : List portlist_struc),
      ∀ p ∈ accepted_slots c query slots present,
        p.1 ∈ slots ∧ c.MINVALIDPORT ≤ p.2 ∧ p.2 ≤ c.MAXVALIDPORT := by
  intro slots
  induction slots with
  | nil => intro present p hp; simp [accepted_slots] at hp
  | cons k slots ih =>
    intro present p hp
    simp only [accepted_slots] at hp
    cases hs : slot_entry query k with
    | none =>
      rw [hs] at hp
      have := ih present p hp
      exact ⟨List.mem_cons_of_mem _ this.1, this.2⟩
    | some q =>
      rw [hs] at hp
      simp only at hp
      split_ifs at hp with hc
      · simp only [List.mem_cons] at hp
        rcases hp with rfl | hp
        · exact ⟨List.mem_cons_self _ _, hc.2.1, hc.2.2.1⟩
        · have := ih _ p hp
          exact ⟨List.mem_cons_of_mem _ this.1, this.2⟩
      · have := ih present p hp
        exact ⟨List.mem_cons_of_mem _ this.1, this.2⟩

theorem accepted_slots_length (c : Config) (query : List queries) :
    ∀ (slots : List Nat) (present : List portlist_struc),
      (accepted_slots c query slots present).length ≤ slots.length := by
  intro slots
  induction slots with
  | nil => intro present; simp [accepted_slots]
  | cons k slots ih =>
    intro present
    simp only [accepted_slots]
    cases slot_entry query k with
    | none => exact le_trans (ih present) (by simp)
    | some q =>
      simp only
      split_ifs
      · simp only [List.length_cons]
        exact Nat.succ_le_succ (ih _)
      · exact le_trans (ih present) (by simp)

theorem find_slot_none (k : Nat) (l : List (Nat × Int)) (h : ∀ p ∈ l, p.1 ≠ k) :
    l.find? (fun p => p.1 == k) = none := by
  rw [List.find?_eq_none]
  intro p hp
  simpa using h p hp

theorem reparse_slots (c : Config) (query query2 : List queries) :
    ∀ (slots : List Nat) (present : List portlist_struc) (before : List (Nat × Int)),
      slots.Nodup → (∀ p ∈ before, p.1 ∉ slots) →
      (∀ k ∈ slots, slot_entry query2 k
        = ((before ++ accepted_slots c query slots present).find? (fun p => p.1 == k)).map
            (fun p => (⟨lit "customport" ++ fmt_d p.1, p.2, 1⟩ : queries))) →
      accepted_slots c query2 slots present = accepted_slots c query slots present := by
  intro slots
  induction slots with
  | nil => intro present before _ _ _; rfl
  | cons k rest ih =>
    intro present before hnd hbefore hlook
    have hk := hlook k (List.mem_cons_self _ _)
    have hknot : k ∉ rest := (List.nodup_cons.1 hnd).1
    have hrestnd : rest.Nodup := (List.nodup_cons.1 hnd).2
    have hb1 : before.find? (fun p => p.1 == k) = none :=
      find_slot_none k before (fun p hp h => hbefore p hp (by rw [h]; exact List.mem_cons_self _ _))
    have hskip : ∀ pres, (accepted_slots c query rest pres).find? (fun p => p.1 == k) = none :=
      fun pres => find_slot_none k _ (fun p hp h =>
        hknot (by rw [← h]; exact (accepted_slots_mem c query rest pres p hp).1))
    have hrej : accepted_slots c query (k :: rest) present = accepted_slots c query rest present →
        accepted_slots c query2 (k :: rest) present = accepted_slots c query rest present := by
      intro heq
      rw [heq, List.find?_append, hb1, hskip] at hk
      simp only [Option.none_or, Option.map_none'] at hk
      have hrest := ih present before hrestnd
        (fun p hp h => hbefore p hp (List.mem_cons_of_mem _ h))
        (fun k' hk' => by
          have := hlook k' (List.mem_cons_of_mem _ hk')
          rw [heq] at this
          exact this)
      simp only [accepted_slots, hk]
      exact hrest
    cases hs : slot_entry query k with
    | none =>
      have heq : accepted_slots c query (k :: rest) present
          = accepted_slots c query rest present := by
        simp only [accepted_slots, hs]
      rw [heq]
      exact hrej heq
    | some q =>
      by_cases hc : q.valid = 1 ∧ c.MINVALIDPORT ≤ q.varval ∧ q.varval ≤ c.MAXVALIDPORT
          ∧ present.all (fun e => decide ((e.port_num : Int) ≠ q.varval)) = true
      · have heq : accepted_slots c query (k :: rest) present
            = (k, q.varval) :: accepted_slots c query rest
                (present ++ [⟨q.varval.toNat, 0⟩]) := by
          simp only [accepted_slots, hs]
          rw [if_pos hc]
        rw [heq, List.find?_append, hb1] at hk
        simp only [Option.none_or, List.find?_cons, beq_self_eq_true, Option.map_some'] at hk
        rw [heq]
        have hrest := ih (present ++ [⟨q.varval.toNat, 0⟩]) (before ++ [(k, q.varval)]) hrestnd
          (fun p hp h => by
            simp only [List.mem_append, List.mem_singleton] at hp
            rcases hp with hp | rfl
            · exact hbefore p hp (List.mem_cons_of_mem _ h)
            · exact hknot h)
          (fun k' hk' => by
            have := hlook k' (List.mem_cons_of_mem _ hk')
            rw [heq] at this
            rw [this]
            simp)
        simp only [accepted_slots, hk]
        rw [if_pos ⟨trivial, hc.2⟩, hrest]
      · have heq : accepted_slots c query (k :: rest) present
            = accepted_slots c query rest present := by
          simp only [accepted_slots, hs]
          rw [if_neg hc]
        rw [heq]
        exact hrej heq

theorem fmt_d_digit (k : Nat) (hk : k < 10) : fmt_d (k : Int) = [48 + (k : Int)] := by
  unfold fmt_d
  rw [if_neg (by omega)]
  simp [nat_digits, hk]

theorem slot_name_match (j k : Nat) (hj : j < 10) (hk : k < 10) :
    strncmp_eq (snprintf_stored 16 (lit "customport" ++ fmt_d (k : Int)))
      (lit "customport" ++ fmt_d (j : Int)) (lit "customport" ++ fmt_d (k : Int)).length
      = (j == k) := by
  have hcp : lit "customport" = [99, 117, 115, 116, 111, 109, 112, 111, 114, 116] := by decide
  rw [fmt_d_digit j hj, fmt_d_digit k hk, hcp]
  simp only [snprintf_stored, strncmp_eq, List.cons_append, List.nil_append, List.length_cons,
    List.length_nil]
  by_cases h : j = k
  · subst h; simp
  · have : ¬ (48 + (k : Int) = 48 + (j : Int)) := by omega
    simp [h, this]

theorem slot_name_other (k : Nat) (hk : k < 10) :
    strncmp_eq (snprintf_stored 16 (lit "customport" ++ fmt_d (k : Int)))
        (lit "includeexisting") (lit "customport" ++ fmt_d (k : Int)).length = false
      ∧ strncmp_eq (snprintf_stored 16 (lit "customport" ++ fmt_d (k : Int)))
        (lit "termsaccepted") (lit "customport" ++ fmt_d (k : Int)).length = false := by
  have hcp : lit "customport" = [99, 117, 115, 116, 111, 109, 112, 111, 114, 116] := by decide
  have h1 : lit "includeexisting"
      = [105, 110, 99, 108, 117, 100, 101, 101, 120, 105, 115, 116, 105, 110, 103] := by decide
  have h2 : lit "termsaccepted"
      = [116, 101, 114, 109, 115, 97, 99, 99, 101, 112, 116, 101, 100] := by decide
  rw [fmt_d_digit k hk, hcp, h1, h2]
  simp [snprintf_stored, strncmp_eq]

theorem slot_entry_reparsed (ie ta : Int) (slots : List (Nat × Int)) (k : Nat) (hk : k < 10)
    (hslots : ∀ p ∈ slots, p.1 < 10) :
    slot_entry ((⟨lit "includeexisting", ie, 1⟩ : queries) :: ⟨lit "termsaccepted", ta, 1⟩
        :: slots.map (fun p => (⟨lit "customport" ++ fmt_d p.1, p.2, 1⟩ : queries))) k
      = (slots.find? (fun p => p.1 == k)).map
          (fun p => (⟨lit "customport" ++ fmt_d p.1, p.2, 1⟩ : queries)) := by
  unfold slot_entry find_query
  rw [List.find?_cons, (slot_name_other k hk).1, List.find?_cons, (slot_name_other k hk).2]
  simp only
  induction slots with
  | nil => rfl
  | cons p slots ih =>
    have hp := hslots p (List.mem_cons_self _ _)
    simp only [List.map_cons, List.find?_cons, slot_name_match p.1 k hp hk]
    cases p.1 == k with
    | true => rfl
    | false => exact ih (fun p' hp' => hslots p' (List.mem_cons_of_mem _ hp'))

theorem fmt_d_fits (c : Config) (v : Int) (h0 : 0 ≤ v) (h1 : v ≤ 99999)
    (hval : 5 ≤ c.MAXQUERYVALLEN) :
    (∀ ch ∈ fmt_d v, pair_char ch) ∧ fmt_d v ≠ [] ∧ (fmt_d v).length ≤ c.MAXQUERYVALLEN := by
  have hl := fmt_d_length_nonneg v h0 h1
  refine ⟨?_, ?_, by omega⟩
  · intro ch hch
    unfold fmt_d at hch
    rw [if_neg (by omega)] at hch
    have := nat_digits_chars 20 _ ch hch
    unfold pair_char
    omega
  · intro h
    rw [h] at hl
    simp at hl

theorem slot_pair_fits (c : Config) (p : Nat × Int) (hp : p.1 < 10) (h0 : 0 ≤ p.2)
    (h1 : p.2 ≤ 99999) (hname : 15 ≤ c.MAXQUERYNAMELEN) (hval : 5 ≤ c.MAXQUERYVALLEN) :
    pair_fits c (slot_pair p) ∧ (slot_pair p).1.length + (slot_pair p).2.length + 2 ≤ 22 := by
  have hv := fmt_d_fits c p.2 h0 h1 hval
  have hl := fmt_d_length_nonneg p.2 h0 h1
  have hcp : ∀ ch ∈ lit "customport", pair_char ch := by decide
  have hlen : (lit "customport").length = 10 := by decide
  unfold pair_fits slot_pair
  simp only [fmt_d_digit p.1 hp, List.length_append, List.length_singleton, hlen]
  refine ⟨⟨?_, by simp, by omega, hv.1, hv.2.1, hv.2.2⟩, by omega⟩
  intro ch hch
  simp only [List.mem_append, List.mem_singleton] at hch
  rcases hch with h | h
  · exact hcp ch h
  · unfold pair_char
    omega

theorem tail_text_length (ps : List (CStr × CStr))
    (h : ∀ p ∈ ps, p.1.length + p.2.length + 2 ≤ 22) :
    (tail_text ps).length ≤ 22 * ps.length := by
  induction ps with
  | nil => simp [tail_text]
  | cons p ps ih =>
    have h1 := h p (List.mem_cons_self _ _)
    have h2 := ih (fun p' hp' => h p' (List.mem_cons_of_mem _ hp'))
    simp only [tail_text, List.length_cons, List.length_append]
    omega

theorem entry_for_fmt_d (name : CStr) (v : Int) (h : (0 ≤ v ∧ v ≤ 99999) ∨ v = -1) :
    entry_for name (fmt_d v) = ⟨name, v, 1⟩ := by
  unfold entry_for
  rcases h with ⟨h0, h1⟩ | rfl
  · rw [sscanf_d64_fmt_d v h0 h1]
  · have : sscanf_d64 (fmt_d (-1)) = some (-1) := by decide
    rw [this]

theorem parse_reparsed (ie ta : Int) (hie : ie = 1 ∨ ie = -1 ∨ ie = 0) (hta : ta = 1 ∨ ta = 0)
    (rest : List queries) :
    parse_includeexisting ((⟨lit "includeexisting", ie, 1⟩ : queries)
        :: ⟨lit "termsaccepted", ta, 1⟩ :: rest) = ie
      ∧ parse_termsaccepted ((⟨lit "includeexisting", ie, 1⟩ : queries)
        :: ⟨lit "termsaccepted", ta, 1⟩ :: rest) = ta := by
  have h1 : strncmp_eq (lit "includeexisting") (lit "includeexisting") 15 = true := by decide
  have h2 : strncmp_eq (lit "termsaccepted") (lit "includeexisting") 13 = false := by decide
  have h3 : strncmp_eq (lit "termsaccepted") (lit "termsaccepted") 13 = true := by decide
  constructor
  · simp only [parse_includeexisting, find_query, List.find?_cons, h1, if_true]
    rcases hie with rfl | rfl | rfl <;> decide
  · simp only [parse_termsaccepted, find_query, List.find?_cons, h2, h3, if_true]
    rcases hta with rfl | rfl <;> decide

theorem sscanf_s_plain (width : Nat) (s : CStr) (hne : s ≠ []) (hs : ∀ ch ∈ s, 33 ≤ ch)
    (hlen : s.length ≤ width) : sscanf_s width s = some s := by
  have hsp : ∀ ch ∈ s, isspace ch = false := by
    intro ch hch
    have := hs ch hch
    unfold isspace
    simp only [Bool.or_eq_false_iff, Bool.and_eq_false_iff, beq_eq_false_iff_ne,
      decide_eq_false_iff_not]
    omega
  have hdrop : s.dropWhile isspace = s := by
    cases s with
    | nil => rfl
    | cons ch w => simp [List.dropWhile_cons, hsp ch (List.mem_cons_self _ _)]
  have htake : s.takeWhile (fun ch => !isspace ch) = s := by
    rw [List.takeWhile_eq_self_iff]
    intro ch hch
    simp [hsp ch hch]
  unfold sscanf_s
  simp only [hdrop, htake, List.take_of_length_le hlen]
  cases s with
  | nil => exact absurd rfl hne
  | cons ch w => rfl

theorem map_tolower_plain (s : CStr) (hs : ∀ ch ∈ s, ch < 65 ∨ 90 < ch) :
    s.map c_tolower = s := by
  induction s with
  | nil => rfl
  | cons ch w ih =>
    have h := hs ch (List.mem_cons_self _ _)
    simp only [List.map_cons, ih (fun x hx => hs x (List.mem_cons_of_mem _ hx))]
    unfold c_tolower
    rw [if_neg (by omega)]

theorem tail_text_plain (ps : List (CStr × CStr))
    (h : ∀ p ∈ ps, (∀ ch ∈ p.1, 33 ≤ ch ∧ (ch < 65 ∨ 90 < ch))
      ∧ ∀ ch ∈ p.2, 33 ≤ ch ∧ (ch < 65 ∨ 90 < ch)) :
    ∀ ch ∈ tail_text ps, 33 ≤ ch ∧ (ch < 65 ∨ 90 < ch) := by
  induction ps with
  | nil => intro ch hch; simp [tail_text] at hch
  | cons p ps ih =>
    intro ch hch
    simp only [tail_text, List.mem_cons, List.mem_append] at hch
    rcases hch with rfl | h1 | rfl | h2 | h3
    · omega
    · exact (h p (List.mem_cons_self _ _)).1 ch h1
    · omega
    · exact (h p (List.mem_cons_self _ _)).2 ch h2
    · exact ih (fun p' hp' => h p' (List.mem_cons_of_mem _ hp')) ch h3

theorem slot_pair_plain (p : Nat × Int) (h0 : 0 ≤ p.2) :
    (∀ ch ∈ (slot_pair p).1, 33 ≤ ch ∧ (ch < 65 ∨ 90 < ch))
      ∧ ∀ ch ∈ (slot_pair p).2, 33 ≤ ch ∧ (ch < 65 ∨ 90 < ch) := by
  have hcp : ∀ ch ∈ lit "customport", 33 ≤ ch ∧ (ch < 65 ∨ 90 < ch) := by decide
  have hd : ∀ v : Int, 0 ≤ v → ∀ ch ∈ fmt_d v, 33 ≤ ch ∧ (ch < 65 ∨ 90 < ch) := by
    intro v hv ch hch
    unfold fmt_d at hch
    rw [if_neg (by omega)] at hch
    have := nat_digits_chars 20 _ ch hch
    omega
  unfold slot_pair
  constructor
  · intro ch hch
    simp only [List.mem_append] at hch
    rcases hch with h | h
    · exact hcp ch h
    · exact hd _ (by omega) ch h
  · exact hd p.2 h0

/-- C19: with constants that describe 16-bit ports, leave room for the reconstituted query
and for its pairs in the splitting loop (at most 10 slots, `MAXQUERIES` at least the slots
plus 2, names of 15 and values of 5 characters allowed), for every list of parsed entries
the dispatcher builds a reconstituted query string, the splitting loop parses that string
again within `NUMUSERDEFPORTS + 3` passes, and the entries it yields give the same
`includeexisting` value, the same `termsaccepted` value, the same port list in the same
order and the same reconstituted query string as the original entries; a `GET` request
whose query string is the reconstituted one reaches the splitting loop with that string
unchanged. -/
theorem c19_reparse_reconstituted (c : Config) (hfit : c.recon_fits) (h16 : c.ports_16bit)
    (hslots : c.NUMUSERDEFPORTS ≤ 10) (hq : c.NUMUSERDEFPORTS + 2 ≤ c.MAXQUERIES)
    (hname : 15 ≤ c.MAXQUERYNAMELEN) (hval : 5 ≤ c.MAXQUERYVALLEN) (query : List queries)
    (fuel : Nat) (hfuel : c.NUMUSERDEFPORTS + 3 ≤ fuel) :
    ∃ bs query2 bs2,
      build_ports c query (parse_includeexisting query) (parse_termsaccepted query)
          = Stage.go bs
        ∧ split_query c fuel bs.reconquery = some query2
        ∧ parse_includeexisting query2 = parse_includeexisting query
        ∧ parse_termsaccepted query2 = parse_termsaccepted query
        ∧ build_ports c query2 (parse_includeexisting query2) (parse_termsaccepted query2)
          = Stage.go bs2
        ∧ bs2.portlist = bs.portlist
        ∧ bs2.reconquery = bs.reconquery
        ∧ ∀ env : Env, env.REQUEST_METHOD = some (lit "GET") → 3 ≤ c.MAXREQMETHODLEN →
            env.QUERY_STRING = some bs.reconquery →
            request_stage c fuel env = some (Stage.go query2) := by
  have hie := parse_includeexisting_range query
  have hta := parse_termsaccepted_range query
  generalize parse_includeexisting query = ie at hie ⊢
  generalize parse_termsaccepted query = ta at hta ⊢
  obtain ⟨hN, hmin, hmax, hroom, hbig⟩ := id hfit
  obtain ⟨bs, hbs, hpl, hrq⟩ := build_ports_exact c hfit h16 query ie ta hie hta
  have hA : ∀ p ∈ accepted_slots c query (List.range c.NUMUSERDEFPORTS)
      (if 1 = ie then c.defportlist else []), p.1 < 10 ∧ 0 ≤ p.2 ∧ p.2 ≤ 99999 := by
    intro p hp
    have := accepted_slots_mem c query _ _ p hp
    have hlt := List.mem_range.1 this.1
    omega
  generalize hAdef : accepted_slots c query (List.range c.NUMUSERDEFPORTS)
      (if 1 = ie then c.defportlist else []) = A at hA hrq
  have hAlen : A.length ≤ c.NUMUSERDEFPORTS := by
    rw [← hAdef]
    have := accepted_slots_length c query (List.range c.NUMUSERDEFPORTS)
      (if 1 = ie then c.defportlist else [])
    simpa using this
  have hn1 : (∀ ch ∈ lit "includeexisting", pair_char ch) ∧ lit "includeexisting" ≠ []
      ∧ (lit "includeexisting").length = 15 := by decide
  have hn2 : (∀ ch ∈ lit "termsaccepted", pair_char ch) ∧ lit "termsaccepted" ≠ []
      ∧ (lit "termsaccepted").length = 13 := by decide
  have hvfit : ∀ v : Int, (v = 1 ∨ v = -1 ∨ v = 0) →
      (∀ ch ∈ fmt_d v, pair_char ch) ∧ fmt_d v ≠ [] ∧ (fmt_d v).length ≤ 2 := by
    intro v hv
    rcases hv with rfl | rfl | rfl <;> decide
  have hvie := hvfit ie hie
  have hvta := hvfit ta (by rcases hta with h | h <;> simp [h])
  have hfits : ∀ p ∈ (lit "includeexisting", fmt_d ie)
      :: (lit "termsaccepted", fmt_d ta) :: A.map slot_pair, pair_fits c p := by
    intro p hp
    simp only [List.mem_cons, List.mem_map] at hp
    rcases hp with rfl | rfl | ⟨a, ha, rfl⟩
    · exact ⟨hn1.1, hn1.2.1, by rw [hn1.2.2]; exact hname, hvie.1, hvie.2.1,
        le_trans hvie.2.2 (by omega)⟩
    · exact ⟨hn2.1, hn2.2.1, by rw [hn2.2.2]; omega, hvta.1, hvta.2.1,
        le_trans hvta.2.2 (by omega)⟩
    · exact (slot_pair_fits c a (hA a ha).1 (hA a ha).2.1 (hA a ha).2.2 hname hval).1
  have htail : (tail_text (A.map slot_pair)).length ≤ 22 * A.length := by
    have := tail_text_length (A.map slot_pair) (by
      intro p hp
      obtain ⟨a, ha, rfl⟩ := List.mem_map.1 hp
      exact (slot_pair_fits c a (hA a ha).1 (hA a ha).2.1 (hA a ha).2.2 hname hval).2)
    simpa using this
  have hlen : ([] ++ (lit "includeexisting" ++ 61 :: (fmt_d ie
      ++ tail_text ((lit "termsaccepted", fmt_d ta) :: A.map slot_pair)))).length
      ≤ c.MAXQUERYSTRLEN := by
    simp only [List.nil_append, tail_text, List.length_append, List.length_cons, hn1.2.2,
      hn2.2.2]
    omega
  have hloop := split_loop_pairs c ((lit "termsaccepted", fmt_d ta) :: A.map slot_pair) []
    (lit "includeexisting", fmt_d ie) [] fuel hfits
    (by simp only [List.length_nil, List.length_cons, List.length_map]; omega) hlen
    (by simp only [List.length_cons, List.length_map]; omega)
  simp only [List.nil_append, List.length_nil] at hloop
  have hentries : entry_for (lit "includeexisting") (fmt_d ie)
      :: ((lit "termsaccepted", fmt_d ta) :: A.map slot_pair).map
          (fun p => entry_for p.1 p.2)
      = (⟨lit "includeexisting", ie, 1⟩ : queries) :: ⟨lit "termsaccepted", ta, 1⟩
        :: A.map (fun p => (⟨lit "customport" ++ fmt_d p.1, p.2, 1⟩ : queries)) := by
    rw [entry_for_fmt_d _ ie (by rcases hie with h | h | h <;> simp [h])]
    simp only [List.map_cons, List.map_map]
    rw [entry_for_fmt_d _ ta (by rcases hta with h | h <;> simp [h])]
    congr 2
    apply List.map_congr_left
    intro a ha
    simp only [Function.comp, slot_pair]
    exact entry_for_fmt_d _ a.2 (Or.inl (hA a ha).2)
  rw [hentries] at hloop
  have hsplit : split_query c fuel bs.reconquery
      = some ((⟨lit "includeexisting", ie, 1⟩ : queries) :: ⟨lit "termsaccepted", ta, 1⟩
        :: A.map (fun p => (⟨lit "customport" ++ fmt_d p.1, p.2, 1⟩ : queries))) := by
    unfold split_query
    rw [hrq, hloop]
    rfl
  have hparse := parse_reparsed ie ta hie hta
    (A.map (fun p => (⟨lit "customport" ++ fmt_d p.1, p.2, 1⟩ : queries)))
  obtain ⟨bs2, hbs2, hpl2, hrq2⟩ := build_ports_exact c hfit h16
    ((⟨lit "includeexisting", ie, 1⟩ : queries) :: ⟨lit "termsaccepted", ta, 1⟩
      :: A.map (fun p => (⟨lit "customport" ++ fmt_d p.1, p.2, 1⟩ : queries))) ie ta hie hta
  have hsame := reparse_slots c query
    ((⟨lit "includeexisting", ie, 1⟩ : queries) :: ⟨lit "termsaccepted", ta, 1⟩
      :: A.map (fun p => (⟨lit "customport" ++ fmt_d p.1, p.2, 1⟩ : queries)))
    (List.range c.NUMUSERDEFPORTS) (if 1 = ie then c.defportlist else []) []
    (List.nodup_range _) (by simp) (by
      intro k hk
      have hk10 : k < 10 := by have := List.mem_range.1 hk; omega
      rw [hAdef, List.nil_append]
      exact slot_entry_reparsed ie ta A k hk10 (fun p hp => (hA p hp).1))
  have hplain : ∀ ch ∈ bs.reconquery, 33 ≤ ch ∧ (ch < 65 ∨ 90 < ch) := by
    have hp1 : ∀ ch ∈ lit "includeexisting", 33 ≤ ch ∧ (ch < 65 ∨ 90 < ch) := by decide
    have hp2 : ∀ ch ∈ lit "termsaccepted", 33 ≤ ch ∧ (ch < 65 ∨ 90 < ch) := by decide
    have hpv : ∀ v : Int, (v = 1 ∨ v = -1 ∨ v = 0) →
        ∀ ch ∈ fmt_d v, 33 ≤ ch ∧ (ch < 65 ∨ 90 < ch) := by
      intro v hv
      rcases hv with rfl | rfl | rfl <;> decide
    have htl := tail_text_plain ((lit "termsaccepted", fmt_d ta) :: A.map slot_pair) (by
      intro p hp
      simp only [List.mem_cons, List.mem_map] at hp
      rcases hp with rfl | ⟨a, ha, rfl⟩
      · exact ⟨hp2, hpv ta (by rcases hta with h | h <;> simp [h])⟩
      · exact slot_pair_plain a (hA a ha).2.1)
    intro ch hch
    rw [hrq] at hch
    simp only [List.mem_append, List.mem_cons] at hch
    rcases hch with h | rfl | h | h
    · exact hp1 ch h
    · omega
    · exact hpv ie hie ch h
    · exact htl ch h
  have hreq : ∀ env : Env, env.REQUEST_METHOD = some (lit "GET") → 3 ≤ c.MAXREQMETHODLEN →
      env.QUERY_STRING = some bs.reconquery →
      request_stage c fuel env
        = some (Stage.go ((⟨lit "includeexisting", ie, 1⟩ : queries)
          :: ⟨lit "termsaccepted", ta, 1⟩
          :: A.map (fun p => (⟨lit "customport" ++ fmt_d p.1, p.2, 1⟩ : queries)))) := by
    intro env hm h3 hqs
    have hget : (lit "GET").length = 3 := by decide
    rw [request_stage_of_word c fuel env (lit "GET") (lit "GET") hm (by rw [hget]; exact h3)
      (sscanf_s_plain _ _ (by decide) (by decide) (by rw [hget]; exact h3))]
    rw [if_pos (by decide), hqs]
    have hl : bs.reconquery.length ≤ c.MAXQUERYSTRLEN := by
      rw [hrq]
      exact hlen
    have hne : bs.reconquery ≠ [] := by
      rw [hrq]
      intro h
      have := congrArg List.length h
      simp only [List.length_append, hn1.2.2, List.length_nil] at this
      omega
    simp only
    rw [if_neg (by omega), sscanf_s_plain _ _ hne (fun ch hch => (hplain ch hch).1) hl]
    simp only
    rw [map_tolower_plain _ (fun ch hch => (hplain ch hch).2), hsplit]
    rfl
  refine ⟨bs, _, bs2, hbs, hsplit, hparse.1, hparse.2, ?_, ?_, ?_, hreq⟩
  · rw [hparse.1, hparse.2]
    exact hbs2
  · rw [hpl2, hpl, accepted_custom_ports_eq, accepted_custom_ports_eq, hsame]
  · rw [hrq2, hrq, hsame, hAdef]

/-- C19 at a concrete point: the constants of `refConfig`, ten passes of the splitting loop and
the entries of `includeexisting=-1&termsaccepted=1&customport2=8080&customport0=443`. -/
theorem c19_reparse_reconstituted_witness :
    ∃ bs query2 bs2,
      build_ports refConfig [⟨lit "includeexisting", -1, 1⟩, ⟨lit "termsaccepted", 1, 1⟩, ⟨lit "customport2", 8080, 1⟩,
          ⟨lit "customport0", 443, 1⟩] (parse_includeexisting [⟨lit "includeexisting", -1, 1⟩, ⟨lit "termsaccepted", 1, 1⟩, ⟨lit "customport2", 8080, 1⟩,
          ⟨lit "customport0", 443, 1⟩]) (parse_termsaccepted [⟨lit "includeexisting", -1, 1⟩, ⟨lit "termsaccepted", 1, 1⟩, ⟨lit "customport2", 8080, 1⟩,
          ⟨lit "customport0", 443, 1⟩])
          = Stage.go bs
        ∧ split_query refConfig 10 bs.reconquery = some query2
        ∧ parse_includeexisting query2 = parse_includeexisting [⟨lit "includeexisting", -1, 1⟩, ⟨lit "termsaccepted", 1, 1⟩, ⟨lit "customport2", 8080, 1⟩,
          ⟨lit "customport0", 443, 1⟩]
        ∧ parse_termsaccepted query2 = parse_termsaccepted [⟨lit "includeexisting", -1, 1⟩, ⟨lit "termsaccepted", 1, 1⟩, ⟨lit "customport2", 8080, 1⟩,
          ⟨lit "customport0", 443, 1⟩]
        ∧ build_ports refConfig query2 (parse_includeexisting query2) (parse_termsaccepted query2)
          = Stage.go bs2
        ∧ bs2.portlist = bs.portlist
        ∧ bs2.reconquery = bs.reconquery
        ∧ ∀ env : Env, env.REQUEST_METHOD = some (lit "GET") → 3 ≤ refConfig.MAXREQMETHODLEN →
            env.QUERY_STRING = some bs.reconquery →
            request_stage refConfig 10 env = some (Stage.go query2) :=
  c19_reparse_reconstituted refConfig (by decide) (by decide) (by decide) (by decide)
    (by decide) (by decide)
    [⟨lit "includeexisting", -1, 1⟩, ⟨lit "termsaccepted", 1, 1⟩, ⟨lit "customport2", 8080, 1⟩,
      ⟨lit "customport0", 443, 1⟩] 10 (by decide)

/-! ## The algebra of the test-state update -/

theorem int_eq_of_testBit_eq (m n : Int) (h : ∀ k, Int.testBit m k = Int.testBit n k) :
    m = n := by
  cases m with
  | ofNat a =>
    cases n with
    | ofNat b =>
      congr 1
      exact Nat.eq_of_testBit_eq (fun k => by simpa [Int.testBit] using h k)
    | negSucc b =>
      exfalso
      have hk := h (max a b)
      have ha : Nat.testBit a (max a b) = false :=
        Nat.testBit_eq_false_of_lt (lt_of_le_of_lt (le_max_left a b) (Nat.lt_two_pow _))
      have hb : Nat.testBit b (max a b) = false :=
        Nat.testBit_eq_false_of_lt (lt_of_le_of_lt (le_max_right a b) (Nat.lt_two_pow _))
      simp [Int.testBit, ha, hb] at hk
  | negSucc a =>
    cases n with
    | ofNat b =>
      exfalso
      have hk := h (max a b)
      have ha : Nat.testBit a (max a b) = false :=
        Nat.testBit_eq_false_of_lt (lt_of_le_of_lt (le_max_left a b) (Nat.lt_two_pow _))
      have hb : Nat.testBit b (max a b) = false :=
        Nat.testBit_eq_false_of_lt (lt_of_le_of_lt (le_max_right a b) (Nat.lt_two_pow _))
      simp [Int.testBit, ha, hb] at hk
    | negSucc b =>
      congr 1
      exact Nat.eq_of_testBit_eq (fun k => by simpa [Int.testBit] using h k)

theorem int_lor_self_right (s b : Int) : Int.lor (Int.lor s b) b = Int.lor s b := by
  apply int_eq_of_testBit_eq
  intro k
  simp only [Int.testBit_lor]
  cases Int.testBit s k <;> cases Int.testBit b k <;> rfl

theorem int_lor_right_comm (s b1 b2 : Int) :
    Int.lor (Int.lor s b1) b2 = Int.lor (Int.lor s b2) b1 := by
  apply int_eq_of_testBit_eq
  intro k
  simp only [Int.testBit_lor]
  cases Int.testBit s k <;> cases Int.testBit b1 k <;> cases Int.testBit b2 k <;> rfl

theorem int_lor_eq_zero (a b : Int) : Int.lor a b = 0 ↔ a = 0 ∧ b = 0 := by
  constructor
  · intro h
    have hbits : ∀ k, Int.testBit a k = false ∧ Int.testBit b k = false := by
      intro k
      have := Int.testBit_lor a b k
      rw [h] at this
      have h0 : Int.testBit 0 k = false := by
        show Nat.testBit 0 k = false
        simp
      rw [h0] at this
      cases ha : Int.testBit a k <;> cases hb : Int.testBit b k <;> simp [ha, hb] at this ⊢
    have h0 : ∀ k, Int.testBit 0 k = false := by
      intro k
      show Nat.testBit 0 k = false
      simp
    exact ⟨int_eq_of_testBit_eq a 0 (fun k => by rw [(hbits k).1, h0]),
      int_eq_of_testBit_eq b 0 (fun k => by rw [(hbits k).2, h0])⟩
  · rintro ⟨rfl, rfl⟩
    rfl

/-- A value read that is not `PORTUNKNOWN` is the state on entry to the chain. -/
theorem state_after_read_of_ne (c : Config) (v : Int) (h : v ≠ c.PORTUNKNOWN) :
    state_after_read c v = v := by
  unfold state_after_read
  rw [if_neg (fun h' => h h'.symm)]

/-- C30, as stated, fails: with the constants of `refConfig`, where the flag `OTHERERROR` and
the code `PORTUNKNOWN` are both 16, a report of `IPSCAN_OTHER_ERROR` (993) on the state 0
writes 16, and the same report on the state 16 just written, which is re-read as a missing
row, writes 273; and from the state 0 the reports 993 then 991 end in 261 while 991 then 993
end in 20. -/
theorem c30_written_state_reread_as_missing :
    main refConfig 30 (sample_env "GET"
        "includeexisting=1&termsaccepted=1&starttime=5&session=6&fetch=993" "::1" 0)
        = some ⟨[Event.html Page.end_of_test_dummy, Event.read_db_result 0 1 5 6 3145728,
            Event.update_db 0 1 5 6 3145728 16, Event.tidy_up_db 1700000000], EXIT_SUCCESS⟩
      ∧ main refConfig 30 (sample_env "GET"
          "includeexisting=1&termsaccepted=1&starttime=5&session=6&fetch=993" "::1" 16)
        = some ⟨[Event.html Page.end_of_test_dummy, Event.read_db_result 0 1 5 6 3145728,
            Event.write_db 0 1 5 6 3145728 257, Event.update_db 0 1 5 6 3145728 273,
            Event.tidy_up_db 1700000000], EXIT_SUCCESS⟩
      ∧ apply_fetchnum refConfig (state_after_read refConfig 0) 993 = 16
      ∧ apply_fetchnum refConfig (state_after_read refConfig 16) 993 = 273
      ∧ apply_fetchnum refConfig (state_after_read refConfig
          (apply_fetchnum refConfig (state_after_read refConfig 0) 993)) 991 = 261
      ∧ apply_fetchnum refConfig (state_after_read refConfig
          (apply_fetchnum refConfig (state_after_read refConfig 0) 991)) 993 = 20 := by
  decide

/-- C30, amended: for every assignment of the header constants, every value `s` that `result`
holds on entry to the chain of lines 1386 to 1427 (the value read, or `RUNNING |
DATABASE_ERROR` in place of a read of `PORTUNKNOWN`) and all reported codes `e`, `e1`, `e2`:
applying
`e` to the outcome of applying `e` changes nothing, and for two codes other than
`IPSCAN_SUCCESSFUL_COMPLETION` the outcome of `e1` then `e2` is that of `e2` then `e1`. The
same holds of the whole step from the value read to the value written (lines 1366 to 1427),
as long as the value written in between is not `PORTUNKNOWN`, which a later read would take
for a missing row. -/
theorem c30_transition_idempotent_commutes (c : Config) (s e e1 e2 : Int) :
    apply_fetchnum c (apply_fetchnum c s e) e = apply_fetchnum c s e
      ∧ (c.IPSCAN_SUCCESSFUL_COMPLETION ≠ e1 → c.IPSCAN_SUCCESSFUL_COMPLETION ≠ e2 →
          apply_fetchnum c (apply_fetchnum c s e1) e2
            = apply_fetchnum c (apply_fetchnum c s e2) e1)
      ∧ (apply_fetchnum c (state_after_read c s) e ≠ c.PORTUNKNOWN →
          apply_fetchnum c (state_after_read c (apply_fetchnum c (state_after_read c s) e)) e
            = apply_fetchnum c (state_after_read c s) e)
      ∧ (c.IPSCAN_SUCCESSFUL_COMPLETION ≠ e1 → c.IPSCAN_SUCCESSFUL_COMPLETION ≠ e2 →
          apply_fetchnum c (state_after_read c s) e1 ≠ c.PORTUNKNOWN →
          apply_fetchnum c (state_after_read c s) e2 ≠ c.PORTUNKNOWN →
          apply_fetchnum c (state_after_read c (apply_fetchnum c (state_after_read c s) e1)) e2
            = apply_fetchnum c
                (state_after_read c (apply_fetchnum c (state_after_read c s) e2)) e1) := by
  have hidem : ∀ v f : Int,
      apply_fetchnum c (apply_fetchnum c v f) f = apply_fetchnum c v f := by
    intro v f
    simp only [apply_fetchnum_eq]
    split_ifs
    · rfl
    · exact int_lor_self_right _ _
  have hcomm : ∀ v f1 f2 : Int, c.IPSCAN_SUCCESSFUL_COMPLETION ≠ f1 →
      c.IPSCAN_SUCCESSFUL_COMPLETION ≠ f2 →
      apply_fetchnum c (apply_fetchnum c v f1) f2
        = apply_fetchnum c (apply_fetchnum c v f2) f1 := by
    intro v f1 f2 h1 h2
    simp only [apply_fetchnum_eq, if_neg h1, if_neg h2]
    exact int_lor_right_comm _ _ _
  refine ⟨hidem s e, hcomm s e1 e2, ?_, ?_⟩
  · intro h
    rw [state_after_read_of_ne c _ h]
    exact hidem _ e
  · intro h1 h2 hu1 hu2
    rw [state_after_read_of_ne c _ hu1, state_after_read_of_ne c _ hu2]
    exact hcomm _ e1 e2 h1 h2

/-- C30, amended, at a concrete point: with the constants of `refConfig`, from the state 0 the
report of `IPSCAN_HTTPTIMEOUT_COMPLETION` (991) writes 4, which is not `PORTUNKNOWN`, and a
second such report writes 4 again. -/
theorem c30_transition_idempotent_commutes_witness :
    apply_fetchnum refConfig (state_after_read refConfig 0) 991 ≠ refConfig.PORTUNKNOWN
      ∧ apply_fetchnum refConfig (state_after_read refConfig
          (apply_fetchnum refConfig (state_after_read refConfig 0) 991)) 991
        = apply_fetchnum refConfig (state_after_read refConfig 0) 991 :=
  ⟨by decide, (c30_transition_idempotent_commutes refConfig 0 991 991 991).2.2.1 (by decide)⟩

/-! ## The results table and its lookup -/

/-- The error numbers that rows of the results table with `connrc = -1` name. -/
theorem resultsstruct_conn_pairs (c : Config) (e : Errno) :
    (resultsstruct c e).map (fun row => (row.connrc, row.conn_errno))
      = [(0, 0), (-1, e.ECONNABORTED), (-1, e.ECONNREFUSED), (-1, e.ECONNRESET),
          (-1, e.ENETRESET), (-1, e.EINPROGRESS), (-1, e.EACCES), (-1, e.ENETUNREACH),
          (-1, e.EHOSTUNREACH), (-1, e.EMSGSIZE), (-1, e.EPROTO), (-96, -96), (-97, -97),
          (-95, -95), (-1, e.EAGAIN), (-98, -98), (-99, -99), (-100, -100), (-101, -101)] :=
  rfl

/-- C27, as the code has it: with the error numbers of Linux, where `ETIMEDOUT` is 110 and
differs from every error number of the table, no row of the results table has connect
return -1 and errno `ETIMEDOUT`; `ETIMEDOUT` is not paired with `PORTINPROGRESS`, whose one
row names `EINPROGRESS`. -/
theorem c27_etimedout_has_no_row :
    (resultsstruct refConfig linux_errno).filter
        (fun row => row.connrc = -1 ∧ row.conn_errno = linux_errno.ETIMEDOUT) = []
      ∧ (resultsstruct refConfig linux_errno).filter
          (fun row => row.returnval = refConfig.PORTINPROGRESS)
        = [⟨refConfig.PORTINPROGRESS, -1, linux_errno.EINPROGRESS, "STLTH"⟩] := by
  decide

/-- C27, amended: when the eleven error numbers that the results table names are pairwise
distinct, exactly one row has connect return 0, and it is the row of `PORTOPEN`; for connect
return -1 each of these error numbers has exactly one row, with the result code
`ECONNABORTED` `PORTABORT`, `ECONNREFUSED` `PORTREFUSED`, `ECONNRESET` `PORTCRESET`,
`ENETRESET` `PORTNRESET`, `EINPROGRESS` `PORTINPROGRESS`, `EACCES` `PORTPROHIBITED`,
`ENETUNREACH` `PORTUNREACHABLE`, `EHOSTUNREACH` `PORTNOROUTE`, `EMSGSIZE` `PORTPKTTOOBIG`,
`EPROTO` `PORTPARAMPROB` and `EAGAIN` `UDPSTEALTH`; no two rows share a (connect return,
errno) pair; and an error number other than these eleven, `ETIMEDOUT` among them when it
differs from them, matches no row with connect return -1. -/
theorem c27_table_pairs (c : Config) (e : Errno)
    (hdistinct : [e.ECONNABORTED, e.ECONNREFUSED, e.ECONNRESET, e.ENETRESET, e.EINPROGRESS,
      e.EACCES, e.ENETUNREACH, e.EHOSTUNREACH, e.EMSGSIZE, e.EPROTO, e.EAGAIN].Nodup) :
    (resultsstruct c e).filter (fun row => row.connrc = 0) = [⟨c.PORTOPEN, 0, 0, "OPEN"⟩]
      ∧ (∀ p ∈ [(e.ECONNABORTED, c.PORTABORT), (e.ECONNREFUSED, c.PORTREFUSED),
            (e.ECONNRESET, c.PORTCRESET), (e.ENETRESET, c.PORTNRESET),
            (e.EINPROGRESS, c.PORTINPROGRESS), (e.EACCES, c.PORTPROHIBITED),
            (e.ENETUNREACH, c.PORTUNREACHABLE), (e.EHOSTUNREACH, c.PORTNOROUTE),
            (e.EMSGSIZE, c.PORTPKTTOOBIG), (e.EPROTO, c.PORTPARAMPROB),
            (e.EAGAIN, c.UDPSTEALTH)],
          ((resultsstruct c e).filter
            (fun row => row.connrc = -1 ∧ row.conn_errno = p.1)).map (fun row => row.returnval)
            = [p.2])
      ∧ ((resultsstruct c e).map (fun row => (row.connrc, row.conn_errno))).Nodup
      ∧ ∀ errno : Int, errno ∉ [e.ECONNABORTED, e.ECONNREFUSED, e.ECONNRESET, e.ENETRESET,
            e.EINPROGRESS, e.EACCES, e.ENETUNREACH, e.EHOSTUNREACH, e.EMSGSIZE, e.EPROTO,
            e.EAGAIN] →
          (resultsstruct c e).filter
            (fun row => row.connrc = -1 ∧ row.conn_errno = errno) = [] := by
  simp only [List.nodup_cons, List.mem_cons, List.mem_singleton, List.not_mem_nil, not_or,
    not_false_eq_true, List.nodup_nil, and_true] at hdistinct
  obtain ⟨⟨h0x1, h0x2, h0x3, h0x4, h0x5, h0x6, h0x7, h0x8, h0x9, h0x10⟩,
    ⟨h1x2, h1x3, h1x4, h1x5, h1x6, h1x7, h1x8, h1x9, h1x10⟩,
    ⟨h2x3, h2x4, h2x5, h2x6, h2x7, h2x8, h2x9, h2x10⟩,
    ⟨h3x4, h3x5, h3x6, h3x7, h3x8, h3x9, h3x10⟩,
    ⟨h4x5, h4x6, h4x7, h4x8, h4x9, h4x10⟩,
    ⟨h5x6, h5x7, h5x8, h5x9, h5x10⟩,
    ⟨h6x7, h6x8, h6x9, h6x10⟩,
    ⟨h7x8, h7x9, h7x10⟩,
    ⟨h8x9, h8x10⟩,
    h9x10⟩ := hdistinct
  have h1x0 := Ne.symm h0x1
  have h2x0 := Ne.symm h0x2
  have h3x0 := Ne.symm h0x3
  have h4x0 := Ne.symm h0x4
  have h5x0 := Ne.symm h0x5
  have h6x0 := Ne.symm h0x6
  have h7x0 := Ne.symm h0x7
  have h8x0 := Ne.symm h0x8
  have h9x0 := Ne.symm h0x9
  have h10x0 := Ne.symm h0x10
  have h2x1 := Ne.symm h1x2
  have h3x1 := Ne.symm h1x3
  have h4x1 := Ne.symm h1x4
  have h5x1 := Ne.symm h1x5
  have h6x1 := Ne.symm h1x6
  have h7x1 := Ne.symm h1x7
  have h8x1 := Ne.symm h1x8
  have h9x1 := Ne.symm h1x9
  have h10x1 := Ne.symm h1x10
  have h3x2 := Ne.symm h2x3
  have h4x2 := Ne.symm h2x4
  have h5x2 := Ne.symm h2x5
  have h6x2 := Ne.symm h2x6
  have h7x2 := Ne.symm h2x7
  have h8x2 := Ne.symm h2x8
  have h9x2 := Ne.symm h2x9
  have h10x2 := Ne.symm h2x10
  have h4x3 := Ne.symm h3x4
  have h5x3 := Ne.symm h3x5
  have h6x3 := Ne.symm h3x6
  have h7x3 := Ne.symm h3x7
  have h8x3 := Ne.symm h3x8
  have h9x3 := Ne.symm h3x9
  have h10x3 := Ne.symm h3x10
  have h5x4 := Ne.symm h4x5
  have h6x4 := Ne.symm h4x6
  have h7x4 := Ne.symm h4x7
  have h8x4 := Ne.symm h4x8
  have h9x4 := Ne.symm h4x9
  have h10x4 := Ne.symm h4x10
  have h6x5 := Ne.symm h5x6
  have h7x5 := Ne.symm h5x7
  have h8x5 := Ne.symm h5x8
  have h9x5 := Ne.symm h5x9
  have h10x5 := Ne.symm h5x10
  have h7x6 := Ne.symm h6x7
  have h8x6 := Ne.symm h6x8
  have h9x6 := Ne.symm h6x9
  have h10x6 := Ne.symm h6x10
  have h8x7 := Ne.symm h7x8
  have h9x7 := Ne.symm h7x9
  have h10x7 := Ne.symm h7x10
  have h9x8 := Ne.symm h8x9
  have h10x8 := Ne.symm h8x10
  have h10x9 := Ne.symm h9x10
  refine ⟨?_, ?_, ?_, ?_⟩
  · simp only [resultsstruct, List.filter, and_false, and_true, decide_True, decide_False, List.map, reduceCtorEq,
        Int.reduceNeg, Int.reduceEq, Int.neg_eq_zero, OfNat.ofNat_ne_zero, zero_eq_neg, true_and,
        false_and, and_self]
  · intro p hp
    simp only [List.mem_cons, List.mem_singleton, List.not_mem_nil, or_false] at hp
    rcases hp with rfl | rfl | rfl | rfl | rfl | rfl | rfl | rfl | rfl | rfl | rfl <;>
      simp only [resultsstruct, List.filter, and_false, and_true, decide_True, decide_False, List.map, reduceCtorEq,
        Int.reduceNeg, Int.reduceEq, Int.neg_eq_zero, OfNat.ofNat_ne_zero, zero_eq_neg, true_and,
        false_and, and_self,
        h0x1, h1x0, h0x2, h2x0, h0x3, h3x0, h0x4, h4x0, h0x5, h5x0, h0x6, h6x0, h0x7, h7x0,
        h0x8, h8x0, h0x9, h9x0, h0x10, h10x0, h1x2, h2x1, h1x3, h3x1, h1x4, h4x1, h1x5, h5x1,
        h1x6, h6x1, h1x7, h7x1, h1x8, h8x1, h1x9, h9x1, h1x10, h10x1, h2x3, h3x2, h2x4, h4x2,
        h2x5, h5x2, h2x6, h6x2, h2x7, h7x2, h2x8, h8x2, h2x9, h9x2, h2x10, h10x2, h3x4, h4x3,
        h3x5, h5x3, h3x6, h6x3, h3x7, h7x3, h3x8, h8x3, h3x9, h9x3, h3x10, h10x3, h4x5, h5x4,
        h4x6, h6x4, h4x7, h7x4, h4x8, h8x4, h4x9, h9x4, h4x10, h10x4, h5x6, h6x5, h5x7, h7x5,
        h5x8, h8x5, h5x9, h9x5, h5x10, h10x5, h6x7, h7x6, h6x8, h8x6, h6x9, h9x6, h6x10, h10x6,
        h7x8, h8x7, h7x9, h9x7, h7x10, h10x7, h8x9, h9x8, h8x10, h10x8, h9x10, h10x9]
  · rw [resultsstruct_conn_pairs]
    simp only [List.nodup_cons, List.mem_cons, List.mem_singleton, List.not_mem_nil,
      Prod.mk.injEq, List.nodup_nil, not_or, or_false, and_false, and_true, decide_True, decide_False, List.map, reduceCtorEq,
        Int.reduceNeg, Int.reduceEq, Int.neg_eq_zero, OfNat.ofNat_ne_zero, zero_eq_neg, true_and,
        false_and, and_self, not_false_eq_true, not_true_eq_false,
        h0x1, h1x0, h0x2, h2x0, h0x3, h3x0, h0x4, h4x0, h0x5, h5x0, h0x6, h6x0, h0x7, h7x0,
        h0x8, h8x0, h0x9, h9x0, h0x10, h10x0, h1x2, h2x1, h1x3, h3x1, h1x4, h4x1, h1x5, h5x1,
        h1x6, h6x1, h1x7, h7x1, h1x8, h8x1, h1x9, h9x1, h1x10, h10x1, h2x3, h3x2, h2x4, h4x2,
        h2x5, h5x2, h2x6, h6x2, h2x7, h7x2, h2x8, h8x2, h2x9, h9x2, h2x10, h10x2, h3x4, h4x3,
        h3x5, h5x3, h3x6, h6x3, h3x7, h7x3, h3x8, h8x3, h3x9, h9x3, h3x10, h10x3, h4x5, h5x4,
        h4x6, h6x4, h4x7, h7x4, h4x8, h8x4, h4x9, h9x4, h4x10, h10x4, h5x6, h6x5, h5x7, h7x5,
        h5x8, h8x5, h5x9, h9x5, h5x10, h10x5, h6x7, h7x6, h6x8, h8x6, h6x9, h9x6, h6x10, h10x6,
        h7x8, h8x7, h7x9, h9x7, h7x10, h10x7, h8x9, h9x8, h8x10, h10x8, h9x10, h10x9]
  · intro errno herr
    simp only [List.mem_cons, List.mem_singleton, List.not_mem_nil, or_false, not_or] at herr
    obtain ⟨k1, k2, k3, k4, k5, k6, k7, k8, k9, k10, k11⟩ := herr
    have k1s := Ne.symm k1
    have k2s := Ne.symm k2
    have k3s := Ne.symm k3
    have k4s := Ne.symm k4
    have k5s := Ne.symm k5
    have k6s := Ne.symm k6
    have k7s := Ne.symm k7
    have k8s := Ne.symm k8
    have k9s := Ne.symm k9
    have k10s := Ne.symm k10
    have k11s := Ne.symm k11
    simp only [resultsstruct, List.filter, and_false, and_true, decide_True, decide_False, List.map, reduceCtorEq,
        Int.reduceNeg, Int.reduceEq, Int.neg_eq_zero, OfNat.ofNat_ne_zero, zero_eq_neg, true_and,
        false_and, and_self, k1s, k2s, k3s, k4s, k5s, k6s, k7s, k8s, k9s,
      k10s, k11s]

/-- C27, amended, at the reference configuration with the error numbers of Linux. -/
theorem c27_table_pairs_witness :
    [linux_errno.ECONNABORTED, linux_errno.ECONNREFUSED, linux_errno.ECONNRESET,
        linux_errno.ENETRESET, linux_errno.EINPROGRESS, linux_errno.EACCES,
        linux_errno.ENETUNREACH, linux_errno.EHOSTUNREACH, linux_errno.EMSGSIZE,
        linux_errno.EPROTO, linux_errno.EAGAIN].Nodup
      ∧ (resultsstruct refConfig linux_errno).filter (fun row => row.connrc = 0)
          = [⟨refConfig.PORTOPEN, 0, 0, "OPEN"⟩]
      ∧ ((resultsstruct refConfig linux_errno).map
          (fun row => (row.connrc, row.conn_errno))).Nodup :=
  ⟨by decide, (c27_table_pairs refConfig linux_errno (by decide)).1,
    (c27_table_pairs refConfig linux_errno (by decide)).2.2.1⟩
/-- The lookup loop over a table that has a row at every index up to `i + n`: it ends at an
index `j` between `i` and `i + n`, no row from `i` to before `j` has the value looked for, and
when `j` is before `i + n` the row at `j` has it. -/
theorem find_returnval_spec (table : List rslt_struc) (result : Int) :
    ∀ (n i : Nat), i + n < table.length →
      ∃ j, find_returnval table result n i = some j ∧ i ≤ j ∧ j ≤ i + n
        ∧ (∀ k row, i ≤ k → k < j → table.get? k = some row → row.returnval ≠ result)
        ∧ (j < i + n → ∃ row, table.get? j = some row ∧ row.returnval = result) := by
  intro n
  induction n with
  | zero =>
    intro i _
    refine ⟨i, rfl, le_refl _, le_refl _, ?_, ?_⟩
    · intro k row h1 h2
      omega
    · intro h
      omega
  | succ n ih =>
    intro i hi
    have hlt : i < table.length := by omega
    obtain ⟨row, hrow⟩ : ∃ row, table.get? i = some row :=
      ⟨table.get ⟨i, hlt⟩, List.get?_eq_get hlt⟩
    by_cases hne : row.returnval ≠ result
    · obtain ⟨j, hj, h1, h2, h3, h4⟩ := ih (i + 1) (by omega)
      refine ⟨j, ?_, by omega, by omega, ?_, ?_⟩
      · simp only [find_returnval, hrow, hj]
        exact if_pos hne
      · intro k row' hk1 hk2 hk
        by_cases hki : k = i
        · subst hki
          rw [hrow] at hk
          cases hk
          exact hne
        · exact h3 k row' (by omega) hk2 hk
      · intro hlt'
        exact h4 (by omega)
    · refine ⟨i, ?_, le_refl _, by omega, ?_, ?_⟩
      · simp only [find_returnval, hrow]
        exact if_neg hne
      · intro k row' hk1 hk2
        omega
      · intro _
        exact ⟨row, hrow, not_not.1 hne⟩

/-- The increment of a counter of the array stays in the array and changes that counter
only. -/
theorem portsstats_incr_in_range (portsstats : List Nat) (index : Int) (h0 : 0 ≤ index)
    (hlt : index < portsstats.length) :
    portsstats_incr portsstats index
      = some (portsstats.set index.toNat
          ((portsstats.getD index.toNat 0 + 1) % 4294967296)) := by
  unfold portsstats_incr
  rw [if_pos ⟨h0, hlt⟩]

/-- The lookup of lines 1684 to 1702 for a result value whose counter the array has: when
`NUMRESULTTYPES` is the index of the `PORTEOL` row and `portsstats` has `NUMRESULTTYPES`
counters, the loop ends at an index of at most `NUMRESULTTYPES`; a value that some row has
and that is below `NUMRESULTTYPES` has its own counter incremented, without a warning; a
value that no row has makes the counter of `PORTUNKNOWN` incremented, with the warning. -/
theorem count_result_in_array (c : Config) (e : Errno) (portsstats : List Nat) (result : Int)
    (hlen : c.NUMRESULTTYPES + 1 = (resultsstruct c e).length)
    (hstats : portsstats.length = c.NUMRESULTTYPES) :
    (∃ i, find_returnval (resultsstruct c e) result c.NUMRESULTTYPES 0 = some i
        ∧ i ≤ c.NUMRESULTTYPES)
      ∧ (resultsstruct c e).get? c.NUMRESULTTYPES = some ⟨c.PORTEOL, -101, -101, "EOL"⟩
      ∧ ((∃ row ∈ resultsstruct c e, row.returnval = result) →
          count_result c e portsstats result
            = (portsstats_incr portsstats result).map (fun stats => (stats, false)))
      ∧ ((∃ row ∈ resultsstruct c e, row.returnval = result) → 0 ≤ result →
          result < c.NUMRESULTTYPES →
          count_result c e portsstats result
            = some (portsstats.set result.toNat
                ((portsstats.getD result.toNat 0 + 1) % 4294967296), false))
      ∧ ((∀ row ∈ resultsstruct c e, row.returnval ≠ result) → 0 ≤ c.PORTUNKNOWN →
          c.PORTUNKNOWN < c.NUMRESULTTYPES →
          count_result c e portsstats result
            = some (portsstats.set c.PORTUNKNOWN.toNat
                ((portsstats.getD c.PORTUNKNOWN.toNat 0 + 1) % 4294967296), true)) := by
  obtain ⟨j, hj, _, h2, h3, h4⟩ :=
    find_returnval_spec (resultsstruct c e) result c.NUMRESULTTYPES 0 (by omega)
  have hN : c.NUMRESULTTYPES = 18 := by
    have : (resultsstruct c e).length = 19 := rfl
    omega
  have hjlt : j < (resultsstruct c e).length := by omega
  obtain ⟨rowj, hrowj⟩ : ∃ row, (resultsstruct c e).get? j = some row :=
    ⟨(resultsstruct c e).get ⟨j, hjlt⟩, List.get?_eq_get hjlt⟩
  have hfound : (∃ row ∈ resultsstruct c e, row.returnval = result) →
      count_result c e portsstats result
        = (portsstats_incr portsstats result).map (fun stats => (stats, false)) := by
    rintro ⟨row, hmem, hval⟩
    obtain ⟨k, hk⟩ := List.get?_of_mem hmem
    have hklt : k < (resultsstruct c e).length := by
      by_contra hcon
      rw [List.get?_eq_none.2 (by omega)] at hk
      cases hk
    have hmatch : rowj.returnval = result := by
      by_cases hjN : j < 0 + c.NUMRESULTTYPES
      · obtain ⟨r, hr, hrv⟩ := h4 hjN
        rw [hrowj] at hr
        cases hr
        exact hrv
      · by_cases hkj : k < j
        · exact absurd hval (h3 k row (Nat.zero_le _) hkj hk)
        · have hkeq : k = j := by omega
          subst hkeq
          rw [hrowj] at hk
          cases hk
          exact hval
    simp only [count_result, hj, hrowj, hmatch, if_true]
  refine ⟨⟨j, hj, by omega⟩, ?_, hfound, ?_, ?_⟩
  · rw [hN]
    rfl
  · intro hrow h0 hlt
    rw [hfound hrow, portsstats_incr_in_range portsstats result h0 (by rw [hstats]; exact hlt)]
    rfl
  · intro hnone h0 hlt
    have hmem : rowj ∈ resultsstruct c e := List.get?_mem hrowj
    have hne : ¬ result = rowj.returnval := fun h => hnone rowj hmem h.symm
    simp only [count_result, hj, hrowj, hne, if_false]
    rw [portsstats_incr_in_range portsstats c.PORTUNKNOWN h0 (by rw [hstats]; exact hlt)]
    rfl

/-- C26, at the failing input: when `NUMRESULTTYPES` is the index of the `PORTEOL` row,
`portsstats` has `NUMRESULTTYPES` counters and the code of `PORTEOL` is not below
`NUMRESULTTYPES` (the codes being numbered in table order), a result value `PORTEOL` read
from the store is found in the table, in a row that has it as its return value, and the
counter then incremented, `portsstats[PORTEOL]`, lies outside the array: the port is counted
neither under that value nor under `PORTUNKNOWN`. -/
theorem c26_sentinel_value_counted_past_array (c : Config) (e : Errno) (portsstats : List Nat)
    (hlen : c.NUMRESULTTYPES + 1 = (resultsstruct c e).length)
    (hstats : portsstats.length = c.NUMRESULTTYPES)
    (heol : (c.NUMRESULTTYPES : Int) ≤ c.PORTEOL) :
    (∃ row ∈ resultsstruct c e, row.returnval = c.PORTEOL)
      ∧ (∃ i row, find_returnval (resultsstruct c e) c.PORTEOL c.NUMRESULTTYPES 0 = some i
          ∧ (resultsstruct c e).get? i = some row ∧ row.returnval = c.PORTEOL)
      ∧ portsstats_incr portsstats c.PORTEOL = none
      ∧ count_result c e portsstats c.PORTEOL = none := by
  have hrow : ∃ row ∈ resultsstruct c e, row.returnval = c.PORTEOL :=
    ⟨⟨c.PORTEOL, -101, -101, "EOL"⟩, by simp [resultsstruct], rfl⟩
  have hincr : portsstats_incr portsstats c.PORTEOL = none := by
    unfold portsstats_incr
    rw [if_neg]
    rintro ⟨_, h⟩
    rw [hstats] at h
    omega
  obtain ⟨⟨i, hi, hile⟩, _, hfound, _, _⟩ :=
    count_result_in_array c e portsstats c.PORTEOL hlen hstats
  have hcount : count_result c e portsstats c.PORTEOL = none := by
    rw [hfound hrow, hincr]
    rfl
  refine ⟨hrow, ?_, hincr, hcount⟩
  have hilt : i < (resultsstruct c e).length := by omega
  obtain ⟨rowi, hrowi⟩ : ∃ row, (resultsstruct c e).get? i = some row :=
    ⟨(resultsstruct c e).get ⟨i, hilt⟩, List.get?_eq_get hilt⟩
  refine ⟨i, rowi, hi, hrowi, ?_⟩
  by_contra hne
  have hspec := find_returnval_spec (resultsstruct c e) c.PORTEOL c.NUMRESULTTYPES 0 (by omega)
  obtain ⟨j, hj, _, h2, h3, h4⟩ := hspec
  rw [hi] at hj
  cases hj
  by_cases hiN : i < 0 + c.NUMRESULTTYPES
  · obtain ⟨r, hr, hrv⟩ := h4 hiN
    rw [hrowi] at hr
    cases hr
    exact hne hrv
  · have hN : c.NUMRESULTTYPES = 18 := by
      have : (resultsstruct c e).length = 19 := rfl
      omega
    have hi18 : i = 18 := by omega
    subst hi18
    have : (resultsstruct c e).get? 18 = some ⟨c.PORTEOL, -101, -101, "EOL"⟩ := rfl
    rw [this] at hrowi
    cases hrowi
    exact hne rfl

/-- C26 at the reference configuration: the result value 18, the code of `PORTEOL`, with the
eighteen counters at 0. -/
theorem c26_sentinel_value_counted_past_array_witness :
    (refConfig.NUMRESULTTYPES + 1 = (resultsstruct refConfig linux_errno).length
        ∧ (List.replicate 18 0).length = refConfig.NUMRESULTTYPES
        ∧ (refConfig.NUMRESULTTYPES : Int) ≤ refConfig.PORTEOL)
      ∧ find_returnval (resultsstruct refConfig linux_errno) 18 refConfig.NUMRESULTTYPES 0
          = some 18
      ∧ portsstats_incr (List.replicate 18 0) refConfig.PORTEOL = none
      ∧ count_result refConfig linux_errno (List.replicate 18 0) refConfig.PORTEOL = none
      ∧ count_result refConfig linux_errno (List.replicate 18 0) 2
          = some ([0, 0, 1, 0, 0, 0, 0, 0, 0, 0, 0, 0, 0, 0, 0, 0, 0, 0], false)
      ∧ count_result refConfig linux_errno (List.replicate 18 0) 77
          = some ([0, 0, 0, 0, 0, 0, 0, 0, 0, 0, 0, 0, 0, 0, 0, 0, 1, 0], true) :=
  ⟨by decide, by decide,
    (c26_sentinel_value_counted_past_array refConfig linux_errno (List.replicate 18 0)
      (by decide) (by decide) (by decide)).2.2.1,
    (c26_sentinel_value_counted_past_array refConfig linux_errno (List.replicate 18 0)
      (by decide) (by decide) (by decide)).2.2.2,
    by decide, by decide⟩

/-! ## Termination of the splitting loop -/

/-- The name loop copies at least one character when it starts at a character it copies and
the name may take one. -/
theorem scan_name_advances (c : Config) (querystring : CStr) (n queryindex : Nat)
    (varname : CStr) (hn : 1 ≤ n) (hch : pair_char (char_at querystring queryindex))
    (hlen : c.MAXQUERYSTRLEN > queryindex) :
    queryindex + 1 ≤ (scan_name c querystring 0 n queryindex varname).1 := by
  obtain ⟨m, rfl⟩ : ∃ m, n = m + 1 := ⟨n - 1, by omega⟩
  have hlt : queryindex < querystring.length :=
    char_at_lt _ _ (by have := hch.1; omega)
  unfold scan_name
  simp only
  rw [if_pos ⟨hch.1, hch.2.1, hch.2.2.1, hch.2.2.2, hlen, trivial⟩]
  exact (scan_name_bounds c querystring 0 m (queryindex + 1) _ hlt).1

/-- The name loop copies nothing when it starts at a character it does not copy. -/
theorem scan_name_stays (c : Config) (querystring : CStr) (finished : Int) (n queryindex : Nat)
    (varname : CStr) (hch : ¬ pair_char (char_at querystring queryindex)) :
    scan_name c querystring finished n queryindex varname = (queryindex, varname) := by
  cases n with
  | zero => rfl
  | succ n =>
    unfold scan_name
    simp only
    rw [if_neg]
    rintro ⟨h1, h2, h3, h4, _, _⟩
    exact hch ⟨h1, h2, h3, h4⟩

/-- The loop that jumps over `=` or `&` moves forward when it starts at that character. -/
theorem skip_char_advances (c : Config) (querystring : CStr) (ch : Int) (hch : ch ≠ 0)
    (queryindex : Nat) (hat : ch = char_at querystring queryindex)
    (hlen : c.MAXQUERYSTRLEN > queryindex) :
    queryindex + 1 ≤ skip_char c querystring ch c.MAXQUERYSTRLEN queryindex := by
  obtain ⟨m, hm⟩ : ∃ m, c.MAXQUERYSTRLEN = m + 1 := ⟨c.MAXQUERYSTRLEN - 1, by omega⟩
  have hlt : queryindex < querystring.length :=
    char_at_lt _ _ (by rw [← hat]; exact hch)
  rw [hm]
  unfold skip_char
  rw [if_pos ⟨hat, by omega⟩]
  exact (skip_char_bounds c querystring ch hch m (queryindex + 1) hlt).1

/-- A pass of the splitting loop that starts at a character below 127 moves the read position
forward, as long as a name may take at least one character. -/
theorem split_body_progress (c : Config) (querystring : CStr) (s : split_state)
    (hname : 1 ≤ c.MAXQUERYNAMELEN) (hqi : s.queryindex ≤ querystring.length)
    (hlen : c.MAXQUERYSTRLEN > s.queryindex) (hch : 32 ≤ char_at querystring s.queryindex)
    (hfin : 0 = s.finished) (hdel : char_at querystring s.queryindex < 127) :
    s.queryindex < (split_body c querystring s).queryindex := by
  have hn := scan_name_bounds c querystring s.finished c.MAXQUERYNAMELEN s.queryindex [] hqi
  have hs1 := skip_char_bounds c querystring 61 (by decide) c.MAXQUERYSTRLEN _ hn.2.1
  have hv := scan_value_bounds c querystring c.MAXQUERYVALLEN _ [] hs1.2
  have hs2 := skip_char_bounds c querystring 38 (by decide) c.MAXQUERYSTRLEN _ hv.2.1
  have hs3 := skip_char_bounds c querystring 38 (by decide) c.MAXQUERYSTRLEN _ hn.2.1
  by_cases hpair : pair_char (char_at querystring s.queryindex)
  · have hadv := scan_name_advances c querystring c.MAXQUERYNAMELEN s.queryindex [] hname
      hpair hlen
    rw [← hfin] at hn hs1 hv hs2 hs3
    by_cases hf : (32 > char_at querystring
          (scan_name c querystring s.finished c.MAXQUERYNAMELEN s.queryindex []).1
        ∨ 126 < char_at querystring
          (scan_name c querystring s.finished c.MAXQUERYNAMELEN s.queryindex []).1
        ∨ c.MAXQUERYSTRLEN
          ≤ (scan_name c querystring s.finished c.MAXQUERYNAMELEN s.queryindex []).1)
    · rw [split_body_stop c querystring s hf, ← hfin]
      simp only
      omega
    · by_cases he : 61 = char_at querystring
          (scan_name c querystring s.finished c.MAXQUERYNAMELEN s.queryindex []).1
      · rw [split_body_value c querystring s hf he, ← hfin]
        simp only
        omega
      · rw [split_body_no_value c querystring s hf he, ← hfin]
        simp only
        omega
  · have hstay := scan_name_stays c querystring s.finished c.MAXQUERYNAMELEN s.queryindex []
      hpair
    have hf : ¬ (32 > char_at querystring
          (scan_name c querystring s.finished c.MAXQUERYNAMELEN s.queryindex []).1
        ∨ 126 < char_at querystring
          (scan_name c querystring s.finished c.MAXQUERYNAMELEN s.queryindex []).1
        ∨ c.MAXQUERYSTRLEN
          ≤ (scan_name c querystring s.finished c.MAXQUERYNAMELEN s.queryindex []).1) := by
      rw [hstay]
      simp only
      omega
    rw [hstay] at hs1 hv hs2 hs3
    simp only at hs1 hv hs2 hs3
    by_cases he : 61 = char_at querystring
        (scan_name c querystring s.finished c.MAXQUERYNAMELEN s.queryindex []).1
    · rw [split_body_value c querystring s hf he]
      rw [hstay] at he ⊢
      simp only at he ⊢
      have := skip_char_advances c querystring 61 (by decide) s.queryindex he hlen
      omega
    · rw [split_body_no_value c querystring s hf he]
      rw [hstay] at he ⊢
      simp only at he ⊢
      have h38 : 38 = char_at querystring s.queryindex := by
        by_contra h38
        exact hpair ⟨hch, hdel, he, h38⟩
      have := skip_char_advances c querystring 38 (by decide) s.queryindex h38 hlen
      omega

/-- The splitting loop ends on a query string without a character of 127 or more: from a
state within the declared sizes, more passes than characters are left are never needed. -/
theorem split_loop_ends (c : Config) (querystring : CStr) (hname : 1 ≤ c.MAXQUERYNAMELEN)
    (hdel : ∀ ch ∈ querystring, ch < 127) :
    ∀ (fuel : Nat) (s : split_state), split_inv c querystring s →
      querystring.length - s.queryindex < fuel →
      ∃ s', split_loop c querystring fuel s = some s' := by
  intro fuel
  induction fuel with
  | zero => intro s _ h; omega
  | succ fuel ih =>
    intro s hinv hfuel
    unfold split_loop
    split_ifs with hc
    · obtain ⟨hlen, hch, hfin, hroom⟩ := hc
      have hlt : s.queryindex < querystring.length :=
        char_at_lt _ _ (by omega)
      have hlt127 : char_at querystring s.queryindex < 127 := by
        apply hdel
        unfold char_at
        rw [List.getD_eq_getElem _ _ hlt]
        exact List.getElem_mem _
      have hprog := split_body_progress c querystring s hname hinv.1 hlen hch hfin hlt127
      have hinv' := (split_body_inv c querystring s hinv hroom).1
      exact ih _ hinv' (by omega)
    · exact ⟨s, rfl⟩

/-- C28, at the failing input: for every assignment of the header constants that lets the
splitting loop start (`MAXQUERYSTRLEN` and `MAXQUERIES` at least 1) and every query string
whose first character is the byte 0x7F, a pass of the outer loop leaves the state as it
found it, with the read position at 0 and `finished` 0 again, and the loop does not end,
whatever the number of passes allowed. -/
theorem c28_del_byte_pass_changes_nothing (c : Config) (rest : CStr)
    (hstr : 0 < c.MAXQUERYSTRLEN) (hq : 0 < c.MAXQUERIES) :
    split_body c (127 :: rest) ⟨0, 0, []⟩ = ⟨0, 0, []⟩
      ∧ (c.MAXQUERYSTRLEN > 0 ∧ 32 ≤ char_at (127 :: rest) 0 ∧ c.MAXQUERIES > 0)
      ∧ ∀ fuel, split_query c fuel (127 :: rest) = none := by
  have hstay : scan_name c (127 :: rest) 0 c.MAXQUERYNAMELEN 0 [] = (0, []) :=
    scan_name_stays c (127 :: rest) 0 c.MAXQUERYNAMELEN 0 [] (by
      show ¬ pair_char 127
      decide)
  have hbody : split_body c (127 :: rest) ⟨0, 0, []⟩ = ⟨0, 0, []⟩ := by
    rw [split_body_stop c (127 :: rest) ⟨0, 0, []⟩ (by
      simp only [hstay]
      right; left
      show (126 : Int) < 127
      decide)]
    simp only [hstay, finished_at]
    have h0 : char_at (127 :: rest) 0 = 127 := rfl
    rw [h0, if_neg (by omega)]
  have hcond : c.MAXQUERYSTRLEN > (⟨0, 0, []⟩ : split_state).queryindex
      ∧ 32 ≤ char_at (127 :: rest) (⟨0, 0, []⟩ : split_state).queryindex
      ∧ (0 : Int) = (⟨0, 0, []⟩ : split_state).finished
      ∧ c.MAXQUERIES > (⟨0, 0, []⟩ : split_state).numqueries :=
    ⟨hstr, by show (32 : Int) ≤ 127; decide, rfl, hq⟩
  refine ⟨hbody, ⟨hstr, by show (32 : Int) ≤ 127; decide, hq⟩, ?_⟩
  intro fuel
  have hloop : split_loop c (127 :: rest) fuel ⟨0, 0, []⟩ = none := by
    induction fuel with
    | zero => rfl
    | succ fuel ih =>
      unfold split_loop
      rw [if_pos hcond, hbody]
      exact ih
  unfold split_query
  rw [hloop]
  rfl

/-- C28 at the reference configuration, for the query string that is the single byte 0x7F. -/
theorem c28_del_byte_pass_changes_nothing_witness :
    (0 < refConfig.MAXQUERYSTRLEN ∧ 0 < refConfig.MAXQUERIES)
      ∧ split_body refConfig [127] ⟨0, 0, []⟩ = ⟨0, 0, []⟩
      ∧ ∀ fuel, split_query refConfig fuel [127] = none :=
  ⟨by decide, (c28_del_byte_pass_changes_nothing refConfig [] (by decide) (by decide)).1,
    (c28_del_byte_pass_changes_nothing refConfig [] (by decide) (by decide)).2.2⟩

/-! ## Requests without a usable REMOTE_ADDR -/

/-- C29, at the failing input: with the constants of `refConfig` a scan request that comes
without a `REMOTE_ADDR` variable is not ended: the host address stays `(0, 0)`, the test-state
row is written, the ICMPv6, UDP and TCP probes are launched, the results are read and the
rows deleted; the same happens when `REMOTE_ADDR` is set to the empty string. (In the source the probes are also handed `remoteaddrstring`, which no
statement has written on this path; the events of the trace do not carry that argument.) -/
theorem c29_missing_addr_is_scanned :
    (sample_env_no_addr "GET"
        "includeexisting=1&termsaccepted=1&starttime=5&session=6&beginscan=123456" 2).REMOTE_ADDR
        = none
      ∧ remote_stage refConfig (sample_env_no_addr "GET"
          "includeexisting=1&termsaccepted=1&starttime=5&session=6&beginscan=123456" 2)
        = Stage.go (0, 0)
      ∧ main refConfig 30 (sample_env_no_addr "GET"
          "includeexisting=1&termsaccepted=1&starttime=5&session=6&beginscan=123456" 2)
        = some ⟨[Event.write_db 0 0 5 6 3145728 1, Event.html Page.initiate_scan_dummy,
            Event.check_icmpv6_echoresponse 5 6, Event.write_db 0 0 5 6 2097152 12,
            Event.check_udp_ports_parll 0 3 0 0 5 6, Event.wait,
            Event.check_tcp_ports_parll 0 4 0 0 5 6 [⟨21, 0⟩, ⟨22, 0⟩, ⟨80, 0⟩, ⟨443, 0⟩],
            Event.wait, Event.read_db_result 0 0 5 6 1048629,
            Event.read_db_result 0 0 5 6 1048699, Event.read_db_result 0 0 5 6 1048737,
            Event.read_db_result 0 0 5 6 21, Event.read_db_result 0 0 5 6 22,
            Event.read_db_result 0 0 5 6 80, Event.read_db_result 0 0 5 6 443,
            Event.read_db_result 0 0 5 6 3145728, Event.sleep 2, Event.delete_from_db 0 0 5 6,
            Event.tidy_up_db 1700000000], EXIT_SUCCESS⟩
      ∧ main refConfig 30 (sample_env "GET"
          "includeexisting=1&termsaccepted=1&starttime=5&session=6&beginscan=123456" "" 2)
        = main refConfig 30 (sample_env_no_addr "GET"
          "includeexisting=1&termsaccepted=1&starttime=5&session=6&beginscan=123456" 2) := by
  decide

/-- The `REMOTE_ADDR` part of `main` ends with a page exactly when the variable is longer
than `INET6_ADDRSTRLEN` or holds a word that `inet_pton` rejects. -/
theorem remote_stage_done_iff (c : Config) (env : Env) :
    (∃ page, remote_stage c env = Stage.done page)
      ↔ ∃ v, env.REMOTE_ADDR = some v
          ∧ (v.length > c.INET6_ADDRSTRLEN
            ∨ ∃ word, sscanf_s c.INET6_ADDRSTRLEN v = some word ∧ env.inet_pton word = none) := by
  unfold remote_stage
  cases hv : env.REMOTE_ADDR with
  | none => simp
  | some v =>
    simp only [Option.some.injEq, exists_eq_left']
    by_cases hlen : v.length > c.INET6_ADDRSTRLEN
    · simp [hlen]
    · rw [if_neg hlen]
      cases hw : sscanf_s c.INET6_ADDRSTRLEN v with
      | none => simp [hlen]
      | some word =>
        cases hp : env.inet_pton word with
        | none => simp [hp]
        | some host => simp [hlen, hp]

/-- For every request whose method and query string the program gets through (the splitting
loop ends), when `REMOTE_ADDR` is longer than `INET6_ADDRSTRLEN` or holds a
word that does not parse as an IPv6 address, `main` returns after one HTML page and its trace
holds no probe and no store operation keyed by a session tuple; the `REMOTE_ADDR` part of
`main` ends the request in these two cases only, and a missing `REMOTE_ADDR`, or one without
a word, leaves the host address at `(0, 0)` and the request goes on. -/
theorem refused_remote_addr_answer (c : Config) (fuel : Nat) (env : Env)
    (r : Stage (List queries)) (hreq : request_stage c fuel env = some r) :
    ((∃ v, env.REMOTE_ADDR = some v
          ∧ (v.length > c.INET6_ADDRSTRLEN
            ∨ ∃ word, sscanf_s c.INET6_ADDRSTRLEN v = some word ∧ env.inet_pton word = none)) →
        ∃ out page, main c fuel env = some out ∧ out.status = EXIT_SUCCESS
          ∧ out.trace = [Event.html page]
          ∧ ∀ e ∈ out.trace, e.is_probe = false ∧ e.is_keyed_store_op = false)
      ∧ ((∃ page, remote_stage c env = Stage.done page)
          ↔ ∃ v, env.REMOTE_ADDR = some v
              ∧ (v.length > c.INET6_ADDRSTRLEN
                ∨ ∃ word, sscanf_s c.INET6_ADDRSTRLEN v = some word
                    ∧ env.inet_pton word = none))
      ∧ (env.REMOTE_ADDR = none
          ∨ (∃ v, env.REMOTE_ADDR = some v ∧ v.length ≤ c.INET6_ADDRSTRLEN
              ∧ sscanf_s c.INET6_ADDRSTRLEN v = none) →
        remote_stage c env = Stage.go (0, 0)) := by
  refine ⟨?_, remote_stage_done_iff c env, ?_⟩
  · intro hbad
    obtain ⟨page, hpage⟩ := (remote_stage_done_iff c env).2 hbad
    cases r with
    | done page' =>
      refine ⟨_, page', main_of_request_done c fuel env page' hreq, rfl, rfl, ?_⟩
      intro e he
      simp only [List.mem_singleton] at he
      subst he
      exact ⟨rfl, rfl⟩
    | go query =>
      refine ⟨_, page, main_of_remote_done c fuel env query page hreq hpage, rfl, rfl, ?_⟩
      intro e he
      simp only [List.mem_singleton] at he
      subst he
      exact ⟨rfl, rfl⟩
  · rintro (hnone | ⟨v, hv, hlen, hw⟩)
    · unfold remote_stage
      rw [hnone]
    · unfold remote_stage
      rw [hv]
      simp only
      rw [if_neg (by omega), hw]

/-- A scan request from the IPv4 client 192.0.2.1 is answered with the page for an unparseable address and nothing else. -/
theorem refused_remote_addr_answer_example :
    request_stage refConfig 30 (sample_env "GET"
        "includeexisting=1&termsaccepted=1&starttime=5&session=6&beginscan=123456" "192.0.2.1" 2)
      = some (Stage.go [⟨lit "includeexisting", 1, 1⟩, ⟨lit "termsaccepted", 1, 1⟩,
          ⟨lit "starttime", 5, 1⟩, ⟨lit "session", 6, 1⟩, ⟨lit "beginscan", 123456, 1⟩])
      ∧ ∃ out page, main refConfig 30 (sample_env "GET"
            "includeexisting=1&termsaccepted=1&starttime=5&session=6&beginscan=123456"
            "192.0.2.1" 2) = some out
          ∧ out.status = EXIT_SUCCESS ∧ out.trace = [Event.html page]
          ∧ ∀ e ∈ out.trace, e.is_probe = false ∧ e.is_keyed_store_op = false :=
  ⟨by decide,
    (refused_remote_addr_answer refConfig 30 (sample_env "GET"
        "includeexisting=1&termsaccepted=1&starttime=5&session=6&beginscan=123456" "192.0.2.1" 2)
      _ (by decide : request_stage refConfig 30 (sample_env "GET"
        "includeexisting=1&termsaccepted=1&starttime=5&session=6&beginscan=123456" "192.0.2.1" 2)
      = some (Stage.go [⟨lit "includeexisting", 1, 1⟩, ⟨lit "termsaccepted", 1, 1⟩,
          ⟨lit "starttime", 5, 1⟩, ⟨lit "session", 6, 1⟩, ⟨lit "beginscan", 123456, 1⟩]))).1
      ⟨lit "192.0.2.1", rfl, Or.inr ⟨lit "192.0.2.1", by decide, by decide⟩⟩⟩

/-! ## The parallel scan loops: chunks, outstanding workers and return code -/

theorem chunks_of_append (a b : List Event) : chunks_of (a ++ b) = chunks_of a ++ chunks_of b := by
  unfold chunks_of
  exact List.filterMap_append _ _ _

theorem waits_of_append (a b : List Event) : waits_of (a ++ b) = waits_of a + waits_of b := by
  unfold waits_of
  rw [List.filter_append, List.length_append]

theorem outstanding_append (a b : List Event) :
    outstanding (a ++ b) = outstanding a + outstanding b := by
  unfold outstanding
  rw [chunks_of_append, waits_of_append, List.length_append]
  push_cast
  ring

theorem outstanding_nil : outstanding [] = 0 := rfl

theorem outstanding_wait : outstanding [Event.wait] = -1 := rfl

theorem chunks_of_wait : chunks_of [Event.wait] = [] := rfl

theorem chunks_of_call (e : Event) (ch : Int × Int) (h : e.chunk = some ch) :
    chunks_of [e] = [ch] := by
  unfold chunks_of
  simp [List.filterMap_cons, h]

/-- An event that names a chunk is not a call of `wait`. -/
theorem is_wait_of_chunk (e : Event) (ch : Int × Int) (h : e.chunk = some ch) :
    e.is_wait = false := by
  cases e <;> first | rfl | (simp [Event.chunk] at h)

theorem waits_of_call (e : Event) (ch : Int × Int) (h : e.chunk = some ch) :
    waits_of [e] = 0 := by
  unfold waits_of
  simp [List.filter_cons, is_wait_of_chunk e ch h]

theorem outstanding_call (e : Event) (ch : Int × Int) (h : e.chunk = some ch) :
    outstanding [e] = 1 := by
  unfold outstanding
  rw [chunks_of_call e ch h, waits_of_call e ch h]
  rfl

theorem ports_dispatched_append (a b : List (Int × Int)) :
    ports_dispatched (a ++ b) = ports_dispatched a + ports_dispatched b := by
  unfold ports_dispatched
  rw [List.map_append, List.sum_append]

theorem contiguous_from_append (chunks : List (Int × Int)) (ch : Int × Int) :
    ∀ start, contiguous_from start (chunks ++ [ch])
      ↔ contiguous_from start chunks ∧ ch.1 = start + ports_dispatched chunks := by
  induction chunks with
  | nil =>
    intro start
    simp [contiguous_from, ports_dispatched]
  | cons c rest ih =>
    intro start
    have hsum : ports_dispatched (c :: rest) = c.2 + ports_dispatched rest := by
      simp [ports_dispatched]
    show (c.1 = start ∧ contiguous_from (start + c.2) (rest ++ [ch]))
      ↔ (c.1 = start ∧ contiguous_from (start + c.2) rest)
          ∧ ch.1 = start + ports_dispatched (c :: rest)
    rw [ih (start + c.2), hsum]
    constructor
    · rintro ⟨h1, h2, h3⟩
      exact ⟨⟨h1, h2⟩, by rw [h3]; ring⟩
    · rintro ⟨⟨h1, h2⟩, h3⟩
      exact ⟨h1, h2, by rw [h3]; ring⟩

/-- A property of every prefix of a trace extends to the trace with one more event when it
holds of the whole longer trace. -/
theorem prefix_concat_all (P : List Event → Prop) (ev : List Event) (e : Event)
    (h : ∀ pre, pre <+: ev → P pre) (hnew : P (ev ++ [e])) :
    ∀ pre, pre <+: ev ++ [e] → P pre := by
  intro pre hpre
  rcases List.prefix_concat_iff.1 hpre with rfl | hp
  · exact hnew
  · exact h pre hp

theorem spawn_returns_succ (env : Env) (k0 m : Nat) :
    spawn_returns env k0 (m + 1) = spawn_returns env k0 m ++ [env.check_ports_parll (k0 + m)] := by
  unfold spawn_returns
  rw [List.range_succ, List.map_append]
  rfl

/-- Every index from `start` up to the end of contiguous chunks of at least one port is held
by exactly one chunk, and no other index is held by any. -/
theorem holders_contiguous (chunks : List (Int × Int)) :
    ∀ start, contiguous_from start chunks → (∀ ch ∈ chunks, 1 ≤ ch.2) →
      ∀ k, holders chunks k
        = if start ≤ k ∧ k < start + ports_dispatched chunks then 1 else 0 := by
  induction chunks with
  | nil =>
    intro start _ _ k
    have h0 : ports_dispatched [] = 0 := rfl
    rw [h0, if_neg (by omega)]
    rfl
  | cons c rest ih =>
    intro start hcont hpos k
    obtain ⟨hc, hrest⟩ := hcont
    have hc2 := hpos c (List.mem_cons_self _ _)
    have hrest' := ih (start + c.2) hrest (fun ch h => hpos ch (List.mem_cons_of_mem _ h)) k
    have hsum : ports_dispatched (c :: rest) = c.2 + ports_dispatched rest := by
      simp [ports_dispatched]
    have hnn : 0 ≤ ports_dispatched rest := by
      unfold ports_dispatched
      apply List.sum_nonneg
      intro x hx
      obtain ⟨ch, hch, rfl⟩ := List.mem_map.1 hx
      have := hpos ch (List.mem_cons_of_mem _ hch)
      omega
    unfold holders at hrest' ⊢
    rw [List.filter_cons, hsum]
    by_cases hk : c.1 ≤ k ∧ k < c.1 + c.2
    · rw [if_pos (by simpa using hk), List.length_cons, hrest']
      rw [if_neg (by omega), if_pos (by omega)]
    · rw [if_neg (by simpa using hk), hrest']
      by_cases hk2 : start + c.2 ≤ k ∧ k < start + c.2 + ports_dispatched rest
      · rw [if_pos hk2, if_pos (by omega)]
      · rw [if_neg hk2, if_neg (by omega)]

/-- A pass of the inner loop with room for a worker: the chunk handed out, the state and the
world after the call, followed by a `wait` when the cap is reached and ports remain. -/
theorem scan_step_spawn (p : scan_params) (env : Env) (s : scan_state) (w : World)
    (hM : 1 ≤ p.maxportsperchild) (hn : p.numports < 2147483648)
    (hlt : s.numchildren < p.maxchildren) (hrem : s.remaining > 0)
    (hporti : 0 ≤ s.porti) (hremeq : s.remaining = p.numports - s.porti) :
    scan_step p env s w =
      if s.numchildren + 1 = p.maxchildren
          ∧ p.numports - (s.porti + min s.remaining p.maxportsperchild) > 0 then
        (⟨p.numports - (s.porti + min s.remaining p.maxportsperchild),
            s.porti + min s.remaining p.maxportsperchild, s.numchildren + 1 - 1,
            if p.accumulate then Int.lor s.rc (env.check_ports_parll w.nspawn)
            else env.check_ports_parll w.nspawn⟩,
          ⟨w.trace ++ [p.call s.porti (min s.remaining p.maxportsperchild)] ++ [Event.wait],
            w.ntime, w.nread, w.nwrite, w.nspawn + 1, w.nwait + 1⟩)
      else
        (⟨p.numports - (s.porti + min s.remaining p.maxportsperchild),
            s.porti + min s.remaining p.maxportsperchild, s.numchildren + 1,
            if p.accumulate then Int.lor s.rc (env.check_ports_parll w.nspawn)
            else env.check_ports_parll w.nspawn⟩,
          ⟨w.trace ++ [p.call s.porti (min s.remaining p.maxportsperchild)],
            w.ntime, w.nread, w.nwrite, w.nspawn + 1, w.nwait⟩) := by
  have htodo : to_uint (if s.remaining > p.maxportsperchild then p.maxportsperchild
      else s.remaining) = min s.remaining p.maxportsperchild := by
    unfold to_uint
    split_ifs with h
    · rw [min_eq_right (by omega)]
      omega
    · rw [min_eq_left (by omega)]
      omega
  have hmin1 : 1 ≤ min s.remaining p.maxportsperchild := le_min (by omega) hM
  have hmin2 : min s.remaining p.maxportsperchild ≤ s.remaining := min_le_left _ _
  have hporti' : to_uint (s.porti + min s.remaining p.maxportsperchild)
      = s.porti + min s.remaining p.maxportsperchild := by
    unfold to_uint
    omega
  have hrem' : to_int (to_uint (p.numports - (s.porti + min s.remaining p.maxportsperchild)))
      = p.numports - (s.porti + min s.remaining p.maxportsperchild) := by
    unfold to_int to_uint
    omega
  unfold scan_step
  simp only [World.call_spawn, World.call_wait]
  have hcond : s.numchildren < p.maxchildren ∧ s.remaining > 0 := ⟨hlt, hrem⟩
  simp only [if_pos hcond, htodo, hporti', hrem']

/-- The invariant after a call that hands the next chunk to a worker. -/
theorem scan_inv_spawn (p : scan_params) (env : Env) (rc0 : Int) (w0 : World) (s : scan_state)
    (w : World) (hM : 1 ≤ p.maxportsperchild)
    (hcall : ∀ i t, (p.call i t).chunk = some (i, t))
    (hinv : scan_inv p env rc0 w0 s w) (hrem : s.remaining > 0)
    (hlt : s.numchildren < p.maxchildren) :
    scan_inv p env rc0 w0
      ⟨p.numports - (s.porti + min s.remaining p.maxportsperchild),
        s.porti + min s.remaining p.maxportsperchild, s.numchildren + 1,
        if p.accumulate then Int.lor s.rc (env.check_ports_parll w.nspawn)
        else env.check_ports_parll w.nspawn⟩
      ⟨w.trace ++ [p.call s.porti (min s.remaining p.maxportsperchild)],
        w.ntime, w.nread, w.nwrite, w.nspawn + 1, w.nwait⟩ := by
  obtain ⟨ev, htr, hns, hev, hcont, hdisp, hsize, hout, hpre, hp0, hpn, hremeq, hnp, hacc,
    hass⟩ := hinv
  have hmin1 : 1 ≤ min s.remaining p.maxportsperchild := le_min (by omega) hM
  have hmin2 : min s.remaining p.maxportsperchild ≤ s.remaining := min_le_left _ _
  have hmin3 : min s.remaining p.maxportsperchild ≤ p.maxportsperchild := min_le_right _ _
  have hch := hcall s.porti (min s.remaining p.maxportsperchild)
  have hchunks : chunks_of (ev ++ [p.call s.porti (min s.remaining p.maxportsperchild)])
      = chunks_of ev ++ [(s.porti, min s.remaining p.maxportsperchild)] := by
    rw [chunks_of_append, chunks_of_call _ _ hch]
  have hout0 := (hpre ev (List.prefix_refl _)).1
  have hout' : outstanding (ev ++ [p.call s.porti (min s.remaining p.maxportsperchild)])
      = s.numchildren + 1 := by
    rw [outstanding_append, outstanding_call _ _ hch, hout]
  refine ⟨ev ++ [p.call s.porti (min s.remaining p.maxportsperchild)], ?_, ?_, ?_, ?_, ?_, ?_,
    ?_, ?_, ?_, ?_, ?_, ?_, ?_, ?_⟩
  · show w.trace ++ _ = _
    rw [htr, List.append_assoc]
  · show w.nspawn + 1 = _
    rw [hchunks, List.length_append, List.length_singleton, hns]
    omega
  · intro e he
    rcases List.mem_append.1 he with h | h
    · exact hev e h
    · right
      exact ⟨_, _, List.mem_singleton.1 h⟩
  · rw [hchunks, contiguous_from_append]
    exact ⟨hcont, by show s.porti = _; rw [hdisp]; ring⟩
  · rw [hchunks, ports_dispatched_append, hdisp]
    simp [ports_dispatched]
  · rw [hchunks]
    intro ch hmem
    rcases List.mem_append.1 hmem with h | h
    · exact hsize ch h
    · rw [List.mem_singleton.1 h]
      exact ⟨hmin1, hmin3⟩
  · exact hout'
  · apply prefix_concat_all _ ev _ hpre
    rw [hout']
    omega
  · show 0 ≤ s.porti + _
    omega
  · show s.porti + _ ≤ p.numports
    omega
  · rfl
  · show s.numchildren + 1 ≤ s.porti + _
    omega
  · intro ha
    show (if p.accumulate = true then _ else _) = _
    rw [if_pos ha, hchunks, List.length_append, List.length_singleton, spawn_returns_succ,
      List.foldl_append, ← hacc ha, hns]
    rfl
  · intro ha
    show (if p.accumulate = true then _ else _) = _
    rw [if_neg (by simp [ha]), hchunks, List.length_append, List.length_singleton,
      spawn_returns_succ, List.getLast?_append, hns]
    rfl

/-- The invariant after a call of `wait` made while a worker is outstanding. -/
theorem scan_inv_wait (p : scan_params) (env : Env) (rc0 : Int) (w0 : World) (s : scan_state)
    (w : World) (hinv : scan_inv p env rc0 w0 s w) (hpos : 0 < s.numchildren) :
    scan_inv p env rc0 w0 { s with numchildren := s.numchildren - 1 } (w.call_wait env).2 := by
  obtain ⟨ev, htr, hns, hev, hcont, hdisp, hsize, hout, hpre, hp0, hpn, hremeq, hnp, hacc,
    hass⟩ := hinv
  have hchunks : chunks_of (ev ++ [Event.wait]) = chunks_of ev := by
    rw [chunks_of_append, chunks_of_wait, List.append_nil]
  have hout' : outstanding (ev ++ [Event.wait]) = s.numchildren - 1 := by
    rw [outstanding_append, outstanding_wait, hout]
    ring
  have hmax := (hpre ev (List.prefix_refl _)).2
  refine ⟨ev ++ [Event.wait], ?_, ?_, ?_, ?_, ?_, ?_, ?_, ?_, ?_, ?_, ?_, ?_, ?_, ?_⟩
  · show w.trace ++ _ = _
    rw [htr, List.append_assoc]
  · show w.nspawn = _
    rw [hchunks, hns]
  · intro e he
    rcases List.mem_append.1 he with h | h
    · exact hev e h
    · left
      rw [List.mem_singleton.1 h]
      rfl
  · rw [hchunks]
    exact hcont
  · rw [hchunks]
    exact hdisp
  · rw [hchunks]
    exact hsize
  · exact hout'
  · apply prefix_concat_all _ ev _ hpre
    rw [hout']
    omega
  · exact hp0
  · exact hpn
  · exact hremeq
  · show s.numchildren - 1 ≤ s.porti
    omega
  · intro ha
    rw [hchunks]
    exact hacc ha
  · intro ha
    rw [hchunks]
    exact hass ha

/-- The inner loop that hands out the chunks ends within `remaining + 1` passes, keeps the
invariant and leaves no port behind. -/
theorem scan_dispatch_spec (p : scan_params) (env : Env) (rc0 : Int) (w0 : World)
    (hM : 1 ≤ p.maxportsperchild) (hn : p.numports < 2147483648)
    (hcall : ∀ i t, (p.call i t).chunk = some (i, t)) :
    ∀ (fuel : Nat) (s : scan_state) (w : World), scan_inv p env rc0 w0 s w →
      (s.remaining > 0 → s.numchildren < p.maxchildren) → s.remaining < fuel →
      ∃ s' w', scan_dispatch p env fuel s w = some (s', w') ∧ scan_inv p env rc0 w0 s' w'
        ∧ s'.remaining = 0 := by
  intro fuel
  induction fuel with
  | zero =>
    intro s w hinv _ hfuel
    obtain ⟨ev, _, _, _, _, _, _, _, _, _, hpn, hremeq, _⟩ := hinv
    simp only [Nat.cast_zero] at hfuel
    omega
  | succ fuel ih =>
    intro s w hinv hroom hfuel
    have hinv' := hinv
    obtain ⟨ev, _, _, _, _, _, _, hout, hpre, hp0, hpn, hremeq, _⟩ := hinv'
    have hnc0 : 0 ≤ s.numchildren := by
      rw [← hout]
      exact (hpre ev (List.prefix_refl _)).1
    unfold scan_dispatch
    by_cases hrem : s.remaining > 0
    · have hlt := hroom hrem
      have hs1 := scan_inv_spawn p env rc0 w0 s w hM hcall hinv hrem hlt
      have hmin1 : 1 ≤ min s.remaining p.maxportsperchild := le_min (by omega) hM
      rw [if_pos hrem, scan_step_spawn p env s w hM hn hlt hrem hp0 hremeq]
      by_cases h2 : s.numchildren + 1 = p.maxchildren
          ∧ p.numports - (s.porti + min s.remaining p.maxportsperchild) > 0
      · rw [if_pos h2]
        have hs2 := scan_inv_wait p env rc0 w0 _ _ hs1 (by show 0 < s.numchildren + 1; omega)
        apply ih _ _ hs2
        · intro _
          show s.numchildren + 1 - 1 < p.maxchildren
          omega
        · show p.numports - (s.porti + min s.remaining p.maxportsperchild) < (fuel : Int)
          push_cast at hfuel
          omega
      · rw [if_neg h2]
        apply ih _ _ hs1
        · intro hr
          show s.numchildren + 1 < p.maxchildren
          have hr' : p.numports - (s.porti + min s.remaining p.maxportsperchild) > 0 := hr
          have hne : s.numchildren + 1 ≠ p.maxchildren := fun h => h2 ⟨h, hr'⟩
          omega
        · show p.numports - (s.porti + min s.remaining p.maxportsperchild) < (fuel : Int)
          push_cast at hfuel
          omega
    · rw [if_neg hrem]
      exact ⟨s, w, rfl, hinv, by omega⟩

/-- The loop that harvests the outstanding workers ends within `numchildren + 1` passes,
keeps the invariant and leaves no worker outstanding. -/
theorem scan_drain_spec (p : scan_params) (env : Env) (rc0 : Int) (w0 : World) :
    ∀ (fuel : Nat) (s : scan_state) (w : World), scan_inv p env rc0 w0 s w →
      s.numchildren < fuel →
      ∃ s' w', scan_drain env fuel s w = some (s', w') ∧ scan_inv p env rc0 w0 s' w'
        ∧ s'.numchildren = 0 ∧ s'.remaining = s.remaining := by
  intro fuel
  induction fuel with
  | zero =>
    intro s w hinv hfuel
    obtain ⟨ev, _, _, _, _, _, _, hout, hpre, _⟩ := hinv
    have := (hpre ev (List.prefix_refl _)).1
    simp only [Nat.cast_zero] at hfuel
    omega
  | succ fuel ih =>
    intro s w hinv hfuel
    have hinv' := hinv
    obtain ⟨ev, _, _, _, _, _, _, hout, hpre, _⟩ := hinv'
    have hnc0 : 0 ≤ s.numchildren := by
      rw [← hout]
      exact (hpre ev (List.prefix_refl _)).1
    unfold scan_drain
    by_cases hpos : s.numchildren > 0
    · rw [if_pos hpos]
      have hs1 := scan_inv_wait p env rc0 w0 s w hinv hpos
      obtain ⟨s', w', h1, h2, h3, h4⟩ := ih _ _ hs1 (by
        show s.numchildren - 1 < (fuel : Int)
        push_cast at hfuel
        omega)
      exact ⟨s', w', h1, h2, h3, h4⟩
    · rw [if_neg hpos]
      exact ⟨s, w, rfl, hinv, by omega, rfl⟩

/-- The parallel scan of `numports` ports returns within `numports + 2` passes of its outer
loop, whatever the calls and `wait` return; at its end the invariant holds, every port has
been handed out and no worker is outstanding. -/
theorem parallel_scan_spec (p : scan_params) (env : Env) (fuel : Nat) (rc0 : Int) (w0 : World)
    (hC : 1 ≤ p.maxchildren) (hM : 1 ≤ p.maxportsperchild) (hn0 : 0 ≤ p.numports)
    (hn : p.numports < 2147483648) (hcall : ∀ i t, (p.call i t).chunk = some (i, t))
    (hfuel : p.numports + 2 ≤ fuel) :
    ∃ s w, parallel_scan p env fuel rc0 w0 = some (s, w) ∧ scan_inv p env rc0 w0 s w
      ∧ s.remaining = 0 ∧ s.numchildren = 0 ∧ s.porti = p.numports := by
  have hto : to_int p.numports = p.numports := by
    unfold to_int
    omega
  have hinit : scan_inv p env rc0 w0 ⟨p.numports, 0, 0, rc0⟩ w0 := by
    refine ⟨[], by simp, by simp [chunks_of], by simp, trivial, rfl, by simp [chunks_of], rfl,
      ?_, le_refl _, hn0, by simp, le_refl _, ?_, ?_⟩
    · intro pre hpre
      rw [List.prefix_nil.1 hpre]
      exact ⟨le_refl _, by show (0 : Int) ≤ p.maxchildren; omega⟩
    · intro _
      rfl
    · intro _
      rfl
  obtain ⟨f, rfl⟩ : ∃ f, fuel = f + 1 := ⟨fuel - 1, by omega⟩
  unfold parallel_scan
  rw [hto]
  unfold scan_outer
  by_cases hcond : (⟨p.numports, 0, 0, rc0⟩ : scan_state).remaining > 0
      ∨ (⟨p.numports, 0, 0, rc0⟩ : scan_state).numchildren > 0
  · rw [if_pos hcond]
    obtain ⟨s1, w1, hd, hinv1, hrem1⟩ := scan_dispatch_spec p env rc0 w0 hM hn hcall (f + 1)
      ⟨p.numports, 0, 0, rc0⟩ w0 hinit (fun _ => by show (0 : Int) < p.maxchildren; omega)
      (by show p.numports < ((f + 1 : Nat) : Int); omega)
    have hnc1 : s1.numchildren ≤ p.numports := by
      obtain ⟨ev, _, _, _, _, _, _, _, _, _, hpn, _, hnp, _⟩ := hinv1
      omega
    obtain ⟨s2, w2, hdr, hinv2, hnc2, hrem2⟩ := scan_drain_spec p env rc0 w0 (f + 1) s1 w1 hinv1
      (by omega)
    rw [hd]
    simp only
    rw [hdr]
    simp only
    obtain ⟨g, rfl⟩ : ∃ g, f = g + 1 := ⟨f - 1, by push_cast at hfuel; omega⟩
    unfold scan_outer
    rw [if_neg (by rw [hnc2, hrem2, hrem1]; simp)]
    refine ⟨s2, w2, rfl, hinv2, by rw [hrem2, hrem1], hnc2, ?_⟩
    obtain ⟨ev, _, _, _, _, _, _, _, _, _, _, hremeq, _⟩ := hinv2
    rw [hrem2, hrem1] at hremeq
    omega
  · rw [if_neg hcond]
    have h0 : p.numports = 0 := by
      have : ¬ p.numports > 0 := fun h => hcond (Or.inl h)
      omega
    refine ⟨_, _, rfl, hinit, h0, rfl, h0.symm⟩

/-- The OR of a list of values onto `a` is 0 exactly when `a` and every value are 0. -/
theorem foldl_lor_eq_zero (l : List Int) :
    ∀ a : Int, l.foldl Int.lor a = 0 ↔ a = 0 ∧ ∀ x ∈ l, x = 0 := by
  induction l with
  | nil =>
    intro a
    simp
  | cons x rest ih =>
    intro a
    rw [List.foldl_cons, ih, int_lor_eq_zero]
    simp only [List.mem_cons, forall_eq_or_imp]
    tauto

/-- The four copies of the parallel scan loop make their calls with the chunk they are
handed. -/
theorem scan_params_call_chunk (c : Config) (a b t s : Nat) (accumulate : Bool)
    (portlist : List portlist_struc) (p : scan_params)
    (hp : p = tcp_params c a b t s accumulate portlist ∨ p = udp_params c a b t s accumulate) :
    ∀ i todo, (p.call i todo).chunk = some (i, todo) := by
  rcases hp with rfl | rfl <;> intro i todo <;> rfl

/-- C21: for each of the parallel scan loops (TCP and UDP, text and javascript mode) with
caps of at least 1 and a port count `numports` below 2^31, whatever the calls that hand out
chunks and the calls of `wait` return, the loop returns within `numports + 2` passes of its
outer loop, and the chunks `(start index, count)` of the calls it made are contiguous and in
order from index 0, each holds between 1 and `MAXPORTSPERCHILD` (`MAXUDPPORTSPERCHILD`)
ports, every index from 0 to `numports - 1` is held by exactly one chunk and no other index by
any, and the counts add up to `numports`. -/
theorem c21_chunks_cover_ports (c : Config) (env : Env) (a b t s : Nat) (accumulate : Bool)
    (portlist : List portlist_struc) (p : scan_params)
    (hp : p = tcp_params c a b t s accumulate portlist ∨ p = udp_params c a b t s accumulate)
    (hC : 1 ≤ p.maxchildren) (hM : 1 ≤ p.maxportsperchild) (hn : p.numports < 2147483648)
    (fuel : Nat) (hfuel : p.numports + 2 ≤ fuel) (rc : Int) (w : World) :
    ∃ s' w' ev, parallel_scan p env fuel rc w = some (s', w') ∧ w'.trace = w.trace ++ ev
      ∧ contiguous_from 0 (chunks_of ev)
      ∧ (∀ ch ∈ chunks_of ev, 1 ≤ ch.2 ∧ ch.2 ≤ p.maxportsperchild)
      ∧ (∀ k, holders (chunks_of ev) k = if 0 ≤ k ∧ k < p.numports then 1 else 0)
      ∧ ports_dispatched (chunks_of ev) = p.numports := by
  have hn0 : 0 ≤ p.numports := by
    rcases hp with rfl | rfl
    · exact Int.ofNat_nonneg _
    · exact Int.ofNat_nonneg _
  obtain ⟨s', w', hres, hinv, _, _, hporti⟩ := parallel_scan_spec p env fuel rc w hC hM hn0 hn
    (scan_params_call_chunk c a b t s accumulate portlist p hp) hfuel
  obtain ⟨ev, htr, _, _, hcont, hdisp, hsize, _⟩ := hinv
  refine ⟨s', w', ev, hres, htr, hcont, hsize, ?_, by rw [hdisp, hporti]⟩
  intro k
  rw [holders_contiguous (chunks_of ev) 0 hcont (fun ch h => (hsize ch h).1) k, hdisp, hporti,
    Int.zero_add]

/-- C21 at a concrete point: the TCP loop of javascript mode for the four default ports of
`refConfig`. -/
theorem c21_chunks_cover_ports_witness :
    (1 ≤ (tcp_params refConfig 0 0 5 6 false refConfig.defportlist).maxchildren
        ∧ 1 ≤ (tcp_params refConfig 0 0 5 6 false refConfig.defportlist).maxportsperchild
        ∧ (tcp_params refConfig 0 0 5 6 false refConfig.defportlist).numports < 2147483648
        ∧ (tcp_params refConfig 0 0 5 6 false refConfig.defportlist).numports + 2 ≤ (30 : Nat))
      ∧ ∃ s' w' ev, parallel_scan (tcp_params refConfig 0 0 5 6 false refConfig.defportlist)
            (sample_env "GET" "" "::1" 0) 30 0 World.init = some (s', w')
          ∧ w'.trace = World.init.trace ++ ev
          ∧ contiguous_from 0 (chunks_of ev)
          ∧ (∀ ch ∈ chunks_of ev, 1 ≤ ch.2
              ∧ ch.2 ≤ (tcp_params refConfig 0 0 5 6 false refConfig.defportlist).maxportsperchild)
          ∧ (∀ k, holders (chunks_of ev) k
              = if 0 ≤ k ∧ k < (tcp_params refConfig 0 0 5 6 false refConfig.defportlist).numports
                then 1 else 0)
          ∧ ports_dispatched (chunks_of ev)
              = (tcp_params refConfig 0 0 5 6 false refConfig.defportlist).numports :=
  ⟨by decide,
    c21_chunks_cover_ports refConfig (sample_env "GET" "" "::1" 0) 0 0 5 6 false
      refConfig.defportlist _ (Or.inl rfl) (by decide) (by decide) (by decide) 30 (by decide) 0
      World.init⟩

/-- C22: for each of the parallel scan loops with `MAXCHILDREN` and `MAXPORTSPERCHILD`
(`MAXUDPCHILDREN` and `MAXUDPPORTSPERCHILD`) at least 1 and a port count below 2^31,
whatever the calls return, the loop returns, and after every event of its run the workers
spawned and not yet waited for are at least 0 and at most `MAXCHILDREN` (`MAXUDPCHILDREN`);
when the loop exits `numchildren` is 0 and the calls of `wait` are as many as the workers
spawned. -/
theorem c22_outstanding_workers_bounded (c : Config) (env : Env) (a b t s : Nat)
    (accumulate : Bool) (portlist : List portlist_struc) (p : scan_params)
    (hp : p = tcp_params c a b t s accumulate portlist ∨ p = udp_params c a b t s accumulate)
    (hC : 1 ≤ p.maxchildren) (hM : 1 ≤ p.maxportsperchild) (hn : p.numports < 2147483648)
    (fuel : Nat) (hfuel : p.numports + 2 ≤ fuel) (rc : Int) (w : World) :
    ∃ s' w' ev, parallel_scan p env fuel rc w = some (s', w') ∧ w'.trace = w.trace ++ ev
      ∧ (∀ e ∈ ev, e.is_wait = true ∨ e.chunk.isSome = true)
      ∧ (∀ pre, pre <+: ev → 0 ≤ outstanding pre ∧ outstanding pre ≤ p.maxchildren)
      ∧ s'.numchildren = 0 ∧ outstanding ev = 0 ∧ waits_of ev = (chunks_of ev).length := by
  have hn0 : 0 ≤ p.numports := by
    rcases hp with rfl | rfl
    · exact Int.ofNat_nonneg _
    · exact Int.ofNat_nonneg _
  have hcall := scan_params_call_chunk c a b t s accumulate portlist p hp
  obtain ⟨s', w', hres, hinv, _, hnc, _⟩ := parallel_scan_spec p env fuel rc w hC hM hn0 hn
    hcall hfuel
  obtain ⟨ev, htr, _, hev, _, _, _, hout, hpre, _⟩ := hinv
  have hout0 : outstanding ev = 0 := by rw [hout, hnc]
  refine ⟨s', w', ev, hres, htr, ?_, hpre, hnc, hout0, ?_⟩
  · intro e he
    rcases hev e he with h | ⟨i, todo, rfl⟩
    · exact Or.inl h
    · right
      rw [hcall i todo]
      rfl
  · unfold outstanding at hout0
    omega

/-- C22 at a concrete point: the UDP loop of text mode for the three UDP ports of
`refConfigText`. -/
theorem c22_outstanding_workers_bounded_witness :
    (1 ≤ (udp_params refConfigText 0 0 5 6 true).maxchildren
        ∧ 1 ≤ (udp_params refConfigText 0 0 5 6 true).maxportsperchild
        ∧ (udp_params refConfigText 0 0 5 6 true).numports < 2147483648
        ∧ (udp_params refConfigText 0 0 5 6 true).numports + 2 ≤ (30 : Nat))
      ∧ ∃ s' w' ev, parallel_scan (udp_params refConfigText 0 0 5 6 true)
            (sample_env "GET" "" "::1" 0) 30 0 World.init = some (s', w')
          ∧ w'.trace = World.init.trace ++ ev
          ∧ (∀ e ∈ ev, e.is_wait = true ∨ e.chunk.isSome = true)
          ∧ (∀ pre, pre <+: ev → 0 ≤ outstanding pre
              ∧ outstanding pre ≤ (udp_params refConfigText 0 0 5 6 true).maxchildren)
          ∧ s'.numchildren = 0 ∧ outstanding ev = 0 ∧ waits_of ev = (chunks_of ev).length :=
  ⟨by decide,
    c22_outstanding_workers_bounded refConfigText (sample_env "GET" "" "::1" 0) 0 0 5 6 true
      [] _ (Or.inr rfl) (by decide) (by decide) (by decide) 30 (by decide) 0 World.init⟩

/-- C23, as stated, fails: in the TCP loop of text mode over the four default ports, with
every call handing out a chunk returning 0 and the harvested worker exiting with status 1,
one worker is spawned and waited for and the return code stays 0; and in the TCP loop of
javascript mode over ten ports, where the first of the two calls returns 1 and the second 0,
the return code ends as 0, the value of the last call. -/
theorem c23_exit_status_not_in_rc :
    (sample_env_workers (fun _ => 0) 1).wait 0 = 1
      ∧ (parallel_scan (tcp_params refConfigText 0 0 5 6 true refConfigText.defportlist)
            (sample_env_workers (fun _ => 0) 1) 30 0 World.init).map
          (fun r => (r.1.rc, r.2.nspawn, r.2.nwait)) = some (0, 1, 1)
      ∧ (parallel_scan (tcp_params refConfig 0 0 5 6 false (List.replicate 10 ⟨80, 0⟩))
            (sample_env_workers (fun k => if k = 0 then 1 else 0) 0) 30 0 World.init).map
          (fun r => (r.1.rc, r.2.nspawn, r.2.nwait)) = some (0, 2, 2) := by
  decide

/-- C23, amended: for each of the parallel scan loops with caps of at least 1 and a port
count below 2^31 the loop returns, and its return code is determined by the values that the
calls of `check_tcp_ports_parll` (`check_udp_ports_parll`) returned, one call per chunk:
in text mode, where `rc` is accumulated, it is the bitwise OR of these values onto the value
`rc` had on entry, so that from 0 it ends non-zero exactly when some call returned a
non-zero value; in javascript mode, where `rc` is assigned, it is the value of the last
call. The statuses that `wait` reports do not enter. -/
theorem c23_return_code_of_calls (c : Config) (env : Env) (a b t s : Nat) (accumulate : Bool)
    (portlist : List portlist_struc) (p : scan_params)
    (hp : p = tcp_params c a b t s accumulate portlist ∨ p = udp_params c a b t s accumulate)
    (hC : 1 ≤ p.maxchildren) (hM : 1 ≤ p.maxportsperchild) (hn : p.numports < 2147483648)
    (fuel : Nat) (hfuel : p.numports + 2 ≤ fuel) (rc : Int) (w : World) :
    ∃ s' w' ev, parallel_scan p env fuel rc w = some (s', w') ∧ w'.trace = w.trace ++ ev
      ∧ w'.nspawn = w.nspawn + (chunks_of ev).length
      ∧ (accumulate = true →
          s'.rc = (spawn_returns env w.nspawn (chunks_of ev).length).foldl Int.lor rc
            ∧ (rc = 0 → (s'.rc ≠ 0
                ↔ ∃ j, j < (chunks_of ev).length ∧ env.check_ports_parll (w.nspawn + j) ≠ 0)))
      ∧ (accumulate = false →
          s'.rc = ((spawn_returns env w.nspawn (chunks_of ev).length).getLast?).getD rc) := by
  have hn0 : 0 ≤ p.numports := by
    rcases hp with rfl | rfl
    · exact Int.ofNat_nonneg _
    · exact Int.ofNat_nonneg _
  have hcall := scan_params_call_chunk c a b t s accumulate portlist p hp
  have hacceq : p.accumulate = accumulate := by
    rcases hp with rfl | rfl <;> rfl
  obtain ⟨s', w', hres, hinv, _, _, _⟩ := parallel_scan_spec p env fuel rc w hC hM hn0 hn
    hcall hfuel
  obtain ⟨ev, htr, hns, _, _, _, _, _, _, _, _, _, _, hacc, hass⟩ := hinv
  rw [hacceq] at hacc hass
  refine ⟨s', w', ev, hres, htr, hns, ?_, hass⟩
  intro ha
  refine ⟨hacc ha, ?_⟩
  intro hrc0
  rw [hacc ha, hrc0, Ne, foldl_lor_eq_zero]
  simp only [true_and, not_forall]
  unfold spawn_returns
  constructor
  · rintro ⟨x, hx, hne⟩
    obtain ⟨j, hj, rfl⟩ := List.mem_map.1 hx
    exact ⟨j, List.mem_range.1 hj, hne⟩
  · rintro ⟨j, hj, hne⟩
    exact ⟨_, List.mem_map.2 ⟨j, List.mem_range.2 hj, rfl⟩, hne⟩

/-- C23, amended, at a concrete point: the TCP loop of text mode over the four default ports
when the call that hands out the one chunk returns 4. -/
theorem c23_return_code_of_calls_witness :
    (1 ≤ (tcp_params refConfigText 0 0 5 6 true refConfigText.defportlist).maxchildren
        ∧ 1 ≤ (tcp_params refConfigText 0 0 5 6 true refConfigText.defportlist).maxportsperchild
        ∧ (tcp_params refConfigText 0 0 5 6 true refConfigText.defportlist).numports < 2147483648
        ∧ (tcp_params refConfigText 0 0 5 6 true refConfigText.defportlist).numports + 2
            ≤ (30 : Nat))
      ∧ ∃ s' w' ev, parallel_scan
            (tcp_params refConfigText 0 0 5 6 true refConfigText.defportlist)
            (sample_env_workers (fun _ => 4) 0) 30 0 World.init = some (s', w')
          ∧ w'.trace = World.init.trace ++ ev
          ∧ w'.nspawn = World.init.nspawn + (chunks_of ev).length
          ∧ (true = true →
              s'.rc = (spawn_returns (sample_env_workers (fun _ => 4) 0) World.init.nspawn
                  (chunks_of ev).length).foldl Int.lor 0
                ∧ ((0 : Int) = 0 → (s'.rc ≠ 0
                    ↔ ∃ j, j < (chunks_of ev).length
                        ∧ (sample_env_workers (fun _ => 4) 0).check_ports_parll
                            (World.init.nspawn + j) ≠ 0)))
          ∧ (true = false →
              s'.rc = ((spawn_returns (sample_env_workers (fun _ => 4) 0) World.init.nspawn
                  (chunks_of ev).length).getLast?).getD 0) :=
  ⟨by decide,
    c23_return_code_of_calls refConfigText (sample_env_workers (fun _ => 4) 0) 0 0 5 6 true
      refConfigText.defportlist _ (Or.inl rfl) (by decide) (by decide) (by decide) 30
      (by decide) 0 World.init⟩

/-! ## How the trace grows -/

theorem grows_refl (w : World) : w.grows w :=
  ⟨[], by simp, by simp⟩

theorem grows_trans (w1 w2 w3 : World) (h12 : w1.grows w2) (h23 : w2.grows w3) : w1.grows w3 := by
  obtain ⟨ev1, h1, hp1⟩ := h12
  obtain ⟨ev2, h2, hp2⟩ := h23
  refine ⟨ev1 ++ ev2, by rw [h2, h1, List.append_assoc], ?_⟩
  intro e he
  rcases List.mem_append.1 he with h | h
  · exact hp1 e h
  · exact hp2 e h

theorem grows_emit (w : World) (e : Event) (he : e.is_tidy = false) : w.grows (w.emit e) :=
  ⟨[e], rfl, by simpa using he⟩

theorem grows_call_time (w : World) (env : Env) : w.grows (w.call_time env).2 :=
  ⟨[], by simp [World.call_time], by simp⟩

theorem grows_call_read (w : World) (env : Env) (a b t s port : Nat) :
    w.grows (w.call_read env a b t s port).2 :=
  ⟨[Event.read_db_result a b t s port], rfl, by simp [Event.is_tidy]⟩

theorem grows_call_write (w : World) (env : Env) (a b t s port : Nat) (result : Int) :
    w.grows (w.call_write env a b t s port result).2 :=
  ⟨[Event.write_db a b t s port result], rfl, by simp [Event.is_tidy]⟩

theorem grows_call_wait (w : World) (env : Env) : w.grows (w.call_wait env).2 :=
  ⟨[Event.wait], rfl, by simp [Event.is_tidy]⟩

theorem grows_call_spawn (w : World) (env : Env) (e : Event) (he : e.is_tidy = false) :
    w.grows (w.call_spawn env e).2 :=
  ⟨[e], rfl, by simpa using he⟩

theorem scan_step_grows (p : scan_params) (env : Env) (s : scan_state) (w : World)
    (hcall : ∀ i t, (p.call i t).is_tidy = false) : w.grows (scan_step p env s w).2 := by
  unfold scan_step
  simp only
  split_ifs <;>
    first
    | exact grows_trans _ _ _ (grows_call_spawn w env _ (hcall _ _)) (grows_call_wait _ env)
    | exact grows_call_spawn w env _ (hcall _ _)
    | exact grows_call_wait _ env
    | exact grows_refl w

theorem scan_dispatch_grows (p : scan_params) (env : Env)
    (hcall : ∀ i t, (p.call i t).is_tidy = false) :
    ∀ (fuel : Nat) (s s' : scan_state) (w w' : World),
      scan_dispatch p env fuel s w = some (s', w') → w.grows w' := by
  intro fuel
  induction fuel with
  | zero => intro s s' w w' h; simp [scan_dispatch] at h
  | succ fuel ih =>
    intro s s' w w' h
    unfold scan_dispatch at h
    split_ifs at h
    · exact grows_trans _ _ _ (scan_step_grows p env s w hcall) (ih _ _ _ _ h)
    · have : w' = w := by
        have := Option.some.inj h
        exact (congrArg Prod.snd this).symm
      rw [this]
      exact grows_refl w

theorem scan_drain_grows (env : Env) :
    ∀ (fuel : Nat) (s s' : scan_state) (w w' : World),
      scan_drain env fuel s w = some (s', w') → w.grows w' := by
  intro fuel
  induction fuel with
  | zero => intro s s' w w' h; simp [scan_drain] at h
  | succ fuel ih =>
    intro s s' w w' h
    unfold scan_drain at h
    split_ifs at h
    · exact grows_trans _ _ _ (grows_call_wait w env) (ih _ _ _ _ h)
    · have : w' = w := by
        have := Option.some.inj h
        exact (congrArg Prod.snd this).symm
      rw [this]
      exact grows_refl w

theorem scan_outer_grows (p : scan_params) (env : Env)
    (hcall : ∀ i t, (p.call i t).is_tidy = false) :
    ∀ (fuel : Nat) (s s' : scan_state) (w w' : World),
      scan_outer p env fuel s w = some (s', w') → w.grows w' := by
  intro fuel
  induction fuel with
  | zero => intro s s' w w' h; simp [scan_outer] at h
  | succ fuel ih =>
    intro s s' w w' h
    unfold scan_outer at h
    split_ifs at h
    · cases hd : scan_dispatch p env (fuel + 1) s w with
      | none => rw [hd] at h; simp at h
      | some r1 =>
        obtain ⟨s1, w1⟩ := r1
        rw [hd] at h
        simp only at h
        cases hdr : scan_drain env (fuel + 1) s1 w1 with
        | none => rw [hdr] at h; simp at h
        | some r2 =>
          obtain ⟨s2, w2⟩ := r2
          rw [hdr] at h
          simp only at h
          exact grows_trans _ _ _ (scan_dispatch_grows p env hcall _ _ _ _ _ hd)
            (grows_trans _ _ _ (scan_drain_grows env _ _ _ _ _ hdr) (ih _ _ _ _ h))
    · have : w' = w := by
        have := Option.some.inj h
        exact (congrArg Prod.snd this).symm
      rw [this]
      exact grows_refl w

/-- A parallel scan that returns has added events to the trace, none a call of
`tidy_up_db`. -/
theorem parallel_scan_grows (p : scan_params) (env : Env) (fuel : Nat) (rc : Int)
    (s' : scan_state) (w w' : World) (hcall : ∀ i t, (p.call i t).is_tidy = false)
    (h : parallel_scan p env fuel rc w = some (s', w')) : w.grows w' :=
  scan_outer_grows p env hcall fuel _ _ _ _ h

theorem read_results_grows (c : Config) (env : Env) (a b t s proto : Nat) :
    ∀ (portlist : List portlist_struc) (w : World),
      w.grows (read_results c env a b t s proto portlist w) := by
  intro portlist
  induction portlist with
  | nil => intro w; exact grows_refl w
  | cons e rest ih =>
    intro w
    unfold read_results
    exact grows_trans _ _ _ (grows_call_read w env a b t s _) (ih _)

theorem grows_pick_time (env : Env) (X : Prop) [Decidable X] (f1 f2 : Int)
    (w wa wb : World) (ha : w.grows wa) (hb : w.grows wb) :
    w.grows ((if X then (f1, wa) else (f2, wb)).2.call_time env).2 := by
  split_ifs
  · exact grows_trans _ _ _ ha (grows_call_time _ env)
  · exact grows_trans _ _ _ hb (grows_call_time _ env)

theorem wait_for_client_grows (c : Config) (env : Env) (a b t s : Nat) (timeouttime : Int) :
    ∀ (fuel : Nat) (deletenowtime client_finished : Int) (w w' : World),
      wait_for_client c env a b t s timeouttime fuel deletenowtime client_finished w = some w' →
      w.grows w' := by
  intro fuel
  induction fuel with
  | zero => intro d f w w' h; simp [wait_for_client] at h
  | succ fuel ih =>
    intro d f w w' h
    unfold wait_for_client at h
    by_cases h1 : d < timeouttime ∧ f = 0
    · rw [if_pos h1] at h
      simp only at h
      refine grows_trans _ _ _ ?_ (ih _ _ _ _ h)
      exact grows_pick_time env _ _ _ w _ _ (grows_call_read w env a b t s _)
        (grows_trans _ _ _ (grows_call_read w env a b t s _) (grows_emit _ _ rfl))
    · rw [if_neg h1] at h
      have : w' = w := (Option.some.inj h).symm
      rw [this]
      exact grows_refl w

theorem grows_ite (X : Prop) [Decidable X] (w wa wb : World) (ha : w.grows wa)
    (hb : w.grows wb) : w.grows (if X then wa else wb) := by
  split_ifs
  · exact ha
  · exact hb

/-- The shape of the trace of the scan-initiation branch of javascript mode when it returns:
the write of the `RUNNING` test state comes first; a run that reaches the end of the branch
ends with the sleep of `IPSCAN_DELETE_WAIT_PERIOD` and the delete of the rows of the session
tuple; the early return happens only when the write of the ping result failed, right after
that write. -/
theorem javascript_scan_shape (c : Config) (env : Env) (fuel : Nat) (a b t s : Nat)
    (portlist : List portlist_struc) (w : World) (early : Bool) (w' : World)
    (h : javascript_scan c env fuel a b t s portlist w = some (early, w')) :
    ∃ ev, (∀ e ∈ ev, e.is_tidy = false)
      ∧ w'.trace = w.trace
          ++ Event.write_db a b t s (teststate_key c) c.IPSCAN_TESTSTATE_RUNNING_BIT :: ev
      ∧ (early = false → ∃ mid, ev = mid
          ++ [Event.sleep c.IPSCAN_DELETE_WAIT_PERIOD, Event.delete_from_db a b t s])
      ∧ (early = true → c.IPSCAN_INCLUDE_PING = 1 ∧ env.write_db (w.nwrite + 1) ≠ 0
          ∧ ev = [Event.html Page.initiate_scan_dummy, Event.check_icmpv6_echoresponse t s,
              Event.write_db a b t s (icmpv6_key c) env.check_icmpv6_echoresponse,
              Event.html Page.body_end]) := by
  unfold javascript_scan at h
  simp only at h
  set w1 := (w.call_write env a b t s (teststate_key c) c.IPSCAN_TESTSTATE_RUNNING_BIT).2 with hw1
  set w3 := ((w1.call_time env).2).emit (Event.html Page.initiate_scan_dummy) with hw3
  set X := (w3.emit (Event.check_icmpv6_echoresponse t s)).call_write env a b t s (icmpv6_key c)
    env.check_icmpv6_echoresponse with hX
  set pr := (if c.IPSCAN_INCLUDE_PING = 1 then (decide (X.1 ≠ 0), X.2) else (false, w3)) with hpr
  have hw1tr : w1.trace = w.trace
      ++ [Event.write_db a b t s (teststate_key c) c.IPSCAN_TESTSTATE_RUNNING_BIT] := rfl
  have hw3g : w1.grows w3 :=
    grows_trans _ _ _ (grows_call_time w1 env) (grows_emit _ _ rfl)
  have hXg : w1.grows X.2 :=
    grows_trans _ _ _ hw3g (grows_trans _ _ _
      (grows_emit w3 (Event.check_icmpv6_echoresponse t s) rfl)
      (grows_call_write _ env _ _ _ _ _ _))
  have hprg : w1.grows pr.2 := by
    rw [hpr]
    split_ifs
    · exact hXg
    · exact hw3g
  -- what follows `w1` gives the events after the first write
  have hfin : ∀ wf : World, w1.grows wf → ∃ ev, (∀ e ∈ ev, e.is_tidy = false)
      ∧ wf.trace = w.trace
          ++ Event.write_db a b t s (teststate_key c) c.IPSCAN_TESTSTATE_RUNNING_BIT :: ev := by
    rintro wf ⟨ev, htr, hev⟩
    exact ⟨ev, hev, by rw [htr, hw1tr, List.append_assoc]; rfl⟩
  by_cases hp1 : pr.1 = true
  · rw [if_pos hp1] at h
    have hping : c.IPSCAN_INCLUDE_PING = 1 := by
      by_contra hn
      rw [hpr, if_neg hn] at hp1
      simp at hp1
    have hpr2 : pr = (decide (X.1 ≠ 0), X.2) := by rw [hpr, if_pos hping]
    have hrc : X.1 ≠ 0 := by
      rw [hpr2] at hp1
      simpa using hp1
    have he : early = true := by
      have := congrArg Prod.fst (Option.some.inj h)
      exact this.symm
    have hw' : w' = pr.2.emit (Event.html Page.body_end) := by
      have := congrArg Prod.snd (Option.some.inj h)
      exact this.symm
    refine ⟨[Event.html Page.initiate_scan_dummy, Event.check_icmpv6_echoresponse t s,
      Event.write_db a b t s (icmpv6_key c) env.check_icmpv6_echoresponse,
      Event.html Page.body_end], by simp [Event.is_tidy], ?_, ?_, ?_⟩
    · rw [hw', hpr2]
      simp [World.emit, World.call_write, World.call_time, hX, hw3, hw1]
    · intro hf
      rw [he] at hf
      cases hf
    · intro _
      exact ⟨hping, hrc, rfl⟩
  · rw [if_neg hp1] at h
    cases hou : (if c.IPSCAN_INCLUDE_UDP = 1 then
          Option.map (fun r => r.2) (parallel_scan (udp_params c a b t s false) env fuel 0 pr.2)
        else some pr.2) with
    | none =>
      rw [hou] at h
      simp at h
    | some wu =>
      have hwu : pr.2.grows wu := by
        split_ifs at hou
        · cases hps : parallel_scan (udp_params c a b t s false) env fuel 0 pr.2 with
          | none => rw [hps] at hou; simp at hou
          | some r =>
            rw [hps] at hou
            have hr : r.2 = wu := by simpa using hou
            rw [← hr]
            exact parallel_scan_grows (udp_params c a b t s false) env fuel 0 r.1 pr.2 r.2
              (fun _ _ => rfl) hps
        · have : pr.2 = wu := by simpa using hou
          rw [this]
          exact grows_refl _
      rw [hou] at h
      simp only at h
      cases htcp : parallel_scan (tcp_params c a b t s false portlist) env fuel 0 wu with
      | none =>
        rw [htcp] at h
        simp at h
      | some r =>
        obtain ⟨sres, wt⟩ := r
        have hwt : wu.grows wt := parallel_scan_grows (tcp_params c a b t s false portlist) env
          fuel 0 sres wu wt (fun _ _ => rfl) htcp
        rw [htcp] at h
        simp only at h
        split at h
        · simp at h
        · rename_i wd hwait
          have hgw := wait_for_client_grows c env a b t s _ _ _ _ _ _ hwait
          have hpre : wt.grows ((if 1 ≤ c.IPSCAN_LOGVERBOSITY then
              ((read_results c env a b t s c.IPSCAN_PROTO_TCP portlist
                (if c.IPSCAN_INCLUDE_UDP = 1 then
                  read_results c env a b t s c.IPSCAN_PROTO_UDP c.udpportlist wt
                else wt)).call_time env).2
              else read_results c env a b t s c.IPSCAN_PROTO_TCP portlist
                (if c.IPSCAN_INCLUDE_UDP = 1 then
                  read_results c env a b t s c.IPSCAN_PROTO_UDP c.udpportlist wt
                else wt)).call_time env).2 := by
            have hr1 : wt.grows (if c.IPSCAN_INCLUDE_UDP = 1 then
                read_results c env a b t s c.IPSCAN_PROTO_UDP c.udpportlist wt else wt) :=
              grows_ite _ _ _ _ (read_results_grows c env a b t s _ _ _) (grows_refl _)
            have hr2 := grows_trans _ _ _ hr1 (read_results_grows c env a b t s
              c.IPSCAN_PROTO_TCP portlist _)
            exact grows_trans _ _ _
              (grows_ite _ _ _ _ (grows_trans _ _ _ hr2 (grows_call_time _ env)) hr2)
              (grows_call_time _ env)
          have hall : w1.grows wd :=
            grows_trans _ _ _ hprg (grows_trans _ _ _ hwu (grows_trans _ _ _ hwt
              (grows_trans _ _ _ hpre hgw)))
          have he : early = false := by
            have := congrArg Prod.fst (Option.some.inj h)
            exact this.symm
          have hw' : w' = (wd.emit (Event.sleep c.IPSCAN_DELETE_WAIT_PERIOD)).emit
              (Event.delete_from_db a b t s) := by
            have := congrArg Prod.snd (Option.some.inj h)
            exact this.symm
          obtain ⟨mid, hmid, hmidp⟩ := hall
          refine ⟨mid ++ [Event.sleep c.IPSCAN_DELETE_WAIT_PERIOD, Event.delete_from_db a b t s],
            ?_, ?_, ?_, ?_⟩
          · intro e he'
            rcases List.mem_append.1 he' with h1 | h1
            · exact hmidp e h1
            · simp only [List.mem_cons, List.mem_singleton, List.not_mem_nil, or_false] at h1
              rcases h1 with rfl | rfl <;> rfl
          · rw [hw']
            simp only [World.emit]
            rw [hmid, hw1tr]
            simp
          · intro _
            exact ⟨mid, rfl⟩
          · intro hf
            rw [he] at hf
            cases hf

theorem option_match_eq_map (x : Option World) (f : World → Bool × World) :
    (match x with
      | none => none
      | some w => some (f w)) = x.map f := by
  cases x <;> rfl

/-- The scan-initiation branch of javascript mode gets as far as the wait for the client
whenever the write of the ping result does not fail: with caps of at least 1 and port counts
below 2^31 both scan loops return, and the branch returns exactly when the wait loop does,
which it enters with a trace that has the write of the `RUNNING` test state first. -/
theorem javascript_scan_reaches_wait (c : Config) (env : Env) (fuel : Nat) (a b t s : Nat)
    (portlist : List portlist_struc) (w : World)
    (hC : 1 ≤ c.MAXCHILDREN) (hM : 1 ≤ c.MAXPORTSPERCHILD)
    (hUC : 1 ≤ c.MAXUDPCHILDREN) (hUM : 1 ≤ c.MAXUDPPORTSPERCHILD)
    (hn : portlist.length < 2147483648) (hnu : c.NUMUDPPORTS < 2147483648)
    (hfuel : portlist.length + 2 ≤ fuel) (hfuelu : c.NUMUDPPORTS + 2 ≤ fuel)
    (hping : ¬ (c.IPSCAN_INCLUDE_PING = 1 ∧ env.write_db (w.nwrite + 1) ≠ 0)) :
    ∃ (wpre : World) (timeouttime now : Int) (mid : List Event),
      wpre.trace = w.trace
          ++ Event.write_db a b t s (teststate_key c) c.IPSCAN_TESTSTATE_RUNNING_BIT :: mid
        ∧ javascript_scan c env fuel a b t s portlist w
          = (wait_for_client c env a b t s timeouttime fuel now 0 wpre).map
              (fun wd => (false, (wd.emit (Event.sleep c.IPSCAN_DELETE_WAIT_PERIOD)).emit
                (Event.delete_from_db a b t s))) := by
  unfold javascript_scan
  simp only
  set w1 := (w.call_write env a b t s (teststate_key c) c.IPSCAN_TESTSTATE_RUNNING_BIT).2 with hw1
  set w3 := ((w1.call_time env).2).emit (Event.html Page.initiate_scan_dummy) with hw3
  set X := (w3.emit (Event.check_icmpv6_echoresponse t s)).call_write env a b t s (icmpv6_key c)
    env.check_icmpv6_echoresponse with hX
  set pr := (if c.IPSCAN_INCLUDE_PING = 1 then (decide (X.1 ≠ 0), X.2) else (false, w3)) with hpr
  have hw1tr : w1.trace = w.trace
      ++ [Event.write_db a b t s (teststate_key c) c.IPSCAN_TESTSTATE_RUNNING_BIT] := rfl
  have hw3g : w1.grows w3 :=
    grows_trans _ _ _ (grows_call_time w1 env) (grows_emit _ _ rfl)
  have hXg : w1.grows X.2 :=
    grows_trans _ _ _ hw3g (grows_trans _ _ _
      (grows_emit w3 (Event.check_icmpv6_echoresponse t s) rfl)
      (grows_call_write _ env _ _ _ _ _ _))
  have hprg : w1.grows pr.2 := by
    rw [hpr]
    split_ifs
    · exact hXg
    · exact hw3g
  have hX1 : X.1 = env.write_db (w.nwrite + 1) := rfl
  have hp1 : ¬ pr.1 = true := by
    rw [hpr]
    split_ifs with h1
    · intro h2
      exact hping ⟨h1, by rw [← hX1]; simpa using h2⟩
    · simp
  rw [if_neg hp1]
  obtain ⟨wu, hou, hwu⟩ : ∃ wu, (if c.IPSCAN_INCLUDE_UDP = 1 then
        Option.map (fun r => r.2) (parallel_scan (udp_params c a b t s false) env fuel 0 pr.2)
      else some pr.2) = some wu ∧ pr.2.grows wu := by
    split_ifs
    · obtain ⟨su, wu, hu, _⟩ := parallel_scan_spec (udp_params c a b t s false) env fuel 0 pr.2
        hUC hUM (Int.ofNat_nonneg _) (by show ((c.NUMUDPPORTS : Nat) : Int) < _; omega)
        (fun _ _ => rfl) (by show ((c.NUMUDPPORTS : Nat) : Int) + 2 ≤ _; omega)
      exact ⟨wu, by rw [hu]; rfl,
        parallel_scan_grows (udp_params c a b t s false) env fuel 0 su pr.2 wu
          (fun _ _ => rfl) hu⟩
    · exact ⟨pr.2, rfl, grows_refl _⟩
  rw [hou]
  simp only
  obtain ⟨st, wt, ht, _⟩ := parallel_scan_spec (tcp_params c a b t s false portlist) env fuel 0
    wu hC hM (Int.ofNat_nonneg _) (by show ((portlist.length : Nat) : Int) < _; omega)
    (fun _ _ => rfl) (by show ((portlist.length : Nat) : Int) + 2 ≤ _; omega)
  have hwt : wu.grows wt := parallel_scan_grows (tcp_params c a b t s false portlist) env
    fuel 0 st wu wt (fun _ _ => rfl) ht
  rw [ht]
  simp only
  have hpre : wt.grows ((if 1 ≤ c.IPSCAN_LOGVERBOSITY then
      ((read_results c env a b t s c.IPSCAN_PROTO_TCP portlist
        (if c.IPSCAN_INCLUDE_UDP = 1 then
          read_results c env a b t s c.IPSCAN_PROTO_UDP c.udpportlist wt
        else wt)).call_time env).2
      else read_results c env a b t s c.IPSCAN_PROTO_TCP portlist
        (if c.IPSCAN_INCLUDE_UDP = 1 then
          read_results c env a b t s c.IPSCAN_PROTO_UDP c.udpportlist wt
        else wt)).call_time env).2 := by
    have hr1 : wt.grows (if c.IPSCAN_INCLUDE_UDP = 1 then
        read_results c env a b t s c.IPSCAN_PROTO_UDP c.udpportlist wt else wt) :=
      grows_ite _ _ _ _ (read_results_grows c env a b t s _ _ _) (grows_refl _)
    have hr2 := grows_trans _ _ _ hr1 (read_results_grows c env a b t s
      c.IPSCAN_PROTO_TCP portlist _)
    exact grows_trans _ _ _
      (grows_ite _ _ _ _ (grows_trans _ _ _ hr2 (grows_call_time _ env)) hr2)
      (grows_call_time _ env)
  obtain ⟨mid, hmid, _⟩ := grows_trans _ _ _ hprg (grows_trans _ _ _ hwu
    (grows_trans _ _ _ hwt hpre))
  refine ⟨_, _, _, mid, ?_, option_match_eq_map _ _⟩
  rw [hmid, hw1tr, List.append_assoc]
  rfl

/-- The scan branch of text mode, when it returns, has added events to the trace, none a call
of `tidy_up_db`, and it leaves `main` early exactly when `delete_from_db` failed. -/
theorem text_scan_shape (c : Config) (env : Env) (fuel : Nat) (a b t s : Nat)
    (portlist : List portlist_struc) (w : World) (early : Bool) (w' : World)
    (h : text_scan c env fuel a b t s portlist w = some (early, w')) :
    w.grows w' ∧ early = decide (0 ≠ env.delete_from_db) := by
  unfold text_scan at h
  simp only at h
  set w1 := w.emit (Event.html Page.text_results_heading) with hw1
  set w2 := (if c.IPSCAN_INCLUDE_PING = 1 then
      ((w1.emit (Event.check_icmpv6_echoresponse t s)).call_write env a b t s (icmpv6_key c)
        env.check_icmpv6_echoresponse).2.emit (Event.html Page.text_ping_table)
    else w1) with hw2
  have hw1g : w.grows w1 := grows_emit _ _ rfl
  have hw2g : w1.grows w2 :=
    grows_ite _ _ _ _
      (grows_trans _ _ _ (grows_emit w1 (Event.check_icmpv6_echoresponse t s) rfl)
        (grows_trans _ _ _ (grows_call_write _ env _ _ _ _ _ _) (grows_emit _ _ rfl)))
      (grows_refl _)
  cases hou : (if c.IPSCAN_INCLUDE_UDP = 1 then
        Option.map (fun r => (read_results c env a b t s c.IPSCAN_PROTO_UDP c.udpportlist r.2).emit
            (Event.html Page.text_udp_table))
          (parallel_scan (udp_params c a b t s true) env fuel 0 w2)
      else some w2) with
  | none =>
    rw [hou] at h
    simp at h
  | some wu =>
    have hwu : w2.grows wu := by
      split_ifs at hou
      · cases hps : parallel_scan (udp_params c a b t s true) env fuel 0 w2 with
        | none => rw [hps] at hou; simp at hou
        | some r =>
          rw [hps] at hou
          have hr : (read_results c env a b t s c.IPSCAN_PROTO_UDP c.udpportlist r.2).emit
              (Event.html Page.text_udp_table) = wu := by simpa using hou
          rw [← hr]
          exact grows_trans _ _ _
            (parallel_scan_grows (udp_params c a b t s true) env fuel 0 r.1 w2 r.2
              (fun _ _ => rfl) hps)
            (grows_trans _ _ _ (read_results_grows c env a b t s _ _ _) (grows_emit _ _ rfl))
      · have : w2 = wu := by simpa using hou
        rw [this]
        exact grows_refl _
    rw [hou] at h
    simp only at h
    cases htcp : parallel_scan (tcp_params c a b t s true portlist) env fuel 0 wu with
    | none =>
      rw [htcp] at h
      simp at h
    | some r =>
      obtain ⟨sres, wt⟩ := r
      have hwt : wu.grows wt := parallel_scan_grows (tcp_params c a b t s true portlist) env
        fuel 0 sres wu wt (fun _ _ => rfl) htcp
      rw [htcp] at h
      simp only at h
      have he : early = decide (0 ≠ env.delete_from_db) := by
        have := congrArg Prod.fst (Option.some.inj h)
        exact this.symm
      have hw' := congrArg Prod.snd (Option.some.inj h)
      simp only at hw'
      refine ⟨?_, he⟩
      rw [← hw']
      have h1 : wt.grows ((((read_results c env a b t s c.IPSCAN_PROTO_TCP portlist wt).emit
          (Event.html Page.text_tcp_table)).call_time env).2.emit
            (Event.html Page.text_results_end)) :=
        grows_trans _ _ _ (read_results_grows c env a b t s c.IPSCAN_PROTO_TCP portlist wt)
          (grows_trans _ _ _ (grows_emit _ (Event.html Page.text_tcp_table) rfl)
            (grows_trans _ _ _ (grows_call_time _ env)
              (grows_emit _ (Event.html Page.text_results_end) rfl)))
      exact grows_trans _ _ _ hw1g (grows_trans _ _ _ hw2g (grows_trans _ _ _ hwu
        (grows_trans _ _ _ hwt (grows_trans _ _ _ h1
          (grows_trans _ _ _ (grows_ite _ _ _ _ (grows_call_time _ env) (grows_refl _))
            (grows_emit _ _ rfl))))))

theorem completion_report_grows (c : Config) (env : Env) (a b t s : Nat) (fetchnum : Int)
    (w : World) : w.grows (completion_report c env a b t s fetchnum w) := by
  refine ⟨_, by rw [completion_report_trace, List.append_assoc, List.append_assoc], ?_⟩
  intro e he
  simp only [List.mem_append, List.mem_cons, List.mem_singleton, List.not_mem_nil,
    or_false] at he
  rcases he with (rfl | rfl) | he | rfl
  · rfl
  · rfl
  · split_ifs at he
    · rw [List.mem_singleton.1 he]
      rfl
    · simp at he
  · rfl

/-- Whatever branch `main` takes after the parameters are parsed, when it returns it has
added events to the trace, none a call of `tidy_up_db`; and it leaves `main` early only when
`dump_db` failed in the fetch branch, the write of the ping result failed in the
scan-initiation branch, or `delete_from_db` failed in the scan branch of text mode. -/
theorem run_mode_shape (c : Config) (env : Env) (fuel : Nat) (a b : Nat) (starttime : Int)
    (p : Params) (bs : build_state) (w : World) (m : Mode) (early : Bool) (w' : World)
    (h : run_mode c env fuel a b starttime p bs w m = some (early, w')) :
    w.grows w'
      ∧ (early = true →
          (m = Mode.fetch_results ∧ env.dump_db ≠ 0)
            ∨ (m = Mode.initiate_scan ∧ c.IPSCAN_INCLUDE_PING = 1
                ∧ env.write_db (w.nwrite + 1) ≠ 0)
            ∨ (m = Mode.text_scan ∧ env.delete_from_db ≠ 0)) := by
  cases m with
  | completion_report =>
    have h' := Option.some.inj h
    have he : early = false := (congrArg Prod.fst h').symm
    have hw : w' = _ := (congrArg Prod.snd h').symm
    rw [hw, he]
    exact ⟨completion_report_grows _ _ _ _ _ _ _ _, by simp⟩
  | fetch_results =>
    have h' := Option.some.inj h
    have he : early = decide (env.dump_db ≠ 0) := (congrArg Prod.fst h').symm
    have hw : w' = _ := (congrArg Prod.snd h').symm
    rw [hw]
    refine ⟨grows_trans _ _ _ (grows_emit w Event.create_json_header rfl) (grows_emit _ _ rfl),
      ?_⟩
    intro ht
    left
    rw [ht] at he
    exact ⟨rfl, by simpa using he.symm⟩
  | initiate_scan =>
    obtain ⟨ev, hev, htr, _, hearly⟩ := javascript_scan_shape c env fuel a b _ _ _ w early w' h
    refine ⟨⟨_, htr, ?_⟩, ?_⟩
    · intro e he
      rcases List.mem_cons.1 he with rfl | he
      · rfl
      · exact hev e he
    · intro ht
      right; left
      exact ⟨rfl, (hearly ht).1, (hearly ht).2.1⟩
  | start_page =>
    have h' := Option.some.inj h
    have he : early = false := (congrArg Prod.fst h').symm
    have hw : w' = _ := (congrArg Prod.snd h').symm
    rw [hw, he]
    exact ⟨grows_emit _ _ rfl, by simp⟩
  | text_scan =>
    obtain ⟨hg, he⟩ := text_scan_shape c env fuel a b _ _ _ w early w' h
    refine ⟨hg, ?_⟩
    intro ht
    right; right
    rw [ht] at he
    refine ⟨rfl, ?_⟩
    have : (0 : Int) ≠ env.delete_from_db := by simpa using he.symm
    exact fun h0 => this h0.symm
  | terms_not_accepted =>
    have h' := Option.some.inj h
    have he : early = false := (congrArg Prod.fst h').symm
    have hw : w' = _ := (congrArg Prod.snd h').symm
    rw [hw, he]
    exact ⟨grows_emit _ _ rfl, by simp⟩
  | nothing_useful =>
    have h' := Option.some.inj h
    have he : early = false := (congrArg Prod.fst h').symm
    have hw : w' = _ := (congrArg Prod.snd h').symm
    rw [hw, he]
    exact ⟨grows_emit _ _ rfl, by simp⟩

/-- The part of `main` between the `REMOTE_ADDR` checks and the call of `tidy_up_db`, when it
returns, has added events to the trace, none a call of `tidy_up_db`; it leaves `main` early
only when the reconstituted query did not fit or a branch returned early. -/
theorem dispatch_shape (c : Config) (env : Env) (fuel : Nat) (query : List queries)
    (a b : Nat) (starttime : Int) (w : World) (early : Bool) (w' : World)
    (h : dispatch c env fuel query a b starttime w = some (early, w')) :
    w.grows w'
      ∧ (early = true →
          (∃ page, build_ports c query (parse_includeexisting query)
              (parse_termsaccepted query) = Stage.done page)
            ∨ (∃ bs, build_ports c query (parse_includeexisting query)
                  (parse_termsaccepted query) = Stage.go bs
                ∧ ((select_mode c (parse_params c query bs) = Mode.fetch_results
                      ∧ env.dump_db ≠ 0)
                  ∨ (select_mode c (parse_params c query bs) = Mode.initiate_scan
                      ∧ c.IPSCAN_INCLUDE_PING = 1 ∧ env.write_db (w.nwrite + 1) ≠ 0)
                  ∨ (select_mode c (parse_params c query bs) = Mode.text_scan
                      ∧ env.delete_from_db ≠ 0)))) := by
  unfold dispatch at h
  split_ifs at h with hq
  · have h' := Option.some.inj h
    have he : early = false := (congrArg Prod.fst h').symm
    have hw : w' = _ := (congrArg Prod.snd h').symm
    rw [hw, he]
    exact ⟨grows_emit _ _ rfl, by simp⟩
  · cases hb : build_ports c query (parse_includeexisting query) (parse_termsaccepted query) with
    | done page =>
      rw [hb] at h
      have h' := Option.some.inj h
      have hw : w' = _ := (congrArg Prod.snd h').symm
      rw [hw]
      exact ⟨grows_emit _ _ rfl, fun _ => Or.inl ⟨page, rfl⟩⟩
    | go bs =>
      rw [hb] at h
      simp only at h
      obtain ⟨hg, he⟩ := run_mode_shape c env fuel a b starttime _ bs w _ early w' h
      exact ⟨hg, fun ht => Or.inr ⟨bs, rfl, he ht⟩⟩

/-! ## The scan-initiation branch and the final call of tidy_up_db -/

/-- C24, as stated, fails: with the constants of `refConfig` a scan request for which the
write of the ping result fails (the second call of `write_db` returns 1) writes the `RUNNING`
test state, sends the dummy page, pings, writes the ping result and returns after the end of
the page body; the rows of the session tuple are not deleted. -/
theorem c24_failed_ping_write_skips_delete :
    (sample_env_ping_write_fails "GET"
        "includeexisting=1&termsaccepted=1&starttime=5&session=6&beginscan=123456" "::1").write_db 1
        = 1
      ∧ main refConfig 30 (sample_env_ping_write_fails "GET"
          "includeexisting=1&termsaccepted=1&starttime=5&session=6&beginscan=123456" "::1")
        = some ⟨[Event.write_db 0 1 5 6 3145728 1, Event.html Page.initiate_scan_dummy,
            Event.check_icmpv6_echoresponse 5 6, Event.write_db 0 1 5 6 2097152 12,
            Event.html Page.body_end], EXIT_SUCCESS⟩ := by
  decide

/-- C24, amended: in the scan-initiation branch of javascript mode, with caps of at least 1,
port counts below 2^31 and enough passes allowed for the two scan loops, whatever the store
operations, the probes and `wait` return: unless the write of the ping result fails (the one
early return of the branch), the branch reaches the wait for the client with a trace whose
first new event is the write of the `RUNNING` test state for the session tuple, and it
returns exactly when the wait loop ends, then with the sleep of `IPSCAN_DELETE_WAIT_PERIOD`
and the delete of the rows of that session tuple as its last two events. Every run of the
branch that returns has the `RUNNING` write as its first new event; it ends with the sleep
and the delete unless it is the early return after a failed write of the ping result. -/
theorem c24_running_first_delete_last (c : Config) (env : Env) (fuel : Nat) (a b t s : Nat)
    (portlist : List portlist_struc) (w : World)
    (hC : 1 ≤ c.MAXCHILDREN) (hM : 1 ≤ c.MAXPORTSPERCHILD)
    (hUC : 1 ≤ c.MAXUDPCHILDREN) (hUM : 1 ≤ c.MAXUDPPORTSPERCHILD)
    (hn : portlist.length < 2147483648) (hnu : c.NUMUDPPORTS < 2147483648)
    (hfuel : portlist.length + 2 ≤ fuel) (hfuelu : c.NUMUDPPORTS + 2 ≤ fuel) :
    (¬ (c.IPSCAN_INCLUDE_PING = 1 ∧ env.write_db (w.nwrite + 1) ≠ 0) →
        ∃ (wpre : World) (timeouttime now : Int) (mid : List Event),
          wpre.trace = w.trace
              ++ Event.write_db a b t s (teststate_key c) c.IPSCAN_TESTSTATE_RUNNING_BIT :: mid
            ∧ javascript_scan c env fuel a b t s portlist w
              = (wait_for_client c env a b t s timeouttime fuel now 0 wpre).map
                  (fun wd => (false, (wd.emit (Event.sleep c.IPSCAN_DELETE_WAIT_PERIOD)).emit
                    (Event.delete_from_db a b t s))))
      ∧ ∀ early w', javascript_scan c env fuel a b t s portlist w = some (early, w') →
          ∃ rest, w'.trace = w.trace
              ++ Event.write_db a b t s (teststate_key c) c.IPSCAN_TESTSTATE_RUNNING_BIT :: rest
            ∧ (early = false → ∃ mid, rest = mid
                ++ [Event.sleep c.IPSCAN_DELETE_WAIT_PERIOD, Event.delete_from_db a b t s])
            ∧ (early = true → c.IPSCAN_INCLUDE_PING = 1 ∧ env.write_db (w.nwrite + 1) ≠ 0
                ∧ rest = [Event.html Page.initiate_scan_dummy,
                    Event.check_icmpv6_echoresponse t s,
                    Event.write_db a b t s (icmpv6_key c) env.check_icmpv6_echoresponse,
                    Event.html Page.body_end]) := by
  refine ⟨javascript_scan_reaches_wait c env fuel a b t s portlist w hC hM hUC hUM hn hnu hfuel
    hfuelu, ?_⟩
  intro early w' h
  obtain ⟨ev, _, htr, h1, h2⟩ := javascript_scan_shape c env fuel a b t s portlist w early w' h
  exact ⟨ev, htr, h1, h2⟩

/-- C24, amended, at a concrete point: the constants of `refConfig`, the four default ports
and a store whose test-state row reads `COMPLETE`; the branch returns without the early return. -/
theorem c24_running_first_delete_last_witness :
    (1 ≤ refConfig.MAXCHILDREN ∧ 1 ≤ refConfig.MAXPORTSPERCHILD ∧ 1 ≤ refConfig.MAXUDPCHILDREN
        ∧ 1 ≤ refConfig.MAXUDPPORTSPERCHILD ∧ refConfig.defportlist.length < 2147483648
        ∧ refConfig.NUMUDPPORTS < 2147483648 ∧ refConfig.defportlist.length + 2 ≤ 30
        ∧ refConfig.NUMUDPPORTS + 2 ≤ 30)
      ∧ (javascript_scan refConfig (sample_env "GET" "" "::1" 2) 30 0 1 5 6
          refConfig.defportlist World.init).map (fun r => r.1) = some false
      ∧ ∀ early w', javascript_scan refConfig (sample_env "GET" "" "::1" 2) 30 0 1 5 6
            refConfig.defportlist World.init = some (early, w') →
          ∃ rest, w'.trace = World.init.trace
              ++ Event.write_db 0 1 5 6 (teststate_key refConfig)
                  refConfig.IPSCAN_TESTSTATE_RUNNING_BIT :: rest
            ∧ (early = false → ∃ mid, rest = mid
                ++ [Event.sleep refConfig.IPSCAN_DELETE_WAIT_PERIOD,
                    Event.delete_from_db 0 1 5 6])
            ∧ (early = true → refConfig.IPSCAN_INCLUDE_PING = 1
                ∧ (sample_env "GET" "" "::1" 2).write_db (World.init.nwrite + 1) ≠ 0
                ∧ rest = [Event.html Page.initiate_scan_dummy,
                    Event.check_icmpv6_echoresponse 5 6,
                    Event.write_db 0 1 5 6 (icmpv6_key refConfig)
                      (sample_env "GET" "" "::1" 2).check_icmpv6_echoresponse,
                    Event.html Page.body_end]) :=
  ⟨by decide, by decide,
    (c24_running_first_delete_last refConfig (sample_env "GET" "" "::1" 2) 30 0 1 5 6
      refConfig.defportlist World.init (by decide) (by decide) (by decide) (by decide)
      (by decide) (by decide) (by decide) (by decide)).2⟩

/-- C25, as stated, fails: with the constants of `refConfig` a HEAD request is answered with
the header block alone, and a fetch request whose `dump_db` fails ends after the dump; in
neither run is `tidy_up_db` called, although the clock reads a positive time. -/
theorem c25_early_return_skips_tidy :
    main refConfig 30 (sample_env "HEAD" "" "::1" 0)
        = some ⟨[Event.html Page.head_only], EXIT_SUCCESS⟩
      ∧ main refConfig 30 (sample_env_dump_fails "GET"
          "includeexisting=1&termsaccepted=1&starttime=5&session=6&fetch=1" "::1")
        = some ⟨[Event.create_json_header, Event.dump_db 0 1 5 6], EXIT_SUCCESS⟩
      ∧ (sample_env_dump_fails "GET"
          "includeexisting=1&termsaccepted=1&starttime=5&session=6&fetch=1" "::1").time 0 > 0 := by
  decide

/-- C25, amended: `main` returns exactly when its request stage and the branch it dispatches
to return. A run that returns either ended with an error page or the header block of the
request-method, query-string or `REMOTE_ADDR` stage, with no call of `tidy_up_db`; or it went
through the dispatcher, which calls `tidy_up_db` nowhere, and then `tidy_up_db` is called
exactly when no branch returned early and the time read at the start of `main` is positive,
as the last event, with that time. The early returns of the dispatcher are the reconstituted
query that does not fit, a failed `dump_db`, a failed write of the ping result in javascript
mode and a failed `delete_from_db` in text mode. -/
theorem c25_tidy_at_final_return (c : Config) (fuel : Nat) (env : Env) :
    (main c fuel env = none ↔
        request_stage c fuel env = none
          ∨ ∃ query a b, request_stage c fuel env = some (Stage.go query)
              ∧ remote_stage c env = Stage.go (a, b)
              ∧ dispatch c env fuel query a b (env.time 0) ⟨[], 1, 0, 0, 0, 0⟩ = none)
      ∧ ∀ out, main c fuel env = some out →
          out.status = EXIT_SUCCESS
            ∧ ((∃ page, out.trace = [Event.html page]
                  ∧ (request_stage c fuel env = some (Stage.done page)
                    ∨ remote_stage c env = Stage.done page))
              ∨ ∃ query a b early w, request_stage c fuel env = some (Stage.go query)
                  ∧ remote_stage c env = Stage.go (a, b)
                  ∧ dispatch c env fuel query a b (env.time 0) ⟨[], 1, 0, 0, 0, 0⟩
                      = some (early, w)
                  ∧ (∀ e ∈ w.trace, e.is_tidy = false)
                  ∧ out.trace = (if early = false ∧ env.time 0 > 0 then
                      w.trace ++ [Event.tidy_up_db (to_uint64 (env.time 0))] else w.trace)
                  ∧ (early = true →
                      (∃ page, build_ports c query (parse_includeexisting query)
                          (parse_termsaccepted query) = Stage.done page)
                        ∨ (∃ bs, build_ports c query (parse_includeexisting query)
                              (parse_termsaccepted query) = Stage.go bs
                            ∧ ((select_mode c (parse_params c query bs) = Mode.fetch_results
                                  ∧ env.dump_db ≠ 0)
                              ∨ (select_mode c (parse_params c query bs) = Mode.initiate_scan
                                  ∧ c.IPSCAN_INCLUDE_PING = 1 ∧ env.write_db 1 ≠ 0)
                              ∨ (select_mode c (parse_params c query bs) = Mode.text_scan
                                  ∧ env.delete_from_db ≠ 0))))) := by
  cases hreq : request_stage c fuel env with
  | none =>
    have hm : main c fuel env = none := by simp [main, hreq]
    exact ⟨⟨fun _ => Or.inl rfl, fun _ => hm⟩, fun out h => absurd (hm.symm.trans h) (by simp)⟩
  | some r =>
    cases r with
    | done page =>
      have hm := main_of_request_done c fuel env page hreq
      refine ⟨⟨fun h => absurd (hm.symm.trans h) (by simp), ?_⟩, ?_⟩
      · rintro (h | ⟨q, a, b, h, _⟩)
        · cases h
        · cases h
      · intro out h
        rw [hm] at h
        cases h
        exact ⟨rfl, Or.inl ⟨page, rfl, Or.inl rfl⟩⟩
    | go query =>
      cases hrem : remote_stage c env with
      | done page =>
        have hm := main_of_remote_done c fuel env query page hreq hrem
        refine ⟨⟨fun h => absurd (hm.symm.trans h) (by simp), ?_⟩, ?_⟩
        · rintro (h | ⟨q, a, b, _, h, _⟩)
          · cases h
          · cases h
        · intro out h
          rw [hm] at h
          cases h
          exact ⟨rfl, Or.inl ⟨page, rfl, Or.inr rfl⟩⟩
      | go ab =>
        obtain ⟨a, b⟩ := ab
        cases hd : dispatch c env fuel query a b (env.time 0) ⟨[], 1, 0, 0, 0, 0⟩ with
        | none =>
          have hm : main c fuel env = none := by
            simp [main, hreq, hrem, World.call_time, World.init, hd]
          refine ⟨⟨fun _ => Or.inr ⟨query, a, b, rfl, rfl, hd⟩, fun _ => hm⟩, ?_⟩
          intro out h
          rw [hm] at h
          cases h
        | some r =>
          obtain ⟨early, w⟩ := r
          have hm := main_of_dispatch c fuel env query a b early w hreq hrem hd
          obtain ⟨⟨ev, hev, hevp⟩, hearly⟩ := dispatch_shape c env fuel query a b (env.time 0)
            ⟨[], 1, 0, 0, 0, 0⟩ early w hd
          refine ⟨⟨fun h => absurd (hm.symm.trans h) (by simp), ?_⟩, ?_⟩
          · rintro (h | ⟨q, a', b', hq, hab, h⟩)
            · cases h
            · cases hq
              cases hab
              rw [hd] at h
              cases h
          · intro out h
            rw [hm] at h
            cases h
            refine ⟨rfl, Or.inr ⟨query, a, b, early, w, rfl, rfl, hd, ?_, ?_, hearly⟩⟩
            · intro e he
              rw [hev] at he
              exact hevp e (by simpa using he)
            · cases early
              · by_cases ht : env.time 0 > 0
                · simp [tidy_events, ht]
                · simp [tidy_events, ht]
              · simp

/-- C25, amended, at a concrete point: a fetch request whose dump succeeds ends with the call
of `tidy_up_db` with the time read at the start of `main`. -/
theorem c25_tidy_at_final_return_witness :
    main refConfig 30 (sample_env "GET"
        "includeexisting=1&termsaccepted=1&starttime=5&session=6&fetch=1" "::1" 0)
      = some ⟨[Event.create_json_header, Event.dump_db 0 1 5 6, Event.tidy_up_db 1700000000],
          EXIT_SUCCESS⟩
      ∧ ((⟨[Event.create_json_header, Event.dump_db 0 1 5 6, Event.tidy_up_db 1700000000],
            EXIT_SUCCESS⟩ : Outcome).status = EXIT_SUCCESS
        ∧ ((∃ page, (⟨[Event.create_json_header, Event.dump_db 0 1 5 6,
                Event.tidy_up_db 1700000000], EXIT_SUCCESS⟩ : Outcome).trace = [Event.html page]
              ∧ (request_stage refConfig 30 (sample_env "GET"
                    "includeexisting=1&termsaccepted=1&starttime=5&session=6&fetch=1" "::1" 0)
                  = some (Stage.done page)
                ∨ remote_stage refConfig (sample_env "GET"
                    "includeexisting=1&termsaccepted=1&starttime=5&session=6&fetch=1" "::1" 0)
                  = Stage.done page))
          ∨ ∃ query a b early w, request_stage refConfig 30 (sample_env "GET"
                  "includeexisting=1&termsaccepted=1&starttime=5&session=6&fetch=1" "::1" 0)
                = some (Stage.go query)
              ∧ remote_stage refConfig (sample_env "GET"
                  "includeexisting=1&termsaccepted=1&starttime=5&session=6&fetch=1" "::1" 0)
                = Stage.go (a, b)
              ∧ dispatch refConfig (sample_env "GET"
                  "includeexisting=1&termsaccepted=1&starttime=5&session=6&fetch=1" "::1" 0) 30
                  query a b ((sample_env "GET"
                    "includeexisting=1&termsaccepted=1&starttime=5&session=6&fetch=1" "::1"
                    0).time 0) ⟨[], 1, 0, 0, 0, 0⟩ = some (early, w)
              ∧ (∀ e ∈ w.trace, e.is_tidy = false)
              ∧ (⟨[Event.create_json_header, Event.dump_db 0 1 5 6,
                    Event.tidy_up_db 1700000000], EXIT_SUCCESS⟩ : Outcome).trace
                  = (if early = false ∧ (sample_env "GET"
                      "includeexisting=1&termsaccepted=1&starttime=5&session=6&fetch=1" "::1"
                      0).time 0 > 0 then
                    w.trace ++ [Event.tidy_up_db (to_uint64 ((sample_env "GET"
                      "includeexisting=1&termsaccepted=1&starttime=5&session=6&fetch=1" "::1"
                      0).time 0))] else w.trace)
              ∧ (early = true →
                  (∃ page, build_ports refConfig query (parse_includeexisting query)
                      (parse_termsaccepted query) = Stage.done page)
                    ∨ (∃ bs, build_ports refConfig query (parse_includeexisting query)
                          (parse_termsaccepted query) = Stage.go bs
                        ∧ ((select_mode refConfig (parse_params refConfig query bs)
                              = Mode.fetch_results
                              ∧ (sample_env "GET"
                                "includeexisting=1&termsaccepted=1&starttime=5&session=6&fetch=1"
                                "::1" 0).dump_db ≠ 0)
                          ∨ (select_mode refConfig (parse_params refConfig query bs)
                              = Mode.initiate_scan
                              ∧ refConfig.IPSCAN_INCLUDE_PING = 1
                              ∧ (sample_env "GET"
                                "includeexisting=1&termsaccepted=1&starttime=5&session=6&fetch=1"
                                "::1" 0).write_db 1 ≠ 0)
                          ∨ (select_mode refConfig (parse_params refConfig query bs)
                              = Mode.text_scan
                              ∧ (sample_env "GET"
                                "includeexisting=1&termsaccepted=1&starttime=5&session=6&fetch=1"
                                "::1" 0).delete_from_db ≠ 0)))))) :=
  ⟨by decide,
    (c25_tidy_at_final_return refConfig 30 (sample_env "GET"
      "includeexisting=1&termsaccepted=1&starttime=5&session=6&fetch=1" "::1" 0)).2 _
      (by decide)⟩

end IPscan
